import Mathlib

/-!
ACPI smart battery driver: shallow embedding and verified properties.

Source files embedded here: `AppleSmartBattery.cpp`, `AppleSmartBattery.h`,
`AppleSmartBatteryManager.cpp`.

Conventions of the embedding.

* A `UInt32` is a `Nat`; every operation that can wrap is written with an explicit
  `% 4294967296` (`add32`, `sub32`, `mul32`).
* An unsigned division whose divisor is zero has no defined result in C++; a null
  pointer dereference and a read past the end of a byte block have none either.  Every
  function that can reach one of them returns an `Option`, and `none` stands for "no
  defined result".
* The driver object is the record `AppleSmartBattery`.  Besides the member variables of
  the class it carries the state of the `IOPMPowerSource` superclass (the `properties`
  dictionary and its change flag), the registry property table of the service, the two
  timers, the global `milliSecPollingTable`, and a chronological `trace` of the calls
  made on external collaborators (firmware evaluations, timers, the power-management
  service, the log).
-/

namespace ACPIBattery

/-! ## 32-bit machine arithmetic -/

/-- Wrapping `UInt32` addition. -/
def add32 (a b : Nat) : Nat := (a + b) % 4294967296

/-- Wrapping `UInt32` subtraction `a - b`. -/
def sub32 (a b : Nat) : Nat :=
  (a % 4294967296 + (4294967296 - b % 4294967296)) % 4294967296

/-- Wrapping `UInt32` multiplication. -/
def mul32 (a b : Nat) : Nat := (a * b) % 4294967296

/-- Unsigned division; a zero divisor has no defined result. -/
def div32 (a b : Nat) : Option Nat := if b = 0 then none else some (a / b)

/-- The value of a 32-bit pattern read as a two's complement `int`
(what an `int` parameter receives from a `UInt32` argument, and what the
`int`-returning accessors of `IOPMPowerSource` return for a stored 32-bit number). -/
def toSInt32 (n : Nat) : Int :=
  if n % 4294967296 < 2147483648 then ((n % 4294967296 : Nat) : Int)
  else ((n % 4294967296 : Nat) : Int) - 4294967296

/-! ## Constants of `AppleSmartBattery.h` and `AppleSmartBattery.cpp` -/

def WATTS : Nat := 0
def AMPS : Nat := 1
def ACPI_MAX : Nat := 0x7FFFFFFF
def ACPI_UNKNOWN : Nat := 0xFFFFFFFF

def BATTERY_CHARGED : Nat := 0
def BATTERY_DISCHARGING : Nat := 1
def BATTERY_CHARGING : Nat := 2
def BATTERY_CRITICAL : Nat := 4
def BATTERY_PRESENT : Nat := 0x10

def BIF_POWER_UNIT : Nat := 0
def BIF_DESIGN_CAPACITY : Nat := 1
def BIF_LAST_FULL_CAPACITY : Nat := 2
def BIF_TECHNOLOGY : Nat := 3
def BIF_DESIGN_VOLTAGE : Nat := 4
def BIF_MODEL_NUMBER : Nat := 9
def BIF_SERIAL_NUMBER : Nat := 10
def BIF_BATTERY_TYPE : Nat := 11
def BIF_OEM : Nat := 12

def BIX_REVISION : Nat := 0
def BIX_POWER_UNIT : Nat := 1
def BIX_DESIGN_CAPACITY : Nat := 2
def BIX_LAST_FULL_CAPACITY : Nat := 3
def BIX_TECHNOLOGY : Nat := 4
def BIX_DESIGN_VOLTAGE : Nat := 5
def BIX_CYCLE_COUNT : Nat := 8
def BIX_ACCURACY : Nat := 9
def BIX_MODEL_NUMBER : Nat := 16
def BIX_SERIAL_NUMBER : Nat := 17
def BIX_BATTERY_TYPE : Nat := 18
def BIX_OEM : Nat := 19

def BBIX_MANUF_ACCESS : Nat := 0
def BBIX_BATTERYMODE : Nat := 1
def BBIX_ATRATETIMETOFULL : Nat := 2
def BBIX_ATRATETIMETOEMPTY : Nat := 3
def BBIX_TEMPERATURE : Nat := 4
def BBIX_VOLTAGE : Nat := 5
def BBIX_CURRENT : Nat := 6
def BBIX_AVG_CURRENT : Nat := 7
def BBIX_REL_STATE_CHARGE : Nat := 8
def BBIX_ABS_STATE_CHARGE : Nat := 9
def BBIX_REMAIN_CAPACITY : Nat := 10
def BBIX_RUNTIME_TO_EMPTY : Nat := 11
def BBIX_AVG_TIME_TO_EMPTY : Nat := 12
def BBIX_AVG_TIME_TO_FULL : Nat := 13
def BBIX_MANUF_DATE : Nat := 14
def BBIX_MANUF_DATA : Nat := 15

def BST_STATUS : Nat := 0
def BST_RATE : Nat := 1
def BST_CAPACITY : Nat := 2
def BST_VOLTAGE : Nat := 3

def kExistingBatteryPath : Int := 1
def kNewBatteryPath : Int := 2

def kRetryAttempts : Nat := 5
def kInitialPollCountdown : Nat := 5
def kIncompleteReadRetryMax : Nat := 10

def kSecondsUntilValidOnWake : Nat := 30
def kPostChargeWaitSeconds : Nat := 120
def kPostDischargeWaitSeconds : Nat := 120

def kDefaultPollInterval : Nat := 0
def kQuickPollInterval : Nat := 1

def kErrorRetryAttemptsExceeded : String := "Read Retry Attempts Exceeded"
def kErrorOverallTimeoutExpired : String := "Overall Read Timeout Expired"
def kErrorZeroCapacity : String := "Capacity Read Zero"
def kErrorPermanentFailure : String := "Permanent Battery Failure"
def kErrorNonRecoverableStatus : String := "Non-recoverable status failure"

/-- Watchdog timeout for one complete read, in milliseconds (10 seconds). -/
def kBatteryReadAllTimeout : Nat := 10000

def kMaxGeneratedSerialSize : Nat := 64
def kMaxDateSize : Nat := 12

/-- Modelled from the spec: the constants `kIOPMAckImplied`, `kIOReturnSuccess` and
`kIOReturnError` of the IOKit headers, which are not part of the repository.  The spec
calls the first one the immediate acknowledgment; IOKit defines it as 0. -/
def kIOPMAckImplied : Nat := 0

def kIOReturnSuccess : Nat := 0

def kIOReturnError : Nat := 0xe00002bc

/-- Modelled from the spec: the legacy flag bits of the IOKit header `IOPM.h`
(`kIOPMACInstalled`, `kIOPMBatteryCharging`, `kIOPMBatteryInstalled`), which are not
part of the repository. -/
def kIOPMACInstalled : Nat := 1

def kIOPMBatteryCharging : Nat := 2

def kIOPMBatteryInstalled : Nat := 4

/-! ## Firmware objects and the package accessors -/

/-- An object of a firmware field package: a number (`OSNumber`), a text
(`OSString`), an opaque byte block (`OSData`), or an object of any other class. -/
inductive OSObject where
  | number (value : Nat)
  | string (s : String)
  | data (bytes : List Nat)
  | other
  deriving DecidableEq, Repr

/-- The result of `evaluateObject`: a transport failure, an object that is not an
`OSArray` (the cast to `OSArray` yields a null pointer), or a field package. -/
inductive EvalResult where
  | failure
  | notArray
  | package (fields : List OSObject)
  deriving DecidableEq, Repr

/-- The answers of the firmware transport to the evaluations of one handler run:
`_STA` (`none` is a transport failure), `_BIF`, `_BIX`, `BBIX`, `_BST`. -/
structure Firmware where
  resultSTA : Option Nat
  resultBIF : EvalResult
  resultBIX : EvalResult
  resultBBIX : EvalResult
  resultBST : EvalResult
  deriving DecidableEq, Repr

/-- `GetValueFromArray`: the low 32 bits of the number at `index`; 0 when the entry is
missing or is not an `OSNumber`. -/
def GetValueFromArray (array : List OSObject) (index : Nat) : Nat :=
  match array.get? index with
  | some (OSObject.number value) => value % 4294967296
  | _ => 0

/-- The C string held by a byte block: the bytes before the first NUL. -/
def cStringOfBytes (bytes : List Nat) : List Char :=
  (bytes.takeWhile (fun c => c != 0)).map Char.ofNat

/-- `GetDataFromArray`: the bytes of an `OSString` or `OSData` entry, a null pointer
(`none`) for anything else. -/
def GetDataFromArray (array : List OSObject) (index : Nat) : Option (List Nat) :=
  match array.get? index with
  | some (OSObject.string s) => some (s.data.map Char.toNat)
  | some (OSObject.data bytes) => some bytes
  | _ => none

/-- Whether a byte block can be read as a C string within its bounds: it is empty
(`getBytesNoCopy` then returns a null pointer, which `snprintf` prints as the empty
text) or one of its bytes is NUL. -/
def isCString (bytes : List Nat) : Bool :=
  bytes.isEmpty || bytes.contains 0

/-- `GetSymbolFromArray`.  `OSTypeIDInst` dereferences the entry, so a missing entry
has no defined result (outer `none`).  A text is returned as is; a byte block is
copied as a C string into a 255-byte buffer, and a block that is not empty and holds
no NUL is read past its end, which has no defined result either; any other object
gives the symbol "Unknown". -/
def GetSymbolFromArray (array : List OSObject) (index : Nat) : Option String :=
  match array.get? index with
  | none => none
  | some (OSObject.string s) => some s
  | some (OSObject.data bytes) =>
    if isCString bytes then some (String.mk ((cStringOfBytes bytes).take 254)) else none
  | some _ => some "Unknown"

/-- The entry at `index` is there and can be read as a symbol: any object except a
byte block that cannot be read as a C string. -/
def symbolReadable (array : List OSObject) (index : Nat) : Bool :=
  match array.get? index with
  | none => false
  | some (OSObject.data bytes) => isCString bytes
  | some _ => true

/-- The four text fields of a legacy static package (`_BIF` layout: model number,
serial number, battery type, OEM information) are there and readable. -/
def bifTextsReadable (acpibat_bif : List OSObject) : Bool :=
  symbolReadable acpibat_bif BIF_MODEL_NUMBER && symbolReadable acpibat_bif BIF_SERIAL_NUMBER &&
  symbolReadable acpibat_bif BIF_BATTERY_TYPE && symbolReadable acpibat_bif BIF_OEM

/-- The four text fields of an extended static package (`_BIX` layout) are there and
readable. -/
def bixTextsReadable (acpibat_bix : List OSObject) : Bool :=
  symbolReadable acpibat_bix BIX_MODEL_NUMBER && symbolReadable acpibat_bix BIX_SERIAL_NUMBER &&
  symbolReadable acpibat_bix BIX_BATTERY_TYPE && symbolReadable acpibat_bix BIX_OEM

/-! ## Published attributes -/

/-- The keys under which the driver publishes attributes: the `OSSymbol` keys of the
`IOPMPowerSource` superclass, the static symbols of `AppleSmartBattery.cpp`, and the
string keys passed to `setProperty`.  `"Quick Poll"`, `"CellVoltage"` and
`"Temperature"` are the same strings as `_QuickPollSym`, `_CellVoltageSym` and
`_TemperatureSym`. -/
inductive Key where
  | externalConnectedKey | externalChargeCapableKey | batteryInstalledKey
  | chargingKey | currentCapacityKey | maxCapacityKey | timeRemainingKey
  | amperageKey | voltageKey | cycleCountKey | adapterInfoKey | locationKey
  | errorConditionKey | manufacturerKey | serialKey | batteryInfoKey
  | MaxErrSym | DeviceNameSym | FullyChargedSym | AvgTimeToEmptySym
  | AvgTimeToFullSym | InstantTimeToEmptySym | InstantTimeToFullSym
  | InstantAmperageSym | ManufactureDateSym | DesignCapacitySym | QuickPollSym
  | TemperatureSym | CellVoltageSym | ManufacturerDataSym | PFStatusSym | TypeSym
  | ChargeStatusSym | RunTimeToEmptySym | RelativeStateOfChargeSym
  | AbsoluteStateOfChargeSym | RemainingCapacitySym | AverageCurrentSym
  | CurrentSym | SerialNumberSym | HardwareSerialSym | DateOfManufacture
  | LatestErrorType | InvalidWakeSecondsKey | PostChargeWaitSecondsKey
  | PostDishargeWaitSecondsKey
  deriving DecidableEq, Repr

/-- A published value.  A `number` is a 32-bit `OSNumber`, stored as its bit pattern
(a signed argument is stored in two's complement).  `objectBytes len` is the block
`setManufacturerData` builds when it is handed the `OSData` object itself instead of
its payload: `len` bytes whose content the source does not determine.  `legacy` is
the dictionary of `rebuildLegacyIOBatteryInfo`: the flags and the numbers found under
the five mirrored keys (an absent key gives no entry). -/
inductive OSValue where
  | boolean (b : Bool)
  | number (n : Nat)
  | symbol (s : String)
  | data (bytes : List Nat)
  | objectBytes (len : Nat)
  | array (numbers : List Nat)
  | legacy (flags : Nat) (currentCharge capacity voltage amperage cycleCount : Option Nat)
  deriving DecidableEq, Repr

/-- A property table: at most one value per key. -/
abbrev PropertyTable := Key → Option OSValue

/-- Store `value` under `key`. -/
def PropertyTable.setObject (t : PropertyTable) (key : Key) (value : OSValue) :
    PropertyTable :=
  fun k => if k = key then some value else t k

/-- Remove `key`. -/
def PropertyTable.removeObject (t : PropertyTable) (key : Key) : PropertyTable :=
  fun k => if k = key then none else t k

/-- The number stored under `key`, when there is one. -/
def PropertyTable.getNumber (t : PropertyTable) (key : Key) : Option Nat :=
  match t key with
  | some (OSValue.number n) => some n
  | _ => none

/-! ## Calls on external collaborators -/

/-- One call on an external collaborator, as recorded in the trace. -/
inductive Event where
  | evaluateSTA | evaluateBIF | evaluateBIX | evaluateBBIX | evaluateBST
  | pollTimerCancel
  | pollTimerSet (ms : Nat)
  | readAllTimerCancel
  | readAllTimerSet (ms : Nat)
  | retain (service : Nat)
  | release (service : Nat)
  | acknowledgeSetPowerState (service : Nat)
  | ioLogError (label : String) (additional : Nat)
  | batteryStatusHasChanged
  deriving DecidableEq, Repr

/-! ## The driver object -/

/-- The state of one `AppleSmartBattery` object together with the state it shares with
its collaborators.

* `properties`, `settingsChangedSinceUpdate`: the `IOPMPowerSource` superclass.
* `registry`: the registry property table of the service (`setProperty`,
  `removeProperty`).
* `fPollTimer`, `fBatteryReadAllTimer`: the timeout (milliseconds) a timer is armed
  with, `none` when it is not armed.
* `milliSecPollingTable`: the file-level table of the two polling periods.
* `fBatterySTA`: the member of the `AppleSmartBatteryManager` provider.
* `fPowerServiceToAck`: the retained service, `none` for a null pointer.
* `fDeviceName`, `fType`, `fManufacturer`, `fSerialNumber`, `fManufacturerData`:
  `none` for a null pointer.
* `fCurrent`, `fAverageCurrent`: `SInt32` members, kept as their 32-bit pattern. -/
structure AppleSmartBattery where
  properties : PropertyTable
  settingsChangedSinceUpdate : Bool
  registry : PropertyTable
  fPollTimer : Option Nat
  fBatteryReadAllTimer : Option Nat
  milliSecPollingTable : Nat × Nat
  trace : List Event
  fBatterySTA : Nat
  fPollingNow : Bool
  fCancelPolling : Bool
  fMachinePath : Nat
  fPollingInterval : Nat
  fPollingOverridden : Bool
  fUseBatteryExtendedInformation : Bool
  fUseBatteryExtraInformation : Bool
  fBatteryPresent : Bool
  fACConnected : Bool
  fACChargeCapable : Bool
  fSystemSleeping : Bool
  fPowerServiceToAck : Option Nat
  fCellVoltages : List Nat
  fInitialPollCountdown : Nat
  fPowerUnit : Nat
  fDesignVoltage : Nat
  fCurrentVoltage : Nat
  fDesignCapacity : Nat
  fCurrentCapacity : Nat
  fBatteryTechnology : Nat
  fMaxCapacity : Nat
  fCurrentRate : Nat
  fAverageRate : Nat
  fStatus : Nat
  fCycleCount : Nat
  fDeviceName : Option String
  fType : Option String
  fManufacturer : Option String
  fSerialNumber : Option String
  fMaxErr : Nat
  fCellVoltage1 : Nat
  fCellVoltage2 : Nat
  fCellVoltage3 : Nat
  fCellVoltage4 : Nat
  fManufacturerAccess : Nat
  fBatteryMode : Nat
  fAtRateTimeToFull : Nat
  fAtRateTimeToEmpty : Nat
  fTemperature : Nat
  fVoltage : Nat
  fCurrent : Nat
  fAverageCurrent : Nat
  fRelativeStateOfCharge : Nat
  fAbsoluteStateOfCharge : Nat
  fRemainingCapacity : Nat
  fRunTimeToEmpty : Nat
  fAverageTimeToEmpty : Nat
  fAverageTimeToFull : Nat
  fManufactureDate : Nat
  fManufacturerData : Option (List Nat)

/-- Record a call on an external collaborator. -/
def emit (e : Event) (self : AppleSmartBattery) : AppleSmartBattery :=
  { self with trace := self.trace ++ [e] }

/-! ### Timers (`IOTimerEventSource`) -/

def pollTimerCancelTimeout (self : AppleSmartBattery) : AppleSmartBattery :=
  emit Event.pollTimerCancel { self with fPollTimer := none }

def pollTimerSetTimeoutMS (ms : Nat) (self : AppleSmartBattery) : AppleSmartBattery :=
  emit (Event.pollTimerSet ms) { self with fPollTimer := some ms }

def readAllTimerCancelTimeout (self : AppleSmartBattery) : AppleSmartBattery :=
  emit Event.readAllTimerCancel { self with fBatteryReadAllTimer := none }

def readAllTimerSetTimeoutMS (ms : Nat) (self : AppleSmartBattery) : AppleSmartBattery :=
  emit (Event.readAllTimerSet ms) { self with fBatteryReadAllTimer := some ms }

/-! ### The registry property table (`IORegistryEntry`) -/

def setProperty (key : Key) (value : OSValue) (self : AppleSmartBattery) :
    AppleSmartBattery :=
  { self with registry := self.registry.setObject key value }

def removeProperty (key : Key) (self : AppleSmartBattery) : AppleSmartBattery :=
  { self with registry := self.registry.removeObject key }

/-! ### The superclass `IOPMPowerSource`

The superclass belongs to IOKit, not to the repository.  Its methods are modelled as
IOKit defines them: a setter stores one object in the `properties` dictionary through
`setPSProperty`, an accessor reads it back, and `updateStatus` copies the dictionary to
the registry when a setting has changed since the last update. -/

/-- `IOPMPowerSource::setPSProperty`: note whether the setting changes, then store. -/
def setPSProperty (key : Key) (value : OSValue) (self : AppleSmartBattery) :
    AppleSmartBattery :=
  { self with
    settingsChangedSinceUpdate :=
      self.settingsChangedSinceUpdate || decide (self.properties key ≠ some value)
    properties := self.properties.setObject key value }

/-- `properties->removeObject(key)`. -/
def propertiesRemoveObject (key : Key) (self : AppleSmartBattery) : AppleSmartBattery :=
  { self with properties := self.properties.removeObject key }

/-- `IOPMPowerSource::updateStatus`: when a setting has changed, publish every entry
of `properties` in the registry and notify the clients. -/
def updateStatus (self : AppleSmartBattery) : AppleSmartBattery :=
  if self.settingsChangedSinceUpdate then
    emit Event.batteryStatusHasChanged
      { self with
        registry := fun k =>
          match self.properties k with
          | some v => some v
          | none => self.registry k
        settingsChangedSinceUpdate := false }
  else self

def setExternalConnected (b : Bool) : AppleSmartBattery → AppleSmartBattery :=
  setPSProperty Key.externalConnectedKey (OSValue.boolean b)

def setExternalChargeCapable (b : Bool) : AppleSmartBattery → AppleSmartBattery :=
  setPSProperty Key.externalChargeCapableKey (OSValue.boolean b)

def setBatteryInstalled (b : Bool) : AppleSmartBattery → AppleSmartBattery :=
  setPSProperty Key.batteryInstalledKey (OSValue.boolean b)

def setIsCharging (b : Bool) : AppleSmartBattery → AppleSmartBattery :=
  setPSProperty Key.chargingKey (OSValue.boolean b)

def setCurrentCapacity (val : Nat) : AppleSmartBattery → AppleSmartBattery :=
  setPSProperty Key.currentCapacityKey (OSValue.number (val % 4294967296))

def setMaxCapacity (val : Nat) : AppleSmartBattery → AppleSmartBattery :=
  setPSProperty Key.maxCapacityKey (OSValue.number (val % 4294967296))

def setTimeRemaining (val : Nat) : AppleSmartBattery → AppleSmartBattery :=
  setPSProperty Key.timeRemainingKey (OSValue.number (val % 4294967296))

def setAmperage (val : Nat) : AppleSmartBattery → AppleSmartBattery :=
  setPSProperty Key.amperageKey (OSValue.number (val % 4294967296))

def setVoltage (val : Nat) : AppleSmartBattery → AppleSmartBattery :=
  setPSProperty Key.voltageKey (OSValue.number (val % 4294967296))

def setCycleCount (val : Nat) : AppleSmartBattery → AppleSmartBattery :=
  setPSProperty Key.cycleCountKey (OSValue.number (val % 4294967296))

def setAdapterInfo (val : Nat) : AppleSmartBattery → AppleSmartBattery :=
  setPSProperty Key.adapterInfoKey (OSValue.number (val % 4294967296))

def setLocation (val : Nat) : AppleSmartBattery → AppleSmartBattery :=
  setPSProperty Key.locationKey (OSValue.number (val % 4294967296))

/-- `setErrorCondition`, `setManufacturer`: `setPSProperty` ignores a null value. -/
def setErrorCondition (s : Option String) (self : AppleSmartBattery) :
    AppleSmartBattery :=
  match s with
  | some sym => setPSProperty Key.errorConditionKey (OSValue.symbol sym) self
  | none => self

def setManufacturer (s : Option String) (self : AppleSmartBattery) : AppleSmartBattery :=
  match s with
  | some sym => setPSProperty Key.manufacturerKey (OSValue.symbol sym) self
  | none => self

def setLegacyIOBatteryInfo (d : OSValue) : AppleSmartBattery → AppleSmartBattery :=
  setPSProperty Key.batteryInfoKey d

/-- `externalConnected()`: the stored object is `kOSBooleanTrue`. -/
def externalConnected (self : AppleSmartBattery) : Bool :=
  decide (self.properties Key.externalConnectedKey = some (OSValue.boolean true))

def externalChargeCapable (self : AppleSmartBattery) : Bool :=
  decide (self.properties Key.externalChargeCapableKey = some (OSValue.boolean true))

def batteryInstalled (self : AppleSmartBattery) : Bool :=
  decide (self.properties Key.batteryInstalledKey = some (OSValue.boolean true))

def isCharging (self : AppleSmartBattery) : Bool :=
  decide (self.properties Key.chargingKey = some (OSValue.boolean true))

/-- `amperage()`: the stored number read as an `int`; 0 when there is none. -/
def amperage (self : AppleSmartBattery) : Int :=
  match self.properties.getNumber Key.amperageKey with
  | some n => toSInt32 n
  | none => 0

/-! ### Accessors of `AppleSmartBattery` (lines 776 to 1143) -/

def setMaxErr (error : Nat) : AppleSmartBattery → AppleSmartBattery :=
  setPSProperty Key.MaxErrSym (OSValue.number (error % 4294967296))

def setDeviceName (sym : Option String) (self : AppleSmartBattery) : AppleSmartBattery :=
  match sym with
  | some s => setPSProperty Key.DeviceNameSym (OSValue.symbol s) self
  | none => self

def setFullyCharged (charged : Bool) : AppleSmartBattery → AppleSmartBattery :=
  setPSProperty Key.FullyChargedSym (OSValue.boolean charged)

/-- `fullyCharged()`: the stored object is `kOSBooleanTrue`. -/
def fullyCharged (self : AppleSmartBattery) : Bool :=
  decide (self.properties Key.FullyChargedSym = some (OSValue.boolean true))

def setInstantaneousTimeToEmpty (seconds : Nat) : AppleSmartBattery → AppleSmartBattery :=
  setPSProperty Key.InstantTimeToEmptySym (OSValue.number (seconds % 4294967296))

def setInstantaneousTimeToFull (seconds : Nat) : AppleSmartBattery → AppleSmartBattery :=
  setPSProperty Key.InstantTimeToFullSym (OSValue.number (seconds % 4294967296))

def setInstantAmperage (mA : Nat) : AppleSmartBattery → AppleSmartBattery :=
  setPSProperty Key.InstantAmperageSym (OSValue.number (mA % 4294967296))

def setAverageTimeToEmpty (seconds : Nat) : AppleSmartBattery → AppleSmartBattery :=
  setPSProperty Key.AvgTimeToEmptySym (OSValue.number (seconds % 4294967296))

def setAverageTimeToFull (seconds : Nat) : AppleSmartBattery → AppleSmartBattery :=
  setPSProperty Key.AvgTimeToFullSym (OSValue.number (seconds % 4294967296))

def setRunTimeToEmpty (seconds : Nat) : AppleSmartBattery → AppleSmartBattery :=
  setPSProperty Key.RunTimeToEmptySym (OSValue.number (seconds % 4294967296))

def setRelativeStateOfCharge (percent : Nat) : AppleSmartBattery → AppleSmartBattery :=
  setPSProperty Key.RelativeStateOfChargeSym (OSValue.number (percent % 4294967296))

def setAbsoluteStateOfCharge (percent : Nat) : AppleSmartBattery → AppleSmartBattery :=
  setPSProperty Key.AbsoluteStateOfChargeSym (OSValue.number (percent % 4294967296))

def setRemainingCapacity (mah : Nat) : AppleSmartBattery → AppleSmartBattery :=
  setPSProperty Key.RemainingCapacitySym (OSValue.number (mah % 4294967296))

def setAverageCurrent (ma : Nat) : AppleSmartBattery → AppleSmartBattery :=
  setPSProperty Key.AverageCurrentSym (OSValue.number (ma % 4294967296))

def setCurrent (ma : Nat) : AppleSmartBattery → AppleSmartBattery :=
  setPSProperty Key.CurrentSym (OSValue.number (ma % 4294967296))

def setTemperature (temperature : Nat) : AppleSmartBattery → AppleSmartBattery :=
  setPSProperty Key.TemperatureSym (OSValue.number (temperature % 4294967296))

def setManufactureDate (date : Nat) : AppleSmartBattery → AppleSmartBattery :=
  setPSProperty Key.ManufactureDateSym (OSValue.number (date % 4294967296))

/-- The value of a hexadecimal digit. -/
def hexDigitValue (c : Char) : Option Nat :=
  if 48 ≤ c.toNat ∧ c.toNat ≤ 57 then some (c.toNat - 48)
  else if 97 ≤ c.toNat ∧ c.toNat ≤ 102 then some (c.toNat - 87)
  else if 65 ≤ c.toNat ∧ c.toNat ≤ 70 then some (c.toNat - 55)
  else none

/-- The digit loop of `strtol` in base 16. -/
def strtol16Digits : List Char → Nat → Nat
  | [], acc => acc
  | c :: cs, acc =>
    match hexDigitValue c with
    | some d => strtol16Digits cs (acc * 16 + d)
    | none => acc

/-- The C library call `strtol(s, NULL, 16)` with a 64-bit `long`: white space, an
optional sign, an optional `0x`, the hexadecimal digits, saturating at the bounds of
`long`. -/
def strtol16 (s : List Char) : Int :=
  let s1 := s.dropWhile (fun c => c.toNat = 32 || (9 ≤ c.toNat && c.toNat ≤ 13))
  let negative := s1.head? = some (Char.ofNat 45)
  let s2 := if s1.head? = some (Char.ofNat 45) ∨ s1.head? = some (Char.ofNat 43)
    then s1.tail else s1
  let s3 := match s2 with
    | a :: b :: rest =>
      if a.toNat = 48 ∧ (b.toNat = 120 ∨ b.toNat = 88) then rest else s2
    | _ => s2
  let magnitude := strtol16Digits s3 0
  if negative then - ((min magnitude 9223372036854775808 : Nat) : Int)
  else ((min magnitude 9223372036854775807 : Nat) : Int)

/-- `setSerialNumber`: the symbol under "BatterySerialNumber" and its value as a
hexadecimal number, cut to 32 bits, under "FirmwareSerialNumber". -/
def setSerialNumber (sym : Option String) (self : AppleSmartBattery) : AppleSmartBattery :=
  match sym with
  | some s =>
    setPSProperty Key.SerialNumberSym
      (OSValue.number ((strtol16 s.data) % 4294967296).toNat)
      (setPSProperty Key.HardwareSerialSym (OSValue.symbol s) self)
  | none => self

/-- `setManufacturerData(buffer, bufferSize)` as the three decoders call it: the
buffer handed over is the `OSData` object itself, so the published block is
`bufferSize` bytes of that object. -/
def setManufacturerData (bufferSize : Nat) : AppleSmartBattery → AppleSmartBattery :=
  setPSProperty Key.ManufacturerDataSym (OSValue.objectBytes bufferSize)

def setChargeStatus (sym : Option String) (self : AppleSmartBattery) : AppleSmartBattery :=
  match sym with
  | none => removeProperty Key.ChargeStatusSym (propertiesRemoveObject Key.ChargeStatusSym self)
  | some s => setPSProperty Key.ChargeStatusSym (OSValue.symbol s) self

def setDesignCapacity (val : Nat) : AppleSmartBattery → AppleSmartBattery :=
  setPSProperty Key.DesignCapacitySym (OSValue.number (val % 4294967296))

def setBatteryType (sym : Option String) (self : AppleSmartBattery) : AppleSmartBattery :=
  match sym with
  | some s => setPSProperty Key.TypeSym (OSValue.symbol s) self
  | none => self

def setPermanentFailureStatus (val : Nat) : AppleSmartBattery → AppleSmartBattery :=
  setPSProperty Key.PFStatusSym (OSValue.number (val % 4294967296))

/-! ### `logReadError` (lines 312 to 324) -/

/-- `logReadError` with a non-null `error_type`: the label becomes the registry
property "LatestErrorType" and is logged. -/
def logReadError (error_type : String) (additional_error : Nat)
    (self : AppleSmartBattery) : AppleSmartBattery :=
  emit (Event.ioLogError error_type additional_error)
    (setProperty Key.LatestErrorType (OSValue.symbol error_type) self)

/-! ### `rebuildLegacyIOBatteryInfo` (lines 654 to 690) -/

def rebuildLegacyIOBatteryInfo (do_update : Bool) (self : AppleSmartBattery) :
    AppleSmartBattery :=
  let flags : Nat :=
    (if externalConnected self then kIOPMACInstalled else 0) |||
    (if batteryInstalled self then kIOPMBatteryInstalled else 0) |||
    (if isCharging self then kIOPMBatteryCharging else 0)
  if do_update then
    setLegacyIOBatteryInfo
      (OSValue.legacy flags
        (self.properties.getNumber Key.currentCapacityKey)
        (self.properties.getNumber Key.maxCapacityKey)
        (self.properties.getNumber Key.voltageKey)
        (self.properties.getNumber Key.amperageKey)
        (self.properties.getNumber Key.cycleCountKey))
      self
  else
    self
    |> propertiesRemoveObject Key.currentCapacityKey
    |> propertiesRemoveObject Key.maxCapacityKey
    |> propertiesRemoveObject Key.voltageKey
    |> propertiesRemoveObject Key.amperageKey
    |> propertiesRemoveObject Key.cycleCountKey

/-! ### `clearBatteryState` (lines 562 to 647) -/

/-- The pair `properties->removeObject(key); removeProperty(key);`. -/
def removeBoth (key : Key) (self : AppleSmartBattery) : AppleSmartBattery :=
  removeProperty key (propertiesRemoveObject key self)

def clearBatteryState (do_update : Bool) (self : AppleSmartBattery) : AppleSmartBattery :=
  let cleared :=
    { self with fBatteryPresent := false, fACConnected := false, fACChargeCapable := false }
    |> setBatteryInstalled false
    |> setIsCharging false
    |> setCurrentCapacity 0
    |> setMaxCapacity 0
    |> setTimeRemaining 0
    |> setAmperage 0
    |> setVoltage 0
    |> setCycleCount 0
    |> setMaxErr 0
    |> setAdapterInfo 0
    |> setLocation 0
    |> removeBoth Key.manufacturerKey
    |> removeBoth Key.serialKey
    |> removeBoth Key.batteryInfoKey
    |> removeBoth Key.errorConditionKey
    |> removeBoth Key.DesignCapacitySym
    |> removeBoth Key.DeviceNameSym
    |> removeBoth Key.TypeSym
    |> removeBoth Key.MaxErrSym
    |> removeBoth Key.ManufactureDateSym
    |> removeBoth Key.SerialNumberSym
    |> removeBoth Key.ManufacturerDataSym
    |> removeBoth Key.PFStatusSym
    |> removeBoth Key.AbsoluteStateOfChargeSym
    |> removeBoth Key.DateOfManufacture
    |> removeBoth Key.RelativeStateOfChargeSym
    |> removeBoth Key.RemainingCapacitySym
    |> removeBoth Key.RunTimeToEmptySym
    |> removeBoth Key.AvgTimeToEmptySym
    |> removeBoth Key.AvgTimeToFullSym
    |> removeBoth Key.InstantTimeToEmptySym
    |> removeBoth Key.InstantTimeToFullSym
    |> removeBoth Key.InstantAmperageSym
    |> removeBoth Key.QuickPollSym
    |> removeBoth Key.CellVoltageSym
    |> removeBoth Key.TemperatureSym
    |> removeBoth Key.HardwareSerialSym
    |> rebuildLegacyIOBatteryInfo do_update
  if do_update then updateStatus cleared else cleared

/-! ### `constructAppleSerialNumber` (lines 699 to 733) -/

/-- The device name and the serial number (or "Unknown" for a null pointer), joined by
a dash in a buffer of 64 bytes, published under "BatterySerialNumber". -/
def constructAppleSerialNumber (self : AppleSmartBattery) : AppleSmartBattery :=
  let device_cstring := (self.fDeviceName.getD "Unknown").data
  let serial_cstring := (self.fSerialNumber.getD "Unknown").data
  let serialBuf :=
    (device_cstring ++ [Char.ofNat 45] ++ serial_cstring).take (kMaxGeneratedSerialSize - 1)
  setPSProperty Key.HardwareSerialSym (OSValue.symbol (String.mk serialBuf)) self

/-! ### `unpackDate` (lines 740 to 773) -/

/-- The decimal digits of `n` (the conversion `%d` of a non-negative value). -/
def decimalDigits (n : Nat) : List Char := Nat.toDigits 10 n

/-- Pad on the left to a minimum field width (`%4d` pads with blanks, `%02d` with
zeros). -/
def padLeft (width : Nat) (pad : Char) (s : List Char) : List Char :=
  List.replicate (width - s.length) pad ++ s

/-- `unpackDate`: `snprintf(dateBuf, 12, "%4d-%02d-%02d%c", year, month, day, 0)`; the
buffer keeps at most 11 characters and the symbol ends at the first NUL. -/
def unpackDate (packedDate : Nat) : String :=
  let yearBits := packedDate >>> 9
  let monthBits := (packedDate >>> 5) &&& 0xF
  let dayBits := packedDate &&& 0x1F
  let formatted :=
    padLeft 4 (Char.ofNat 32) (decimalDigits (add32 yearBits 1980)) ++ [Char.ofNat 45] ++
    padLeft 2 (Char.ofNat 48) (decimalDigits monthBits) ++ [Char.ofNat 45] ++
    padLeft 2 (Char.ofNat 48) (decimalDigits dayBits) ++ [Char.ofNat 0]
  let dateBuf := formatted.take (kMaxDateSize - 1)
  String.mk (dateBuf.takeWhile (fun c => c != Char.ofNat 0))

/-! ### `setBatterySTA` (lines 1150 to 1166) -/

def setBatterySTA (battery_status : Nat) (self : AppleSmartBattery) : AppleSmartBattery :=
  if battery_status &&& BATTERY_PRESENT ≠ 0 then
    setBatteryInstalled true { self with fBatteryPresent := true }
  else
    setBatteryInstalled false { self with fBatteryPresent := false }

/-! ### `setBatteryBIF` (lines 1194 to 1234) and `setBatteryBIX` (lines 1269 to 1311) -/

/-- The unit normalization both static decoders perform (lines 1208 to 1211 and 1285
to 1288): with an energy power unit the design and the last-full capacity are divided
by the design voltage. -/
def staticWattsToAmps (self : AppleSmartBattery) : Option AppleSmartBattery :=
  if self.fPowerUnit = WATTS then
    match div32 self.fDesignCapacity self.fDesignVoltage,
          div32 self.fMaxCapacity self.fDesignVoltage with
    | some design, some full =>
      some { self with fDesignCapacity := design, fMaxCapacity := full }
    | _, _ => none
  else some self

/-- The zero-capacity report both static decoders perform (lines 1213 to 1215 and 1290
to 1292). -/
def reportZeroCapacity (self : AppleSmartBattery) : AppleSmartBattery :=
  if self.fDesignCapacity = 0 ∨ self.fMaxCapacity = 0 then
    logReadError kErrorZeroCapacity 0 self
  else self

/-- Lines 1198 to 1206 of `setBatteryBIF`: the members fetched from the package; the four
texts are the results of `GetSymbolFromArray`. -/
def bifFetch (acpibat_bif : List OSObject)
    (deviceName serialNumber batteryType manufacturer : String)
    (self : AppleSmartBattery) : AppleSmartBattery :=
  { self with
    fPowerUnit := GetValueFromArray acpibat_bif BIF_POWER_UNIT
    fDesignCapacity := GetValueFromArray acpibat_bif BIF_DESIGN_CAPACITY
    fMaxCapacity := GetValueFromArray acpibat_bif BIF_LAST_FULL_CAPACITY
    fBatteryTechnology := GetValueFromArray acpibat_bif BIF_TECHNOLOGY
    fDesignVoltage := GetValueFromArray acpibat_bif BIF_DESIGN_VOLTAGE
    fDeviceName := some deviceName
    fSerialNumber := some serialNumber
    fType := some batteryType
    fManufacturer := some manufacturer }

/-- Lines 1217 to 1231 of `setBatteryBIF`: the publication. -/
def bifPublish (self : AppleSmartBattery) : AppleSmartBattery :=
  self
  |> setDesignCapacity self.fDesignCapacity
  |> setMaxCapacity self.fMaxCapacity
  |> setDeviceName self.fDeviceName
  |> setSerialNumber self.fSerialNumber
  |> setBatteryType self.fType
  |> setManufacturer self.fManufacturer
  |> setCycleCount 0
  |> setMaxErr 0
  |> setManufactureDate 0
  |> (fun b => { b with fManufacturerData := some [] })
  |> setManufacturerData 0
  |> setPermanentFailureStatus 0

/-- `setBatteryBIF`; the decoder returns `kIOReturnSuccess` whenever it returns. -/
def setBatteryBIF (acpibat_bif : List OSObject) (self : AppleSmartBattery) :
    Option AppleSmartBattery :=
  match GetSymbolFromArray acpibat_bif BIF_MODEL_NUMBER,
        GetSymbolFromArray acpibat_bif BIF_SERIAL_NUMBER,
        GetSymbolFromArray acpibat_bif BIF_BATTERY_TYPE,
        GetSymbolFromArray acpibat_bif BIF_OEM with
  | some deviceName, some serialNumber, some batteryType, some manufacturer =>
    match staticWattsToAmps
        (bifFetch acpibat_bif deviceName serialNumber batteryType manufacturer self) with
    | none => none
    | some normalized => some (bifPublish (reportZeroCapacity normalized))
  | _, _, _, _ => none

/-- Lines 1273 to 1283 of `setBatteryBIX`: the members fetched from the package; the four
texts are the results of `GetSymbolFromArray`. -/
def bixFetch (acpibat_bix : List OSObject)
    (deviceName serialNumber batteryType manufacturer : String)
    (self : AppleSmartBattery) : AppleSmartBattery :=
  { self with
    fPowerUnit := GetValueFromArray acpibat_bix BIX_POWER_UNIT
    fDesignCapacity := GetValueFromArray acpibat_bix BIX_DESIGN_CAPACITY
    fMaxCapacity := GetValueFromArray acpibat_bix BIX_LAST_FULL_CAPACITY
    fBatteryTechnology := GetValueFromArray acpibat_bix BIX_TECHNOLOGY
    fDesignVoltage := GetValueFromArray acpibat_bix BIX_DESIGN_VOLTAGE
    fCycleCount := GetValueFromArray acpibat_bix BIX_CYCLE_COUNT
    fMaxErr := GetValueFromArray acpibat_bix BIX_ACCURACY
    fDeviceName := some deviceName
    fSerialNumber := some serialNumber
    fType := some batteryType
    fManufacturer := some manufacturer }

/-- Lines 1294 to 1308 of `setBatteryBIX`: the publication. -/
def bixPublish (self : AppleSmartBattery) : AppleSmartBattery :=
  self
  |> setDesignCapacity self.fDesignCapacity
  |> setMaxCapacity self.fMaxCapacity
  |> setDeviceName self.fDeviceName
  |> setSerialNumber self.fSerialNumber
  |> setBatteryType self.fType
  |> setManufacturer self.fManufacturer
  |> setCycleCount self.fCycleCount
  |> setMaxErr self.fMaxErr
  |> setManufactureDate 0
  |> (fun b => { b with fManufacturerData := some [] })
  |> setManufacturerData 0
  |> setPermanentFailureStatus 0

/-- `setBatteryBIX`; the decoder returns `kIOReturnSuccess` whenever it returns. -/
def setBatteryBIX (acpibat_bix : List OSObject) (self : AppleSmartBattery) :
    Option AppleSmartBattery :=
  match GetSymbolFromArray acpibat_bix BIX_MODEL_NUMBER,
        GetSymbolFromArray acpibat_bix BIX_SERIAL_NUMBER,
        GetSymbolFromArray acpibat_bix BIX_BATTERY_TYPE,
        GetSymbolFromArray acpibat_bix BIX_OEM with
  | some deviceName, some serialNumber, some batteryType, some manufacturer =>
    match staticWattsToAmps
        (bixFetch acpibat_bix deviceName serialNumber batteryType manufacturer self) with
    | none => none
    | some normalized => some (bixPublish (reportZeroCapacity normalized))
  | _, _, _, _ => none

/-! ### `setBatteryBBIX` (lines 1342 to 1398) -/

/-- Lines 1346 to 1361 of `setBatteryBBIX`: the members fetched from the package. -/
def bbixFetch (acpibat_bbix : List OSObject) (self : AppleSmartBattery) : AppleSmartBattery :=
  { self with
    fManufacturerAccess := GetValueFromArray acpibat_bbix BBIX_MANUF_ACCESS
    fBatteryMode := GetValueFromArray acpibat_bbix BBIX_BATTERYMODE
    fAtRateTimeToFull := GetValueFromArray acpibat_bbix BBIX_ATRATETIMETOFULL
    fAtRateTimeToEmpty := GetValueFromArray acpibat_bbix BBIX_ATRATETIMETOEMPTY
    fTemperature := GetValueFromArray acpibat_bbix BBIX_TEMPERATURE
    fVoltage := GetValueFromArray acpibat_bbix BBIX_VOLTAGE
    fCurrent := GetValueFromArray acpibat_bbix BBIX_CURRENT
    fAverageCurrent := GetValueFromArray acpibat_bbix BBIX_AVG_CURRENT
    fRelativeStateOfCharge := GetValueFromArray acpibat_bbix BBIX_REL_STATE_CHARGE
    fAbsoluteStateOfCharge := GetValueFromArray acpibat_bbix BBIX_ABS_STATE_CHARGE
    fRemainingCapacity := GetValueFromArray acpibat_bbix BBIX_REMAIN_CAPACITY
    fRunTimeToEmpty := GetValueFromArray acpibat_bbix BBIX_RUNTIME_TO_EMPTY
    fAverageTimeToEmpty := GetValueFromArray acpibat_bbix BBIX_AVG_TIME_TO_EMPTY
    fAverageTimeToFull := GetValueFromArray acpibat_bbix BBIX_AVG_TIME_TO_FULL
    fManufactureDate := GetValueFromArray acpibat_bbix BBIX_MANUF_DATE
    fManufacturerData := GetDataFromArray acpibat_bbix BBIX_MANUF_DATA }

/-- Lines 1380 to 1395 of `setBatteryBBIX`: the publication, `length` being the length
of the manufacturer data. -/
def bbixPublish (length : Nat) (self : AppleSmartBattery) : AppleSmartBattery :=
  self
  |> setTemperature self.fTemperature
  |> setManufactureDate self.fManufactureDate
  |> setPSProperty Key.DateOfManufacture (OSValue.symbol (unpackDate self.fManufactureDate))
  |> setRunTimeToEmpty self.fRunTimeToEmpty
  |> setRelativeStateOfCharge self.fRelativeStateOfCharge
  |> setAbsoluteStateOfCharge self.fAbsoluteStateOfCharge
  |> setRemainingCapacity self.fRemainingCapacity
  |> setAverageCurrent self.fAverageCurrent
  |> setCurrent self.fCurrent
  |> setManufacturerData length

/-- `setBatteryBBIX`.  The manufacturer data entry must be a text or a byte block: the
decoder calls `getLength` on what `GetDataFromArray` returns, and a null pointer has no
length. -/
def setBatteryBBIX (acpibat_bbix : List OSObject) (self : AppleSmartBattery) :
    Option AppleSmartBattery :=
  match GetDataFromArray acpibat_bbix BBIX_MANUF_DATA with
  | none => none
  | some manufacturerData =>
    some (bbixPublish manufacturerData.length (bbixFetch acpibat_bbix self))

/-! ### `setBatteryBST` (lines 1455 to 1683)

The decoder is embedded as the sequence of its steps; each step is one block of the
source, named after what the block does, with its line range. -/

/-- Lines 1461 to 1473: fetch rate, capacity and voltage and publish the capacity and
the voltage as fetched.  (The status word is a local variable: `GetValueFromArray
acpibat_bst BST_STATUS`.) -/
def bstFetch (acpibat_bst : List OSObject) (self : AppleSmartBattery) : AppleSmartBattery :=
  let fetched : AppleSmartBattery :=
    { self with
      fCurrentRate := GetValueFromArray acpibat_bst BST_RATE
      fCurrentCapacity := GetValueFromArray acpibat_bst BST_CAPACITY
      fCurrentVoltage := GetValueFromArray acpibat_bst BST_VOLTAGE }
  fetched
  |> setCurrentCapacity fetched.fCurrentCapacity
  |> setVoltage fetched.fCurrentVoltage

/-- Lines 1479 to 1482: a rate with bit 15 set becomes `0xFFFF - rate`. -/
def bstRateSign (self : AppleSmartBattery) : AppleSmartBattery :=
  if self.fCurrentRate &&& 0x8000 ≠ 0 then
    { self with fCurrentRate := sub32 0xFFFF self.fCurrentRate }
  else self

/-- Lines 1486 to 1494: with an energy power unit, a rate above the present voltage
becomes `rate * 1000 / voltage`, and the capacity is divided by the present voltage. -/
def bstWattsToAmps (self : AppleSmartBattery) : Option AppleSmartBattery :=
  if self.fPowerUnit = WATTS then
    match (if self.fCurrentRate > self.fCurrentVoltage
            then div32 (mul32 self.fCurrentRate 1000) self.fCurrentVoltage
            else some self.fCurrentRate),
          div32 self.fCurrentCapacity self.fCurrentVoltage with
    | some rate, some capacity =>
      some { self with fCurrentRate := rate, fCurrentCapacity := capacity }
    | _, _ => none
  else some self

/-- Lines 1496 to 1499: a rate that is not above zero becomes half the maximum
capacity. -/
def bstRateFallback (self : AppleSmartBattery) : AppleSmartBattery :=
  if self.fCurrentRate ≤ 0 then { self with fCurrentRate := self.fMaxCapacity / 2 }
  else self

/-- Lines 1501 to 1504: the running average of the rate. -/
def bstAverageRate (self : AppleSmartBattery) : AppleSmartBattery :=
  if self.fAverageRate ≠ 0 then
    { self with fAverageRate := add32 self.fAverageRate self.fCurrentRate / 2 }
  else
    { self with fAverageRate := self.fCurrentRate }

/-- Lines 1508 to 1513: a status word that differs from the stored one is stored and
zeroes the average. -/
def bstStatusChange (currentStatus : Nat) (self : AppleSmartBattery) : AppleSmartBattery :=
  if currentStatus ^^^ self.fStatus ≠ 0 then
    { self with fStatus := currentStatus, fAverageRate := 0 }
  else self

/-- Lines 1515 to 1543: charging and discharging bits both set. -/
def bstBothBits (self : AppleSmartBattery) : AppleSmartBattery :=
  let flagged :=
    self
    |> logReadError kErrorPermanentFailure 0
    |> setErrorCondition (some kErrorPermanentFailure)
    |> setFullyCharged false
    |> setIsCharging false
  let powered := setExternalConnected true { flagged with fACConnected := true }
  let capable := setExternalChargeCapable false { powered with fACChargeCapable := false }
  capable
  |> setAmperage 0
  |> setInstantAmperage 0
  |> setTimeRemaining 0
  |> setAverageTimeToEmpty 0
  |> setAverageTimeToFull 0
  |> setInstantaneousTimeToFull 0
  |> setInstantaneousTimeToEmpty 0

/-- Lines 1544 to 1571: discharging.  The divisions are guarded by the rate tests. -/
def bstDischarging (self : AppleSmartBattery) : AppleSmartBattery :=
  let flagged := self |> setFullyCharged false |> setIsCharging false
  let powered := setExternalConnected false { flagged with fACConnected := false }
  let capable := setExternalChargeCapable false { powered with fACChargeCapable := false }
  capable
  |> setAmperage (mul32 capable.fAverageRate 4294967295)
  |> setInstantAmperage (mul32 capable.fCurrentRate 4294967295)
  |> setTimeRemaining
      (if capable.fAverageRate ≠ 0
        then mul32 60 capable.fCurrentCapacity / capable.fAverageRate else 0xffff)
  |> setAverageTimeToEmpty
      (if capable.fAverageRate ≠ 0
        then mul32 60 capable.fCurrentCapacity / capable.fAverageRate else 0xffff)
  |> setInstantaneousTimeToEmpty
      (if capable.fCurrentRate ≠ 0
        then mul32 60 capable.fCurrentCapacity / capable.fCurrentRate else 0xffff)
  |> setAverageTimeToFull 0xffff
  |> setInstantaneousTimeToFull 0xffff

/-- Lines 1572 to 1605: charging. -/
def bstCharging (self : AppleSmartBattery) : AppleSmartBattery :=
  let flagged := self |> setFullyCharged false |> setIsCharging true
  let powered := setExternalConnected true { flagged with fACConnected := true }
  let capable := setExternalChargeCapable true { powered with fACChargeCapable := true }
  capable
  |> setAmperage capable.fAverageRate
  |> setInstantAmperage capable.fCurrentRate
  |> setTimeRemaining
      (if capable.fAverageRate ≠ 0
        then mul32 60 (sub32 capable.fMaxCapacity capable.fCurrentCapacity)
          / capable.fAverageRate
        else 0xffff)
  |> setAverageTimeToFull
      (if capable.fAverageRate ≠ 0
        then mul32 60 (sub32 capable.fMaxCapacity capable.fCurrentCapacity)
          / capable.fAverageRate
        else 0xffff)
  |> setInstantaneousTimeToFull
      (if capable.fCurrentRate ≠ 0
        then mul32 60 (sub32 capable.fMaxCapacity capable.fCurrentCapacity)
          / capable.fCurrentRate
        else 0xffff)
  |> setAverageTimeToEmpty 0xffff
  |> setInstantaneousTimeToEmpty 0xffff

/-- Lines 1606 to 1629: neither bit set (`BATTERY_CHARGED`). -/
def bstCharged (self : AppleSmartBattery) : AppleSmartBattery :=
  let flagged := self |> setFullyCharged true |> setIsCharging false
  let powered := setExternalConnected true { flagged with fACConnected := true }
  let capable := setExternalChargeCapable true { powered with fACChargeCapable := true }
  let timed :=
    capable
    |> setAmperage 0
    |> setInstantAmperage 0
    |> setTimeRemaining 0xffff
    |> setAverageTimeToFull 0xffff
    |> setAverageTimeToEmpty 0xffff
    |> setInstantaneousTimeToFull 0xffff
    |> setInstantaneousTimeToEmpty 0xffff
  setCurrentCapacity timed.fMaxCapacity { timed with fCurrentCapacity := timed.fMaxCapacity }

/-- Lines 1515 to 1629: the four-way classification on the status word. -/
def bstClassify (currentStatus : Nat) (self : AppleSmartBattery) : AppleSmartBattery :=
  if currentStatus &&& BATTERY_DISCHARGING ≠ 0 ∧ currentStatus &&& BATTERY_CHARGING ≠ 0 then
    bstBothBits self
  else if currentStatus &&& BATTERY_DISCHARGING ≠ 0 then bstDischarging self
  else if currentStatus &&& BATTERY_CHARGING ≠ 0 then bstCharging self
  else bstCharged self

/-- Lines 1631 to 1644: the quick-poll decision.  The division is guarded by the test
on the maximum capacity. -/
def bstQuickPoll (self : AppleSmartBattery) : AppleSmartBattery :=
  if !self.fPollingOverridden ∧ self.fMaxCapacity ≠ 0 then
    if mul32 100 self.fCurrentCapacity / self.fMaxCapacity < 5 ∧ self.fACConnected then
      { setProperty Key.QuickPollSym (OSValue.boolean true) self with
        fPollingInterval := kQuickPollInterval }
    else
      { setProperty Key.QuickPollSym (OSValue.boolean false) self with
        fPollingInterval := kDefaultPollInterval }
  else self

/-- Lines 1650 to 1670: the four synthetic cell voltages and the temperature. -/
def bstCellVoltages (self : AppleSmartBattery) : AppleSmartBattery :=
  let c1 := self.fCurrentVoltage / 4
  let c2 := self.fCurrentVoltage / 4
  let c3 := self.fCurrentVoltage / 4
  let c4 := sub32 (sub32 (sub32 self.fCurrentVoltage c1) c2) c3
  { self with
    fCellVoltage1 := c1, fCellVoltage2 := c2, fCellVoltage3 := c3, fCellVoltage4 := c4
    fCellVoltages :=
      [c1 % 4294967296, c2 % 4294967296, c3 % 4294967296, c4 % 4294967296] }
  |> setProperty Key.CellVoltageSym
      (OSValue.array [c1 % 4294967296, c2 % 4294967296, c3 % 4294967296, c4 % 4294967296])
  |> setProperty Key.TemperatureSym (OSValue.number (self.fTemperature % 4294967296))

/-- Lines 1672 to 1680: the serial number, the watchdog, the legacy mirror and the
status update. -/
def bstFinish (self : AppleSmartBattery) : AppleSmartBattery :=
  self
  |> constructAppleSerialNumber
  |> readAllTimerCancelTimeout
  |> rebuildLegacyIOBatteryInfo true
  |> updateStatus

/-- `setBatteryBST`; the decoder returns `kIOReturnSuccess` whenever it returns. -/
def setBatteryBST (acpibat_bst : List OSObject) (self : AppleSmartBattery) :
    Option AppleSmartBattery :=
  let currentStatus := GetValueFromArray acpibat_bst BST_STATUS
  match bstWattsToAmps (bstRateSign (bstFetch acpibat_bst self)) with
  | none => none
  | some normalized =>
    some
      (normalized
      |> bstRateFallback
      |> bstAverageRate
      |> bstStatusChange currentStatus
      |> bstClassify currentStatus
      |> bstQuickPoll
      |> bstCellVoltages
      |> bstFinish)

/-! ### The reads of `AppleSmartBatteryManager` (lines 280 to 417 of the manager)

Each read evaluates one firmware method and, on success, hands the result to the
decoder of the battery.  A result that is not an array reaches the decoder as a null
pointer, which the decoder dereferences. -/

def getBatterySTA (fw : Firmware) (self : AppleSmartBattery) : AppleSmartBattery :=
  match fw.resultSTA with
  | some status => setBatterySTA status { emit Event.evaluateSTA self with fBatterySTA := status }
  | none => emit Event.evaluateSTA self

def getBatteryBIF (fw : Firmware) (self : AppleSmartBattery) : Option AppleSmartBattery :=
  match fw.resultBIF with
  | EvalResult.failure => some (emit Event.evaluateBIF self)
  | EvalResult.notArray => none
  | EvalResult.package fields => setBatteryBIF fields (emit Event.evaluateBIF self)

def getBatteryBIX (fw : Firmware) (self : AppleSmartBattery) : Option AppleSmartBattery :=
  match fw.resultBIX with
  | EvalResult.failure => some (emit Event.evaluateBIX self)
  | EvalResult.notArray => none
  | EvalResult.package fields => setBatteryBIX fields (emit Event.evaluateBIX self)

def getBatteryBBIX (fw : Firmware) (self : AppleSmartBattery) : Option AppleSmartBattery :=
  match fw.resultBBIX with
  | EvalResult.failure => some (emit Event.evaluateBBIX self)
  | EvalResult.notArray => none
  | EvalResult.package fields => setBatteryBBIX fields (emit Event.evaluateBBIX self)

def getBatteryBST (fw : Firmware) (self : AppleSmartBattery) : Option AppleSmartBattery :=
  match fw.resultBST with
  | EvalResult.failure => some (emit Event.evaluateBST self)
  | EvalResult.notArray => none
  | EvalResult.package fields => setBatteryBST fields (emit Event.evaluateBST self)

/-! ### `pollBatteryState` (lines 348 to 404) -/

/-- The reads of a cycle that found the battery present (lines 373 to 381). -/
def pollReads (fw : Firmware) (self : AppleSmartBattery) : Option AppleSmartBattery :=
  (if self.fUseBatteryExtendedInformation then getBatteryBIX fw self
    else getBatteryBIF fw self).bind fun informed =>
  (if informed.fUseBatteryExtraInformation then getBatteryBBIX fw informed
    else some informed).bind fun extra =>
  getBatteryBST fw extra

/-- The entry `milliSecPollingTable[index]`; the table has two entries. -/
def pollingTableEntry (self : AppleSmartBattery) (index : Nat) : Option Nat :=
  match index with
  | 0 => some self.milliSecPollingTable.1
  | 1 => some self.milliSecPollingTable.2
  | _ => none

/-- Lines 389 to 400: clear the in-flight flag and restart the periodic timer. -/
def pollRearm (self : AppleSmartBattery) : Option AppleSmartBattery :=
  let idle := { self with fPollingNow := false }
  if !idle.fPollingOverridden then
    (pollingTableEntry idle idle.fPollingInterval).map fun ms => pollTimerSetTimeoutMS ms idle
  else
    some (pollTimerSetTimeoutMS (mul32 1000 idle.fPollingInterval) idle)

/-- The `else` branch of `pollBatteryState` (lines 365 to 401): one cycle of the
existing-battery path. -/
def pollExistingBattery (fw : Firmware) (self : AppleSmartBattery) :
    Option AppleSmartBattery :=
  let probed := getBatterySTA fw { self with fPollingNow := true }
  (if probed.fBatteryPresent then pollReads fw probed
    else some (clearBatteryState true (setFullyCharged false probed))).bind pollRearm

/-- `pollBatteryState(path)`; the function returns `true` whenever it returns. -/
def pollBatteryState (fw : Firmware) (path : Int) (self : AppleSmartBattery) :
    Option AppleSmartBattery :=
  if kNewBatteryPath = path then
    self
    |> pollTimerCancelTimeout
    |> readAllTimerCancelTimeout
    |> readAllTimerSetTimeoutMS kBatteryReadAllTimeout
    |> pollExistingBattery fw
  else pollExistingBattery fw self

/-! ### Event handlers (lines 406 to 555) -/

def handleBatteryInserted (fw : Firmware) (self : AppleSmartBattery) :
    Option AppleSmartBattery :=
  pollBatteryState fw kNewBatteryPath self

/-- `acknowledgeSystemSleepWake` (lines 500 to 510). -/
def acknowledgeSystemSleepWake (self : AppleSmartBattery) : AppleSmartBattery :=
  match self.fPowerServiceToAck with
  | some service =>
    { (emit (Event.release service) (emit (Event.acknowledgeSetPowerState service) self)) with
      fPowerServiceToAck := none }
  | none => self

/-- Lines 421 to 426 of `handleBatteryRemoved`: an ongoing polling session is cancelled. -/
def cancelPollingSession (self : AppleSmartBattery) : AppleSmartBattery :=
  if self.fPollingNow then
    readAllTimerCancelTimeout (pollTimerCancelTimeout { self with fCancelPolling := true })
  else self

/-- `handleBatteryRemoved` (lines 416 to 433). -/
def handleBatteryRemoved (self : AppleSmartBattery) : AppleSmartBattery :=
  self
  |> cancelPollingSession
  |> clearBatteryState true
  |> acknowledgeSystemSleepWake

/-- Lines 451 to 455 of `handleSystemSleepWake`: a reference retained by an earlier
transition is released and forgotten. -/
def dropPendingService (self : AppleSmartBattery) : AppleSmartBattery :=
  match self.fPowerServiceToAck with
  | some old => { emit (Event.release old) self with fPowerServiceToAck := none }
  | none => self

/-- Lines 464 and 465, 473 and 474 of `handleSystemSleepWake`: the service becomes the
pending acknowledgment and is retained. -/
def retainPendingService (service : Nat) (self : AppleSmartBattery) : AppleSmartBattery :=
  emit (Event.retain service) { self with fPowerServiceToAck := some service }

/-- `handleSystemSleepWake` (lines 441 to 492): the returned `IOReturn` and the new
state.  `powerService` is `none` for a null pointer. -/
def handleSystemSleepWake (fw : Firmware) (powerService : Option Nat) (isSystemSleep : Bool)
    (self : AppleSmartBattery) : Option (Nat × AppleSmartBattery) :=
  match powerService with
  | none => some (kIOPMAckImplied, self)
  | some service =>
    if self.fSystemSleeping = isSystemSleep then some (kIOPMAckImplied, self)
    else
      let turned := { dropPendingService self with fSystemSleeping := isSystemSleep }
      if turned.fSystemSleeping then
        if turned.fPollingNow then
          some (mul32 kBatteryReadAllTimeout 1000,
            readAllTimerCancelTimeout
              (pollTimerCancelTimeout (retainPendingService service turned)))
        else some (kIOPMAckImplied, turned)
      else
        (pollBatteryState fw kExistingBatteryPath (retainPendingService service turned)).map
        fun polled =>
          if polled.fPollingNow then (mul32 kBatteryReadAllTimeout 1000, polled)
          else (kIOPMAckImplied, dropPendingService polled)

/-- `pollingTimeOut` (lines 518 to 535). -/
def pollingTimeOut (fw : Firmware) (self : AppleSmartBattery) : Option AppleSmartBattery :=
  if self.fPollingNow then some self
  else if self.fInitialPollCountdown > 0 then pollBatteryState fw kNewBatteryPath self
  else pollBatteryState fw kExistingBatteryPath self

/-- `incompleteReadTimeOut` (lines 548 to 555). -/
def incompleteReadTimeOut (fw : Firmware) (self : AppleSmartBattery) :
    Option AppleSmartBattery :=
  pollBatteryState fw kExistingBatteryPath (logReadError kErrorOverallTimeoutExpired 0 self)

/-- `setPollingInterval` (lines 331 to 340). -/
def setPollingInterval (milliSeconds : Nat) (self : AppleSmartBattery) : AppleSmartBattery :=
  if !self.fPollingOverridden then
    { self with
      milliSecPollingTable := (milliSeconds, self.milliSecPollingTable.2)
      fPollingInterval := kDefaultPollInterval }
  else self

/-! ### `start` (lines 182 to 295) -/

/-- The settings `start` reads from the provider: the polling period override
("BatteryPollingPeriodOverride"), and the flags selecting the extended and the extra
information methods; `none` when the property is absent or of another class. -/
structure Config where
  debugPollingSetting : Option Nat
  useExtendedInformation : Option Bool
  useExtraInformation : Option Bool
  deriving DecidableEq, Repr

/-- The object as allocated: every member zero, no property, no timer armed, and the
file-level polling table at its initial values (30000 ms and 1000 ms). -/
def zeroedBattery : AppleSmartBattery where
  properties := fun _ => none
  settingsChangedSinceUpdate := false
  registry := fun _ => none
  fPollTimer := none
  fBatteryReadAllTimer := none
  milliSecPollingTable := (30000, 1000)
  trace := []
  fBatterySTA := 0
  fPollingNow := false
  fCancelPolling := false
  fMachinePath := 0
  fPollingInterval := 0
  fPollingOverridden := false
  fUseBatteryExtendedInformation := false
  fUseBatteryExtraInformation := false
  fBatteryPresent := false
  fACConnected := false
  fACChargeCapable := false
  fSystemSleeping := false
  fPowerServiceToAck := none
  fCellVoltages := []
  fInitialPollCountdown := 0
  fPowerUnit := 0
  fDesignVoltage := 0
  fCurrentVoltage := 0
  fDesignCapacity := 0
  fCurrentCapacity := 0
  fBatteryTechnology := 0
  fMaxCapacity := 0
  fCurrentRate := 0
  fAverageRate := 0
  fStatus := 0
  fCycleCount := 0
  fDeviceName := none
  fType := none
  fManufacturer := none
  fSerialNumber := none
  fMaxErr := 0
  fCellVoltage1 := 0
  fCellVoltage2 := 0
  fCellVoltage3 := 0
  fCellVoltage4 := 0
  fManufacturerAccess := 0
  fBatteryMode := 0
  fAtRateTimeToFull := 0
  fAtRateTimeToEmpty := 0
  fTemperature := 0
  fVoltage := 0
  fCurrent := 0
  fAverageCurrent := 0
  fRelativeStateOfCharge := 0
  fAbsoluteStateOfCharge := 0
  fRemainingCapacity := 0
  fRunTimeToEmpty := 0
  fAverageTimeToEmpty := 0
  fAverageTimeToFull := 0
  fManufactureDate := 0
  fManufacturerData := none

/-- `start` with a provider of the right class, a work loop and both timers created:
configure, publish the three waiting periods, clear the battery state without
updating, and run the first poll on the new-battery path. -/
def start (cfg : Config) (fw : Firmware) : Option AppleSmartBattery :=
  let configured : AppleSmartBattery :=
    { zeroedBattery with
      fPollingInterval :=
        match cfg.debugPollingSetting with
        | some seconds => seconds % 4294967296
        | none => kDefaultPollInterval
      fPollingOverridden := cfg.debugPollingSetting.isSome
      fUseBatteryExtendedInformation := cfg.useExtendedInformation.getD false
      fUseBatteryExtraInformation := cfg.useExtraInformation.getD false
      fBatteryPresent := false
      fACConnected := false
      fACChargeCapable := false
      fSystemSleeping := false
      fPowerServiceToAck := none
      fPollingNow := false
      fInitialPollCountdown := kInitialPollCountdown }
  configured
  |> setProperty Key.InvalidWakeSecondsKey (OSValue.number kSecondsUntilValidOnWake)
  |> setProperty Key.PostChargeWaitSecondsKey (OSValue.number kPostChargeWaitSeconds)
  |> setProperty Key.PostDishargeWaitSecondsKey (OSValue.number kPostDischargeWaitSeconds)
  |> clearBatteryState false
  |> pollBatteryState fw kNewBatteryPath

/-! ## Observations and sample inputs -/

/-- The value the power source holds under `key` (the published snapshot). -/
def published (self : AppleSmartBattery) (key : Key) : Option OSValue :=
  self.properties key

/-- A dynamic-status package with its four numeric fields. -/
def bstPackage (status rate capacity voltage : Nat) : List OSObject :=
  [OSObject.number status, OSObject.number rate, OSObject.number capacity,
    OSObject.number voltage]

/-- A battery whose static information was decoded with the energy power unit:
design voltage 10000, normalized design and maximum capacity 5. -/
def wattsBattery : AppleSmartBattery :=
  { zeroedBattery with
    fPowerUnit := WATTS, fDesignVoltage := 10000, fDesignCapacity := 5, fMaxCapacity := 5
    fBatteryPresent := true }

/-- A battery whose static information was decoded with the charge power unit:
maximum capacity 1000, last status word `s`, running average `a`. -/
def ampsBattery (s a : Nat) : AppleSmartBattery :=
  { zeroedBattery with
    fPowerUnit := AMPS, fDesignVoltage := 10800, fDesignCapacity := 1000
    fMaxCapacity := 1000, fStatus := s, fAverageRate := a, fBatteryPresent := true }

/-- Whether a recorded call is `acknowledgeSetPowerState`. -/
def isAcknowledge : Event → Bool
  | Event.acknowledgeSetPowerState _ => true
  | _ => false

/-- The acknowledgments sent so far, in order. -/
abbrev acknowledgments (self : AppleSmartBattery) : List Event :=
  self.trace.filter isAcknowledge

/-- The step from `a` to `b` leaves the pending acknowledgment as it was: the same
retained service (or none) and no further acknowledgment sent. -/
def AckUntouched (a b : AppleSmartBattery) : Prop :=
  b.fPowerServiceToAck = a.fPowerServiceToAck ∧ acknowledgments b = acknowledgments a

/-- The sign handling of the present rate as a function of the raw rate: a raw rate
with bit 15 set is replaced by `0xFFFF - raw` in 32-bit arithmetic. -/
def rateAfterSign (raw : Nat) : Nat :=
  if raw &&& 0x8000 ≠ 0 then sub32 0xFFFF raw else raw

/-- The energy-to-charge conversion of a rate `r` at present voltage `v`: a rate above
the voltage becomes `r * 1000 / v` (the product in 32-bit arithmetic), any other rate
is kept. -/
def rateInAmps (r v : Nat) : Nat :=
  if r > v then mul32 r 1000 / v else r

/-- A legacy static-information package (`_BIF` layout, thirteen fields). -/
def bifPackage (unit design full voltage : Nat) : List OSObject :=
  [OSObject.number unit, OSObject.number design, OSObject.number full, OSObject.number 1,
    OSObject.number voltage, OSObject.number 0, OSObject.number 0, OSObject.number 1,
    OSObject.number 1, OSObject.string "PA5109U", OSObject.string "01F3",
    OSObject.string "LION", OSObject.string "OEM"]

/-- An extended static-information package (`_BIX` layout, twenty fields). -/
def bixPackage (unit design full voltage : Nat) : List OSObject :=
  [OSObject.number 0, OSObject.number unit, OSObject.number design, OSObject.number full,
    OSObject.number 1, OSObject.number voltage, OSObject.number 0, OSObject.number 0,
    OSObject.number 17, OSObject.number 95000, OSObject.number 0, OSObject.number 0,
    OSObject.number 0, OSObject.number 0, OSObject.number 1, OSObject.number 1,
    OSObject.string "PA5109U", OSObject.string "01F3", OSObject.string "LION",
    OSObject.string "OEM"]

/-- A firmware that reports a present battery, a legacy static package in the charge
unit and a discharging status; the extended and the extra method fail. -/
def sampleFirmware : Firmware where
  resultSTA := some 0x1F
  resultBIF := EvalResult.package (bifPackage 1 1000 1000 10800)
  resultBIX := EvalResult.failure
  resultBBIX := EvalResult.failure
  resultBST := EvalResult.package (bstPackage 1 600 1200 12000)

/-- A battery in the state the wake handler is in when it starts its poll: the
power-management service 7 retained as the pending acknowledgment. -/
def pendingBattery : AppleSmartBattery :=
  { ampsBattery 1 600 with fPowerServiceToAck := some 7, trace := [Event.retain 7] }

/-- A battery with a poll in flight, both timers armed and the system awake. -/
def pollingBattery : AppleSmartBattery :=
  { ampsBattery 1 600 with
    fPollingNow := true, fPollTimer := some 30000, fBatteryReadAllTimer := some 10000 }

/-- The date text as the spec words it: the year on four digits, the month and the day
zero-padded to two digits, joined by dashes ("YYYY-MM-DD"). -/
def isoDate (year month day : Nat) : String :=
  String.mk
    [Nat.digitChar (year / 1000 % 10), Nat.digitChar (year / 100 % 10),
      Nat.digitChar (year / 10 % 10), Nat.digitChar (year % 10), Char.ofNat 45,
      Nat.digitChar (month / 10 % 10), Nat.digitChar (month % 10), Char.ofNat 45,
      Nat.digitChar (day / 10 % 10), Nat.digitChar (day % 10)]

/-! ## The work loop

The battery's handlers run one at a time under the work loop of the driver.  An event
is one handler run; the firmware answers that run reads are given with it. -/

/-- The handler runs the work loop can deliver to the battery: the periodic timer
(`pollingTimeOut`), the watchdog (`incompleteReadTimeOut`), the two presence changes
and the plain alarm of `AppleSmartBatteryManager::message` (which calls
`pollBatteryState` with a null argument, path 0), a power transition
(`handleSystemSleepWake`) and a new polling period (`setPollingInterval`). -/
inductive DriverEvent where
  | timerExpiry
  | watchdogExpiry
  | batteryInserted
  | batteryRemoved
  | alarmPoll
  | sleepWake (powerService : Option Nat) (isSystemSleep : Bool)
  | pollingInterval (milliSeconds : Nat)
  deriving DecidableEq, Repr

/-- One handler run. -/
def deliver (fw : Firmware) (e : DriverEvent) (self : AppleSmartBattery) :
    Option AppleSmartBattery :=
  match e with
  | DriverEvent.timerExpiry => pollingTimeOut fw self
  | DriverEvent.watchdogExpiry => incompleteReadTimeOut fw self
  | DriverEvent.batteryInserted => handleBatteryInserted fw self
  | DriverEvent.batteryRemoved => some (handleBatteryRemoved self)
  | DriverEvent.alarmPoll => pollBatteryState fw 0 self
  | DriverEvent.sleepWake powerService isSystemSleep =>
    (handleSystemSleepWake fw powerService isSystemSleep self).map Prod.snd
  | DriverEvent.pollingInterval milliSeconds => some (setPollingInterval milliSeconds self)

/-- A sequence of handler runs, each with the firmware answers it reads. -/
def deliverAll : List (Firmware × DriverEvent) → AppleSmartBattery → Option AppleSmartBattery
  | [], self => some self
  | (fw, e) :: rest, self => (deliver fw e self).bind (deliverAll rest)

/-- The `bool` a call of `pollBatteryState` returns: `true` on every path (line 403). -/
def pollBatteryStateReturn (fw : Firmware) (path : Int) (self : AppleSmartBattery) :
    Option Bool :=
  (pollBatteryState fw path self).map fun _ => true

/-! ## Observations on a poll cycle -/

/-- Whether a recorded call is a firmware evaluation (a transport read). -/
def isEvaluate : Event → Bool
  | Event.evaluateSTA => true
  | Event.evaluateBIF => true
  | Event.evaluateBIX => true
  | Event.evaluateBBIX => true
  | Event.evaluateBST => true
  | _ => false

/-- The transport reads issued so far, in order. -/
abbrev transportReads (self : AppleSmartBattery) : List Event :=
  self.trace.filter isEvaluate

/-- The calls a decoder makes on its collaborators: the error log, the cancellation of
the watchdog and the notification of a changed status. -/
def isDecoderEvent : Event → Bool
  | Event.ioLogError _ _ => true
  | Event.readAllTimerCancel => true
  | Event.batteryStatusHasChanged => true
  | _ => false

/-- The step from `a` to `b` only appends calls to the trace, all of them of the kind
`allowed`. -/
def Emits (allowed : Event → Bool) (a b : AppleSmartBattery) : Prop :=
  ∃ es, b.trace = a.trace ++ es ∧ ∀ e ∈ es, allowed e = true

/-- The step from `a` to `b` leaves the settings of the scheduler as they were: the
boot countdown, the polling override, the selection of the static and of the extra
method, the polling table and the sleeping flag. -/
def SettingsKept (a b : AppleSmartBattery) : Prop :=
  b.fInitialPollCountdown = a.fInitialPollCountdown ∧
  b.fPollingOverridden = a.fPollingOverridden ∧
  b.fUseBatteryExtendedInformation = a.fUseBatteryExtendedInformation ∧
  b.fUseBatteryExtraInformation = a.fUseBatteryExtraInformation ∧
  b.milliSecPollingTable = a.milliSecPollingTable ∧
  b.fSystemSleeping = a.fSystemSleeping

/-- The presence flag a cycle tests after its presence read (lines 369 and 371): the
bit `BATTERY_PRESENT` of the status when `_STA` was evaluated, the flag as it was
before the cycle when the evaluation failed. -/
def presentAfterProbe (fw : Firmware) (self : AppleSmartBattery) : Bool :=
  match fw.resultSTA with
  | some status => decide (status &&& BATTERY_PRESENT ≠ 0)
  | none => self.fBatteryPresent

/-- The answer to the static method can be decoded: the evaluation failed, or it gave a
package whose text fields are readable and whose design voltage is not zero when its
power unit is the energy unit. -/
def staticDecodable (extended : Bool) (fw : Firmware) : Bool :=
  if extended then
    match fw.resultBIX with
    | EvalResult.failure => true
    | EvalResult.notArray => false
    | EvalResult.package fields =>
      bixTextsReadable fields &&
      decide (GetValueFromArray fields BIX_POWER_UNIT = WATTS →
        GetValueFromArray fields BIX_DESIGN_VOLTAGE ≠ 0)
  else
    match fw.resultBIF with
    | EvalResult.failure => true
    | EvalResult.notArray => false
    | EvalResult.package fields =>
      bifTextsReadable fields &&
      decide (GetValueFromArray fields BIF_POWER_UNIT = WATTS →
        GetValueFromArray fields BIF_DESIGN_VOLTAGE ≠ 0)

/-- The power unit the object holds after the static read of a cycle: the one of the
package, or the one it held before when the evaluation failed. -/
def powerUnitAfterStatic (extended : Bool) (fw : Firmware) (self : AppleSmartBattery) : Nat :=
  if extended then
    match fw.resultBIX with
    | EvalResult.package fields => GetValueFromArray fields BIX_POWER_UNIT
    | _ => self.fPowerUnit
  else
    match fw.resultBIF with
    | EvalResult.package fields => GetValueFromArray fields BIF_POWER_UNIT
    | _ => self.fPowerUnit

/-- The answer to the extra method can be decoded: the evaluation failed, or it gave a
package whose manufacturer data is a text or a byte block. -/
def extraDecodable (fw : Firmware) : Bool :=
  match fw.resultBBIX with
  | EvalResult.failure => true
  | EvalResult.notArray => false
  | EvalResult.package fields => (GetDataFromArray fields BBIX_MANUF_DATA).isSome

/-- The answer to the dynamic method can be decoded with power unit `unit`: the
evaluation failed, or it gave a package whose present voltage is not zero when the unit
is the energy unit. -/
def dynamicDecodable (fw : Firmware) (unit : Nat) : Bool :=
  match fw.resultBST with
  | EvalResult.failure => true
  | EvalResult.notArray => false
  | EvalResult.package fields =>
    decide (unit = WATTS → GetValueFromArray fields BST_VOLTAGE ≠ 0)

/-- A cycle that starts in `self` and reads the answers `fw` runs to its end: the
polling table has an entry for the selected interval (or polling is overridden), and
when the battery is found present every answer the cycle reads can be decoded. -/
def cycleDecodable (fw : Firmware) (self : AppleSmartBattery) : Bool :=
  (self.fPollingOverridden || decide (self.fPollingInterval ≤ 1)) &&
  (!presentAfterProbe fw self ||
    (staticDecodable self.fUseBatteryExtendedInformation fw &&
      (!self.fUseBatteryExtraInformation || extraDecodable fw) &&
      dynamicDecodable fw
        (powerUnitAfterStatic self.fUseBatteryExtendedInformation fw self)))

/-- The present rate after the sign handling and the unit normalization (lines 1479 to
1494), as a function of the power unit, the raw rate and the present voltage. -/
def normalizedRate (unit raw voltage : Nat) : Nat :=
  if unit = WATTS then rateInAmps (rateAfterSign raw) voltage else rateAfterSign raw

/-- The fallback of lines 1496 to 1499: a rate of 0 is replaced by half the maximum
capacity. -/
def rateWithFallback (rate maxCapacity : Nat) : Nat :=
  if rate = 0 then maxCapacity / 2 else rate

/-- The attribute keys that `clearBatteryState` removes among the derived attributes of
the decoders: those of the static decoders (design capacity, device name, battery type,
max error, manufacture date, firmware serial number, battery serial number,
manufacturer, manufacturer data, permanent-failure status), those of the extra decoder
other than the two currents (temperature, date of manufacture, run time to empty,
relative and absolute state of charge, remaining capacity) and those of the dynamic
decoder (the four time estimates, the instantaneous amperage, "Quick Poll",
"CellVoltage"). -/
def removedDerivedKeys : List Key :=
  [Key.DesignCapacitySym, Key.DeviceNameSym, Key.TypeSym, Key.MaxErrSym,
    Key.ManufactureDateSym, Key.SerialNumberSym, Key.HardwareSerialSym, Key.manufacturerKey,
    Key.ManufacturerDataSym, Key.PFStatusSym,
    Key.TemperatureSym, Key.DateOfManufacture, Key.RunTimeToEmptySym,
    Key.RelativeStateOfChargeSym, Key.AbsoluteStateOfChargeSym, Key.RemainingCapacitySym,
    Key.AvgTimeToEmptySym, Key.AvgTimeToFullSym, Key.InstantTimeToEmptySym,
    Key.InstantTimeToFullSym, Key.InstantAmperageSym, Key.QuickPollSym, Key.CellVoltageSym]

/-- An extra-information package (`BBIX` layout, sixteen fields) with the present
current and the average current given; the manufacturer data is a block of two bytes. -/
def bbixPackage (current averageCurrent : Nat) : List OSObject :=
  [OSObject.number 0, OSObject.number 0, OSObject.number 0xFFFF, OSObject.number 0xFFFF,
    OSObject.number 2982, OSObject.number 12000, OSObject.number current,
    OSObject.number averageCurrent, OSObject.number 80, OSObject.number 78,
    OSObject.number 3500, OSObject.number 140, OSObject.number 150, OSObject.number 0xFFFF,
    OSObject.number 0x2E21, OSObject.data [1, 2]]

/-- The transport reads of one cycle of the existing-battery path, in order: the
presence read; then, when the battery is found present, the static read of the selected
method, the extra read when it is selected, and the dynamic read. -/
def cycleReads (fw : Firmware) (self : AppleSmartBattery) : List Event :=
  Event.evaluateSTA ::
    (if presentAfterProbe fw self then
      [if self.fUseBatteryExtendedInformation then Event.evaluateBIX else Event.evaluateBIF] ++
        (if self.fUseBatteryExtraInformation then [Event.evaluateBBIX] else []) ++
        [Event.evaluateBST]
    else [])

/-- Lines 357 to 361 of `pollBatteryState`: what the new-battery path does before it
runs the existing-battery path.  It cancels the periodic timer, cancels the watchdog and
arms the watchdog with `kBatteryReadAllTimeout`. -/
def freshPathArm (self : AppleSmartBattery) : AppleSmartBattery :=
  self
  |> pollTimerCancelTimeout
  |> readAllTimerCancelTimeout
  |> readAllTimerSetTimeoutMS kBatteryReadAllTimeout

/-- The configuration of a provider that sets none of the three properties. -/
def defaultConfig : Config where
  debugPollingSetting := none
  useExtendedInformation := none
  useExtraInformation := none

/-- The answers of `sampleFirmware` with a presence read that fails at the transport. -/
def presenceFailsFirmware : Firmware :=
  { sampleFirmware with resultSTA := none }

/-- The answers of `sampleFirmware` with a presence read that reports no battery. -/
def absentFirmware : Firmware :=
  { sampleFirmware with resultSTA := some 0x0F }

/-- The step from `a` to `b` treats the latest-error label as the decoders do: the
dictionary of the power source never holds it, and the registry holds what it held
before or the label of an error a decoder records ("Capacity Read Zero", "Permanent
Battery Failure"). -/
def LatestErrorStep (a b : AppleSmartBattery) : Prop :=
  a.properties Key.LatestErrorType = none →
    b.properties Key.LatestErrorType = none ∧
    (b.registry Key.LatestErrorType = a.registry Key.LatestErrorType ∨
      b.registry Key.LatestErrorType = some (OSValue.symbol kErrorZeroCapacity) ∨
      b.registry Key.LatestErrorType = some (OSValue.symbol kErrorPermanentFailure))

/-! ## The results and the divisions of the decoders -/

/-- The `IOReturn` a call of `setBatteryBIF` returns: `kIOReturnSuccess` on its only
`return` (line 1233). -/
def setBatteryBIFReturn (acpibat_bif : List OSObject) (self : AppleSmartBattery) :
    Option Nat :=
  (setBatteryBIF acpibat_bif self).map fun _ => kIOReturnSuccess

/-- The `IOReturn` a call of `setBatteryBIX` returns: `kIOReturnSuccess` on its only
`return` (line 1310). -/
def setBatteryBIXReturn (acpibat_bix : List OSObject) (self : AppleSmartBattery) :
    Option Nat :=
  (setBatteryBIX acpibat_bix self).map fun _ => kIOReturnSuccess

/-- The divisors of the divisions `setBatteryBIF` executes (lines 1208 to 1211): with the
energy unit, the design voltage for the design capacity and for the maximum capacity. -/
def setBatteryBIFDivisors (acpibat_bif : List OSObject) : List Nat :=
  if GetValueFromArray acpibat_bif BIF_POWER_UNIT = WATTS then
    [GetValueFromArray acpibat_bif BIF_DESIGN_VOLTAGE,
      GetValueFromArray acpibat_bif BIF_DESIGN_VOLTAGE]
  else []

/-- The divisors of the divisions `setBatteryBIX` executes (lines 1285 to 1288). -/
def setBatteryBIXDivisors (acpibat_bix : List OSObject) : List Nat :=
  if GetValueFromArray acpibat_bix BIX_POWER_UNIT = WATTS then
    [GetValueFromArray acpibat_bix BIX_DESIGN_VOLTAGE,
      GetValueFromArray acpibat_bix BIX_DESIGN_VOLTAGE]
  else []

/-- The divisors of the unit conversion of `setBatteryBST` (lines 1486 to 1494), on the
state the conversion is entered with: with the energy unit, the present voltage for the
rate when the rate is above it, and the present voltage for the capacity. -/
def bstConversionDivisors (self : AppleSmartBattery) : List Nat :=
  if self.fPowerUnit = WATTS then
    (if self.fCurrentRate > self.fCurrentVoltage then [self.fCurrentVoltage] else []) ++
      [self.fCurrentVoltage]
  else []

/-- The divisors of the time estimates (lines 1554 to 1562 when discharging, 1582 to
1599 when charging), on the state the classification is entered with: the averaged rate
twice when it is not zero, the current rate when it is not zero.  The two other branches
divide nothing. -/
def bstEstimateDivisors (currentStatus : Nat) (self : AppleSmartBattery) : List Nat :=
  if currentStatus &&& BATTERY_DISCHARGING ≠ 0 ∧ currentStatus &&& BATTERY_CHARGING ≠ 0 then []
  else if currentStatus &&& BATTERY_DISCHARGING ≠ 0 ∨ currentStatus &&& BATTERY_CHARGING ≠ 0 then
    (if self.fAverageRate ≠ 0 then [self.fAverageRate] else []) ++
    (if self.fAverageRate ≠ 0 then [self.fAverageRate] else []) ++
    (if self.fCurrentRate ≠ 0 then [self.fCurrentRate] else [])
  else []

/-- The divisor of the quick-poll test (lines 1631 to 1637), on the state the test is
entered with: the maximum capacity, when the test is made. -/
def bstQuickPollDivisors (self : AppleSmartBattery) : List Nat :=
  if !self.fPollingOverridden ∧ self.fMaxCapacity ≠ 0 then [self.fMaxCapacity] else []

/-- The divisors of the divisions one call of `setBatteryBST` executes, in order, up to
the first one that is zero.  Divisions by a literal constant (by 2 in the fallback and in
the average, by 4 in the cell voltages) are left out. -/
def setBatteryBSTDivisors (acpibat_bst : List OSObject) (self : AppleSmartBattery) :
    List Nat :=
  let currentStatus := GetValueFromArray acpibat_bst BST_STATUS
  let fetched := bstRateSign (bstFetch acpibat_bst self)
  bstConversionDivisors fetched ++
    match bstWattsToAmps fetched with
    | none => []
    | some normalized =>
      let smoothed :=
        normalized |> bstRateFallback |> bstAverageRate |> bstStatusChange currentStatus
      bstEstimateDivisors currentStatus smoothed ++
        bstQuickPollDivisors (bstClassify currentStatus smoothed)

/-- A static-information package (`_BIF` layout) whose power-unit entry is a text, not a
number. -/
def textUnitPackage : List OSObject :=
  [OSObject.string "mW", OSObject.number 80, OSObject.number 70, OSObject.number 1,
    OSObject.number 0, OSObject.number 0, OSObject.number 0, OSObject.number 1,
    OSObject.number 1, OSObject.string "PA5109U", OSObject.string "01F3",
    OSObject.string "LION", OSObject.string "OEM"]

/-- Whether one cycle reaches the dynamic decoder `setBatteryBST`: the battery is found
present and the evaluation of `_BST` succeeds (lines 371 to 381 of `pollBatteryState`,
lines 394 to 417 of the manager). -/
def dynamicDecodeRuns (fw : Firmware) (self : AppleSmartBattery) : Bool :=
  presentAfterProbe fw self &&
    match fw.resultBST with
    | EvalResult.package _ => true
    | _ => false

/-- The answers of `sampleFirmware` with a dynamic-status read that fails at the
transport. -/
def dynamicFailsFirmware : Firmware :=
  { sampleFirmware with resultBST := EvalResult.failure }

/-! ## Lemmas on the steps of the dynamic-status decoder -/

theorem GetValueFromArray_lt (array : List OSObject) (index : Nat) :
    GetValueFromArray array index < 4294967296 := by
  unfold GetValueFromArray
  split
  · exact Nat.mod_lt _ (by norm_num)
  · norm_num

@[simp] theorem updateStatus_properties (b : AppleSmartBattery) :
    (updateStatus b).properties = b.properties := by
  unfold updateStatus; split_ifs <;> rfl

theorem updateStatus_registry (b : AppleSmartBattery) (k : Key) (h : b.properties k = none) :
    (updateStatus b).registry k = b.registry k := by
  unfold updateStatus
  split_ifs
  · show (match b.properties k with | some v => some v | none => b.registry k) = _
    rw [h]
  · rfl

@[simp] theorem bstFetch_frame (p : List OSObject) (b : AppleSmartBattery) :
    (bstFetch p b).registry = b.registry ∧
    (bstFetch p b).fPollingInterval = b.fPollingInterval ∧
    (bstFetch p b).fMaxCapacity = b.fMaxCapacity ∧
    (bstFetch p b).fPollingOverridden = b.fPollingOverridden ∧
    (bstFetch p b).fPowerUnit = b.fPowerUnit ∧
    (bstFetch p b).fAverageRate = b.fAverageRate ∧
    (bstFetch p b).fStatus = b.fStatus ∧
    (bstFetch p b).milliSecPollingTable = b.milliSecPollingTable ∧
    (bstFetch p b).fCurrentRate = GetValueFromArray p BST_RATE ∧
    (bstFetch p b).fCurrentCapacity = GetValueFromArray p BST_CAPACITY ∧
    (bstFetch p b).fCurrentVoltage = GetValueFromArray p BST_VOLTAGE :=
  ⟨rfl, rfl, rfl, rfl, rfl, rfl, rfl, rfl, rfl, rfl, rfl⟩

theorem bstFetch_properties (p : List OSObject) (b : AppleSmartBattery) (k : Key)
    (h1 : k ≠ Key.currentCapacityKey) (h2 : k ≠ Key.voltageKey) :
    (bstFetch p b).properties k = b.properties k := by
  show (if k = Key.voltageKey then _ else if k = Key.currentCapacityKey then _
    else b.properties k) = _
  rw [if_neg h2, if_neg h1]

@[simp] theorem bstRateSign_frame (b : AppleSmartBattery) :
    (bstRateSign b).properties = b.properties ∧
    (bstRateSign b).registry = b.registry ∧
    (bstRateSign b).fPollingInterval = b.fPollingInterval ∧
    (bstRateSign b).fMaxCapacity = b.fMaxCapacity ∧
    (bstRateSign b).fPollingOverridden = b.fPollingOverridden ∧
    (bstRateSign b).fPowerUnit = b.fPowerUnit ∧
    (bstRateSign b).fAverageRate = b.fAverageRate ∧
    (bstRateSign b).fStatus = b.fStatus ∧
    (bstRateSign b).milliSecPollingTable = b.milliSecPollingTable ∧
    (bstRateSign b).fCurrentCapacity = b.fCurrentCapacity ∧
    (bstRateSign b).fCurrentVoltage = b.fCurrentVoltage := by
  unfold bstRateSign; split_ifs <;> exact ⟨rfl, rfl, rfl, rfl, rfl, rfl, rfl, rfl, rfl, rfl, rfl⟩

/-- The unit conversion is defined exactly when the power unit is not the energy unit or
the present voltage is not zero; it changes the rate and the capacity only. -/
theorem bstWattsToAmps_some (b : AppleSmartBattery)
    (h : b.fPowerUnit = WATTS → b.fCurrentVoltage ≠ 0) :
    ∃ r c, bstWattsToAmps b = some { b with fCurrentRate := r, fCurrentCapacity := c } := by
  unfold bstWattsToAmps
  by_cases hp : b.fPowerUnit = WATTS
  · have hv := h hp
    simp only [hp, if_true, div32, if_neg hv]
    split_ifs <;> exact ⟨_, _, rfl⟩
  · rw [if_neg hp]; exact ⟨b.fCurrentRate, b.fCurrentCapacity, rfl⟩

theorem bstWattsToAmps_none (b : AppleSmartBattery)
    (hp : b.fPowerUnit = WATTS) (hv : b.fCurrentVoltage = 0) :
    bstWattsToAmps b = none := by
  unfold bstWattsToAmps
  simp only [hp, if_true, div32, hv]
  split_ifs <;> rfl

@[simp] theorem bstRateFallback_frame (b : AppleSmartBattery) :
    (bstRateFallback b).properties = b.properties ∧
    (bstRateFallback b).registry = b.registry ∧
    (bstRateFallback b).fPollingInterval = b.fPollingInterval ∧
    (bstRateFallback b).fMaxCapacity = b.fMaxCapacity ∧
    (bstRateFallback b).fPollingOverridden = b.fPollingOverridden ∧
    (bstRateFallback b).fPowerUnit = b.fPowerUnit ∧
    (bstRateFallback b).fAverageRate = b.fAverageRate ∧
    (bstRateFallback b).fStatus = b.fStatus ∧
    (bstRateFallback b).milliSecPollingTable = b.milliSecPollingTable ∧
    (bstRateFallback b).fCurrentCapacity = b.fCurrentCapacity ∧
    (bstRateFallback b).fCurrentVoltage = b.fCurrentVoltage := by
  unfold bstRateFallback; split_ifs <;> exact ⟨rfl, rfl, rfl, rfl, rfl, rfl, rfl, rfl, rfl, rfl, rfl⟩

@[simp] theorem bstAverageRate_frame (b : AppleSmartBattery) :
    (bstAverageRate b).properties = b.properties ∧
    (bstAverageRate b).registry = b.registry ∧
    (bstAverageRate b).fPollingInterval = b.fPollingInterval ∧
    (bstAverageRate b).fMaxCapacity = b.fMaxCapacity ∧
    (bstAverageRate b).fPollingOverridden = b.fPollingOverridden ∧
    (bstAverageRate b).fPowerUnit = b.fPowerUnit ∧
    (bstAverageRate b).fCurrentRate = b.fCurrentRate ∧
    (bstAverageRate b).fStatus = b.fStatus ∧
    (bstAverageRate b).milliSecPollingTable = b.milliSecPollingTable ∧
    (bstAverageRate b).fCurrentCapacity = b.fCurrentCapacity ∧
    (bstAverageRate b).fCurrentVoltage = b.fCurrentVoltage := by
  unfold bstAverageRate; split_ifs <;> exact ⟨rfl, rfl, rfl, rfl, rfl, rfl, rfl, rfl, rfl, rfl, rfl⟩

@[simp] theorem bstStatusChange_frame (s : Nat) (b : AppleSmartBattery) :
    (bstStatusChange s b).properties = b.properties ∧
    (bstStatusChange s b).registry = b.registry ∧
    (bstStatusChange s b).fPollingInterval = b.fPollingInterval ∧
    (bstStatusChange s b).fMaxCapacity = b.fMaxCapacity ∧
    (bstStatusChange s b).fPollingOverridden = b.fPollingOverridden ∧
    (bstStatusChange s b).fPowerUnit = b.fPowerUnit ∧
    (bstStatusChange s b).fCurrentRate = b.fCurrentRate ∧
    (bstStatusChange s b).milliSecPollingTable = b.milliSecPollingTable ∧
    (bstStatusChange s b).fCurrentCapacity = b.fCurrentCapacity ∧
    (bstStatusChange s b).fCurrentVoltage = b.fCurrentVoltage := by
  unfold bstStatusChange; split_ifs <;> exact ⟨rfl, rfl, rfl, rfl, rfl, rfl, rfl, rfl, rfl, rfl⟩

@[simp] theorem bstClassify_frame (s : Nat) (b : AppleSmartBattery) :
    (bstClassify s b).fPollingInterval = b.fPollingInterval ∧
    (bstClassify s b).fMaxCapacity = b.fMaxCapacity ∧
    (bstClassify s b).fPollingOverridden = b.fPollingOverridden ∧
    (bstClassify s b).fPowerUnit = b.fPowerUnit ∧
    (bstClassify s b).fCurrentRate = b.fCurrentRate ∧
    (bstClassify s b).fAverageRate = b.fAverageRate ∧
    (bstClassify s b).fStatus = b.fStatus ∧
    (bstClassify s b).milliSecPollingTable = b.milliSecPollingTable ∧
    (bstClassify s b).fCurrentVoltage = b.fCurrentVoltage := by
  unfold bstClassify; split_ifs <;> exact ⟨rfl, rfl, rfl, rfl, rfl, rfl, rfl, rfl, rfl⟩

@[simp] theorem bstQuickPoll_frame (b : AppleSmartBattery) :
    (bstQuickPoll b).properties = b.properties ∧
    (bstQuickPoll b).fMaxCapacity = b.fMaxCapacity ∧
    (bstQuickPoll b).fPollingOverridden = b.fPollingOverridden ∧
    (bstQuickPoll b).fPowerUnit = b.fPowerUnit ∧
    (bstQuickPoll b).fCurrentRate = b.fCurrentRate ∧
    (bstQuickPoll b).fAverageRate = b.fAverageRate ∧
    (bstQuickPoll b).fStatus = b.fStatus ∧
    (bstQuickPoll b).fACConnected = b.fACConnected ∧
    (bstQuickPoll b).milliSecPollingTable = b.milliSecPollingTable ∧
    (bstQuickPoll b).fCurrentCapacity = b.fCurrentCapacity ∧
    (bstQuickPoll b).fCurrentVoltage = b.fCurrentVoltage := by
  unfold bstQuickPoll
  split_ifs <;> exact ⟨rfl, rfl, rfl, rfl, rfl, rfl, rfl, rfl, rfl, rfl, rfl⟩

@[simp] theorem bstCellVoltages_frame (b : AppleSmartBattery) :
    (bstCellVoltages b).properties = b.properties ∧
    (bstCellVoltages b).fMaxCapacity = b.fMaxCapacity ∧
    (bstCellVoltages b).fPollingOverridden = b.fPollingOverridden ∧
    (bstCellVoltages b).fPowerUnit = b.fPowerUnit ∧
    (bstCellVoltages b).fCurrentRate = b.fCurrentRate ∧
    (bstCellVoltages b).fAverageRate = b.fAverageRate ∧
    (bstCellVoltages b).fStatus = b.fStatus ∧
    (bstCellVoltages b).fACConnected = b.fACConnected ∧
    (bstCellVoltages b).fPollingInterval = b.fPollingInterval ∧
    (bstCellVoltages b).milliSecPollingTable = b.milliSecPollingTable ∧
    (bstCellVoltages b).fCurrentCapacity = b.fCurrentCapacity ∧
    (bstCellVoltages b).fCurrentVoltage = b.fCurrentVoltage :=
  ⟨rfl, rfl, rfl, rfl, rfl, rfl, rfl, rfl, rfl, rfl, rfl, rfl⟩

@[simp] theorem bstFinish_frame (b : AppleSmartBattery) :
    (bstFinish b).fMaxCapacity = b.fMaxCapacity ∧
    (bstFinish b).fPollingOverridden = b.fPollingOverridden ∧
    (bstFinish b).fPowerUnit = b.fPowerUnit ∧
    (bstFinish b).fCurrentRate = b.fCurrentRate ∧
    (bstFinish b).fAverageRate = b.fAverageRate ∧
    (bstFinish b).fStatus = b.fStatus ∧
    (bstFinish b).fACConnected = b.fACConnected ∧
    (bstFinish b).fPollingInterval = b.fPollingInterval ∧
    (bstFinish b).milliSecPollingTable = b.milliSecPollingTable ∧
    (bstFinish b).fCurrentCapacity = b.fCurrentCapacity ∧
    (bstFinish b).fCurrentVoltage = b.fCurrentVoltage ∧
    (bstFinish b).fCellVoltage1 = b.fCellVoltage1 ∧
    (bstFinish b).fCellVoltage2 = b.fCellVoltage2 ∧
    (bstFinish b).fCellVoltage3 = b.fCellVoltage3 ∧
    (bstFinish b).fCellVoltage4 = b.fCellVoltage4 ∧
    (bstFinish b).fCellVoltages = b.fCellVoltages := by
  unfold bstFinish updateStatus
  split_ifs <;>
    exact ⟨rfl, rfl, rfl, rfl, rfl, rfl, rfl, rfl, rfl, rfl, rfl, rfl, rfl, rfl, rfl, rfl⟩

theorem bstFinish_properties (b : AppleSmartBattery) (k : Key)
    (h1 : k ≠ Key.HardwareSerialSym) (h2 : k ≠ Key.batteryInfoKey) :
    (bstFinish b).properties k = b.properties k := by
  unfold bstFinish
  rw [updateStatus_properties]
  show (if k = Key.batteryInfoKey then _ else if k = Key.HardwareSerialSym then _
    else b.properties k) = _
  rw [if_neg h2, if_neg h1]

theorem bstFinish_registry (b : AppleSmartBattery) (k : Key)
    (h1 : k ≠ Key.HardwareSerialSym) (h2 : k ≠ Key.batteryInfoKey)
    (h : b.properties k = none) :
    (bstFinish b).registry k = b.registry k := by
  unfold bstFinish
  rw [updateStatus_registry]
  · rfl
  · show (if k = Key.batteryInfoKey then _ else if k = Key.HardwareSerialSym then _
      else b.properties k) = _
    rw [if_neg h2, if_neg h1, h]

/-- The decoder, once the unit conversion is defined: the remaining steps in order. -/
theorem setBatteryBST_of_normalized (p : List OSObject) (b n : AppleSmartBattery)
    (h : bstWattsToAmps (bstRateSign (bstFetch p b)) = some n) :
    setBatteryBST p b =
      some (bstFinish (bstCellVoltages (bstQuickPoll
        (bstClassify (GetValueFromArray p BST_STATUS)
          (bstStatusChange (GetValueFromArray p BST_STATUS)
            (bstAverageRate (bstRateFallback n))))))) := by
  unfold setBatteryBST
  simp only [h]

/-- The decoder has no defined result with the energy unit and a zero voltage. -/
theorem setBatteryBST_none (p : List OSObject) (b : AppleSmartBattery)
    (hp : b.fPowerUnit = WATTS) (hv : GetValueFromArray p BST_VOLTAGE = 0) :
    setBatteryBST p b = none := by
  unfold setBatteryBST
  rw [bstWattsToAmps_none _ (by simpa using hp) (by simpa using hv)]

/-- The decoder is defined whenever the power unit is not the energy unit or the present
voltage is not zero.  Its result is then the remaining steps applied to the converted
state `n`, which differs from the fetched state in rate and capacity only. -/
theorem setBatteryBST_some (p : List OSObject) (b : AppleSmartBattery)
    (h : b.fPowerUnit = WATTS → GetValueFromArray p BST_VOLTAGE ≠ 0) :
    ∃ n,
      bstWattsToAmps (bstRateSign (bstFetch p b)) = some n ∧
      setBatteryBST p b =
        some (bstFinish (bstCellVoltages (bstQuickPoll
          (bstClassify (GetValueFromArray p BST_STATUS)
            (bstStatusChange (GetValueFromArray p BST_STATUS)
              (bstAverageRate (bstRateFallback n))))))) ∧
      n.properties = (bstFetch p b).properties ∧
      n.registry = b.registry ∧
      n.fPollingInterval = b.fPollingInterval ∧
      n.fMaxCapacity = b.fMaxCapacity ∧
      n.fPollingOverridden = b.fPollingOverridden ∧
      n.fPowerUnit = b.fPowerUnit ∧
      n.fAverageRate = b.fAverageRate ∧
      n.fStatus = b.fStatus ∧
      n.milliSecPollingTable = b.milliSecPollingTable ∧
      n.fCurrentVoltage = GetValueFromArray p BST_VOLTAGE := by
  obtain ⟨r, c, hrc⟩ := bstWattsToAmps_some (bstRateSign (bstFetch p b))
    (by simpa using h)
  refine ⟨_, hrc, setBatteryBST_of_normalized p b _ hrc, ?_⟩
  simp

/-- The classification stores nothing in the dictionary under the three keys that only
`setProperty` writes. -/
theorem bstClassify_properties_registryKeys (s : Nat) (b : AppleSmartBattery) :
    (bstClassify s b).properties Key.CellVoltageSym = b.properties Key.CellVoltageSym ∧
    (bstClassify s b).properties Key.QuickPollSym = b.properties Key.QuickPollSym ∧
    (bstClassify s b).properties Key.LatestErrorType = b.properties Key.LatestErrorType := by
  unfold bstClassify; split_ifs <;> exact ⟨rfl, rfl, rfl⟩

theorem bstCellVoltages_cells (b : AppleSmartBattery) :
    (bstCellVoltages b).fCellVoltage1 = b.fCurrentVoltage / 4 ∧
    (bstCellVoltages b).fCellVoltage2 = b.fCurrentVoltage / 4 ∧
    (bstCellVoltages b).fCellVoltage3 = b.fCurrentVoltage / 4 ∧
    (bstCellVoltages b).fCellVoltage4 =
      sub32 (sub32 (sub32 b.fCurrentVoltage (b.fCurrentVoltage / 4)) (b.fCurrentVoltage / 4))
        (b.fCurrentVoltage / 4) ∧
    (bstCellVoltages b).fCellVoltages =
      [b.fCurrentVoltage / 4 % 4294967296, b.fCurrentVoltage / 4 % 4294967296,
        b.fCurrentVoltage / 4 % 4294967296,
        sub32 (sub32 (sub32 b.fCurrentVoltage (b.fCurrentVoltage / 4))
          (b.fCurrentVoltage / 4)) (b.fCurrentVoltage / 4) % 4294967296] ∧
    (bstCellVoltages b).registry Key.CellVoltageSym =
      some (OSValue.array (bstCellVoltages b).fCellVoltages) :=
  ⟨rfl, rfl, rfl, rfl, rfl, rfl⟩

theorem cellVoltages_arith (v : Nat) (hv : v < 4294967296) :
    sub32 (sub32 (sub32 v (v / 4)) (v / 4)) (v / 4) = v - v / 4 - v / 4 - v / 4 ∧
    v / 4 + v / 4 + v / 4 ≤ v ∧
    v / 4 + v / 4 + v / 4 + (v - v / 4 - v / 4 - v / 4) = v ∧
    v / 4 % 4294967296 = v / 4 ∧
    (v - v / 4 - v / 4 - v / 4) % 4294967296 = v - v / 4 - v / 4 - v / 4 := by
  unfold sub32
  omega

/-- C1 (code defect).  With the energy power unit and a present voltage of 0 the decoder
divides by the voltage (lines 1490 and 1491) before it reaches the cell voltages, so it
produces none (first part).  For every other input it produces the four cell voltages
of the claim: three cells of `v / 4`, a fourth of `v - v/4 - v/4 - v/4` computed without
wrap-around, and a sum of exactly `v`, in the members and in the published array. -/
theorem C1_cell_voltages :
    setBatteryBST (bstPackage 1 600 1200 0) wattsBattery = none ∧
    ∀ (acpibat_bst : List OSObject) (self : AppleSmartBattery),
      (self.fPowerUnit = WATTS → GetValueFromArray acpibat_bst BST_VOLTAGE ≠ 0) →
      ∃ b, setBatteryBST acpibat_bst self = some b ∧
        b.fCellVoltage1 = GetValueFromArray acpibat_bst BST_VOLTAGE / 4 ∧
        b.fCellVoltage2 = GetValueFromArray acpibat_bst BST_VOLTAGE / 4 ∧
        b.fCellVoltage3 = GetValueFromArray acpibat_bst BST_VOLTAGE / 4 ∧
        b.fCellVoltage4 =
          GetValueFromArray acpibat_bst BST_VOLTAGE - b.fCellVoltage1 - b.fCellVoltage2
            - b.fCellVoltage3 ∧
        b.fCellVoltage1 + b.fCellVoltage2 + b.fCellVoltage3 ≤
          GetValueFromArray acpibat_bst BST_VOLTAGE ∧
        b.fCellVoltage1 + b.fCellVoltage2 + b.fCellVoltage3 + b.fCellVoltage4 =
          GetValueFromArray acpibat_bst BST_VOLTAGE ∧
        b.fCellVoltages =
          [b.fCellVoltage1, b.fCellVoltage2, b.fCellVoltage3, b.fCellVoltage4] ∧
        (self.properties Key.CellVoltageSym = none →
          b.registry Key.CellVoltageSym = some (OSValue.array b.fCellVoltages)) := by
  refine ⟨rfl, ?_⟩
  intro p self hdef
  obtain ⟨n, -, hb, hprops, -, -, -, -, -, -, -, -, hvolt⟩ := setBatteryBST_some p self hdef
  refine ⟨_, hb, ?_⟩
  have hv := GetValueFromArray_lt p BST_VOLTAGE
  obtain ⟨h4, hle, hsum, hm1, hm4⟩ := cellVoltages_arith _ hv
  obtain ⟨c1, c2, c3, c4, cl, creg⟩ := bstCellVoltages_cells (bstQuickPoll
        (bstClassify (GetValueFromArray p BST_STATUS)
          (bstStatusChange (GetValueFromArray p BST_STATUS)
            (bstAverageRate (bstRateFallback n)))))
  simp only [bstQuickPoll_frame, bstClassify_frame, bstStatusChange_frame,
    bstAverageRate_frame, bstRateFallback_frame, hvolt] at c1 c2 c3 c4 cl
  simp only [bstFinish_frame, c1, c2, c3, c4, cl, h4, hm1, hm4]
  refine ⟨trivial, trivial, trivial, trivial, hle, hsum, trivial, ?_⟩
  intro hnone
  rw [bstFinish_registry _ _ (by decide) (by decide), creg, cl, h4, hm1, hm4]
  simp only [bstCellVoltages_frame, bstQuickPoll_frame,
    (bstClassify_properties_registryKeys _ _).1, bstStatusChange_frame,
    bstAverageRate_frame, bstRateFallback_frame, hprops]
  rw [bstFetch_properties _ _ _ (by decide) (by decide), hnone]

theorem bstQuickPoll_registry (b : AppleSmartBattery) (k : Key) (h : k ≠ Key.QuickPollSym) :
    (bstQuickPoll b).registry k = b.registry k := by
  unfold bstQuickPoll
  split_ifs
  · show (if k = Key.QuickPollSym then _ else b.registry k) = _
    rw [if_neg h]
  · show (if k = Key.QuickPollSym then _ else b.registry k) = _
    rw [if_neg h]
  · rfl

theorem bstCellVoltages_registry (b : AppleSmartBattery) (k : Key)
    (h1 : k ≠ Key.CellVoltageSym) (h2 : k ≠ Key.TemperatureSym) :
    (bstCellVoltages b).registry k = b.registry k := by
  show (if k = Key.TemperatureSym then _ else if k = Key.CellVoltageSym then _
    else b.registry k) = _
  rw [if_neg h2, if_neg h1]

theorem bstClassify_both (s : Nat) (b : AppleSmartBattery)
    (h1 : s &&& BATTERY_DISCHARGING ≠ 0) (h2 : s &&& BATTERY_CHARGING ≠ 0) :
    bstClassify s b = bstBothBits b := by
  unfold bstClassify
  rw [if_pos ⟨h1, h2⟩]

theorem bstClassify_discharging (s : Nat) (b : AppleSmartBattery)
    (h1 : s &&& BATTERY_DISCHARGING ≠ 0) (h2 : s &&& BATTERY_CHARGING = 0) :
    bstClassify s b = bstDischarging b := by
  unfold bstClassify
  rw [if_neg (fun h => h.2 h2), if_pos h1]

theorem bstClassify_charging (s : Nat) (b : AppleSmartBattery)
    (h1 : s &&& BATTERY_DISCHARGING = 0) (h2 : s &&& BATTERY_CHARGING ≠ 0) :
    bstClassify s b = bstCharging b := by
  unfold bstClassify
  rw [if_neg (fun h => h.1 h1), if_neg (fun h => h h1), if_pos h2]

theorem bstClassify_charged (s : Nat) (b : AppleSmartBattery)
    (h1 : s &&& BATTERY_DISCHARGING = 0) (h2 : s &&& BATTERY_CHARGING = 0) :
    bstClassify s b = bstCharged b := by
  unfold bstClassify
  rw [if_neg (fun h => h.1 h1), if_neg (fun h => h h1), if_neg (fun h => h h2)]

/-- What the decoder leaves in the dictionary under a key that the closing steps do not
write is what the classification left there. -/
theorem setBatteryBST_published (s : Nat) (x : AppleSmartBattery) (k : Key)
    (h1 : k ≠ Key.HardwareSerialSym) (h2 : k ≠ Key.batteryInfoKey) :
    published (bstFinish (bstCellVoltages (bstQuickPoll (bstClassify s x)))) k =
      (bstClassify s x).properties k := by
  unfold published
  rw [bstFinish_properties _ _ h1 h2, (bstCellVoltages_frame _).1, (bstQuickPoll_frame _).1]

/-- C2 (code defect).  With the energy power unit and a present voltage of 0 the decoder
divides by the voltage before the classification, so a status word with both bits set
publishes nothing (first part).  For every other package with both bits set, whatever
the rate, the capacity and the previous state, the decoder publishes the snapshot of the
claim and records "Permanent Battery Failure" as the error condition and, in the
registry, as the latest error. -/
theorem C2_both_bits_snapshot :
    setBatteryBST (bstPackage 3 600 1200 0) wattsBattery = none ∧
    ∀ (acpibat_bst : List OSObject) (self : AppleSmartBattery),
      GetValueFromArray acpibat_bst BST_STATUS &&& BATTERY_DISCHARGING ≠ 0 →
      GetValueFromArray acpibat_bst BST_STATUS &&& BATTERY_CHARGING ≠ 0 →
      (self.fPowerUnit = WATTS → GetValueFromArray acpibat_bst BST_VOLTAGE ≠ 0) →
      ∃ b, setBatteryBST acpibat_bst self = some b ∧
        published b Key.FullyChargedSym = some (OSValue.boolean false) ∧
        published b Key.chargingKey = some (OSValue.boolean false) ∧
        published b Key.externalConnectedKey = some (OSValue.boolean true) ∧
        published b Key.externalChargeCapableKey = some (OSValue.boolean false) ∧
        published b Key.amperageKey = some (OSValue.number 0) ∧
        published b Key.InstantAmperageSym = some (OSValue.number 0) ∧
        published b Key.timeRemainingKey = some (OSValue.number 0) ∧
        published b Key.AvgTimeToEmptySym = some (OSValue.number 0) ∧
        published b Key.AvgTimeToFullSym = some (OSValue.number 0) ∧
        published b Key.InstantTimeToEmptySym = some (OSValue.number 0) ∧
        published b Key.InstantTimeToFullSym = some (OSValue.number 0) ∧
        published b Key.errorConditionKey = some (OSValue.symbol "Permanent Battery Failure") ∧
        (self.properties Key.LatestErrorType = none →
          b.registry Key.LatestErrorType =
            some (OSValue.symbol "Permanent Battery Failure")) := by
  refine ⟨rfl, ?_⟩
  intro p self hd hc hdef
  obtain ⟨n, -, hb, hprops, -⟩ := setBatteryBST_some p self hdef
  refine ⟨_, hb, ?_⟩
  have hk : ∀ k, k ≠ Key.HardwareSerialSym → k ≠ Key.batteryInfoKey →
      published (bstFinish (bstCellVoltages (bstQuickPoll
        (bstClassify (GetValueFromArray p BST_STATUS)
          (bstStatusChange (GetValueFromArray p BST_STATUS)
            (bstAverageRate (bstRateFallback n))))))) k =
      (bstBothBits (bstStatusChange (GetValueFromArray p BST_STATUS)
            (bstAverageRate (bstRateFallback n)))).properties k := by
    intro k h1 h2
    rw [setBatteryBST_published _ _ _ h1 h2, bstClassify_both _ _ hd hc]
  rw [hk Key.FullyChargedSym (by decide) (by decide),
    hk Key.chargingKey (by decide) (by decide),
    hk Key.externalConnectedKey (by decide) (by decide),
    hk Key.externalChargeCapableKey (by decide) (by decide),
    hk Key.amperageKey (by decide) (by decide),
    hk Key.InstantAmperageSym (by decide) (by decide),
    hk Key.timeRemainingKey (by decide) (by decide),
    hk Key.AvgTimeToEmptySym (by decide) (by decide),
    hk Key.AvgTimeToFullSym (by decide) (by decide),
    hk Key.InstantTimeToEmptySym (by decide) (by decide),
    hk Key.InstantTimeToFullSym (by decide) (by decide),
    hk Key.errorConditionKey (by decide) (by decide)]
  refine ⟨rfl, rfl, rfl, rfl, rfl, rfl, rfl, rfl, rfl, rfl, rfl, rfl, ?_⟩
  intro hnone
  rw [bstFinish_registry _ _ (by decide) (by decide),
    bstCellVoltages_registry _ _ (by decide) (by decide),
    bstQuickPoll_registry _ _ (by decide), bstClassify_both _ _ hd hc]
  · rfl
  · rw [(bstCellVoltages_frame _).1, (bstQuickPoll_frame _).1,
      (bstClassify_properties_registryKeys _ _).2.2]
    simp only [bstStatusChange_frame, bstAverageRate_frame, bstRateFallback_frame, hprops]
    rw [bstFetch_properties _ _ _ (by decide) (by decide), hnone]

theorem toSInt32_nonneg_iff (n : Nat) :
    0 ≤ toSInt32 n ↔ n % 4294967296 < 2147483648 := by
  unfold toSInt32
  split_ifs with h <;> constructor <;> intro _ <;> omega

/-- C3 fails as stated: a charging status word (2) that repeats the stored one, with a
present rate of 98304 (`0x18000`, bit 15 set) and no running average, publishes
`isCharging = true` together with a negative amperage: the rate becomes
`0xFFFF - 0x18000` modulo 2^32, the average takes that value, and the `int` the snapshot
holds is -32769. -/
theorem C3_counterexample :
    ∃ b, setBatteryBST (bstPackage 2 98304 500 12000) (ampsBattery 2 0) = some b ∧
      isCharging b = true ∧ amperage b = -32769 ∧ ¬ (0 ≤ amperage b) := by
  refine ⟨_, rfl, rfl, rfl, ?_⟩
  decide

/-- C3 (amended).  For every status word the decoder decodes, `isCharging` is published
true exactly when the charging bit is set and the discharging bit is clear; whenever it
is true the snapshot shows external power connected and an amperage that is the
averaged rate itself (not its negation, the discharging output), and that amperage,
read as a signed 32-bit value, is non-negative exactly when the averaged rate is below
2^31. -/
theorem C3_charging_exclusive (acpibat_bst : List OSObject) (self : AppleSmartBattery)
    (hdef : self.fPowerUnit = WATTS → GetValueFromArray acpibat_bst BST_VOLTAGE ≠ 0) :
    ∃ b, setBatteryBST acpibat_bst self = some b ∧
      (isCharging b = true ↔
        (GetValueFromArray acpibat_bst BST_STATUS &&& BATTERY_CHARGING ≠ 0 ∧
          GetValueFromArray acpibat_bst BST_STATUS &&& BATTERY_DISCHARGING = 0)) ∧
      (isCharging b = true →
        externalConnected b = true ∧
        published b Key.amperageKey = some (OSValue.number (b.fAverageRate % 4294967296)) ∧
        amperage b = toSInt32 b.fAverageRate ∧
        (0 ≤ amperage b ↔ b.fAverageRate % 4294967296 < 2147483648)) := by
  obtain ⟨n, -, hb, -⟩ := setBatteryBST_some acpibat_bst self hdef
  refine ⟨_, hb, ?_⟩
  generalize GetValueFromArray acpibat_bst BST_STATUS = s
  generalize bstStatusChange s (bstAverageRate (bstRateFallback n)) = x
  have hk : ∀ k, k ≠ Key.HardwareSerialSym → k ≠ Key.batteryInfoKey →
      (bstFinish (bstCellVoltages (bstQuickPoll (bstClassify s x)))).properties k =
      (bstClassify s x).properties k := setBatteryBST_published s x
  have hchg := hk Key.chargingKey (by decide) (by decide)
  have hext := hk Key.externalConnectedKey (by decide) (by decide)
  have hamp := hk Key.amperageKey (by decide) (by decide)
  have havg : (bstFinish (bstCellVoltages (bstQuickPoll (bstClassify s x)))).fAverageRate
      = x.fAverageRate := by simp
  unfold isCharging externalConnected amperage published PropertyTable.getNumber
  rw [hchg, hext, hamp, havg]
  by_cases hd : s &&& BATTERY_DISCHARGING ≠ 0
  · by_cases hc : s &&& BATTERY_CHARGING ≠ 0
    · rw [bstClassify_both s x hd hc]
      have h1 : (bstBothBits x).properties Key.chargingKey = some (OSValue.boolean false) := rfl
      rw [h1]
      simp [hd]
    · rw [bstClassify_discharging s x hd (by simpa using hc)]
      have h1 : (bstDischarging x).properties Key.chargingKey = some (OSValue.boolean false) :=
        rfl
      rw [h1]
      simp [hd]
  · have hd0 : s &&& BATTERY_DISCHARGING = 0 := by simpa using hd
    by_cases hc : s &&& BATTERY_CHARGING ≠ 0
    · rw [bstClassify_charging s x hd0 hc]
      have h1 : (bstCharging x).properties Key.chargingKey = some (OSValue.boolean true) := rfl
      have h2 : (bstCharging x).properties Key.externalConnectedKey =
          some (OSValue.boolean true) := rfl
      have h3 : (bstCharging x).properties Key.amperageKey =
          some (OSValue.number (x.fAverageRate % 4294967296)) := rfl
      rw [h1, h2, h3]
      have h4 : toSInt32 (x.fAverageRate % 4294967296) = toSInt32 x.fAverageRate := by
        unfold toSInt32; simp
      simp [hd0, hc, h4, toSInt32_nonneg_iff]
    · rw [bstClassify_charged s x hd0 (by simpa using hc)]
      have h1 : (bstCharged x).properties Key.chargingKey = some (OSValue.boolean false) := rfl
      rw [h1]
      simp [hc]

/-- The amended C3 at a concrete input: the charge unit, a charging status word that
repeats the stored one, a rate of 1500 and a running average of 500. -/
theorem C3_charging_exclusive_witness :
    ∃ b, setBatteryBST (bstPackage 2 1500 500 12000) (ampsBattery 2 500) = some b ∧
      (isCharging b = true ↔
        (GetValueFromArray (bstPackage 2 1500 500 12000) BST_STATUS &&& BATTERY_CHARGING ≠ 0 ∧
          GetValueFromArray (bstPackage 2 1500 500 12000) BST_STATUS
            &&& BATTERY_DISCHARGING = 0)) ∧
      (isCharging b = true →
        externalConnected b = true ∧
        published b Key.amperageKey = some (OSValue.number (b.fAverageRate % 4294967296)) ∧
        amperage b = toSInt32 b.fAverageRate ∧
        (0 ≤ amperage b ↔ b.fAverageRate % 4294967296 < 2147483648)) :=
  C3_charging_exclusive (bstPackage 2 1500 500 12000) (ampsBattery 2 500) (by decide)

theorem timeEstimate_arith (k c a : Nat) (h : k * c < 4294967296) :
    (if a ≠ 0 then mul32 k c / a else 0xffff) % 4294967296 =
      (if a ≠ 0 then k * c / a else 0xFFFF) := by
  unfold mul32
  rw [Nat.mod_eq_of_lt h]
  split_ifs
  · exact Nat.mod_eq_of_lt (lt_of_le_of_lt (Nat.div_le_self _ _) h)
  · rfl

/-- C4.  For every decode classified as Discharging (discharging bit set, charging bit
clear), with `c` the normalized current capacity and `a` the averaged rate as the
smoothing step leaves it (lines 1501 to 1513: the averaging and the reset on a change
of status; both members are what the decode leaves in the object), and `60 * c` below
2^32: the published time remaining and average time-to-empty are `60 * c / a` when `a`
is not 0 and `0xFFFF` when it is; both time-to-full fields are `0xFFFF`. -/
theorem C4_discharging_time_remaining (acpibat_bst : List OSObject)
    (self : AppleSmartBattery)
    (hdef : self.fPowerUnit = WATTS → GetValueFromArray acpibat_bst BST_VOLTAGE ≠ 0)
    (hd : GetValueFromArray acpibat_bst BST_STATUS &&& BATTERY_DISCHARGING ≠ 0)
    (hc : GetValueFromArray acpibat_bst BST_STATUS &&& BATTERY_CHARGING = 0) :
    ∃ b, setBatteryBST acpibat_bst self = some b ∧
      (60 * b.fCurrentCapacity < 4294967296 →
        published b Key.timeRemainingKey =
          some (OSValue.number
            (if b.fAverageRate ≠ 0 then 60 * b.fCurrentCapacity / b.fAverageRate
              else 0xFFFF)) ∧
        published b Key.AvgTimeToEmptySym =
          some (OSValue.number
            (if b.fAverageRate ≠ 0 then 60 * b.fCurrentCapacity / b.fAverageRate
              else 0xFFFF))) ∧
      published b Key.AvgTimeToFullSym = some (OSValue.number 0xFFFF) ∧
      published b Key.InstantTimeToFullSym = some (OSValue.number 0xFFFF) := by
  obtain ⟨n, -, hb, -⟩ := setBatteryBST_some acpibat_bst self hdef
  refine ⟨_, hb, ?_⟩
  generalize GetValueFromArray acpibat_bst BST_STATUS = s at hd hc ⊢
  generalize bstStatusChange s (bstAverageRate (bstRateFallback n)) = x
  rw [setBatteryBST_published s x _ (by decide) (by decide),
    setBatteryBST_published s x _ (by decide) (by decide),
    setBatteryBST_published s x _ (by decide) (by decide),
    setBatteryBST_published s x _ (by decide) (by decide)]
  have hcap : (bstFinish (bstCellVoltages (bstQuickPoll (bstClassify s x)))).fCurrentCapacity
      = x.fCurrentCapacity := by
    simp only [bstFinish_frame, bstCellVoltages_frame, bstQuickPoll_frame]
    rw [bstClassify_discharging s x hd hc]; rfl
  have havg : (bstFinish (bstCellVoltages (bstQuickPoll (bstClassify s x)))).fAverageRate
      = x.fAverageRate := by simp
  rw [hcap, havg, bstClassify_discharging s x hd hc]
  refine ⟨?_, rfl, rfl⟩
  intro h60
  have ht : (bstDischarging x).properties Key.timeRemainingKey =
      some (OSValue.number
        ((if x.fAverageRate ≠ 0 then mul32 60 x.fCurrentCapacity / x.fAverageRate
          else 0xffff) % 4294967296)) := rfl
  have he : (bstDischarging x).properties Key.AvgTimeToEmptySym =
      some (OSValue.number
        ((if x.fAverageRate ≠ 0 then mul32 60 x.fCurrentCapacity / x.fAverageRate
          else 0xffff) % 4294967296)) := rfl
  rw [ht, he, timeEstimate_arith 60 _ _ h60]
  exact ⟨rfl, rfl⟩

/-- C4 at the two inputs of the claim.  Capacity 1200 and averaged rate 600 give a time
remaining of 120; a status word that differs from the stored one zeroes the averaged
rate and gives the sentinel `0xFFFF`. -/
theorem C4_discharging_time_remaining_witness :
    (∃ b, setBatteryBST (bstPackage 1 600 1200 12000) (ampsBattery 1 600) = some b ∧
      b.fCurrentCapacity = 1200 ∧ b.fAverageRate = 600 ∧
      published b Key.timeRemainingKey = some (OSValue.number 120) ∧
      published b Key.AvgTimeToEmptySym = some (OSValue.number 120) ∧
      published b Key.AvgTimeToFullSym = some (OSValue.number 0xFFFF) ∧
      published b Key.InstantTimeToFullSym = some (OSValue.number 0xFFFF)) ∧
    (∃ b, setBatteryBST (bstPackage 1 600 1200 12000) (ampsBattery 0 600) = some b ∧
      b.fCurrentCapacity = 1200 ∧ b.fAverageRate = 0 ∧
      published b Key.timeRemainingKey = some (OSValue.number 0xFFFF) ∧
      published b Key.AvgTimeToEmptySym = some (OSValue.number 0xFFFF)) := by
  constructor
  · obtain ⟨b, hb, hgen, hf1, hf2⟩ :=
      C4_discharging_time_remaining (bstPackage 1 600 1200 12000) (ampsBattery 1 600)
        (by decide) (by decide) (by decide)
    have hc : (setBatteryBST (bstPackage 1 600 1200 12000) (ampsBattery 1 600)).map
        (fun b => (b.fCurrentCapacity, b.fAverageRate)) = some (1200, 600) := rfl
    rw [hb] at hc
    simp only [Option.map_some', Option.some.injEq, Prod.mk.injEq] at hc
    obtain ⟨hcap, havg⟩ := hc
    rw [hcap, havg] at hgen
    exact ⟨b, hb, hcap, havg, (hgen (by norm_num)).1, (hgen (by norm_num)).2, hf1, hf2⟩
  · obtain ⟨b, hb, hgen, -, -⟩ :=
      C4_discharging_time_remaining (bstPackage 1 600 1200 12000) (ampsBattery 0 600)
        (by decide) (by decide) (by decide)
    have hc : (setBatteryBST (bstPackage 1 600 1200 12000) (ampsBattery 0 600)).map
        (fun b => (b.fCurrentCapacity, b.fAverageRate)) = some (1200, 0) := rfl
    rw [hb] at hc
    simp only [Option.map_some', Option.some.injEq, Prod.mk.injEq] at hc
    obtain ⟨hcap, havg⟩ := hc
    rw [hcap, havg] at hgen
    exact ⟨b, hb, hcap, havg, (hgen (by norm_num)).1, (hgen (by norm_num)).2⟩

theorem bstQuickPoll_decides (b : AppleSmartBattery)
    (hov : b.fPollingOverridden = false) (hm : b.fMaxCapacity ≠ 0) :
    (bstQuickPoll b).fPollingInterval =
      (if mul32 100 b.fCurrentCapacity / b.fMaxCapacity < 5 ∧ b.fACConnected = true
        then kQuickPollInterval else kDefaultPollInterval) ∧
    (bstQuickPoll b).registry Key.QuickPollSym =
      some (OSValue.boolean
        (decide (mul32 100 b.fCurrentCapacity / b.fMaxCapacity < 5 ∧ b.fACConnected = true))) := by
  unfold bstQuickPoll
  have h1 : ((!b.fPollingOverridden) = true ∧ b.fMaxCapacity ≠ 0) := by
    rw [hov]; exact ⟨rfl, hm⟩
  rw [if_pos h1]
  split_ifs with h2
  · exact ⟨rfl, by rw [decide_eq_true h2]; rfl⟩
  · exact ⟨rfl, by rw [decide_eq_false h2]; rfl⟩

theorem bstClassify_registry (s : Nat) (b : AppleSmartBattery) (k : Key)
    (h : k ≠ Key.LatestErrorType) :
    (bstClassify s b).registry k = b.registry k := by
  unfold bstClassify
  split_ifs
  · show (if k = Key.LatestErrorType then _ else b.registry k) = _
    rw [if_neg h]
  · rfl
  · rfl
  · rfl

theorem bstQuickPoll_skips (b : AppleSmartBattery)
    (h : b.fPollingOverridden = true ∨ b.fMaxCapacity = 0) :
    bstQuickPoll b = b := by
  unfold bstQuickPoll
  rw [if_neg]
  rintro ⟨h1, h2⟩
  rcases h with h | h
  · rw [h] at h1; exact absurd h1 (by decide)
  · exact h2 h

/-- C5.  For every decode: with no polling override and a non-zero maximum capacity
`m`, `c` the current capacity the classification leaves and `100 * c` below 2^32, the
interval selected is the quick-poll one (index 1 of the polling table), with "Quick Poll"
published true, exactly when `100 * c / m < 5` and external power is connected, and the
default one (index 0), with "Quick Poll" published false, otherwise; with a polling
override or `m = 0` the selected interval and the "Quick Poll" property are left as they
were.  The decode never changes the polling table. -/
theorem C5_quick_poll_decision (acpibat_bst : List OSObject) (self : AppleSmartBattery)
    (hdef : self.fPowerUnit = WATTS → GetValueFromArray acpibat_bst BST_VOLTAGE ≠ 0) :
    ∃ b, setBatteryBST acpibat_bst self = some b ∧
      b.milliSecPollingTable = self.milliSecPollingTable ∧
      (self.fPollingOverridden = false → self.fMaxCapacity ≠ 0 →
        100 * b.fCurrentCapacity < 4294967296 →
        (b.fPollingInterval = kQuickPollInterval ↔
          (100 * b.fCurrentCapacity / self.fMaxCapacity < 5 ∧ b.fACConnected = true)) ∧
        (¬ (100 * b.fCurrentCapacity / self.fMaxCapacity < 5 ∧ b.fACConnected = true) →
          b.fPollingInterval = kDefaultPollInterval) ∧
        (self.properties Key.QuickPollSym = none →
          b.registry Key.QuickPollSym =
            some (OSValue.boolean
              (decide (100 * b.fCurrentCapacity / self.fMaxCapacity < 5 ∧
                b.fACConnected = true))))) ∧
      (self.fPollingOverridden = true ∨ self.fMaxCapacity = 0 →
        b.fPollingInterval = self.fPollingInterval ∧
        (self.properties Key.QuickPollSym = none →
          b.registry Key.QuickPollSym = self.registry Key.QuickPollSym)) := by
  obtain ⟨n, -, hb, hprops, hreg, hint, hmax, hov, -, -, -, htab, -⟩ :=
    setBatteryBST_some acpibat_bst self hdef
  refine ⟨_, hb, ?_⟩
  generalize GetValueFromArray acpibat_bst BST_STATUS = s
  have hxmax : (bstClassify s (bstStatusChange s (bstAverageRate (bstRateFallback n)))).fMaxCapacity
      = self.fMaxCapacity := by simp [hmax]
  have hxov : (bstClassify s (bstStatusChange s (bstAverageRate
      (bstRateFallback n)))).fPollingOverridden = self.fPollingOverridden := by simp [hov]
  have hxint : (bstClassify s (bstStatusChange s (bstAverageRate
      (bstRateFallback n)))).fPollingInterval = self.fPollingInterval := by simp [hint]
  have hxq : self.properties Key.QuickPollSym = none →
      (bstClassify s (bstStatusChange s (bstAverageRate
        (bstRateFallback n)))).properties Key.QuickPollSym = none := by
    intro hnone
    rw [(bstClassify_properties_registryKeys _ _).2.1]
    simp only [bstStatusChange_frame, bstAverageRate_frame, bstRateFallback_frame, hprops]
    rw [bstFetch_properties _ _ _ (by decide) (by decide), hnone]
  have hxreg : (bstClassify s (bstStatusChange s (bstAverageRate
      (bstRateFallback n)))).registry Key.QuickPollSym = self.registry Key.QuickPollSym := by
    rw [bstClassify_registry _ _ _ (by decide)]
    simp [hreg]
  have hxtab : (bstClassify s (bstStatusChange s (bstAverageRate
      (bstRateFallback n)))).milliSecPollingTable = self.milliSecPollingTable := by
    simp [htab]
  generalize bstClassify s (bstStatusChange s (bstAverageRate (bstRateFallback n))) = x
    at hxmax hxov hxint hxq hxreg hxtab ⊢
  have hfreg : self.properties Key.QuickPollSym = none →
      (bstFinish (bstCellVoltages (bstQuickPoll x))).registry Key.QuickPollSym =
        (bstQuickPoll x).registry Key.QuickPollSym := by
    intro hnone
    rw [bstFinish_registry _ _ (by decide) (by decide),
      bstCellVoltages_registry _ _ (by decide) (by decide)]
    rw [(bstCellVoltages_frame _).1, (bstQuickPoll_frame _).1]
    exact hxq hnone
  simp only [bstFinish_frame, bstCellVoltages_frame, bstQuickPoll_frame]
  refine ⟨hxtab, ?_, ?_⟩
  · intro h1 h2 h100
    obtain ⟨hi, hr⟩ := bstQuickPoll_decides x (by rw [hxov, h1]) (by rw [hxmax]; exact h2)
    have hm : mul32 100 x.fCurrentCapacity = 100 * x.fCurrentCapacity := by
      unfold mul32; exact Nat.mod_eq_of_lt h100
    rw [hm, hxmax] at hi hr
    refine ⟨?_, ?_, ?_⟩
    · rw [hi]
      split_ifs with h
      · exact ⟨fun _ => h, fun _ => rfl⟩
      · exact ⟨fun hq => absurd hq (by decide), fun hq => absurd hq h⟩
    · intro hneg
      rw [hi, if_neg hneg]
    · intro hnone
      rw [hfreg hnone, hr]
  · intro h
    have hskip := bstQuickPoll_skips x (by rw [hxov, hxmax]; exact h)
    refine ⟨by rw [hskip, hxint], ?_⟩
    intro hnone
    rw [hfreg hnone, hskip, hxreg]

/-- C5 at the two inputs of the claim: maximum capacity 1000, no override, external
power connected (a charging status word).  Capacity 40 (4 percent) selects the quick-poll
interval of 1000 ms; capacity 60 (6 percent) selects the default interval of 30000 ms. -/
theorem C5_quick_poll_decision_witness :
    (∃ b, setBatteryBST (bstPackage 2 500 40 12000) (ampsBattery 2 500) = some b ∧
      b.fCurrentCapacity = 40 ∧ b.fACConnected = true ∧
      b.fPollingInterval = kQuickPollInterval ∧
      pollingTableEntry b b.fPollingInterval = some 1000 ∧
      b.registry Key.QuickPollSym = some (OSValue.boolean true)) ∧
    (∃ b, setBatteryBST (bstPackage 2 500 60 12000) (ampsBattery 2 500) = some b ∧
      b.fCurrentCapacity = 60 ∧ b.fACConnected = true ∧
      b.fPollingInterval = kDefaultPollInterval ∧
      pollingTableEntry b b.fPollingInterval = some 30000 ∧
      b.registry Key.QuickPollSym = some (OSValue.boolean false)) := by
  constructor
  · obtain ⟨b, hb, htab, hsel, -⟩ :=
      C5_quick_poll_decision (bstPackage 2 500 40 12000) (ampsBattery 2 500) (by decide)
    have hc : (setBatteryBST (bstPackage 2 500 40 12000) (ampsBattery 2 500)).map
        (fun b => (b.fCurrentCapacity, b.fACConnected)) = some (40, true) := rfl
    rw [hb] at hc
    simp only [Option.map_some', Option.some.injEq, Prod.mk.injEq] at hc
    obtain ⟨hcap, hac⟩ := hc
    rw [hcap, hac] at hsel
    obtain ⟨hiff, -, hreg⟩ := hsel rfl (by decide) (by norm_num)
    have hq : b.fPollingInterval = kQuickPollInterval := hiff.2 (by decide)
    refine ⟨b, hb, hcap, hac, hq, ?_, hreg rfl⟩
    unfold pollingTableEntry
    rw [hq, htab]
    rfl
  · obtain ⟨b, hb, htab, hsel, -⟩ :=
      C5_quick_poll_decision (bstPackage 2 500 60 12000) (ampsBattery 2 500) (by decide)
    have hc : (setBatteryBST (bstPackage 2 500 60 12000) (ampsBattery 2 500)).map
        (fun b => (b.fCurrentCapacity, b.fACConnected)) = some (60, true) := rfl
    rw [hb] at hc
    simp only [Option.map_some', Option.some.injEq, Prod.mk.injEq] at hc
    obtain ⟨hcap, hac⟩ := hc
    rw [hcap, hac] at hsel
    obtain ⟨-, hdflt, hreg⟩ := hsel rfl (by decide) (by norm_num)
    have hq : b.fPollingInterval = kDefaultPollInterval := hdflt (by decide)
    refine ⟨b, hb, hcap, hac, hq, ?_, hreg rfl⟩
    unfold pollingTableEntry
    rw [hq, htab]
    rfl

theorem yearField_digits (y : Nat) (hy : y < 128) :
    padLeft 4 (Char.ofNat 32) (decimalDigits (add32 y 1980)) =
      [Nat.digitChar ((y + 1980) / 1000 % 10), Nat.digitChar ((y + 1980) / 100 % 10),
        Nat.digitChar ((y + 1980) / 10 % 10), Nat.digitChar ((y + 1980) % 10)] := by
  interval_cases y <;> rfl

theorem twoDigitField_digits (m : Nat) (hm : m < 32) :
    padLeft 2 (Char.ofNat 48) (decimalDigits m) =
      [Nat.digitChar (m / 10 % 10), Nat.digitChar (m % 10)] := by
  interval_cases m <;> rfl

theorem digitChar_ne_nul (k : Nat) :
    (Nat.digitChar (k % 10) != Char.ofNat 0) = true := by
  have h : k % 10 < 10 := Nat.mod_lt _ (by norm_num)
  interval_cases (k % 10) <;> rfl

/-- C6.  For every 16-bit packed date `p`, `unpackDate p` is the 10-character text
"YYYY-MM-DD" with `YYYY = (p >> 9) + 1980` (between 1980 and 2107),
`MM = (p >> 5) & 0xF` and `DD = p & 0x1F`, both zero-padded to two digits. -/
theorem C6_unpackDate_iso (p : Nat) (hp : p < 65536) :
    unpackDate p = isoDate ((p >>> 9) + 1980) ((p >>> 5) &&& 0xF) (p &&& 0x1F) ∧
    (unpackDate p).length = 10 ∧
    1980 ≤ (p >>> 9) + 1980 ∧ (p >>> 9) + 1980 ≤ 2107 ∧
    (p >>> 5) &&& 0xF ≤ 15 ∧ p &&& 0x1F ≤ 31 := by
  have hy : p >>> 9 < 128 := by
    rw [Nat.shiftRight_eq_div_pow]; omega
  have hm : (p >>> 5) &&& 0xF ≤ 15 := Nat.and_le_right
  have hd : p &&& 0x1F ≤ 31 := Nat.and_le_right
  have key : unpackDate p = isoDate ((p >>> 9) + 1980) ((p >>> 5) &&& 0xF) (p &&& 0x1F) := by
    unfold unpackDate isoDate
    simp only [yearField_digits _ hy, twoDigitField_digits _ (show (p >>> 5) &&& 0xF < 32 by omega),
      twoDigitField_digits _ (show p &&& 0x1F < 32 by omega), kMaxDateSize]
    simp [List.takeWhile, digitChar_ne_nul]
  refine ⟨key, ?_, by omega, by omega, hm, hd⟩
  rw [key]
  rfl

/-- C6 at the input of the claim: `0x2E21` decodes to "2003-01-01". -/
theorem C6_unpackDate_iso_witness : unpackDate 0x2E21 = "2003-01-01" :=
  (C6_unpackDate_iso 0x2E21 (by norm_num)).1.trans (by decide)

theorem GetSymbolFromArray_some (array : List OSObject) (index : Nat)
    (h : symbolReadable array index = true) :
    ∃ s, GetSymbolFromArray array index = some s := by
  unfold symbolReadable at h
  unfold GetSymbolFromArray
  cases hget : array.get? index with
  | none => rw [hget] at h; exact absurd h (by decide)
  | some object =>
    rw [hget] at h
    cases object with
    | number value => exact ⟨_, rfl⟩
    | string s => exact ⟨_, rfl⟩
    | data bytes => exact ⟨_, if_pos h⟩
    | other => exact ⟨_, rfl⟩

theorem staticWattsToAmps_some (b : AppleSmartBattery)
    (h : b.fPowerUnit = WATTS → b.fDesignVoltage ≠ 0) :
    staticWattsToAmps b =
      some { b with
        fDesignCapacity :=
          if b.fPowerUnit = WATTS then b.fDesignCapacity / b.fDesignVoltage
          else b.fDesignCapacity
        fMaxCapacity :=
          if b.fPowerUnit = WATTS then b.fMaxCapacity / b.fDesignVoltage
          else b.fMaxCapacity } := by
  unfold staticWattsToAmps
  by_cases hp : b.fPowerUnit = WATTS
  · simp only [hp, if_true, div32, if_neg (h hp)]
  · simp only [if_neg hp]

theorem staticWattsToAmps_none (b : AppleSmartBattery)
    (hp : b.fPowerUnit = WATTS) (hv : b.fDesignVoltage = 0) :
    staticWattsToAmps b = none := by
  unfold staticWattsToAmps
  simp only [hp, if_true, div32, hv]

theorem reportZeroCapacity_cases (b : AppleSmartBattery) :
    reportZeroCapacity b = b ∨ reportZeroCapacity b = logReadError kErrorZeroCapacity 0 b := by
  unfold reportZeroCapacity
  split_ifs
  · exact Or.inr rfl
  · exact Or.inl rfl

/-- The legacy static decoder is defined on a package whose text fields are readable,
unless the power unit is the energy unit and the design voltage is zero; the result
holds the capacities, divided by the design voltage with the energy unit, and
publishes them. -/
theorem setBatteryBIF_defined (p : List OSObject) (self : AppleSmartBattery)
    (htext : bifTextsReadable p = true)
    (hdv : GetValueFromArray p BIF_POWER_UNIT = WATTS →
      GetValueFromArray p BIF_DESIGN_VOLTAGE ≠ 0) :
    ∃ b, setBatteryBIF p self = some b ∧
      b.fPowerUnit = GetValueFromArray p BIF_POWER_UNIT ∧
      b.fDesignVoltage = GetValueFromArray p BIF_DESIGN_VOLTAGE ∧
      b.fDesignCapacity =
        (if GetValueFromArray p BIF_POWER_UNIT = WATTS
          then GetValueFromArray p BIF_DESIGN_CAPACITY / GetValueFromArray p BIF_DESIGN_VOLTAGE
          else GetValueFromArray p BIF_DESIGN_CAPACITY) ∧
      b.fMaxCapacity =
        (if GetValueFromArray p BIF_POWER_UNIT = WATTS
          then GetValueFromArray p BIF_LAST_FULL_CAPACITY
            / GetValueFromArray p BIF_DESIGN_VOLTAGE
          else GetValueFromArray p BIF_LAST_FULL_CAPACITY) ∧
      b.properties Key.DesignCapacitySym =
        some (OSValue.number (b.fDesignCapacity % 4294967296)) ∧
      b.properties Key.maxCapacityKey =
        some (OSValue.number (b.fMaxCapacity % 4294967296)) := by
  unfold bifTextsReadable at htext
  simp only [Bool.and_eq_true] at htext
  obtain ⟨⟨⟨t1, t2⟩, t3⟩, t4⟩ := htext
  obtain ⟨s1, h1⟩ := GetSymbolFromArray_some p BIF_MODEL_NUMBER t1
  obtain ⟨s2, h2⟩ := GetSymbolFromArray_some p BIF_SERIAL_NUMBER t2
  obtain ⟨s3, h3⟩ := GetSymbolFromArray_some p BIF_BATTERY_TYPE t3
  obtain ⟨s4, h4⟩ := GetSymbolFromArray_some p BIF_OEM t4
  unfold setBatteryBIF
  simp only [h1, h2, h3, h4]
  rw [staticWattsToAmps_some _ hdv]
  simp only []
  rcases reportZeroCapacity_cases
      { bifFetch p s1 s2 s3 s4 self with
        fDesignCapacity :=
          if (bifFetch p s1 s2 s3 s4 self).fPowerUnit = WATTS
            then (bifFetch p s1 s2 s3 s4 self).fDesignCapacity
              / (bifFetch p s1 s2 s3 s4 self).fDesignVoltage
            else (bifFetch p s1 s2 s3 s4 self).fDesignCapacity
        fMaxCapacity :=
          if (bifFetch p s1 s2 s3 s4 self).fPowerUnit = WATTS
            then (bifFetch p s1 s2 s3 s4 self).fMaxCapacity
              / (bifFetch p s1 s2 s3 s4 self).fDesignVoltage
            else (bifFetch p s1 s2 s3 s4 self).fMaxCapacity } with h | h <;>
    rw [h] <;> exact ⟨_, rfl, rfl, rfl, rfl, rfl, rfl, rfl⟩

/-- The extended static decoder is defined on a package whose text fields are readable,
unless the power unit is the energy unit and the design voltage is zero; the result
holds the capacities, divided by the design voltage with the energy unit, and
publishes them. -/
theorem setBatteryBIX_defined (p : List OSObject) (self : AppleSmartBattery)
    (htext : bixTextsReadable p = true)
    (hdv : GetValueFromArray p BIX_POWER_UNIT = WATTS →
      GetValueFromArray p BIX_DESIGN_VOLTAGE ≠ 0) :
    ∃ b, setBatteryBIX p self = some b ∧
      b.fPowerUnit = GetValueFromArray p BIX_POWER_UNIT ∧
      b.fDesignVoltage = GetValueFromArray p BIX_DESIGN_VOLTAGE ∧
      b.fDesignCapacity =
        (if GetValueFromArray p BIX_POWER_UNIT = WATTS
          then GetValueFromArray p BIX_DESIGN_CAPACITY / GetValueFromArray p BIX_DESIGN_VOLTAGE
          else GetValueFromArray p BIX_DESIGN_CAPACITY) ∧
      b.fMaxCapacity =
        (if GetValueFromArray p BIX_POWER_UNIT = WATTS
          then GetValueFromArray p BIX_LAST_FULL_CAPACITY
            / GetValueFromArray p BIX_DESIGN_VOLTAGE
          else GetValueFromArray p BIX_LAST_FULL_CAPACITY) ∧
      b.properties Key.DesignCapacitySym =
        some (OSValue.number (b.fDesignCapacity % 4294967296)) ∧
      b.properties Key.maxCapacityKey =
        some (OSValue.number (b.fMaxCapacity % 4294967296)) := by
  unfold bixTextsReadable at htext
  simp only [Bool.and_eq_true] at htext
  obtain ⟨⟨⟨t1, t2⟩, t3⟩, t4⟩ := htext
  obtain ⟨s1, h1⟩ := GetSymbolFromArray_some p BIX_MODEL_NUMBER t1
  obtain ⟨s2, h2⟩ := GetSymbolFromArray_some p BIX_SERIAL_NUMBER t2
  obtain ⟨s3, h3⟩ := GetSymbolFromArray_some p BIX_BATTERY_TYPE t3
  obtain ⟨s4, h4⟩ := GetSymbolFromArray_some p BIX_OEM t4
  unfold setBatteryBIX
  simp only [h1, h2, h3, h4]
  rw [staticWattsToAmps_some _ hdv]
  simp only []
  rcases reportZeroCapacity_cases
      { bixFetch p s1 s2 s3 s4 self with
        fDesignCapacity :=
          if (bixFetch p s1 s2 s3 s4 self).fPowerUnit = WATTS
            then (bixFetch p s1 s2 s3 s4 self).fDesignCapacity
              / (bixFetch p s1 s2 s3 s4 self).fDesignVoltage
            else (bixFetch p s1 s2 s3 s4 self).fDesignCapacity
        fMaxCapacity :=
          if (bixFetch p s1 s2 s3 s4 self).fPowerUnit = WATTS
            then (bixFetch p s1 s2 s3 s4 self).fMaxCapacity
              / (bixFetch p s1 s2 s3 s4 self).fDesignVoltage
            else (bixFetch p s1 s2 s3 s4 self).fMaxCapacity } with h | h <;>
    rw [h] <;> exact ⟨_, rfl, rfl, rfl, rfl, rfl, rfl, rfl⟩

theorem div_mod32_of_lt (a d : Nat) (h : a < 4294967296) :
    a / d % 4294967296 = a / d :=
  Nat.mod_eq_of_lt (lt_of_le_of_lt (Nat.div_le_self _ _) h)

/-- C7.  For every static-information package that follows its layout (the legacy
`_BIF` one for `setBatteryBIF`, the extended `_BIX` one for `setBatteryBIX`: the four
text fields are there and readable):
with the energy power unit (0) and a non-zero design voltage `dv` the decoder publishes
the design capacity `rawDesignCapacity / dv` and the maximum capacity
`rawLastFullCapacity / dv`; with any other power unit it publishes the two raw
capacities unchanged. -/
theorem C7_static_capacity_units (acpibat_bif acpibat_bix : List OSObject)
    (self : AppleSmartBattery)
    (hbif : bifTextsReadable acpibat_bif = true) (hbix : bixTextsReadable acpibat_bix = true)
    (hdvf : GetValueFromArray acpibat_bif BIF_POWER_UNIT = WATTS →
      GetValueFromArray acpibat_bif BIF_DESIGN_VOLTAGE ≠ 0)
    (hdvx : GetValueFromArray acpibat_bix BIX_POWER_UNIT = WATTS →
      GetValueFromArray acpibat_bix BIX_DESIGN_VOLTAGE ≠ 0) :
    (∃ b, setBatteryBIF acpibat_bif self = some b ∧
      (GetValueFromArray acpibat_bif BIF_POWER_UNIT = 0 →
        published b Key.DesignCapacitySym =
          some (OSValue.number (GetValueFromArray acpibat_bif BIF_DESIGN_CAPACITY
            / GetValueFromArray acpibat_bif BIF_DESIGN_VOLTAGE)) ∧
        published b Key.maxCapacityKey =
          some (OSValue.number (GetValueFromArray acpibat_bif BIF_LAST_FULL_CAPACITY
            / GetValueFromArray acpibat_bif BIF_DESIGN_VOLTAGE))) ∧
      (GetValueFromArray acpibat_bif BIF_POWER_UNIT ≠ 0 →
        published b Key.DesignCapacitySym =
          some (OSValue.number (GetValueFromArray acpibat_bif BIF_DESIGN_CAPACITY)) ∧
        published b Key.maxCapacityKey =
          some (OSValue.number (GetValueFromArray acpibat_bif BIF_LAST_FULL_CAPACITY)))) ∧
    (∃ b, setBatteryBIX acpibat_bix self = some b ∧
      (GetValueFromArray acpibat_bix BIX_POWER_UNIT = 0 →
        published b Key.DesignCapacitySym =
          some (OSValue.number (GetValueFromArray acpibat_bix BIX_DESIGN_CAPACITY
            / GetValueFromArray acpibat_bix BIX_DESIGN_VOLTAGE)) ∧
        published b Key.maxCapacityKey =
          some (OSValue.number (GetValueFromArray acpibat_bix BIX_LAST_FULL_CAPACITY
            / GetValueFromArray acpibat_bix BIX_DESIGN_VOLTAGE))) ∧
      (GetValueFromArray acpibat_bix BIX_POWER_UNIT ≠ 0 →
        published b Key.DesignCapacitySym =
          some (OSValue.number (GetValueFromArray acpibat_bix BIX_DESIGN_CAPACITY)) ∧
        published b Key.maxCapacityKey =
          some (OSValue.number (GetValueFromArray acpibat_bix BIX_LAST_FULL_CAPACITY)))) := by
  constructor
  · obtain ⟨b, hb, -, -, hd, hm, hpd, hpm⟩ := setBatteryBIF_defined acpibat_bif self hbif hdvf
    refine ⟨b, hb, ?_, ?_⟩
    · intro h0
      have hw : GetValueFromArray acpibat_bif BIF_POWER_UNIT = WATTS := h0
      unfold published
      rw [hpd, hpm, hd, hm, if_pos hw, if_pos hw,
        div_mod32_of_lt _ _ (GetValueFromArray_lt _ _),
        div_mod32_of_lt _ _ (GetValueFromArray_lt _ _)]
      exact ⟨rfl, rfl⟩
    · intro h0
      have hw : ¬ GetValueFromArray acpibat_bif BIF_POWER_UNIT = WATTS := h0
      unfold published
      rw [hpd, hpm, hd, hm, if_neg hw, if_neg hw,
        Nat.mod_eq_of_lt (GetValueFromArray_lt _ _),
        Nat.mod_eq_of_lt (GetValueFromArray_lt _ _)]
      exact ⟨rfl, rfl⟩
  · obtain ⟨b, hb, -, -, hd, hm, hpd, hpm⟩ := setBatteryBIX_defined acpibat_bix self hbix hdvx
    refine ⟨b, hb, ?_, ?_⟩
    · intro h0
      have hw : GetValueFromArray acpibat_bix BIX_POWER_UNIT = WATTS := h0
      unfold published
      rw [hpd, hpm, hd, hm, if_pos hw, if_pos hw,
        div_mod32_of_lt _ _ (GetValueFromArray_lt _ _),
        div_mod32_of_lt _ _ (GetValueFromArray_lt _ _)]
      exact ⟨rfl, rfl⟩
    · intro h0
      have hw : ¬ GetValueFromArray acpibat_bix BIX_POWER_UNIT = WATTS := h0
      unfold published
      rw [hpd, hpm, hd, hm, if_neg hw, if_neg hw,
        Nat.mod_eq_of_lt (GetValueFromArray_lt _ _),
        Nat.mod_eq_of_lt (GetValueFromArray_lt _ _)]
      exact ⟨rfl, rfl⟩

/-- C7 at concrete packages: a legacy package in the energy unit with design voltage
10000 and raw capacities 50000 and 40000 publishes 5 and 4; an extended package in the
charge unit with raw capacities 4400 and 4000 publishes them unchanged. -/
theorem C7_static_capacity_units_witness :
    (∃ b, setBatteryBIF (bifPackage 0 50000 40000 10000) zeroedBattery = some b ∧
      published b Key.DesignCapacitySym = some (OSValue.number 5) ∧
      published b Key.maxCapacityKey = some (OSValue.number 4)) ∧
    (∃ b, setBatteryBIX (bixPackage 1 4400 4000 10800) zeroedBattery = some b ∧
      published b Key.DesignCapacitySym = some (OSValue.number 4400) ∧
      published b Key.maxCapacityKey = some (OSValue.number 4000)) := by
  obtain ⟨⟨b1, h1, hw1, -⟩, ⟨b2, h2, -, ha2⟩⟩ :=
    C7_static_capacity_units (bifPackage 0 50000 40000 10000) (bixPackage 1 4400 4000 10800)
      zeroedBattery (by decide) (by decide) (by decide) (by decide)
  exact ⟨⟨b1, h1, hw1 rfl⟩, ⟨b2, h2, ha2 (by decide)⟩⟩

theorem bstWattsToAmps_watts (b : AppleSmartBattery)
    (hp : b.fPowerUnit = WATTS) (hv : b.fCurrentVoltage ≠ 0) :
    bstWattsToAmps b =
      some { b with
        fCurrentRate :=
          if b.fCurrentRate > b.fCurrentVoltage
            then mul32 b.fCurrentRate 1000 / b.fCurrentVoltage else b.fCurrentRate
        fCurrentCapacity := b.fCurrentCapacity / b.fCurrentVoltage } := by
  unfold bstWattsToAmps
  simp only [hp, if_true, div32, if_neg hv]
  split_ifs <;> rfl

theorem bstRateSign_rate (b : AppleSmartBattery) :
    (bstRateSign b).fCurrentRate =
      (if b.fCurrentRate &&& 0x8000 ≠ 0 then sub32 0xFFFF b.fCurrentRate
        else b.fCurrentRate) := by
  unfold bstRateSign; split_ifs <;> rfl

theorem bstRateFallback_rate (b : AppleSmartBattery) :
    (bstRateFallback b).fCurrentRate =
      (if b.fCurrentRate = 0 then b.fMaxCapacity / 2 else b.fCurrentRate) := by
  unfold bstRateFallback
  by_cases h : b.fCurrentRate = 0
  · rw [if_pos (by omega), if_pos h]
  · rw [if_neg (by omega), if_neg h]

theorem bstClassify_capacity (s : Nat) (b : AppleSmartBattery) :
    (bstClassify s b).fCurrentCapacity =
      (if s &&& BATTERY_DISCHARGING = 0 ∧ s &&& BATTERY_CHARGING = 0 then b.fMaxCapacity
        else b.fCurrentCapacity) := by
  unfold bstClassify
  by_cases hd : s &&& BATTERY_DISCHARGING = 0 <;> by_cases hc : s &&& BATTERY_CHARGING = 0 <;>
    simp only [hd, hc, ne_eq, not_true_eq_false, not_false_eq_true, and_self, and_true,
      and_false, false_and, true_and, if_true, if_false] <;> rfl


/-- C8 fails as stated: with the energy unit, design voltage 10000 and present voltage
12000, a discharging package with raw capacity 60000 and raw rate 24000 publishes the
current capacity 60000 (the raw value, published before the conversion), stores
`60000 / 12000 = 5` and uses the rate `24000 * 1000 / 12000 = 2000`; the claim gives
`60000 / 10000 = 6` and `24000 / 10000 = 2`. -/
theorem C8_counterexample :
    ∃ b, setBatteryBST (bstPackage 1 24000 60000 12000) wattsBattery = some b ∧
      wattsBattery.fPowerUnit = WATTS ∧ wattsBattery.fDesignVoltage = 10000 ∧
      published b Key.currentCapacityKey = some (OSValue.number 60000) ∧
      published b Key.currentCapacityKey ≠
        some (OSValue.number (60000 / wattsBattery.fDesignVoltage)) ∧
      b.fCurrentCapacity = 5 ∧ b.fCurrentCapacity ≠ 60000 / wattsBattery.fDesignVoltage ∧
      b.fCurrentRate = 2000 ∧ b.fCurrentRate ≠ 24000 / wattsBattery.fDesignVoltage ∧
      published b Key.InstantAmperageSym = some (OSValue.number (4294967296 - 2000)) := by
  refine ⟨_, rfl, rfl, rfl, rfl, ?_, rfl, ?_, rfl, ?_, rfl⟩ <;> decide

/-- C8 (amended).  For every dynamic-status package decoded while the power unit is
energy-based, with a non-zero present voltage `v`: the current capacity the decoder
stores is the raw capacity divided by the present voltage (not the design voltage),
unless the status word has neither the charging nor the discharging bit; the rate it
uses for the amperage is the raw rate after sign handling, multiplied by 1000 and
divided by the present voltage when it exceeds the present voltage and kept otherwise,
and replaced by half the maximum capacity when that gives 0. -/
theorem C8_dynamic_units (acpibat_bst : List OSObject) (self : AppleSmartBattery)
    (hw : self.fPowerUnit = WATTS)
    (hv : GetValueFromArray acpibat_bst BST_VOLTAGE ≠ 0) :
    ∃ b, setBatteryBST acpibat_bst self = some b ∧
      (¬ (GetValueFromArray acpibat_bst BST_STATUS &&& BATTERY_DISCHARGING = 0 ∧
          GetValueFromArray acpibat_bst BST_STATUS &&& BATTERY_CHARGING = 0) →
        b.fCurrentCapacity =
          GetValueFromArray acpibat_bst BST_CAPACITY
            / GetValueFromArray acpibat_bst BST_VOLTAGE) ∧
      b.fCurrentRate =
        (if rateInAmps (rateAfterSign (GetValueFromArray acpibat_bst BST_RATE))
            (GetValueFromArray acpibat_bst BST_VOLTAGE) = 0
          then self.fMaxCapacity / 2
          else rateInAmps (rateAfterSign (GetValueFromArray acpibat_bst BST_RATE))
            (GetValueFromArray acpibat_bst BST_VOLTAGE)) := by
  obtain ⟨n, hn, hb, -, -, -, hmax, -⟩ := setBatteryBST_some acpibat_bst self (fun _ => hv)
  refine ⟨_, hb, ?_⟩
  rw [bstWattsToAmps_watts _ (by simpa using hw) (by simpa using hv)] at hn
  have hn' := Option.some.inj hn
  have hcap : n.fCurrentCapacity =
      GetValueFromArray acpibat_bst BST_CAPACITY / GetValueFromArray acpibat_bst BST_VOLTAGE := by
    rw [← hn']; simp
  have hrate : n.fCurrentRate =
      rateInAmps (rateAfterSign (GetValueFromArray acpibat_bst BST_RATE))
        (GetValueFromArray acpibat_bst BST_VOLTAGE) := by
    rw [← hn']
    show (if (bstRateSign (bstFetch acpibat_bst self)).fCurrentRate >
          (bstRateSign (bstFetch acpibat_bst self)).fCurrentVoltage
        then mul32 (bstRateSign (bstFetch acpibat_bst self)).fCurrentRate 1000 /
          (bstRateSign (bstFetch acpibat_bst self)).fCurrentVoltage
        else (bstRateSign (bstFetch acpibat_bst self)).fCurrentRate) = _
    rw [bstRateSign_rate]
    simp only [bstRateSign_frame, bstFetch_frame]
    rfl
  simp only [bstFinish_frame, bstCellVoltages_frame, bstQuickPoll_frame, bstClassify_frame,
    bstStatusChange_frame, bstAverageRate_frame, bstClassify_capacity, bstRateFallback_rate,
    bstRateFallback_frame, hcap, hrate, hmax]
  refine ⟨?_, trivial⟩
  intro h
  rw [if_neg h]

/-- The amended C8 at a concrete input: the energy unit, present voltage 12000, raw
capacity 60000 and raw rate 24000 give the stored capacity 5 and the rate 2000. -/
theorem C8_dynamic_units_witness :
    ∃ b, setBatteryBST (bstPackage 1 24000 60000 12000) wattsBattery = some b ∧
      b.fCurrentCapacity = 5 ∧ b.fCurrentRate = 2000 := by
  obtain ⟨b, hb, hcap, hrate⟩ :=
    C8_dynamic_units (bstPackage 1 24000 60000 12000) wattsBattery rfl (by decide)
  exact ⟨b, hb, hcap (by decide), hrate⟩


@[simp] theorem setPSProperty_ack (k : Key) (v : OSValue) (b : AppleSmartBattery) :
    (setPSProperty k v b).fPowerServiceToAck = b.fPowerServiceToAck ∧
    (setPSProperty k v b).trace = b.trace := ⟨rfl, rfl⟩

@[simp] theorem setProperty_ack (k : Key) (v : OSValue) (b : AppleSmartBattery) :
    (setProperty k v b).fPowerServiceToAck = b.fPowerServiceToAck ∧
    (setProperty k v b).trace = b.trace := ⟨rfl, rfl⟩

@[simp] theorem removeBoth_ack (k : Key) (b : AppleSmartBattery) :
    (removeBoth k b).fPowerServiceToAck = b.fPowerServiceToAck ∧
    (removeBoth k b).trace = b.trace := ⟨rfl, rfl⟩

@[simp] theorem propertiesRemoveObject_ack (k : Key) (b : AppleSmartBattery) :
    (propertiesRemoveObject k b).fPowerServiceToAck = b.fPowerServiceToAck ∧
    (propertiesRemoveObject k b).trace = b.trace := ⟨rfl, rfl⟩

@[simp] theorem emit_ack (e : Event) (b : AppleSmartBattery) :
    (emit e b).fPowerServiceToAck = b.fPowerServiceToAck ∧
    (emit e b).trace = b.trace ++ [e] := ⟨rfl, rfl⟩

@[simp] theorem updateStatus_ack (b : AppleSmartBattery) :
    (updateStatus b).fPowerServiceToAck = b.fPowerServiceToAck ∧
    List.filter isAcknowledge (updateStatus b).trace = List.filter isAcknowledge b.trace := by
  unfold updateStatus
  split_ifs
  · exact ⟨rfl, by simp [emit, isAcknowledge]⟩
  · exact ⟨rfl, rfl⟩

theorem bstFinish_ack (b : AppleSmartBattery) :
    (bstFinish b).fPowerServiceToAck = b.fPowerServiceToAck ∧
    List.filter isAcknowledge (bstFinish b).trace = List.filter isAcknowledge b.trace := by
  simp [bstFinish, rebuildLegacyIOBatteryInfo, setLegacyIOBatteryInfo, readAllTimerCancelTimeout,
    constructAppleSerialNumber, isAcknowledge]

theorem bstClassify_ack (s : Nat) (b : AppleSmartBattery) :
    (bstClassify s b).fPowerServiceToAck = b.fPowerServiceToAck ∧
    List.filter isAcknowledge (bstClassify s b).trace = List.filter isAcknowledge b.trace := by
  unfold bstClassify
  split_ifs <;>
  simp [bstBothBits, bstDischarging, bstCharging, bstCharged, logReadError, setErrorCondition,
    setFullyCharged, setIsCharging, setExternalConnected, setExternalChargeCapable, setAmperage,
    setInstantAmperage, setTimeRemaining, setAverageTimeToEmpty, setAverageTimeToFull,
    setInstantaneousTimeToFull, setInstantaneousTimeToEmpty, setCurrentCapacity, isAcknowledge]

theorem AckUntouched.refl (a : AppleSmartBattery) : AckUntouched a a := ⟨rfl, rfl⟩

theorem AckUntouched.trans {a b c : AppleSmartBattery}
    (h1 : AckUntouched a b) (h2 : AckUntouched b c) : AckUntouched a c :=
  ⟨h2.1.trans h1.1, h2.2.trans h1.2⟩

theorem bstWattsToAmps_eq_some (b n : AppleSmartBattery) (h : bstWattsToAmps b = some n) :
    ∃ r c, n = { b with fCurrentRate := r, fCurrentCapacity := c } := by
  unfold bstWattsToAmps at h
  by_cases hp : b.fPowerUnit = WATTS
  · rw [if_pos hp] at h
    generalize (if b.fCurrentRate > b.fCurrentVoltage
      then div32 (mul32 b.fCurrentRate 1000) b.fCurrentVoltage
      else some b.fCurrentRate) = rate at h
    generalize div32 b.fCurrentCapacity b.fCurrentVoltage = capacity at h
    cases rate <;> cases capacity <;>
      first
      | exact ⟨_, _, (Option.some.inj h).symm⟩
      | exact absurd h (fun e => Option.noConfusion e)
  · rw [if_neg hp] at h
    exact ⟨b.fCurrentRate, b.fCurrentCapacity, (Option.some.inj h).symm⟩

theorem setBatteryBST_eq_some (p : List OSObject) (b b' : AppleSmartBattery)
    (h : setBatteryBST p b = some b') :
    ∃ n, bstWattsToAmps (bstRateSign (bstFetch p b)) = some n ∧
      b' = bstFinish (bstCellVoltages (bstQuickPoll
        (bstClassify (GetValueFromArray p BST_STATUS)
          (bstStatusChange (GetValueFromArray p BST_STATUS)
            (bstAverageRate (bstRateFallback n)))))) := by
  cases hn : bstWattsToAmps (bstRateSign (bstFetch p b)) with
  | none =>
    unfold setBatteryBST at h
    simp only [hn] at h
    exact absurd h (by simp)
  | some n =>
    rw [setBatteryBST_of_normalized p b n hn] at h
    exact ⟨n, rfl, (Option.some.inj h).symm⟩

theorem setBatteryBST_ack (p : List OSObject) (b b' : AppleSmartBattery)
    (h : setBatteryBST p b = some b') : AckUntouched b b' := by
  obtain ⟨n, hn, rfl⟩ := setBatteryBST_eq_some p b b' h
  obtain ⟨r, c, rfl⟩ := bstWattsToAmps_eq_some _ _ hn
  have hx : ∀ x : AppleSmartBattery,
      (bstCellVoltages (bstQuickPoll x)).fPowerServiceToAck = x.fPowerServiceToAck ∧
      (bstCellVoltages (bstQuickPoll x)).trace = x.trace := by
    intro x
    unfold bstQuickPoll
    split_ifs <;> exact ⟨rfl, rfl⟩
  have hy : ∀ x : AppleSmartBattery,
      (bstStatusChange (GetValueFromArray p BST_STATUS)
        (bstAverageRate (bstRateFallback x))).fPowerServiceToAck = x.fPowerServiceToAck ∧
      (bstStatusChange (GetValueFromArray p BST_STATUS)
        (bstAverageRate (bstRateFallback x))).trace = x.trace := by
    intro x
    unfold bstStatusChange bstAverageRate bstRateFallback
    split_ifs <;> exact ⟨rfl, rfl⟩
  have hz : (bstRateSign (bstFetch p b)).fPowerServiceToAck = b.fPowerServiceToAck ∧
      (bstRateSign (bstFetch p b)).trace = b.trace := by
    unfold bstRateSign; split_ifs <;> exact ⟨rfl, rfl⟩
  unfold AckUntouched acknowledgments
  rw [(bstFinish_ack _).1, (bstFinish_ack _).2, (hx _).1, (hx _).2, (bstClassify_ack _ _).1,
    (bstClassify_ack _ _).2, (hy _).1, (hy _).2]
  exact ⟨hz.1, by rw [show ({ bstRateSign (bstFetch p b) with
    fCurrentRate := r, fCurrentCapacity := c } : AppleSmartBattery).trace =
      (bstRateSign (bstFetch p b)).trace from rfl, hz.2]⟩

theorem staticDecode_ack (b : AppleSmartBattery) :
    (reportZeroCapacity b).fPowerServiceToAck = b.fPowerServiceToAck ∧
    List.filter isAcknowledge (reportZeroCapacity b).trace =
      List.filter isAcknowledge b.trace := by
  unfold reportZeroCapacity
  split_ifs
  · simp [logReadError, isAcknowledge]
  · exact ⟨rfl, rfl⟩

theorem staticWattsToAmps_eq_some (b n : AppleSmartBattery)
    (h : staticWattsToAmps b = some n) :
    ∃ d m, n = { b with fDesignCapacity := d, fMaxCapacity := m } := by
  unfold staticWattsToAmps at h
  by_cases hp : b.fPowerUnit = WATTS
  · rw [if_pos hp] at h
    generalize div32 b.fDesignCapacity b.fDesignVoltage = design at h
    generalize div32 b.fMaxCapacity b.fDesignVoltage = full at h
    cases design <;> cases full <;>
      first
      | exact ⟨_, _, (Option.some.inj h).symm⟩
      | exact absurd h (fun e => Option.noConfusion e)
  · rw [if_neg hp] at h
    exact ⟨b.fDesignCapacity, b.fMaxCapacity, (Option.some.inj h).symm⟩

theorem setBatteryBIF_eq_some (p : List OSObject) (b b' : AppleSmartBattery)
    (h : setBatteryBIF p b = some b') :
    ∃ s1 s2 s3 s4 n, staticWattsToAmps (bifFetch p s1 s2 s3 s4 b) = some n ∧
      b' = bifPublish (reportZeroCapacity n) := by
  unfold setBatteryBIF at h
  split at h
  · rename_i s1 s2 s3 s4 _ _ _ _
    cases hsw : staticWattsToAmps (bifFetch p s1 s2 s3 s4 b) with
    | none => rw [hsw] at h; exact absurd h (fun e => Option.noConfusion e)
    | some n => rw [hsw] at h; exact ⟨s1, s2, s3, s4, n, hsw, (Option.some.inj h).symm⟩
  · exact absurd h (fun e => Option.noConfusion e)

theorem setBatteryBIX_eq_some (p : List OSObject) (b b' : AppleSmartBattery)
    (h : setBatteryBIX p b = some b') :
    ∃ s1 s2 s3 s4 n, staticWattsToAmps (bixFetch p s1 s2 s3 s4 b) = some n ∧
      b' = bixPublish (reportZeroCapacity n) := by
  unfold setBatteryBIX at h
  split at h
  · rename_i s1 s2 s3 s4 _ _ _ _
    cases hsw : staticWattsToAmps (bixFetch p s1 s2 s3 s4 b) with
    | none => rw [hsw] at h; exact absurd h (fun e => Option.noConfusion e)
    | some n => rw [hsw] at h; exact ⟨s1, s2, s3, s4, n, hsw, (Option.some.inj h).symm⟩
  · exact absurd h (fun e => Option.noConfusion e)

theorem setBatteryBBIX_eq_some (p : List OSObject) (b b' : AppleSmartBattery)
    (h : setBatteryBBIX p b = some b') :
    ∃ len, b' = bbixPublish len (bbixFetch p b) := by
  unfold setBatteryBBIX at h
  split at h
  · exact absurd h (fun e => Option.noConfusion e)
  · exact ⟨_, (Option.some.inj h).symm⟩

@[simp] theorem optionalSetters_ack (sym : Option String) (b : AppleSmartBattery) :
    ((setDeviceName sym b).fPowerServiceToAck = b.fPowerServiceToAck ∧
      (setDeviceName sym b).trace = b.trace) ∧
    ((setSerialNumber sym b).fPowerServiceToAck = b.fPowerServiceToAck ∧
      (setSerialNumber sym b).trace = b.trace) ∧
    ((setBatteryType sym b).fPowerServiceToAck = b.fPowerServiceToAck ∧
      (setBatteryType sym b).trace = b.trace) ∧
    ((setManufacturer sym b).fPowerServiceToAck = b.fPowerServiceToAck ∧
      (setManufacturer sym b).trace = b.trace) ∧
    ((setErrorCondition sym b).fPowerServiceToAck = b.fPowerServiceToAck ∧
      (setErrorCondition sym b).trace = b.trace) := by
  cases sym <;> exact ⟨⟨rfl, rfl⟩, ⟨rfl, rfl⟩, ⟨rfl, rfl⟩, ⟨rfl, rfl⟩, ⟨rfl, rfl⟩⟩

theorem bifPublish_ack (b : AppleSmartBattery) :
    (bifPublish b).fPowerServiceToAck = b.fPowerServiceToAck ∧
    (bifPublish b).trace = b.trace := by
  simp [bifPublish, setDesignCapacity, setMaxCapacity, setCycleCount, setMaxErr,
    setManufactureDate, setManufacturerData, setPermanentFailureStatus]

theorem bixPublish_ack (b : AppleSmartBattery) :
    (bixPublish b).fPowerServiceToAck = b.fPowerServiceToAck ∧
    (bixPublish b).trace = b.trace := by
  simp [bixPublish, setDesignCapacity, setMaxCapacity, setCycleCount, setMaxErr,
    setManufactureDate, setManufacturerData, setPermanentFailureStatus]

theorem bbixPublish_ack (len : Nat) (b : AppleSmartBattery) :
    (bbixPublish len b).fPowerServiceToAck = b.fPowerServiceToAck ∧
    (bbixPublish len b).trace = b.trace :=
  ⟨rfl, rfl⟩

theorem setBatteryBIF_ack (p : List OSObject) (b b' : AppleSmartBattery)
    (h : setBatteryBIF p b = some b') : AckUntouched b b' := by
  obtain ⟨s1, s2, s3, s4, n, hn, rfl⟩ := setBatteryBIF_eq_some p b b' h
  obtain ⟨d, m, rfl⟩ := staticWattsToAmps_eq_some _ _ hn
  unfold AckUntouched acknowledgments
  rw [(bifPublish_ack _).1, (bifPublish_ack _).2, (staticDecode_ack _).1, (staticDecode_ack _).2]
  exact ⟨rfl, rfl⟩

theorem setBatteryBIX_ack (p : List OSObject) (b b' : AppleSmartBattery)
    (h : setBatteryBIX p b = some b') : AckUntouched b b' := by
  obtain ⟨s1, s2, s3, s4, n, hn, rfl⟩ := setBatteryBIX_eq_some p b b' h
  obtain ⟨d, m, rfl⟩ := staticWattsToAmps_eq_some _ _ hn
  unfold AckUntouched acknowledgments
  rw [(bixPublish_ack _).1, (bixPublish_ack _).2, (staticDecode_ack _).1, (staticDecode_ack _).2]
  exact ⟨rfl, rfl⟩

theorem setBatteryBBIX_ack (p : List OSObject) (b b' : AppleSmartBattery)
    (h : setBatteryBBIX p b = some b') : AckUntouched b b' := by
  obtain ⟨len, rfl⟩ := setBatteryBBIX_eq_some p b b' h
  exact ⟨rfl, rfl⟩

theorem clearBatteryState_ack (do_update : Bool) (b : AppleSmartBattery) :
    AckUntouched b (clearBatteryState do_update b) := by
  unfold AckUntouched acknowledgments clearBatteryState
  cases do_update <;>
  simp [rebuildLegacyIOBatteryInfo, setLegacyIOBatteryInfo, setBatteryInstalled, setIsCharging,
    setCurrentCapacity, setMaxCapacity, setTimeRemaining, setAmperage, setVoltage, setCycleCount,
    setMaxErr, setAdapterInfo, setLocation]

theorem emit_AckUntouched (e : Event) (b : AppleSmartBattery) (h : isAcknowledge e = false) :
    AckUntouched b (emit e b) := by
  unfold AckUntouched acknowledgments
  simp [h]

theorem getBatterySTA_ack (fw : Firmware) (b : AppleSmartBattery) :
    AckUntouched b (getBatterySTA fw b) := by
  unfold AckUntouched acknowledgments getBatterySTA
  cases fw.resultSTA with
  | none => simp [isAcknowledge]
  | some status =>
    simp only [setBatterySTA]
    split_ifs <;> simp [setBatteryInstalled, isAcknowledge]

theorem getBatteryBIF_ack (fw : Firmware) (b b' : AppleSmartBattery)
    (h : getBatteryBIF fw b = some b') : AckUntouched b b' := by
  unfold getBatteryBIF at h
  split at h
  · rw [← Option.some.inj h]; exact emit_AckUntouched _ _ rfl
  · exact absurd h (fun e => Option.noConfusion e)
  · exact (emit_AckUntouched Event.evaluateBIF b rfl).trans (setBatteryBIF_ack _ _ _ h)

theorem getBatteryBIX_ack (fw : Firmware) (b b' : AppleSmartBattery)
    (h : getBatteryBIX fw b = some b') : AckUntouched b b' := by
  unfold getBatteryBIX at h
  split at h
  · rw [← Option.some.inj h]; exact emit_AckUntouched _ _ rfl
  · exact absurd h (fun e => Option.noConfusion e)
  · exact (emit_AckUntouched Event.evaluateBIX b rfl).trans (setBatteryBIX_ack _ _ _ h)

theorem getBatteryBBIX_ack (fw : Firmware) (b b' : AppleSmartBattery)
    (h : getBatteryBBIX fw b = some b') : AckUntouched b b' := by
  unfold getBatteryBBIX at h
  split at h
  · rw [← Option.some.inj h]; exact emit_AckUntouched _ _ rfl
  · exact absurd h (fun e => Option.noConfusion e)
  · exact (emit_AckUntouched Event.evaluateBBIX b rfl).trans (setBatteryBBIX_ack _ _ _ h)

theorem getBatteryBST_ack (fw : Firmware) (b b' : AppleSmartBattery)
    (h : getBatteryBST fw b = some b') : AckUntouched b b' := by
  unfold getBatteryBST at h
  split at h
  · rw [← Option.some.inj h]; exact emit_AckUntouched _ _ rfl
  · exact absurd h (fun e => Option.noConfusion e)
  · exact (emit_AckUntouched Event.evaluateBST b rfl).trans (setBatteryBST_ack _ _ _ h)

theorem pollReads_ack (fw : Firmware) (b b' : AppleSmartBattery)
    (h : pollReads fw b = some b') : AckUntouched b b' := by
  unfold pollReads at h
  obtain ⟨i, hi, h⟩ := Option.bind_eq_some.mp h
  obtain ⟨x, hx, h⟩ := Option.bind_eq_some.mp h
  have h1 : AckUntouched b i := by
    split_ifs at hi
    · exact getBatteryBIX_ack _ _ _ hi
    · exact getBatteryBIF_ack _ _ _ hi
  have h2 : AckUntouched i x := by
    split_ifs at hx
    · exact getBatteryBBIX_ack _ _ _ hx
    · rw [← Option.some.inj hx]; exact AckUntouched.refl _
  exact (h1.trans h2).trans (getBatteryBST_ack _ _ _ h)

theorem pollRearm_ack (b b' : AppleSmartBattery) (h : pollRearm b = some b') :
    AckUntouched b b' := by
  unfold pollRearm at h
  simp only [] at h
  split_ifs at h
  · obtain ⟨ms, -, h⟩ := Option.map_eq_some'.mp h
    rw [← h]
    unfold AckUntouched acknowledgments pollTimerSetTimeoutMS
    simp [isAcknowledge]
  · rw [← Option.some.inj h]
    unfold AckUntouched acknowledgments pollTimerSetTimeoutMS
    simp [isAcknowledge]

theorem pollExistingBattery_ack (fw : Firmware) (b b' : AppleSmartBattery)
    (h : pollExistingBattery fw b = some b') : AckUntouched b b' := by
  unfold pollExistingBattery at h
  simp only [] at h
  obtain ⟨r, hr, h⟩ := Option.bind_eq_some.mp h
  have h0 : AckUntouched b (getBatterySTA fw { b with fPollingNow := true }) :=
    AckUntouched.trans (b := { b with fPollingNow := true }) ⟨rfl, rfl⟩ (getBatterySTA_ack _ _)
  have h1 : AckUntouched (getBatterySTA fw { b with fPollingNow := true }) r := by
    split_ifs at hr
    · exact pollReads_ack _ _ _ hr
    · rw [← Option.some.inj hr]
      exact AckUntouched.trans (b := setFullyCharged false
        (getBatterySTA fw { b with fPollingNow := true })) ⟨rfl, rfl⟩
        (clearBatteryState_ack _ _)
  exact (h0.trans h1).trans (pollRearm_ack _ _ h)

/-- A poll cycle, on either path, leaves the pending acknowledgment as it was. -/
theorem pollBatteryState_ack (fw : Firmware) (path : Int) (b b' : AppleSmartBattery)
    (h : pollBatteryState fw path b = some b') : AckUntouched b b' := by
  unfold pollBatteryState at h
  split_ifs at h
  · refine AckUntouched.trans ?_ (pollExistingBattery_ack _ _ _ h)
    unfold AckUntouched acknowledgments readAllTimerSetTimeoutMS readAllTimerCancelTimeout
      pollTimerCancelTimeout
    simp [isAcknowledge]
  · exact pollExistingBattery_ack _ _ _ h

theorem dropPendingService_frame (b : AppleSmartBattery) :
    (dropPendingService b).fPowerServiceToAck = none ∧
    (dropPendingService b).fPollingNow = b.fPollingNow ∧
    (dropPendingService b).fPollTimer = b.fPollTimer ∧
    (dropPendingService b).fBatteryReadAllTimer = b.fBatteryReadAllTimer ∧
    (dropPendingService b).fSystemSleeping = b.fSystemSleeping ∧
    (dropPendingService b).trace = b.trace ++
      (match b.fPowerServiceToAck with
        | some old => [Event.release old]
        | none => []) := by
  unfold dropPendingService
  cases h : b.fPowerServiceToAck with
  | none => simp [h]
  | some old => simp [emit]

/-- C9.  `handleSystemSleepWake(service, isSystemSleep = true)` with a non-null service
while the system is not sleeping.  With a poll in flight it cancels the periodic timer
and the watchdog, retains the service as the pending acknowledgment, sets the sleeping
flag and returns `kBatteryReadAllTimeout * 1000 = 10000000`: the value is read by the
power-management framework in microseconds, so the deferred duration is the 10 seconds
of the watchdog, which is armed with `kBatteryReadAllTimeout = 10000` milliseconds.
With no poll in flight it returns `kIOPMAckImplied`, retains nothing and leaves no
pending reference (a reference left from before is released); the timers are left as
they were. -/
theorem C9_sleep_entry (fw : Firmware) (service : Nat) (self : AppleSmartBattery)
    (hawake : self.fSystemSleeping = false) :
    (self.fPollingNow = true →
      ∃ b, handleSystemSleepWake fw (some service) true self =
          some (kBatteryReadAllTimeout * 1000, b) ∧
        kBatteryReadAllTimeout * 1000 = 10000000 ∧
        b.fPollTimer = none ∧ b.fBatteryReadAllTimer = none ∧
        b.fPowerServiceToAck = some service ∧ b.fSystemSleeping = true ∧
        b.trace = self.trace ++
          (match self.fPowerServiceToAck with
            | some old => [Event.release old]
            | none => []) ++
          [Event.retain service, Event.pollTimerCancel, Event.readAllTimerCancel]) ∧
    (self.fPollingNow = false →
      ∃ b, handleSystemSleepWake fw (some service) true self = some (kIOPMAckImplied, b) ∧
        b.fPowerServiceToAck = none ∧ b.fSystemSleeping = true ∧
        b.fPollTimer = self.fPollTimer ∧ b.fBatteryReadAllTimer = self.fBatteryReadAllTimer ∧
        b.trace = self.trace ++
          (match self.fPowerServiceToAck with
            | some old => [Event.release old]
            | none => [])) := by
  obtain ⟨hd1, hd2, hd3, hd4, -, hd6⟩ := dropPendingService_frame self
  have hne : ¬ (self.fSystemSleeping = true) := by rw [hawake]; decide
  constructor
  · intro hpoll
    have hrun : handleSystemSleepWake fw (some service) true self =
        some (kBatteryReadAllTimeout * 1000,
          readAllTimerCancelTimeout (pollTimerCancelTimeout (retainPendingService service
            { dropPendingService self with fSystemSleeping := true }))) := by
      unfold handleSystemSleepWake
      simp only [if_neg hne, if_true]
      rw [if_pos (show (dropPendingService self).fPollingNow = true by rw [hd2, hpoll])]
      rfl
    refine ⟨_, hrun, rfl, rfl, rfl, rfl, rfl, ?_⟩
    show ((dropPendingService self).trace ++ [Event.retain service] ++ [Event.pollTimerCancel])
      ++ [Event.readAllTimerCancel] = _
    rw [hd6]
    simp
  · intro hpoll
    have hrun : handleSystemSleepWake fw (some service) true self =
        some (kIOPMAckImplied, { dropPendingService self with fSystemSleeping := true }) := by
      unfold handleSystemSleepWake
      simp only [if_neg hne, if_true]
      rw [if_neg (show ¬ (dropPendingService self).fPollingNow = true by
        rw [hd2, hpoll]; decide)]
    exact ⟨_, hrun, hd1, rfl, hd3, hd4, hd6⟩

/-- C9 at a concrete state: a poll in flight and both timers armed, then the same state
with no poll in flight. -/
theorem C9_sleep_entry_witness :
    (∃ b, handleSystemSleepWake sampleFirmware (some 7) true pollingBattery =
        some (10000000, b) ∧
      b.fPollTimer = none ∧ b.fBatteryReadAllTimer = none ∧
      b.fPowerServiceToAck = some 7 ∧ b.fSystemSleeping = true) ∧
    (∃ b, handleSystemSleepWake sampleFirmware (some 7) true
        { pollingBattery with fPollingNow := false } = some (kIOPMAckImplied, b) ∧
      b.fPowerServiceToAck = none ∧ b.fSystemSleeping = true) := by
  constructor
  · obtain ⟨b, hb, -, h1, h2, h3, h4, -⟩ :=
      (C9_sleep_entry sampleFirmware 7 pollingBattery rfl).1 rfl
    exact ⟨b, hb, h1, h2, h3, h4⟩
  · obtain ⟨b, hb, h1, h2, -⟩ :=
      (C9_sleep_entry sampleFirmware 7 { pollingBattery with fPollingNow := false } rfl).2 rfl
    exact ⟨b, hb, h1, h2⟩

theorem acknowledgeSystemSleepWake_resolves (b : AppleSmartBattery) :
    (acknowledgeSystemSleepWake b).fPowerServiceToAck = none ∧
    acknowledgments (acknowledgeSystemSleepWake b) = acknowledgments b ++
      (match b.fPowerServiceToAck with
        | some service => [Event.acknowledgeSetPowerState service]
        | none => []) := by
  unfold acknowledgeSystemSleepWake acknowledgments
  cases h : b.fPowerServiceToAck with
  | none => simp [h]
  | some service => simp [emit, isAcknowledge]

theorem cancelPollingSession_ack (b : AppleSmartBattery) :
    AckUntouched b (cancelPollingSession b) := by
  unfold AckUntouched acknowledgments cancelPollingSession
  split_ifs
  · simp [readAllTimerCancelTimeout, pollTimerCancelTimeout, isAcknowledge]
  · exact ⟨rfl, rfl⟩

/-- C10 fails as stated: a refresh-path cycle that runs while service 7 is the pending
acknowledgment (the state of the wake handler when it polls) completes, clears the
in-flight flag and re-arms the periodic timer, and the reference is still pending and
`acknowledgeSetPowerState` has not been invoked. -/
theorem C10_counterexample :
    ∃ b, pollBatteryState sampleFirmware kExistingBatteryPath pendingBattery = some b ∧
      pendingBattery.fPowerServiceToAck = some 7 ∧
      b.fPollingNow = false ∧ b.fPollTimer = some 30000 ∧
      b.fPowerServiceToAck = some 7 ∧
      b.trace.count (Event.acknowledgeSetPowerState 7) = 0 := by
  refine ⟨_, rfl, rfl, rfl, rfl, rfl, ?_⟩
  decide

/-- C10 (amended).  A completed poll cycle never resolves a pending acknowledgment:
after `pollBatteryState` on either path, and after the watchdog restart
`incompleteReadTimeOut`, the pending reference is the one there was before and no
acknowledgment has been sent.  The pending reference is acknowledged exactly once and
cleared by the removal handler `handleBatteryRemoved`, the only caller of
`acknowledgeSystemSleepWake`. -/
theorem C10_ack_resolution (fw : Firmware) (path : Int) (self b : AppleSmartBattery)
    (h : pollBatteryState fw path self = some b) :
    (b.fPowerServiceToAck = self.fPowerServiceToAck ∧
      acknowledgments b = acknowledgments self) ∧
    (∀ restarted, incompleteReadTimeOut fw self = some restarted →
      restarted.fPowerServiceToAck = self.fPowerServiceToAck ∧
      acknowledgments restarted = acknowledgments self) ∧
    ((handleBatteryRemoved self).fPowerServiceToAck = none ∧
      acknowledgments (handleBatteryRemoved self) = acknowledgments self ++
        (match self.fPowerServiceToAck with
          | some service => [Event.acknowledgeSetPowerState service]
          | none => [])) := by
  refine ⟨pollBatteryState_ack fw path self b h, ?_, ?_⟩
  · intro restarted hr
    unfold incompleteReadTimeOut at hr
    have h1 := pollBatteryState_ack _ _ _ _ hr
    have h0 : AckUntouched self (logReadError kErrorOverallTimeoutExpired 0 self) := by
      unfold AckUntouched acknowledgments logReadError
      simp [isAcknowledge]
    exact h0.trans h1
  · unfold handleBatteryRemoved
    obtain ⟨hr1, hr2⟩ := acknowledgeSystemSleepWake_resolves
      (clearBatteryState true (cancelPollingSession self))
    have hc := (cancelPollingSession_ack self).trans
      (clearBatteryState_ack true (cancelPollingSession self))
    refine ⟨hr1, ?_⟩
    rw [hr2, hc.1, hc.2]

/-- The amended C10 at a concrete input: the cycle of the counterexample, and the
removal handler on the same state, which sends the one acknowledgment. -/
theorem C10_ack_resolution_witness :
    ∃ b, pollBatteryState sampleFirmware kExistingBatteryPath pendingBattery = some b ∧
      b.fPowerServiceToAck = some 7 ∧ acknowledgments b = [] ∧
      (handleBatteryRemoved pendingBattery).fPowerServiceToAck = none ∧
      acknowledgments (handleBatteryRemoved pendingBattery) =
        [Event.acknowledgeSetPowerState 7] := by
  have hex : ∃ b, pollBatteryState sampleFirmware kExistingBatteryPath pendingBattery =
      some b := ⟨_, rfl⟩
  obtain ⟨b, hb⟩ := hex
  obtain ⟨⟨h1, h2⟩, -, h3, h4⟩ :=
    C10_ack_resolution sampleFirmware kExistingBatteryPath pendingBattery b hb
  exact ⟨b, hb, h1, h2, h3, h4⟩

theorem bstWattsToAmps_rate (b n : AppleSmartBattery) (h : bstWattsToAmps b = some n) :
    n.fCurrentRate =
      (if b.fPowerUnit = WATTS then rateInAmps b.fCurrentRate b.fCurrentVoltage
        else b.fCurrentRate) ∧
    n.fAverageRate = b.fAverageRate ∧ n.fStatus = b.fStatus ∧
    n.fMaxCapacity = b.fMaxCapacity ∧ n.fPowerUnit = b.fPowerUnit := by
  by_cases hp : b.fPowerUnit = WATTS
  · by_cases hv : b.fCurrentVoltage = 0
    · rw [bstWattsToAmps_none b hp hv] at h
      exact absurd h (fun e => Option.noConfusion e)
    · rw [bstWattsToAmps_watts b hp hv] at h
      rw [← Option.some.inj h, if_pos hp]
      exact ⟨rfl, rfl, rfl, rfl, rfl⟩
  · unfold bstWattsToAmps at h
    rw [if_neg hp] at h
    rw [← Option.some.inj h, if_neg hp]
    exact ⟨rfl, rfl, rfl, rfl, rfl⟩

theorem bstStatusChange_status (s : Nat) (x : AppleSmartBattery) :
    (bstStatusChange s x).fStatus = s ∧
    (bstStatusChange s x).fAverageRate = (if s ≠ x.fStatus then 0 else x.fAverageRate) := by
  unfold bstStatusChange
  by_cases h : s = x.fStatus
  · have hx : ¬ (s ^^^ x.fStatus ≠ 0) := by rw [h]; simp
    rw [if_neg hx, if_neg (by simpa using h)]
    exact ⟨h.symm, rfl⟩
  · have hx : s ^^^ x.fStatus ≠ 0 := fun e => h (Nat.xor_eq_zero.mp e)
    rw [if_pos hx, if_pos h]
    exact ⟨rfl, rfl⟩

theorem bstAverageRate_average (x : AppleSmartBattery) :
    (bstAverageRate x).fAverageRate =
      (if x.fAverageRate ≠ 0 then add32 x.fAverageRate x.fCurrentRate / 2
        else x.fCurrentRate) := by
  unfold bstAverageRate
  split_ifs <;> rfl

/-- The rate, the status word and the running average a decode leaves in the object. -/
theorem setBatteryBST_rates (p : List OSObject) (self b : AppleSmartBattery)
    (h : setBatteryBST p self = some b) :
    b.fCurrentRate =
      rateWithFallback
        (normalizedRate self.fPowerUnit (GetValueFromArray p BST_RATE)
          (GetValueFromArray p BST_VOLTAGE)) self.fMaxCapacity ∧
    b.fStatus = GetValueFromArray p BST_STATUS ∧
    b.fAverageRate =
      (if GetValueFromArray p BST_STATUS ≠ self.fStatus then 0
        else if self.fAverageRate ≠ 0 then add32 self.fAverageRate b.fCurrentRate / 2
        else b.fCurrentRate) ∧
    b.fMaxCapacity = self.fMaxCapacity := by
  obtain ⟨n, hn, rfl⟩ := setBatteryBST_eq_some p self b h
  obtain ⟨hr, ha, hs, hm, -⟩ := bstWattsToAmps_rate _ _ hn
  have hrate : (bstRateFallback n).fCurrentRate =
      rateWithFallback
        (normalizedRate self.fPowerUnit (GetValueFromArray p BST_RATE)
          (GetValueFromArray p BST_VOLTAGE)) self.fMaxCapacity := by
    rw [bstRateFallback_rate, hr, bstRateSign_rate, hm]
    simp only [bstRateSign_frame, bstFetch_frame]
    rfl
  simp only [bstFinish_frame, bstCellVoltages_frame, bstQuickPoll_frame, bstClassify_frame,
    bstStatusChange_frame, bstAverageRate_frame, bstStatusChange_status,
    bstAverageRate_average, bstRateFallback_frame, hrate, ha, hs, hm]
  simp

theorem bit15_ge (r : Nat) (h : r &&& 0x8000 ≠ 0) : 32768 ≤ r := by
  have h2 : r &&& 2 ^ 15 = (r.testBit 15).toNat * 2 ^ 15 := Nat.and_two_pow r 15
  have ht : r.testBit 15 = true := by
    by_contra hc
    rw [Bool.not_eq_true] at hc
    rw [hc] at h2
    exact h (by simpa using h2)
  exact Nat.testBit_implies_ge ht

/-- The instantaneous outputs of a decode classified as discharging or as charging, in
terms of the rate and the capacity the decode leaves in the object. -/
theorem setBatteryBST_instant (p : List OSObject) (self b : AppleSmartBattery)
    (h : setBatteryBST p self = some b) :
    (GetValueFromArray p BST_STATUS &&& BATTERY_DISCHARGING ≠ 0 →
      GetValueFromArray p BST_STATUS &&& BATTERY_CHARGING = 0 →
      published b Key.InstantAmperageSym =
        some (OSValue.number (mul32 b.fCurrentRate 4294967295 % 4294967296)) ∧
      published b Key.InstantTimeToEmptySym =
        some (OSValue.number
          ((if b.fCurrentRate ≠ 0 then mul32 60 b.fCurrentCapacity / b.fCurrentRate
            else 0xffff) % 4294967296))) ∧
    (GetValueFromArray p BST_STATUS &&& BATTERY_DISCHARGING = 0 →
      GetValueFromArray p BST_STATUS &&& BATTERY_CHARGING ≠ 0 →
      published b Key.InstantAmperageSym =
        some (OSValue.number (b.fCurrentRate % 4294967296)) ∧
      published b Key.InstantTimeToFullSym =
        some (OSValue.number
          ((if b.fCurrentRate ≠ 0
            then mul32 60 (sub32 b.fMaxCapacity b.fCurrentCapacity) / b.fCurrentRate
            else 0xffff) % 4294967296))) := by
  obtain ⟨n, -, rfl⟩ := setBatteryBST_eq_some p self b h
  generalize GetValueFromArray p BST_STATUS = s
  generalize bstStatusChange s (bstAverageRate (bstRateFallback n)) = x
  rw [setBatteryBST_published s x _ (by decide) (by decide),
    setBatteryBST_published s x _ (by decide) (by decide),
    setBatteryBST_published s x _ (by decide) (by decide)]
  simp only [bstFinish_frame, bstCellVoltages_frame, bstQuickPoll_frame]
  constructor
  · intro hd hc
    rw [bstClassify_discharging s x hd hc]
    exact ⟨rfl, rfl⟩
  · intro hd hc
    rw [bstClassify_charging s x hd hc]
    exact ⟨rfl, rfl⟩

/-- C18 fails as stated, in three ways.  A status word that differs from the stored one
(1 against 0) with rate 600 and running average 600 leaves the average 0, not the rate
600.  A status word that repeats the stored one with no running average leaves the
average 600, the rate itself, not the half-sum 300.  With a running average and a rate
of 4294934527 each (the rate `0x18000` after sign handling) the sum wraps and the
average is 2147450879, not the half-sum 4294934527. -/
theorem C18_counterexample :
    (∃ b, setBatteryBST (bstPackage 1 600 1200 12000) (ampsBattery 0 600) = some b ∧
      (ampsBattery 0 600).fStatus ≠ 1 ∧ b.fCurrentRate = 600 ∧ b.fStatus = 1 ∧
      b.fAverageRate = 0 ∧ b.fAverageRate ≠ b.fCurrentRate) ∧
    (∃ b, setBatteryBST (bstPackage 1 600 1200 12000) (ampsBattery 1 0) = some b ∧
      (ampsBattery 1 0).fStatus = 1 ∧ (ampsBattery 1 0).fAverageRate = 0 ∧
      b.fCurrentRate = 600 ∧ b.fAverageRate = 600 ∧
      b.fAverageRate ≠ ((ampsBattery 1 0).fAverageRate + b.fCurrentRate) / 2) ∧
    (∃ b, setBatteryBST (bstPackage 2 98304 500 12000) (ampsBattery 2 4294934527) = some b ∧
      (ampsBattery 2 4294934527).fStatus = 2 ∧
      b.fCurrentRate = 4294934527 ∧ b.fAverageRate = 2147450879 ∧
      b.fAverageRate ≠ ((ampsBattery 2 4294934527).fAverageRate + b.fCurrentRate) / 2) := by
  refine ⟨⟨_, rfl, ?_, rfl, rfl, rfl, ?_⟩, ⟨_, rfl, rfl, rfl, rfl, rfl, ?_⟩,
    ⟨_, rfl, rfl, rfl, rfl, ?_⟩⟩ <;> decide

/-- C18 (amended).  After every decode, with `prev` the averaged rate before the call
and `r` the current rate after normalization and fallback (the member the decode
leaves), the stored status is the new status word, and: when the status word equals the
previously stored one, the averaged rate is `((prev + r) mod 2^32) / 2` if `prev` is
not 0 and `r` itself if `prev` is 0; when the status word differs from the previously
stored one, the averaged rate is reset to 0. -/
theorem C18_rate_smoothing (acpibat_bst : List OSObject) (self : AppleSmartBattery)
    (hdef : self.fPowerUnit = WATTS → GetValueFromArray acpibat_bst BST_VOLTAGE ≠ 0) :
    ∃ b, setBatteryBST acpibat_bst self = some b ∧
      b.fCurrentRate =
        rateWithFallback
          (normalizedRate self.fPowerUnit (GetValueFromArray acpibat_bst BST_RATE)
            (GetValueFromArray acpibat_bst BST_VOLTAGE)) self.fMaxCapacity ∧
      b.fStatus = GetValueFromArray acpibat_bst BST_STATUS ∧
      (GetValueFromArray acpibat_bst BST_STATUS = self.fStatus →
        (self.fAverageRate ≠ 0 →
          b.fAverageRate = (self.fAverageRate + b.fCurrentRate) % 4294967296 / 2) ∧
        (self.fAverageRate = 0 → b.fAverageRate = b.fCurrentRate)) ∧
      (GetValueFromArray acpibat_bst BST_STATUS ≠ self.fStatus → b.fAverageRate = 0) := by
  obtain ⟨n, -, hb, -⟩ := setBatteryBST_some acpibat_bst self hdef
  obtain ⟨hr, hs, ha, -⟩ := setBatteryBST_rates acpibat_bst self _ hb
  refine ⟨_, hb, hr, hs, ?_, ?_⟩
  · intro hsame
    rw [ha, if_neg (not_not.mpr hsame)]
    constructor
    · intro hp
      rw [if_pos hp]
      rfl
    · intro hp
      rw [if_neg (not_not.mpr hp)]
  · intro hdiff
    rw [ha, if_pos hdiff]

/-- The amended C18 at concrete inputs: the charge unit and a rate of 600; a repeated
status word with running average 200 gives 400, with no running average it gives 600,
and a changed status word gives 0. -/
theorem C18_rate_smoothing_witness :
    (∃ b, setBatteryBST (bstPackage 1 600 1200 12000) (ampsBattery 1 200) = some b ∧
      b.fCurrentRate = 600 ∧ b.fStatus = 1 ∧ b.fAverageRate = 400) ∧
    (∃ b, setBatteryBST (bstPackage 1 600 1200 12000) (ampsBattery 1 0) = some b ∧
      b.fCurrentRate = 600 ∧ b.fStatus = 1 ∧ b.fAverageRate = 600) ∧
    (∃ b, setBatteryBST (bstPackage 1 600 1200 12000) (ampsBattery 0 200) = some b ∧
      b.fCurrentRate = 600 ∧ b.fStatus = 1 ∧ b.fAverageRate = 0) := by
  refine ⟨?_, ?_, ?_⟩
  · obtain ⟨b, hb, hr, hs, hsame, -⟩ :=
      C18_rate_smoothing (bstPackage 1 600 1200 12000) (ampsBattery 1 200) (by decide)
    have hr600 : b.fCurrentRate = 600 := hr.trans (by decide)
    have ha := (hsame rfl).1 (by decide)
    rw [hr600] at ha
    exact ⟨b, hb, hr600, hs, ha⟩
  · obtain ⟨b, hb, hr, hs, hsame, -⟩ :=
      C18_rate_smoothing (bstPackage 1 600 1200 12000) (ampsBattery 1 0) (by decide)
    have hr600 : b.fCurrentRate = 600 := hr.trans (by decide)
    have ha := (hsame rfl).2 rfl
    rw [hr600] at ha
    exact ⟨b, hb, hr600, hs, ha⟩
  · obtain ⟨b, hb, hr, hs, -, hdiff⟩ :=
      C18_rate_smoothing (bstPackage 1 600 1200 12000) (ampsBattery 0 200) (by decide)
    exact ⟨b, hb, hr.trans (by decide), hs, hdiff (by decide)⟩

theorem rateAfterSign_cases (r : Nat) (hr : r < 4294967296) :
    rateAfterSign r =
      (if r &&& 0x8000 ≠ 0 then (if r ≤ 0xFFFF then 0xFFFF - r else 0xFFFF + 4294967296 - r)
        else r) := by
  unfold rateAfterSign sub32
  split_ifs <;> omega

/-- C19.  For every 32-bit raw present rate `r` of the package, the rate the decoder
goes on with after the sign handling is `(0xFFFF - r) mod 2^32` when bit 15 of `r` is
set (`0xFFFF - r` for `r` up to `0xFFFF`, `0xFFFF + 2^32 - r` above) and `r` otherwise.
For a 16-bit `r` with bit 15 set the result is between 0 and `0x7FFF`.  For the sentinel
`r = 0xFFFFFFFF` it is `0x10000`, and with a power unit that is not the energy unit the
decode keeps it as the current rate and publishes it as the instantaneous amperage,
negated for a discharging status and as it is for a charging status. -/
theorem C19_rate_sign (acpibat_bst : List OSObject) (self : AppleSmartBattery) :
    ((bstRateSign (bstFetch acpibat_bst self)).fCurrentRate =
      (if GetValueFromArray acpibat_bst BST_RATE &&& 0x8000 ≠ 0
        then (if GetValueFromArray acpibat_bst BST_RATE ≤ 0xFFFF
          then 0xFFFF - GetValueFromArray acpibat_bst BST_RATE
          else 0xFFFF + 4294967296 - GetValueFromArray acpibat_bst BST_RATE)
        else GetValueFromArray acpibat_bst BST_RATE)) ∧
    (GetValueFromArray acpibat_bst BST_RATE < 65536 →
      GetValueFromArray acpibat_bst BST_RATE &&& 0x8000 ≠ 0 →
      (bstRateSign (bstFetch acpibat_bst self)).fCurrentRate ≤ 0x7FFF) ∧
    (GetValueFromArray acpibat_bst BST_RATE = 0xFFFFFFFF →
      (bstRateSign (bstFetch acpibat_bst self)).fCurrentRate = 0x10000 ∧
      (self.fPowerUnit ≠ WATTS →
        ∃ b, setBatteryBST acpibat_bst self = some b ∧ b.fCurrentRate = 0x10000 ∧
          (GetValueFromArray acpibat_bst BST_STATUS &&& BATTERY_DISCHARGING ≠ 0 →
            GetValueFromArray acpibat_bst BST_STATUS &&& BATTERY_CHARGING = 0 →
            published b Key.InstantAmperageSym =
              some (OSValue.number (4294967296 - 0x10000)) ∧
            toSInt32 (4294967296 - 0x10000) = -65536) ∧
          (GetValueFromArray acpibat_bst BST_STATUS &&& BATTERY_DISCHARGING = 0 →
            GetValueFromArray acpibat_bst BST_STATUS &&& BATTERY_CHARGING ≠ 0 →
            published b Key.InstantAmperageSym = some (OSValue.number 0x10000)))) := by
  have hlt := GetValueFromArray_lt acpibat_bst BST_RATE
  have hsign : (bstRateSign (bstFetch acpibat_bst self)).fCurrentRate =
      rateAfterSign (GetValueFromArray acpibat_bst BST_RATE) := by
    rw [bstRateSign_rate]
    rfl
  rw [hsign, rateAfterSign_cases _ hlt]
  refine ⟨rfl, ?_, ?_⟩
  · intro h16 hbit
    have hge := bit15_ge _ hbit
    rw [if_pos hbit, if_pos (by omega)]
    omega
  · intro hr
    rw [hr]
    refine ⟨by decide, ?_⟩
    intro hunit
    obtain ⟨n, -, hb, -⟩ := setBatteryBST_some acpibat_bst self (fun h => absurd h hunit)
    obtain ⟨hrate, -⟩ := setBatteryBST_rates acpibat_bst self _ hb
    have hrate2 :
        (bstFinish (bstCellVoltages (bstQuickPoll
          (bstClassify (GetValueFromArray acpibat_bst BST_STATUS)
            (bstStatusChange (GetValueFromArray acpibat_bst BST_STATUS)
              (bstAverageRate (bstRateFallback n))))))).fCurrentRate = 0x10000 := by
      rw [hrate, hr]
      unfold normalizedRate
      rw [if_neg hunit]
      rfl
    obtain ⟨hdis, hchg⟩ := setBatteryBST_instant acpibat_bst self _ hb
    refine ⟨_, hb, hrate2, ?_, ?_⟩
    · intro hd hc
      have h1 := (hdis hd hc).1
      rw [hrate2] at h1
      exact ⟨h1, by decide⟩
    · intro hd hc
      have h1 := (hchg hd hc).1
      rw [hrate2] at h1
      exact h1

/-- C19 at concrete inputs: in the charge unit, a discharging package whose raw rate is
the sentinel `0xFFFFFFFF` publishes the instantaneous amperage -65536 (stored as
`2^32 - 65536`), and a 16-bit raw rate of `0xFFF0` becomes 15. -/
theorem C19_rate_sign_witness :
    (∃ b, setBatteryBST (bstPackage 1 0xFFFFFFFF 1200 12000) (ampsBattery 1 600) = some b ∧
      b.fCurrentRate = 0x10000 ∧
      published b Key.InstantAmperageSym = some (OSValue.number 4294901760)) ∧
    (bstRateSign (bstFetch (bstPackage 1 0xFFF0 1200 12000) (ampsBattery 1 600))).fCurrentRate
      = 15 := by
  obtain ⟨h1, -, h3⟩ := C19_rate_sign (bstPackage 1 0xFFFFFFFF 1200 12000) (ampsBattery 1 600)
  obtain ⟨b, hb, hr, hd, -⟩ := (h3 rfl).2 (by decide)
  exact ⟨⟨b, hb, hr, (hd (by decide) (by decide)).1⟩, rfl⟩

theorem rateWithFallback_zero (rate maxCapacity : Nat)
    (h : rateWithFallback rate maxCapacity = 0) : rate = 0 ∧ maxCapacity ≤ 1 := by
  unfold rateWithFallback at h
  split_ifs at h with h0
  · exact ⟨h0, by omega⟩
  · exact absurd h h0

/-- C20.  For every decode, with `n` the current rate after the sign handling and the
unit normalization: the current rate the decode goes on with is `maxCapacity / 2` when
`n` is 0 and `n` itself otherwise.  It is therefore 0 only when the stored maximum
capacity is 0 or 1, and the sentinel `0xFFFF` that the Discharging and the Charging
classification publish as instantaneous time-to-empty and time-to-full for a zero
current rate is produced only in that case; for a non-zero rate they publish the
quotient. -/
theorem C20_rate_fallback (acpibat_bst : List OSObject) (self : AppleSmartBattery)
    (hdef : self.fPowerUnit = WATTS → GetValueFromArray acpibat_bst BST_VOLTAGE ≠ 0) :
    ∃ b, setBatteryBST acpibat_bst self = some b ∧
      (normalizedRate self.fPowerUnit (GetValueFromArray acpibat_bst BST_RATE)
          (GetValueFromArray acpibat_bst BST_VOLTAGE) = 0 →
        b.fCurrentRate = self.fMaxCapacity / 2) ∧
      (normalizedRate self.fPowerUnit (GetValueFromArray acpibat_bst BST_RATE)
          (GetValueFromArray acpibat_bst BST_VOLTAGE) ≠ 0 →
        b.fCurrentRate =
          normalizedRate self.fPowerUnit (GetValueFromArray acpibat_bst BST_RATE)
            (GetValueFromArray acpibat_bst BST_VOLTAGE)) ∧
      (b.fCurrentRate = 0 → self.fMaxCapacity = 0 ∨ self.fMaxCapacity = 1) ∧
      (GetValueFromArray acpibat_bst BST_STATUS &&& BATTERY_DISCHARGING ≠ 0 →
        GetValueFromArray acpibat_bst BST_STATUS &&& BATTERY_CHARGING = 0 →
        (b.fCurrentRate = 0 →
          published b Key.InstantTimeToEmptySym = some (OSValue.number 0xFFFF)) ∧
        (b.fCurrentRate ≠ 0 →
          published b Key.InstantTimeToEmptySym =
            some (OSValue.number
              (mul32 60 b.fCurrentCapacity / b.fCurrentRate % 4294967296)))) ∧
      (GetValueFromArray acpibat_bst BST_STATUS &&& BATTERY_DISCHARGING = 0 →
        GetValueFromArray acpibat_bst BST_STATUS &&& BATTERY_CHARGING ≠ 0 →
        (b.fCurrentRate = 0 →
          published b Key.InstantTimeToFullSym = some (OSValue.number 0xFFFF)) ∧
        (b.fCurrentRate ≠ 0 →
          published b Key.InstantTimeToFullSym =
            some (OSValue.number
              (mul32 60 (sub32 b.fMaxCapacity b.fCurrentCapacity) / b.fCurrentRate
                % 4294967296)))) := by
  obtain ⟨n, -, hb, -⟩ := setBatteryBST_some acpibat_bst self hdef
  obtain ⟨hr, -, -, -⟩ := setBatteryBST_rates acpibat_bst self _ hb
  obtain ⟨hdis, hchg⟩ := setBatteryBST_instant acpibat_bst self _ hb
  refine ⟨_, hb, ?_, ?_, ?_, ?_, ?_⟩
  · intro h0
    rw [hr, h0]
    rfl
  · intro h0
    rw [hr]
    unfold rateWithFallback
    rw [if_neg h0]
  · intro h0
    rw [hr] at h0
    have := (rateWithFallback_zero _ _ h0).2
    omega
  · intro hd hc
    have h1 := (hdis hd hc).2
    constructor
    · intro h0
      rw [h1, if_neg (not_not.mpr h0)]
    · intro h0
      rw [h1, if_pos h0]
  · intro hd hc
    have h1 := (hchg hd hc).2
    constructor
    · intro h0
      rw [h1, if_neg (not_not.mpr h0)]
    · intro h0
      rw [h1, if_pos h0]

/-- C20 at concrete inputs, in the charge unit with a discharging status word and a raw
rate of 0: a maximum capacity of 1000 gives the current rate 500 and the instantaneous
time-to-empty `60 * 1200 / 500 = 144`; a maximum capacity of 1 gives the current rate 0
and the sentinel `0xFFFF`. -/
theorem C20_rate_fallback_witness :
    (∃ b, setBatteryBST (bstPackage 1 0 1200 12000) (ampsBattery 1 600) = some b ∧
      b.fCurrentRate = 500 ∧
      published b Key.InstantTimeToEmptySym = some (OSValue.number 144)) ∧
    (∃ b, setBatteryBST (bstPackage 1 0 1200 12000)
        { ampsBattery 1 600 with fMaxCapacity := 1 } = some b ∧
      b.fCurrentRate = 0 ∧
      published b Key.InstantTimeToEmptySym = some (OSValue.number 0xFFFF)) := by
  constructor
  · obtain ⟨b, hb, h0, -, -, hd, -⟩ :=
      C20_rate_fallback (bstPackage 1 0 1200 12000) (ampsBattery 1 600) (by decide)
    have hr : b.fCurrentRate = 500 := h0 (by decide)
    have hc : (setBatteryBST (bstPackage 1 0 1200 12000) (ampsBattery 1 600)).map
        (fun b => b.fCurrentCapacity) = some 1200 := rfl
    rw [hb] at hc
    simp only [Option.map_some', Option.some.injEq] at hc
    have ht := (hd (by decide) (by decide)).2 (by rw [hr]; decide)
    rw [hr, hc] at ht
    exact ⟨b, hb, hr, ht⟩
  · obtain ⟨b, hb, h0, -, -, hd, -⟩ :=
      C20_rate_fallback (bstPackage 1 0 1200 12000)
        { ampsBattery 1 600 with fMaxCapacity := 1 } (by decide)
    have hr : b.fCurrentRate = 0 := h0 (by decide)
    exact ⟨b, hb, hr, (hd (by decide) (by decide)).1 hr⟩

/-- Every key of `removedDerivedKeys` is absent from the dictionary and from the
registry after `clearBatteryState`. -/
theorem clearBatteryState_removed (do_update : Bool) (self : AppleSmartBattery) (k : Key)
    (hk : k ∈ removedDerivedKeys) :
    (clearBatteryState do_update self).properties k = none ∧
    (clearBatteryState do_update self).registry k = none := by
  simp only [removedDerivedKeys, List.mem_cons, List.mem_singleton, List.not_mem_nil,
    or_false] at hk
  cases do_update
  · rcases hk with rfl | rfl | rfl | rfl | rfl | rfl | rfl | rfl | rfl | rfl | rfl | rfl | rfl | rfl | rfl | rfl | rfl | rfl | rfl | rfl | rfl | rfl | rfl <;> exact ⟨rfl, rfl⟩
  · unfold clearBatteryState
    simp only [if_true]
    rw [updateStatus_properties]
    rcases hk with rfl | rfl | rfl | rfl | rfl | rfl | rfl | rfl | rfl | rfl | rfl | rfl | rfl | rfl | rfl | rfl | rfl | rfl | rfl | rfl | rfl | rfl | rfl <;>
      exact ⟨rfl, by rw [updateStatus_registry _ _ rfl]; rfl⟩

/-- The two currents of the extra decoder are left in the dictionary by
`clearBatteryState`. -/
theorem clearBatteryState_currents (do_update : Bool) (self : AppleSmartBattery) :
    (clearBatteryState do_update self).properties Key.AverageCurrentSym =
      self.properties Key.AverageCurrentSym ∧
    (clearBatteryState do_update self).properties Key.CurrentSym =
      self.properties Key.CurrentSym := by
  cases do_update
  · exact ⟨rfl, rfl⟩
  · unfold clearBatteryState
    simp only [if_true]
    rw [updateStatus_properties]
    exact ⟨rfl, rfl⟩

/-- C17 (code defect).  `clearBatteryState` removes the derived attributes one by one
(lines 583 to 640) and misses the two that `setBatteryBBIX` publishes through
`setAverageCurrent` and `setCurrent`: after an extra-information decode with current
1400 and average current 1500, a clearing (with either value of `do_update`) leaves
"Current" and "AverageCurrent" in the dictionary, and with `do_update` set it copies
them to the registry (first and second part).  Every other key of the claim is absent
from the dictionary and from the registry after a clearing, from every state (third
part). -/
theorem C17_clear_removes_derived :
    (∃ b, setBatteryBBIX (bbixPackage 1400 1500) (ampsBattery 1 600) = some b ∧
      published (clearBatteryState true b) Key.AverageCurrentSym = some (OSValue.number 1500) ∧
      published (clearBatteryState true b) Key.CurrentSym = some (OSValue.number 1400) ∧
      (clearBatteryState true b).registry Key.AverageCurrentSym = some (OSValue.number 1500) ∧
      (clearBatteryState true b).registry Key.CurrentSym = some (OSValue.number 1400) ∧
      published (clearBatteryState false b) Key.AverageCurrentSym =
        some (OSValue.number 1500) ∧
      published (clearBatteryState false b) Key.CurrentSym = some (OSValue.number 1400)) ∧
    (∀ (do_update : Bool) (self : AppleSmartBattery),
      published (clearBatteryState do_update self) Key.AverageCurrentSym =
        published self Key.AverageCurrentSym ∧
      published (clearBatteryState do_update self) Key.CurrentSym =
        published self Key.CurrentSym) ∧
    (∀ (do_update : Bool) (self : AppleSmartBattery) (k : Key), k ∈ removedDerivedKeys →
      published (clearBatteryState do_update self) k = none ∧
      (clearBatteryState do_update self).registry k = none) := by
  refine ⟨⟨_, rfl, rfl, rfl, rfl, rfl, rfl, rfl⟩, ?_, ?_⟩
  · intro do_update self
    exact clearBatteryState_currents do_update self
  · intro do_update self k hk
    exact clearBatteryState_removed do_update self k hk

/-! ## Lemmas on a poll cycle: the settings it keeps and the calls it records -/

theorem SettingsKept.keptRefl (a : AppleSmartBattery) : SettingsKept a a :=
  ⟨rfl, rfl, rfl, rfl, rfl, rfl⟩

theorem SettingsKept.andKept {a b c : AppleSmartBattery}
    (h1 : SettingsKept a b) (h2 : SettingsKept b c) : SettingsKept a c :=
  ⟨h2.1.trans h1.1, h2.2.1.trans h1.2.1, h2.2.2.1.trans h1.2.2.1,
    h2.2.2.2.1.trans h1.2.2.2.1, h2.2.2.2.2.1.trans h1.2.2.2.2.1,
    h2.2.2.2.2.2.trans h1.2.2.2.2.2⟩

theorem Emits.emitsRefl (allowed : Event → Bool) (a : AppleSmartBattery) : Emits allowed a a :=
  ⟨[], by simp, by simp⟩

theorem Emits.andEmits {allowed : Event → Bool} {a b c : AppleSmartBattery}
    (h1 : Emits allowed a b) (h2 : Emits allowed b c) : Emits allowed a c := by
  obtain ⟨es1, ht1, ha1⟩ := h1
  obtain ⟨es2, ht2, ha2⟩ := h2
  refine ⟨es1 ++ es2, by rw [ht2, ht1, List.append_assoc], ?_⟩
  intro e he
  rcases List.mem_append.mp he with h | h
  · exact ha1 e h
  · exact ha2 e h

theorem Emits.of_trace_eq {allowed : Event → Bool} {a b : AppleSmartBattery}
    (h : b.trace = a.trace) : Emits allowed a b :=
  ⟨[], by simp [h], by simp⟩

theorem Emits.of_emit (allowed : Event → Bool) (e : Event) (a : AppleSmartBattery)
    (he : allowed e = true) : Emits allowed a (emit e a) :=
  ⟨[e], rfl, by simpa using he⟩

theorem Emits.mono {allowed wider : Event → Bool} {a b : AppleSmartBattery}
    (h : Emits allowed a b) (hw : ∀ e, allowed e = true → wider e = true) :
    Emits wider a b := by
  obtain ⟨es, ht, ha⟩ := h
  exact ⟨es, ht, fun e he => hw e (ha e he)⟩

/-- A step that records only calls outside `p` leaves the calls of kind `p` as they
were. -/
theorem Emits.filter_eq {allowed : Event → Bool} {a b : AppleSmartBattery}
    (h : Emits allowed a b) (p : Event → Bool)
    (hp : ∀ e, allowed e = true → p e = false) :
    b.trace.filter p = a.trace.filter p := by
  obtain ⟨es, ht, ha⟩ := h
  rw [ht, List.filter_append]
  have hnil : es.filter p = [] := by
    rw [List.filter_eq_nil_iff]
    intro e he
    rw [hp e (ha e he)]
    decide
  rw [hnil, List.append_nil]

theorem isDecoderEvent_not_evaluate (e : Event) (h : isDecoderEvent e = true) :
    isEvaluate e = false := by
  cases e <;> first | rfl | exact absurd h (by decide)

@[simp] theorem setPSProperty_settings (k : Key) (v : OSValue) (b : AppleSmartBattery) :
    (setPSProperty k v b).fInitialPollCountdown = b.fInitialPollCountdown ∧
    (setPSProperty k v b).fPollingOverridden = b.fPollingOverridden ∧
    (setPSProperty k v b).fUseBatteryExtendedInformation = b.fUseBatteryExtendedInformation ∧
    (setPSProperty k v b).fUseBatteryExtraInformation = b.fUseBatteryExtraInformation ∧
    (setPSProperty k v b).milliSecPollingTable = b.milliSecPollingTable ∧
    (setPSProperty k v b).fSystemSleeping = b.fSystemSleeping ∧
    (setPSProperty k v b).fPollingInterval = b.fPollingInterval ∧
    (setPSProperty k v b).fPowerUnit = b.fPowerUnit :=
  ⟨rfl, rfl, rfl, rfl, rfl, rfl, rfl, rfl⟩

@[simp] theorem setProperty_settings (k : Key) (v : OSValue) (b : AppleSmartBattery) :
    (setProperty k v b).fInitialPollCountdown = b.fInitialPollCountdown ∧
    (setProperty k v b).fPollingOverridden = b.fPollingOverridden ∧
    (setProperty k v b).fUseBatteryExtendedInformation = b.fUseBatteryExtendedInformation ∧
    (setProperty k v b).fUseBatteryExtraInformation = b.fUseBatteryExtraInformation ∧
    (setProperty k v b).milliSecPollingTable = b.milliSecPollingTable ∧
    (setProperty k v b).fSystemSleeping = b.fSystemSleeping ∧
    (setProperty k v b).fPollingInterval = b.fPollingInterval ∧
    (setProperty k v b).fPowerUnit = b.fPowerUnit :=
  ⟨rfl, rfl, rfl, rfl, rfl, rfl, rfl, rfl⟩

@[simp] theorem removeBoth_settings (k : Key) (b : AppleSmartBattery) :
    (removeBoth k b).fInitialPollCountdown = b.fInitialPollCountdown ∧
    (removeBoth k b).fPollingOverridden = b.fPollingOverridden ∧
    (removeBoth k b).fUseBatteryExtendedInformation = b.fUseBatteryExtendedInformation ∧
    (removeBoth k b).fUseBatteryExtraInformation = b.fUseBatteryExtraInformation ∧
    (removeBoth k b).milliSecPollingTable = b.milliSecPollingTable ∧
    (removeBoth k b).fSystemSleeping = b.fSystemSleeping ∧
    (removeBoth k b).fPollingInterval = b.fPollingInterval ∧
    (removeBoth k b).fPowerUnit = b.fPowerUnit :=
  ⟨rfl, rfl, rfl, rfl, rfl, rfl, rfl, rfl⟩

@[simp] theorem propertiesRemoveObject_settings (k : Key) (b : AppleSmartBattery) :
    (propertiesRemoveObject k b).fInitialPollCountdown = b.fInitialPollCountdown ∧
    (propertiesRemoveObject k b).fPollingOverridden = b.fPollingOverridden ∧
    (propertiesRemoveObject k b).fUseBatteryExtendedInformation = b.fUseBatteryExtendedInformation ∧
    (propertiesRemoveObject k b).fUseBatteryExtraInformation = b.fUseBatteryExtraInformation ∧
    (propertiesRemoveObject k b).milliSecPollingTable = b.milliSecPollingTable ∧
    (propertiesRemoveObject k b).fSystemSleeping = b.fSystemSleeping ∧
    (propertiesRemoveObject k b).fPollingInterval = b.fPollingInterval ∧
    (propertiesRemoveObject k b).fPowerUnit = b.fPowerUnit :=
  ⟨rfl, rfl, rfl, rfl, rfl, rfl, rfl, rfl⟩

@[simp] theorem emit_settings (e : Event) (b : AppleSmartBattery) :
    (emit e b).fInitialPollCountdown = b.fInitialPollCountdown ∧
    (emit e b).fPollingOverridden = b.fPollingOverridden ∧
    (emit e b).fUseBatteryExtendedInformation = b.fUseBatteryExtendedInformation ∧
    (emit e b).fUseBatteryExtraInformation = b.fUseBatteryExtraInformation ∧
    (emit e b).milliSecPollingTable = b.milliSecPollingTable ∧
    (emit e b).fSystemSleeping = b.fSystemSleeping ∧
    (emit e b).fPollingInterval = b.fPollingInterval ∧
    (emit e b).fPowerUnit = b.fPowerUnit :=
  ⟨rfl, rfl, rfl, rfl, rfl, rfl, rfl, rfl⟩

@[simp] theorem updateStatus_settings (b : AppleSmartBattery) :
    (updateStatus b).fInitialPollCountdown = b.fInitialPollCountdown ∧
    (updateStatus b).fPollingOverridden = b.fPollingOverridden ∧
    (updateStatus b).fUseBatteryExtendedInformation = b.fUseBatteryExtendedInformation ∧
    (updateStatus b).fUseBatteryExtraInformation = b.fUseBatteryExtraInformation ∧
    (updateStatus b).milliSecPollingTable = b.milliSecPollingTable ∧
    (updateStatus b).fSystemSleeping = b.fSystemSleeping ∧
    (updateStatus b).fPollingInterval = b.fPollingInterval ∧
    (updateStatus b).fPowerUnit = b.fPowerUnit := by
  unfold updateStatus
  split_ifs <;> exact ⟨rfl, rfl, rfl, rfl, rfl, rfl, rfl, rfl⟩

@[simp] theorem setDeviceName_settings (sym : Option String) (b : AppleSmartBattery) :
    (setDeviceName sym b).fInitialPollCountdown = b.fInitialPollCountdown ∧
    (setDeviceName sym b).fPollingOverridden = b.fPollingOverridden ∧
    (setDeviceName sym b).fUseBatteryExtendedInformation = b.fUseBatteryExtendedInformation ∧
    (setDeviceName sym b).fUseBatteryExtraInformation = b.fUseBatteryExtraInformation ∧
    (setDeviceName sym b).milliSecPollingTable = b.milliSecPollingTable ∧
    (setDeviceName sym b).fSystemSleeping = b.fSystemSleeping ∧
    (setDeviceName sym b).fPollingInterval = b.fPollingInterval ∧
    (setDeviceName sym b).fPowerUnit = b.fPowerUnit := by
  cases sym <;> exact ⟨rfl, rfl, rfl, rfl, rfl, rfl, rfl, rfl⟩

@[simp] theorem setSerialNumber_settings (sym : Option String) (b : AppleSmartBattery) :
    (setSerialNumber sym b).fInitialPollCountdown = b.fInitialPollCountdown ∧
    (setSerialNumber sym b).fPollingOverridden = b.fPollingOverridden ∧
    (setSerialNumber sym b).fUseBatteryExtendedInformation = b.fUseBatteryExtendedInformation ∧
    (setSerialNumber sym b).fUseBatteryExtraInformation = b.fUseBatteryExtraInformation ∧
    (setSerialNumber sym b).milliSecPollingTable = b.milliSecPollingTable ∧
    (setSerialNumber sym b).fSystemSleeping = b.fSystemSleeping ∧
    (setSerialNumber sym b).fPollingInterval = b.fPollingInterval ∧
    (setSerialNumber sym b).fPowerUnit = b.fPowerUnit := by
  cases sym <;> exact ⟨rfl, rfl, rfl, rfl, rfl, rfl, rfl, rfl⟩

@[simp] theorem setBatteryType_settings (sym : Option String) (b : AppleSmartBattery) :
    (setBatteryType sym b).fInitialPollCountdown = b.fInitialPollCountdown ∧
    (setBatteryType sym b).fPollingOverridden = b.fPollingOverridden ∧
    (setBatteryType sym b).fUseBatteryExtendedInformation = b.fUseBatteryExtendedInformation ∧
    (setBatteryType sym b).fUseBatteryExtraInformation = b.fUseBatteryExtraInformation ∧
    (setBatteryType sym b).milliSecPollingTable = b.milliSecPollingTable ∧
    (setBatteryType sym b).fSystemSleeping = b.fSystemSleeping ∧
    (setBatteryType sym b).fPollingInterval = b.fPollingInterval ∧
    (setBatteryType sym b).fPowerUnit = b.fPowerUnit := by
  cases sym <;> exact ⟨rfl, rfl, rfl, rfl, rfl, rfl, rfl, rfl⟩

@[simp] theorem setManufacturer_settings (sym : Option String) (b : AppleSmartBattery) :
    (setManufacturer sym b).fInitialPollCountdown = b.fInitialPollCountdown ∧
    (setManufacturer sym b).fPollingOverridden = b.fPollingOverridden ∧
    (setManufacturer sym b).fUseBatteryExtendedInformation = b.fUseBatteryExtendedInformation ∧
    (setManufacturer sym b).fUseBatteryExtraInformation = b.fUseBatteryExtraInformation ∧
    (setManufacturer sym b).milliSecPollingTable = b.milliSecPollingTable ∧
    (setManufacturer sym b).fSystemSleeping = b.fSystemSleeping ∧
    (setManufacturer sym b).fPollingInterval = b.fPollingInterval ∧
    (setManufacturer sym b).fPowerUnit = b.fPowerUnit := by
  cases sym <;> exact ⟨rfl, rfl, rfl, rfl, rfl, rfl, rfl, rfl⟩

@[simp] theorem setErrorCondition_settings (sym : Option String) (b : AppleSmartBattery) :
    (setErrorCondition sym b).fInitialPollCountdown = b.fInitialPollCountdown ∧
    (setErrorCondition sym b).fPollingOverridden = b.fPollingOverridden ∧
    (setErrorCondition sym b).fUseBatteryExtendedInformation = b.fUseBatteryExtendedInformation ∧
    (setErrorCondition sym b).fUseBatteryExtraInformation = b.fUseBatteryExtraInformation ∧
    (setErrorCondition sym b).milliSecPollingTable = b.milliSecPollingTable ∧
    (setErrorCondition sym b).fSystemSleeping = b.fSystemSleeping ∧
    (setErrorCondition sym b).fPollingInterval = b.fPollingInterval ∧
    (setErrorCondition sym b).fPowerUnit = b.fPowerUnit := by
  cases sym <;> exact ⟨rfl, rfl, rfl, rfl, rfl, rfl, rfl, rfl⟩

theorem bifPublish_settings (b : AppleSmartBattery) :
    (bifPublish b).fInitialPollCountdown = b.fInitialPollCountdown ∧
    (bifPublish b).fPollingOverridden = b.fPollingOverridden ∧
    (bifPublish b).fUseBatteryExtendedInformation = b.fUseBatteryExtendedInformation ∧
    (bifPublish b).fUseBatteryExtraInformation = b.fUseBatteryExtraInformation ∧
    (bifPublish b).milliSecPollingTable = b.milliSecPollingTable ∧
    (bifPublish b).fSystemSleeping = b.fSystemSleeping ∧
    (bifPublish b).fPollingInterval = b.fPollingInterval ∧
    (bifPublish b).fPowerUnit = b.fPowerUnit := by
  simp [bifPublish, setDesignCapacity, setMaxCapacity, setCycleCount, setMaxErr, setManufactureDate,
    setManufacturerData, setPermanentFailureStatus]

theorem bixPublish_settings (b : AppleSmartBattery) :
    (bixPublish b).fInitialPollCountdown = b.fInitialPollCountdown ∧
    (bixPublish b).fPollingOverridden = b.fPollingOverridden ∧
    (bixPublish b).fUseBatteryExtendedInformation = b.fUseBatteryExtendedInformation ∧
    (bixPublish b).fUseBatteryExtraInformation = b.fUseBatteryExtraInformation ∧
    (bixPublish b).milliSecPollingTable = b.milliSecPollingTable ∧
    (bixPublish b).fSystemSleeping = b.fSystemSleeping ∧
    (bixPublish b).fPollingInterval = b.fPollingInterval ∧
    (bixPublish b).fPowerUnit = b.fPowerUnit := by
  simp [bixPublish, setDesignCapacity, setMaxCapacity, setCycleCount, setMaxErr, setManufactureDate,
    setManufacturerData, setPermanentFailureStatus]

theorem bbixPublish_settings (len : Nat) (b : AppleSmartBattery) :
    (bbixPublish len b).fInitialPollCountdown = b.fInitialPollCountdown ∧
    (bbixPublish len b).fPollingOverridden = b.fPollingOverridden ∧
    (bbixPublish len b).fUseBatteryExtendedInformation = b.fUseBatteryExtendedInformation ∧
    (bbixPublish len b).fUseBatteryExtraInformation = b.fUseBatteryExtraInformation ∧
    (bbixPublish len b).milliSecPollingTable = b.milliSecPollingTable ∧
    (bbixPublish len b).fSystemSleeping = b.fSystemSleeping ∧
    (bbixPublish len b).fPollingInterval = b.fPollingInterval ∧
    (bbixPublish len b).fPowerUnit = b.fPowerUnit :=
  ⟨rfl, rfl, rfl, rfl, rfl, rfl, rfl, rfl⟩

theorem reportZeroCapacity_settings (b : AppleSmartBattery) :
    (reportZeroCapacity b).fInitialPollCountdown = b.fInitialPollCountdown ∧
    (reportZeroCapacity b).fPollingOverridden = b.fPollingOverridden ∧
    (reportZeroCapacity b).fUseBatteryExtendedInformation = b.fUseBatteryExtendedInformation ∧
    (reportZeroCapacity b).fUseBatteryExtraInformation = b.fUseBatteryExtraInformation ∧
    (reportZeroCapacity b).milliSecPollingTable = b.milliSecPollingTable ∧
    (reportZeroCapacity b).fSystemSleeping = b.fSystemSleeping ∧
    (reportZeroCapacity b).fPollingInterval = b.fPollingInterval ∧
    (reportZeroCapacity b).fPowerUnit = b.fPowerUnit := by
  unfold reportZeroCapacity
  split_ifs <;> exact ⟨rfl, rfl, rfl, rfl, rfl, rfl, rfl, rfl⟩

theorem clearBatteryState_settings (do_update : Bool) (b : AppleSmartBattery) :
    (clearBatteryState do_update b).fInitialPollCountdown = b.fInitialPollCountdown ∧
    (clearBatteryState do_update b).fPollingOverridden = b.fPollingOverridden ∧
    (clearBatteryState do_update b).fUseBatteryExtendedInformation = b.fUseBatteryExtendedInformation ∧
    (clearBatteryState do_update b).fUseBatteryExtraInformation = b.fUseBatteryExtraInformation ∧
    (clearBatteryState do_update b).milliSecPollingTable = b.milliSecPollingTable ∧
    (clearBatteryState do_update b).fSystemSleeping = b.fSystemSleeping ∧
    (clearBatteryState do_update b).fPollingInterval = b.fPollingInterval ∧
    (clearBatteryState do_update b).fPowerUnit = b.fPowerUnit := by
  unfold clearBatteryState
  cases do_update <;>
  simp [rebuildLegacyIOBatteryInfo, setLegacyIOBatteryInfo, setBatteryInstalled, setIsCharging,
    setCurrentCapacity, setMaxCapacity, setTimeRemaining, setAmperage, setVoltage, setCycleCount,
    setMaxErr, setAdapterInfo, setLocation]

@[simp] theorem bstFetch_scheduler (p : List OSObject) (b : AppleSmartBattery) :
    (bstFetch p b).fInitialPollCountdown = b.fInitialPollCountdown ∧
    (bstFetch p b).fUseBatteryExtendedInformation = b.fUseBatteryExtendedInformation ∧
    (bstFetch p b).fUseBatteryExtraInformation = b.fUseBatteryExtraInformation ∧
    (bstFetch p b).fSystemSleeping = b.fSystemSleeping :=
  ⟨rfl, rfl, rfl, rfl⟩

@[simp] theorem bstRateSign_scheduler  (b : AppleSmartBattery) :
    (bstRateSign b).fInitialPollCountdown = b.fInitialPollCountdown ∧
    (bstRateSign b).fUseBatteryExtendedInformation = b.fUseBatteryExtendedInformation ∧
    (bstRateSign b).fUseBatteryExtraInformation = b.fUseBatteryExtraInformation ∧
    (bstRateSign b).fSystemSleeping = b.fSystemSleeping := by
  unfold bstRateSign; split_ifs <;> exact ⟨rfl, rfl, rfl, rfl⟩

@[simp] theorem bstRateFallback_scheduler  (b : AppleSmartBattery) :
    (bstRateFallback b).fInitialPollCountdown = b.fInitialPollCountdown ∧
    (bstRateFallback b).fUseBatteryExtendedInformation = b.fUseBatteryExtendedInformation ∧
    (bstRateFallback b).fUseBatteryExtraInformation = b.fUseBatteryExtraInformation ∧
    (bstRateFallback b).fSystemSleeping = b.fSystemSleeping := by
  unfold bstRateFallback; split_ifs <;> exact ⟨rfl, rfl, rfl, rfl⟩

@[simp] theorem bstAverageRate_scheduler  (b : AppleSmartBattery) :
    (bstAverageRate b).fInitialPollCountdown = b.fInitialPollCountdown ∧
    (bstAverageRate b).fUseBatteryExtendedInformation = b.fUseBatteryExtendedInformation ∧
    (bstAverageRate b).fUseBatteryExtraInformation = b.fUseBatteryExtraInformation ∧
    (bstAverageRate b).fSystemSleeping = b.fSystemSleeping := by
  unfold bstAverageRate; split_ifs <;> exact ⟨rfl, rfl, rfl, rfl⟩

@[simp] theorem bstStatusChange_scheduler (s : Nat) (b : AppleSmartBattery) :
    (bstStatusChange s b).fInitialPollCountdown = b.fInitialPollCountdown ∧
    (bstStatusChange s b).fUseBatteryExtendedInformation = b.fUseBatteryExtendedInformation ∧
    (bstStatusChange s b).fUseBatteryExtraInformation = b.fUseBatteryExtraInformation ∧
    (bstStatusChange s b).fSystemSleeping = b.fSystemSleeping := by
  unfold bstStatusChange; split_ifs <;> exact ⟨rfl, rfl, rfl, rfl⟩

@[simp] theorem bstClassify_scheduler (s : Nat) (b : AppleSmartBattery) :
    (bstClassify s b).fInitialPollCountdown = b.fInitialPollCountdown ∧
    (bstClassify s b).fUseBatteryExtendedInformation = b.fUseBatteryExtendedInformation ∧
    (bstClassify s b).fUseBatteryExtraInformation = b.fUseBatteryExtraInformation ∧
    (bstClassify s b).fSystemSleeping = b.fSystemSleeping := by
  unfold bstClassify; split_ifs <;> exact ⟨rfl, rfl, rfl, rfl⟩

@[simp] theorem bstQuickPoll_scheduler  (b : AppleSmartBattery) :
    (bstQuickPoll b).fInitialPollCountdown = b.fInitialPollCountdown ∧
    (bstQuickPoll b).fUseBatteryExtendedInformation = b.fUseBatteryExtendedInformation ∧
    (bstQuickPoll b).fUseBatteryExtraInformation = b.fUseBatteryExtraInformation ∧
    (bstQuickPoll b).fSystemSleeping = b.fSystemSleeping := by
  unfold bstQuickPoll; split_ifs <;> exact ⟨rfl, rfl, rfl, rfl⟩

@[simp] theorem bstCellVoltages_scheduler  (b : AppleSmartBattery) :
    (bstCellVoltages b).fInitialPollCountdown = b.fInitialPollCountdown ∧
    (bstCellVoltages b).fUseBatteryExtendedInformation = b.fUseBatteryExtendedInformation ∧
    (bstCellVoltages b).fUseBatteryExtraInformation = b.fUseBatteryExtraInformation ∧
    (bstCellVoltages b).fSystemSleeping = b.fSystemSleeping :=
  ⟨rfl, rfl, rfl, rfl⟩

@[simp] theorem bstFinish_scheduler  (b : AppleSmartBattery) :
    (bstFinish b).fInitialPollCountdown = b.fInitialPollCountdown ∧
    (bstFinish b).fUseBatteryExtendedInformation = b.fUseBatteryExtendedInformation ∧
    (bstFinish b).fUseBatteryExtraInformation = b.fUseBatteryExtraInformation ∧
    (bstFinish b).fSystemSleeping = b.fSystemSleeping := by
  unfold bstFinish updateStatus; split_ifs <;> exact ⟨rfl, rfl, rfl, rfl⟩

theorem logReadError_emits (label : String) (additional : Nat) (b : AppleSmartBattery) :
    Emits isDecoderEvent b (logReadError label additional b) :=
  ⟨[Event.ioLogError label additional], rfl, by simp [isDecoderEvent]⟩

theorem updateStatus_emits (b : AppleSmartBattery) :
    Emits isDecoderEvent b (updateStatus b) := by
  unfold updateStatus
  split_ifs
  · exact ⟨[Event.batteryStatusHasChanged], rfl, by simp [isDecoderEvent]⟩
  · exact Emits.emitsRefl _ _

theorem reportZeroCapacity_emits (b : AppleSmartBattery) :
    Emits isDecoderEvent b (reportZeroCapacity b) := by
  unfold reportZeroCapacity
  split_ifs
  · exact logReadError_emits _ _ _
  · exact Emits.emitsRefl _ _

theorem clearBatteryState_emits (do_update : Bool) (b : AppleSmartBattery) :
    Emits isDecoderEvent b (clearBatteryState do_update b) := by
  unfold clearBatteryState
  cases do_update
  · exact Emits.of_trace_eq rfl
  · simp only [if_true]
    exact Emits.andEmits (Emits.of_trace_eq rfl) (updateStatus_emits _)

theorem bstClassify_emits (s : Nat) (b : AppleSmartBattery) :
    Emits isDecoderEvent b (bstClassify s b) := by
  unfold bstClassify
  split_ifs
  · exact ⟨[Event.ioLogError kErrorPermanentFailure 0], rfl, by simp [isDecoderEvent]⟩
  · exact Emits.of_trace_eq rfl
  · exact Emits.of_trace_eq rfl
  · exact Emits.of_trace_eq rfl

theorem bstFinish_emits (b : AppleSmartBattery) :
    Emits isDecoderEvent b (bstFinish b) := by
  unfold bstFinish
  refine Emits.andEmits ?_ (updateStatus_emits _)
  exact ⟨[Event.readAllTimerCancel], rfl, by simp [isDecoderEvent]⟩

theorem bifPublish_step (y : AppleSmartBattery) :
    SettingsKept y (bifPublish (reportZeroCapacity y)) ∧
    (bifPublish (reportZeroCapacity y)).fPollingInterval = y.fPollingInterval ∧
    (bifPublish (reportZeroCapacity y)).fPowerUnit = y.fPowerUnit ∧
    Emits isDecoderEvent y (bifPublish (reportZeroCapacity y)) := by
  obtain ⟨h1, h2, h3, h4, h5, h6, h7, h8⟩ := bifPublish_settings (reportZeroCapacity y)
  obtain ⟨g1, g2, g3, g4, g5, g6, g7, g8⟩ := reportZeroCapacity_settings y
  refine ⟨⟨h1.trans g1, h2.trans g2, h3.trans g3, h4.trans g4, h5.trans g5, h6.trans g6⟩,
    h7.trans g7, h8.trans g8, ?_⟩
  exact Emits.andEmits (reportZeroCapacity_emits y)
    (Emits.of_trace_eq (bifPublish_ack (reportZeroCapacity y)).2)

theorem bixPublish_step (y : AppleSmartBattery) :
    SettingsKept y (bixPublish (reportZeroCapacity y)) ∧
    (bixPublish (reportZeroCapacity y)).fPollingInterval = y.fPollingInterval ∧
    (bixPublish (reportZeroCapacity y)).fPowerUnit = y.fPowerUnit ∧
    Emits isDecoderEvent y (bixPublish (reportZeroCapacity y)) := by
  obtain ⟨h1, h2, h3, h4, h5, h6, h7, h8⟩ := bixPublish_settings (reportZeroCapacity y)
  obtain ⟨g1, g2, g3, g4, g5, g6, g7, g8⟩ := reportZeroCapacity_settings y
  refine ⟨⟨h1.trans g1, h2.trans g2, h3.trans g3, h4.trans g4, h5.trans g5, h6.trans g6⟩,
    h7.trans g7, h8.trans g8, ?_⟩
  exact Emits.andEmits (reportZeroCapacity_emits y)
    (Emits.of_trace_eq (bixPublish_ack (reportZeroCapacity y)).2)

/-- What the legacy static decoder keeps and records. -/
theorem setBatteryBIF_step (p : List OSObject) (b b' : AppleSmartBattery)
    (h : setBatteryBIF p b = some b') :
    SettingsKept b b' ∧ b'.fPollingInterval = b.fPollingInterval ∧
    b'.fPowerUnit = GetValueFromArray p BIF_POWER_UNIT ∧ Emits isDecoderEvent b b' := by
  obtain ⟨s1, s2, s3, s4, n, hn, rfl⟩ := setBatteryBIF_eq_some p b b' h
  obtain ⟨d, m, rfl⟩ := staticWattsToAmps_eq_some _ _ hn
  exact bifPublish_step _

/-- What the extended static decoder keeps and records. -/
theorem setBatteryBIX_step (p : List OSObject) (b b' : AppleSmartBattery)
    (h : setBatteryBIX p b = some b') :
    SettingsKept b b' ∧ b'.fPollingInterval = b.fPollingInterval ∧
    b'.fPowerUnit = GetValueFromArray p BIX_POWER_UNIT ∧ Emits isDecoderEvent b b' := by
  obtain ⟨s1, s2, s3, s4, n, hn, rfl⟩ := setBatteryBIX_eq_some p b b' h
  obtain ⟨d, m, rfl⟩ := staticWattsToAmps_eq_some _ _ hn
  exact bixPublish_step _

/-- What the extra decoder keeps and records. -/
theorem setBatteryBBIX_step (p : List OSObject) (b b' : AppleSmartBattery)
    (h : setBatteryBBIX p b = some b') :
    SettingsKept b b' ∧ b'.fPollingInterval = b.fPollingInterval ∧
    b'.fPowerUnit = b.fPowerUnit ∧ Emits isDecoderEvent b b' := by
  obtain ⟨len, rfl⟩ := setBatteryBBIX_eq_some p b b' h
  exact ⟨⟨rfl, rfl, rfl, rfl, rfl, rfl⟩, rfl, rfl, Emits.of_trace_eq rfl⟩

/-- What the dynamic decoder keeps and records: the settings of the scheduler; the
selected interval when polling is overridden, and otherwise the selected interval or one
of the two indices of the polling table. -/
theorem setBatteryBST_step (p : List OSObject) (b b' : AppleSmartBattery)
    (h : setBatteryBST p b = some b') :
    SettingsKept b b' ∧
    (b.fPollingOverridden = true → b'.fPollingInterval = b.fPollingInterval) ∧
    (b'.fPollingInterval = b.fPollingInterval ∨ b'.fPollingInterval ≤ 1) ∧
    Emits isDecoderEvent b b' := by
  obtain ⟨n, hn, rfl⟩ := setBatteryBST_eq_some p b b' h
  obtain ⟨r, c, rfl⟩ := bstWattsToAmps_eq_some _ _ hn
  generalize hx : bstClassify (GetValueFromArray p BST_STATUS)
    (bstStatusChange (GetValueFromArray p BST_STATUS) (bstAverageRate (bstRateFallback
      ({ bstRateSign (bstFetch p b) with fCurrentRate := r, fCurrentCapacity := c } :
        AppleSmartBattery)))) = x
  have hxs : SettingsKept b x ∧ x.fPollingInterval = b.fPollingInterval := by
    rw [← hx]
    unfold SettingsKept
    simp
  have hxe : Emits isDecoderEvent b x := by
    rw [← hx]
    refine Emits.andEmits ?_ (bstClassify_emits _ _)
    apply Emits.of_trace_eq
    unfold bstStatusChange bstAverageRate bstRateFallback bstRateSign
    split_ifs <;> rfl
  obtain ⟨⟨x1, x2, x3, x4, x5, x6⟩, x7⟩ := hxs
  refine ⟨?_, ?_, ?_, ?_⟩
  · unfold SettingsKept
    simp [x1, x2, x3, x4, x5, x6]
  · intro hov
    have hskip := bstQuickPoll_skips x (Or.inl (x2.trans hov))
    simp [hskip, x7]
  · simp only [bstFinish_frame, bstCellVoltages_frame]
    unfold bstQuickPoll
    split_ifs
    · right
      show kQuickPollInterval ≤ 1
      decide
    · right
      show kDefaultPollInterval ≤ 1
      decide
    · exact Or.inl x7
  · refine Emits.andEmits (Emits.andEmits hxe (Emits.of_trace_eq ?_)) (bstFinish_emits _)
    unfold bstQuickPoll
    split_ifs <;> rfl

/-- The presence read: one evaluation of `_STA`, the presence flag of
`presentAfterProbe`, and nothing else of the scheduler changed. -/
theorem getBatterySTA_step (fw : Firmware) (s : AppleSmartBattery) :
    SettingsKept s (getBatterySTA fw s) ∧
    (getBatterySTA fw s).fPollingInterval = s.fPollingInterval ∧
    (getBatterySTA fw s).fPowerUnit = s.fPowerUnit ∧
    (getBatterySTA fw s).fBatteryPresent = presentAfterProbe fw s ∧
    (getBatterySTA fw s).trace = s.trace ++ [Event.evaluateSTA] := by
  unfold getBatterySTA presentAfterProbe
  cases fw.resultSTA with
  | none => exact ⟨⟨rfl, rfl, rfl, rfl, rfl, rfl⟩, rfl, rfl, rfl, rfl⟩
  | some status =>
    simp only [setBatterySTA]
    by_cases hp : status &&& BATTERY_PRESENT ≠ 0
    · rw [if_pos hp, decide_eq_true hp]
      exact ⟨⟨rfl, rfl, rfl, rfl, rfl, rfl⟩, rfl, rfl, rfl, rfl⟩
    · rw [if_neg hp, decide_eq_false hp]
      exact ⟨⟨rfl, rfl, rfl, rfl, rfl, rfl⟩, rfl, rfl, rfl, rfl⟩

theorem emit_settingsKept (e : Event) (b : AppleSmartBattery) : SettingsKept b (emit e b) :=
  ⟨rfl, rfl, rfl, rfl, rfl, rfl⟩

/-- The static read of the legacy method. -/
theorem getBatteryBIF_step (fw : Firmware) (b b' : AppleSmartBattery)
    (h : getBatteryBIF fw b = some b') :
    SettingsKept b b' ∧ b'.fPollingInterval = b.fPollingInterval ∧
    b'.fPowerUnit = powerUnitAfterStatic false fw b ∧
    Emits isDecoderEvent (emit Event.evaluateBIF b) b' := by
  unfold getBatteryBIF at h
  unfold powerUnitAfterStatic
  cases hres : fw.resultBIF with
  | failure =>
    rw [hres] at h
    rw [← Option.some.inj h]
    exact ⟨emit_settingsKept _ _, rfl, rfl, Emits.emitsRefl _ _⟩
  | notArray =>
    rw [hres] at h
    exact absurd h (fun e => Option.noConfusion e)
  | package fields =>
    rw [hres] at h
    obtain ⟨h1, h2, h3, h4⟩ := setBatteryBIF_step fields _ _ h
    exact ⟨(emit_settingsKept _ _).andKept h1, h2, h3, h4⟩

/-- The static read of the extended method. -/
theorem getBatteryBIX_step (fw : Firmware) (b b' : AppleSmartBattery)
    (h : getBatteryBIX fw b = some b') :
    SettingsKept b b' ∧ b'.fPollingInterval = b.fPollingInterval ∧
    b'.fPowerUnit = powerUnitAfterStatic true fw b ∧
    Emits isDecoderEvent (emit Event.evaluateBIX b) b' := by
  unfold getBatteryBIX at h
  unfold powerUnitAfterStatic
  cases hres : fw.resultBIX with
  | failure =>
    rw [hres] at h
    rw [← Option.some.inj h]
    exact ⟨emit_settingsKept _ _, rfl, rfl, Emits.emitsRefl _ _⟩
  | notArray =>
    rw [hres] at h
    exact absurd h (fun e => Option.noConfusion e)
  | package fields =>
    rw [hres] at h
    obtain ⟨h1, h2, h3, h4⟩ := setBatteryBIX_step fields _ _ h
    exact ⟨(emit_settingsKept _ _).andKept h1, h2, h3, h4⟩

/-- The read of the extra method. -/
theorem getBatteryBBIX_step (fw : Firmware) (b b' : AppleSmartBattery)
    (h : getBatteryBBIX fw b = some b') :
    SettingsKept b b' ∧ b'.fPollingInterval = b.fPollingInterval ∧
    b'.fPowerUnit = b.fPowerUnit ∧
    Emits isDecoderEvent (emit Event.evaluateBBIX b) b' := by
  unfold getBatteryBBIX at h
  cases hres : fw.resultBBIX with
  | failure =>
    rw [hres] at h
    rw [← Option.some.inj h]
    exact ⟨emit_settingsKept _ _, rfl, rfl, Emits.emitsRefl _ _⟩
  | notArray =>
    rw [hres] at h
    exact absurd h (fun e => Option.noConfusion e)
  | package fields =>
    rw [hres] at h
    obtain ⟨h1, h2, h3, h4⟩ := setBatteryBBIX_step fields _ _ h
    exact ⟨(emit_settingsKept _ _).andKept h1, h2, h3, h4⟩

/-- The read of the dynamic method. -/
theorem getBatteryBST_step (fw : Firmware) (b b' : AppleSmartBattery)
    (h : getBatteryBST fw b = some b') :
    SettingsKept b b' ∧
    (b.fPollingOverridden = true → b'.fPollingInterval = b.fPollingInterval) ∧
    (b'.fPollingInterval = b.fPollingInterval ∨ b'.fPollingInterval ≤ 1) ∧
    Emits isDecoderEvent (emit Event.evaluateBST b) b' := by
  unfold getBatteryBST at h
  cases hres : fw.resultBST with
  | failure =>
    rw [hres] at h
    rw [← Option.some.inj h]
    exact ⟨emit_settingsKept _ _, fun _ => rfl, Or.inl rfl, Emits.emitsRefl _ _⟩
  | notArray =>
    rw [hres] at h
    exact absurd h (fun e => Option.noConfusion e)
  | package fields =>
    rw [hres] at h
    obtain ⟨h1, h2, h3, h4⟩ := setBatteryBST_step fields _ _ h
    exact ⟨(emit_settingsKept _ _).andKept h1, h2, h3, h4⟩

/-- A read records its evaluation and then calls of the decoder only: it adds exactly
one transport read. -/
theorem transportReads_of_read (e : Event) (he : isEvaluate e = true)
    (a b : AppleSmartBattery) (h : Emits isDecoderEvent (emit e a) b) :
    transportReads b = transportReads a ++ [e] ∧ Emits (fun _ => true) a b := by
  constructor
  · unfold transportReads
    rw [h.filter_eq isEvaluate isDecoderEvent_not_evaluate]
    show List.filter isEvaluate (a.trace ++ [e]) = _
    rw [List.filter_append]
    simp [he]
  · exact Emits.andEmits ⟨[e], rfl, by simp⟩ (h.mono (fun _ _ => rfl))

/-- The reads of a cycle that found the battery present: the static read of the
selected method, the extra read when it is selected, the dynamic read last. -/
theorem pollReads_step (fw : Firmware) (b b' : AppleSmartBattery)
    (h : pollReads fw b = some b') :
    SettingsKept b b' ∧
    (b.fPollingOverridden = true → b'.fPollingInterval = b.fPollingInterval) ∧
    (b'.fPollingInterval = b.fPollingInterval ∨ b'.fPollingInterval ≤ 1) ∧
    transportReads b' = transportReads b ++
      [if b.fUseBatteryExtendedInformation then Event.evaluateBIX else Event.evaluateBIF] ++
      (if b.fUseBatteryExtraInformation then [Event.evaluateBBIX] else []) ++
      [Event.evaluateBST] ∧
    Emits (fun _ => true) b b' := by
  unfold pollReads at h
  obtain ⟨i, hi, h⟩ := Option.bind_eq_some.mp h
  obtain ⟨x, hx, h⟩ := Option.bind_eq_some.mp h
  have h1 : SettingsKept b i ∧ i.fPollingInterval = b.fPollingInterval ∧
      transportReads i = transportReads b ++
        [if b.fUseBatteryExtendedInformation then Event.evaluateBIX else Event.evaluateBIF] ∧
      Emits (fun _ => true) b i := by
    by_cases hext : b.fUseBatteryExtendedInformation = true
    · rw [if_pos hext] at hi
      rw [if_pos hext]
      obtain ⟨s1, s2, -, s4⟩ := getBatteryBIX_step fw b i hi
      obtain ⟨r1, r2⟩ := transportReads_of_read Event.evaluateBIX rfl b i s4
      exact ⟨s1, s2, r1, r2⟩
    · rw [if_neg hext] at hi
      rw [if_neg hext]
      obtain ⟨s1, s2, -, s4⟩ := getBatteryBIF_step fw b i hi
      obtain ⟨r1, r2⟩ := transportReads_of_read Event.evaluateBIF rfl b i s4
      exact ⟨s1, s2, r1, r2⟩
  obtain ⟨k1, i1, t1, e1⟩ := h1
  have h2 : SettingsKept i x ∧ x.fPollingInterval = i.fPollingInterval ∧
      transportReads x = transportReads i ++
        (if b.fUseBatteryExtraInformation then [Event.evaluateBBIX] else []) ∧
      Emits (fun _ => true) i x := by
    rw [← k1.2.2.2.1]
    by_cases hex : i.fUseBatteryExtraInformation = true
    · rw [if_pos hex] at hx
      rw [if_pos hex]
      obtain ⟨s1, s2, -, s4⟩ := getBatteryBBIX_step fw i x hx
      obtain ⟨r1, r2⟩ := transportReads_of_read Event.evaluateBBIX rfl i x s4
      exact ⟨s1, s2, r1, r2⟩
    · rw [if_neg hex] at hx
      rw [if_neg hex, ← Option.some.inj hx]
      exact ⟨SettingsKept.keptRefl _, rfl, by simp, Emits.emitsRefl _ _⟩
  obtain ⟨k2, i2, t2, e2⟩ := h2
  obtain ⟨k3, o3, i3, s3⟩ := getBatteryBST_step fw x b' h
  obtain ⟨t3, e3⟩ := transportReads_of_read Event.evaluateBST rfl x b' s3
  refine ⟨(k1.andKept k2).andKept k3, ?_, ?_, ?_, (e1.andEmits e2).andEmits e3⟩
  · intro hov
    rw [o3 (by rw [k2.2.1, k1.2.1, hov]), i2, i1]
  · rw [← i1, ← i2]
    exact i3
  · rw [t3, t2, t1]

/-- The end of a cycle (lines 389 to 400): the in-flight flag is cleared and the
periodic timer is set, with the entry of the polling table or with the override. -/
theorem pollRearm_step (r b : AppleSmartBattery) (h : pollRearm r = some b) :
    ∃ ms, b.fPollTimer = some ms ∧ b.fPollingNow = false ∧
      b.trace = r.trace ++ [Event.pollTimerSet ms] ∧
      (r.fPollingOverridden = true → ms = mul32 1000 r.fPollingInterval) ∧
      (r.fPollingOverridden = false →
        (r.fPollingInterval = 0 → ms = r.milliSecPollingTable.1) ∧
        (r.fPollingInterval = 1 → ms = r.milliSecPollingTable.2) ∧
        r.fPollingInterval ≤ 1) ∧
      SettingsKept r b ∧ b.fPollingInterval = r.fPollingInterval ∧
      b.properties = r.properties ∧ b.registry = r.registry ∧
      b.fBatteryReadAllTimer = r.fBatteryReadAllTimer := by
  unfold pollRearm at h
  simp only [] at h
  split_ifs at h with hc
  · have hov2 : r.fPollingOverridden = false := by simpa using hc
    obtain ⟨ms, hms, hb⟩ := Option.map_eq_some'.mp h
    rw [← hb]
    refine ⟨ms, rfl, rfl, rfl, fun ht => absurd ht (by rw [hov2]; decide), fun _ => ?_,
      ⟨rfl, rfl, rfl, rfl, rfl, rfl⟩, rfl, rfl, rfl, rfl⟩
    unfold pollingTableEntry at hms
    split at hms
    · rename_i h0
      have h0' : r.fPollingInterval = 0 := h0
      refine ⟨fun _ => (Option.some.inj hms).symm, fun h1 => ?_, by omega⟩
      omega
    · rename_i h1
      have h1' : r.fPollingInterval = 1 := h1
      refine ⟨fun h0 => ?_, fun _ => (Option.some.inj hms).symm, by omega⟩
      omega
    · exact absurd hms (fun e => Option.noConfusion e)
  · have hov : r.fPollingOverridden = true := by simpa using hc
    rw [← Option.some.inj h]
    exact ⟨_, rfl, rfl, rfl, fun _ => rfl, fun hf => absurd hov (by rw [hf]; decide),
      ⟨rfl, rfl, rfl, rfl, rfl, rfl⟩, rfl, rfl, rfl, rfl⟩

theorem pollRearm_defined (r : AppleSmartBattery)
    (h : r.fPollingOverridden = true ∨ r.fPollingInterval ≤ 1) :
    ∃ b, pollRearm r = some b := by
  unfold pollRearm
  simp only []
  split_ifs with hc
  · have hov2 : ¬ r.fPollingOverridden = true := by simpa using hc
    rcases h with h | h
    · exact absurd h hov2
    · have hcase : r.fPollingInterval = 0 ∨ r.fPollingInterval = 1 := by omega
      unfold pollingTableEntry
      simp only []
      rcases hcase with h0 | h1
      · rw [h0]; exact ⟨_, rfl⟩
      · rw [h1]; exact ⟨_, rfl⟩
  · exact ⟨_, rfl⟩

theorem getBatteryBIF_defined (fw : Firmware) (b : AppleSmartBattery)
    (h : staticDecodable false fw = true) : ∃ i, getBatteryBIF fw b = some i := by
  unfold staticDecodable at h
  simp only [Bool.false_eq_true, if_false] at h
  unfold getBatteryBIF
  cases hres : fw.resultBIF with
  | failure => exact ⟨_, rfl⟩
  | notArray => rw [hres] at h; exact absurd h Bool.false_ne_true
  | package fields =>
    rw [hres] at h
    simp only [Bool.and_eq_true, decide_eq_true_eq] at h
    obtain ⟨i, hi, -⟩ := setBatteryBIF_defined fields (emit Event.evaluateBIF b) h.1 h.2
    exact ⟨i, hi⟩

theorem getBatteryBIX_defined (fw : Firmware) (b : AppleSmartBattery)
    (h : staticDecodable true fw = true) : ∃ i, getBatteryBIX fw b = some i := by
  unfold staticDecodable at h
  simp only [if_true] at h
  unfold getBatteryBIX
  cases hres : fw.resultBIX with
  | failure => exact ⟨_, rfl⟩
  | notArray => rw [hres] at h; exact absurd h Bool.false_ne_true
  | package fields =>
    rw [hres] at h
    simp only [Bool.and_eq_true, decide_eq_true_eq] at h
    obtain ⟨i, hi, -⟩ := setBatteryBIX_defined fields (emit Event.evaluateBIX b) h.1 h.2
    exact ⟨i, hi⟩

theorem getBatteryBBIX_defined (fw : Firmware) (b : AppleSmartBattery)
    (h : extraDecodable fw = true) : ∃ i, getBatteryBBIX fw b = some i := by
  unfold extraDecodable at h
  unfold getBatteryBBIX
  cases hres : fw.resultBBIX with
  | failure => exact ⟨_, rfl⟩
  | notArray => rw [hres] at h; exact absurd h Bool.false_ne_true
  | package fields =>
    rw [hres] at h
    show ∃ i, setBatteryBBIX fields (emit Event.evaluateBBIX b) = some i
    have h2 : (GetDataFromArray fields BBIX_MANUF_DATA).isSome = true := h
    unfold setBatteryBBIX
    cases hd : GetDataFromArray fields BBIX_MANUF_DATA with
    | none => rw [hd] at h2; exact absurd h2 (by decide)
    | some d => exact ⟨_, rfl⟩

theorem getBatteryBST_defined (fw : Firmware) (b : AppleSmartBattery)
    (h : dynamicDecodable fw b.fPowerUnit = true) : ∃ i, getBatteryBST fw b = some i := by
  unfold dynamicDecodable at h
  unfold getBatteryBST
  cases hres : fw.resultBST with
  | failure => exact ⟨_, rfl⟩
  | notArray => rw [hres] at h; exact absurd h Bool.false_ne_true
  | package fields =>
    rw [hres] at h
    simp only [decide_eq_true_eq] at h
    obtain ⟨n, -, hb, -⟩ := setBatteryBST_some fields (emit Event.evaluateBST b) h
    exact ⟨_, hb⟩

/-- The reads of a cycle are defined when every answer they read can be decoded. -/
theorem pollReads_defined (fw : Firmware) (b : AppleSmartBattery)
    (hs : staticDecodable b.fUseBatteryExtendedInformation fw = true)
    (hx : b.fUseBatteryExtraInformation = true → extraDecodable fw = true)
    (hd : dynamicDecodable fw
      (powerUnitAfterStatic b.fUseBatteryExtendedInformation fw b) = true) :
    ∃ r, pollReads fw b = some r := by
  have h1 : ∃ i, (if b.fUseBatteryExtendedInformation = true then getBatteryBIX fw b
      else getBatteryBIF fw b) = some i ∧ SettingsKept b i ∧
      i.fPowerUnit = powerUnitAfterStatic b.fUseBatteryExtendedInformation fw b := by
    by_cases hext : b.fUseBatteryExtendedInformation = true
    · rw [hext] at hs ⊢
      obtain ⟨i, hi⟩ := getBatteryBIX_defined fw b hs
      obtain ⟨s1, -, s3, -⟩ := getBatteryBIX_step fw b i hi
      exact ⟨i, by rw [if_pos rfl]; exact hi, s1, s3⟩
    · have hext2 : b.fUseBatteryExtendedInformation = false := by simpa using hext
      rw [hext2] at hs ⊢
      obtain ⟨i, hi⟩ := getBatteryBIF_defined fw b hs
      obtain ⟨s1, -, s3, -⟩ := getBatteryBIF_step fw b i hi
      exact ⟨i, by rw [if_neg (by decide)]; exact hi, s1, s3⟩
  obtain ⟨i, hi, ki, pi⟩ := h1
  have h2 : ∃ x, (if i.fUseBatteryExtraInformation = true then getBatteryBBIX fw i
      else some i) = some x ∧ x.fPowerUnit = i.fPowerUnit := by
    by_cases hex : i.fUseBatteryExtraInformation = true
    · obtain ⟨x, hx2⟩ := getBatteryBBIX_defined fw i (hx (by rw [← ki.2.2.2.1]; exact hex))
      obtain ⟨-, -, s3, -⟩ := getBatteryBBIX_step fw i x hx2
      exact ⟨x, by rw [if_pos hex]; exact hx2, s3⟩
    · exact ⟨i, by rw [if_neg hex], rfl⟩
  obtain ⟨x, hx2, px⟩ := h2
  obtain ⟨r, hr⟩ := getBatteryBST_defined fw x (by rw [px, pi]; exact hd)
  refine ⟨r, ?_⟩
  unfold pollReads
  rw [hi]
  simp only [Option.some_bind]
  rw [hx2]
  simp only [Option.some_bind]
  exact hr

/-- One cycle of the existing-battery path that runs to its end: what it keeps, the
state of the scheduler it leaves, and the calls it records. -/
theorem pollExistingBattery_step (fw : Firmware) (self b : AppleSmartBattery)
    (h : pollExistingBattery fw self = some b) :
    SettingsKept self b ∧ b.fPollingNow = false ∧
    (∃ ms body, b.fPollTimer = some ms ∧
      b.trace = self.trace ++ Event.evaluateSTA :: body ++ [Event.pollTimerSet ms] ∧
      (self.fPollingOverridden = true →
        ms = mul32 1000 self.fPollingInterval ∧ b.fPollingInterval = self.fPollingInterval) ∧
      (self.fPollingOverridden = false →
        (b.fPollingInterval = 0 → ms = self.milliSecPollingTable.1) ∧
        (b.fPollingInterval = 1 → ms = self.milliSecPollingTable.2) ∧
        b.fPollingInterval ≤ 1)) ∧
    transportReads b = transportReads self ++ cycleReads fw self := by
  unfold pollExistingBattery at h
  simp only [] at h
  obtain ⟨r, hr, h⟩ := Option.bind_eq_some.mp h
  obtain ⟨p1, p2, -, p4, p5⟩ := getBatterySTA_step fw { self with fPollingNow := true }
  have hk0 : SettingsKept self (getBatterySTA fw { self with fPollingNow := true }) := p1
  have hi0 : (getBatterySTA fw { self with fPollingNow := true }).fPollingInterval =
      self.fPollingInterval := p2
  have hp0 : (getBatterySTA fw { self with fPollingNow := true }).fBatteryPresent =
      presentAfterProbe fw self := p4
  have ht0 : (getBatterySTA fw { self with fPollingNow := true }).trace =
      self.trace ++ [Event.evaluateSTA] := p5
  clear p1 p2 p4 p5
  generalize getBatterySTA fw { self with fPollingNow := true } = probed at hr hk0 hi0 hp0 ht0
  have hmid : SettingsKept probed r ∧
      (probed.fPollingOverridden = true → r.fPollingInterval = probed.fPollingInterval) ∧
      transportReads r = transportReads probed ++
          (if presentAfterProbe fw self then
            [if self.fUseBatteryExtendedInformation then Event.evaluateBIX
              else Event.evaluateBIF] ++
            (if self.fUseBatteryExtraInformation then [Event.evaluateBBIX] else []) ++
            [Event.evaluateBST]
          else []) ∧
      Emits (fun _ => true) probed r := by
    by_cases hp : probed.fBatteryPresent = true
    · rw [if_pos hp] at hr
      obtain ⟨s1, s2, -, s4, s5⟩ := pollReads_step fw _ r hr
      rw [← hp0, if_pos hp]
      refine ⟨s1, s2, ?_, s5⟩
      rw [s4, hk0.2.2.1, hk0.2.2.2.1]
      simp only [List.append_assoc]
    · rw [if_neg hp] at hr
      rw [← hp0, if_neg hp, ← Option.some.inj hr]
      obtain ⟨c1, c2, c3, c4, c5, c6, c7, -⟩ := clearBatteryState_settings true
        (setFullyCharged false probed)
      refine ⟨⟨c1, c2, c3, c4, c5, c6⟩, fun _ => c7, ?_, ?_⟩
      · rw [List.append_nil]
        exact (clearBatteryState_emits true _).filter_eq isEvaluate isDecoderEvent_not_evaluate
      · exact (clearBatteryState_emits true (setFullyCharged false probed)).mono
          (fun _ _ => rfl)
  obtain ⟨m1, m2, m3, ⟨body, hbody, -⟩⟩ := hmid
  obtain ⟨ms, q1, q2, q3, q4, q5, q6, q7, -⟩ := pollRearm_step r b h
  have hkeep : SettingsKept self r := hk0.andKept m1
  refine ⟨hkeep.andKept q6, q2, ⟨ms, body, q1, ?_, ?_, ?_⟩, ?_⟩
  · rw [q3, hbody, ht0]
    simp only [List.append_assoc, List.singleton_append, List.cons_append, List.nil_append]
  · intro hov
    have hr2 : r.fPollingOverridden = true := by rw [hkeep.2.1]; exact hov
    have hri : r.fPollingInterval = self.fPollingInterval := by
      rw [m2 (by rw [hk0.2.1]; exact hov), hi0]
    refine ⟨by rw [q4 hr2, hri], by rw [q7, hri]⟩
  · intro hov
    have hr2 : r.fPollingOverridden = false := by rw [hkeep.2.1]; exact hov
    obtain ⟨t1, t2, t3⟩ := q5 hr2
    rw [q7, hkeep.2.2.2.2.1.symm]
    exact ⟨t1, t2, t3⟩
  · unfold cycleReads
    have hb : transportReads b = transportReads r := by
      unfold transportReads
      rw [q3, List.filter_append]
      simp [isEvaluate]
    rw [hb, m3]
    unfold transportReads
    rw [ht0, List.filter_append]
    simp [isEvaluate]

/-- A cycle of the existing-battery path runs to its end when the answers it reads can
be decoded. -/
theorem pollExistingBattery_defined (fw : Firmware) (self : AppleSmartBattery)
    (h : cycleDecodable fw self = true) : ∃ b, pollExistingBattery fw self = some b := by
  unfold cycleDecodable at h
  simp only [Bool.and_eq_true, Bool.or_eq_true, decide_eq_true_eq, Bool.not_eq_true'] at h
  obtain ⟨hre, hdec⟩ := h
  obtain ⟨p1, p2, p3, p4, -⟩ := getBatterySTA_step fw { self with fPollingNow := true }
  have hpres : (getBatterySTA fw { self with fPollingNow := true }).fBatteryPresent =
      presentAfterProbe fw self := p4
  have hmid : ∃ r, (if (getBatterySTA fw { self with fPollingNow := true }).fBatteryPresent
        = true
      then pollReads fw (getBatterySTA fw { self with fPollingNow := true })
      else some (clearBatteryState true (setFullyCharged false
        (getBatterySTA fw { self with fPollingNow := true })))) = some r ∧
      (r.fPollingOverridden = true ∨ r.fPollingInterval ≤ 1) := by
    by_cases hp : (getBatterySTA fw { self with fPollingNow := true }).fBatteryPresent = true
    · rw [if_pos hp]
      rw [hpres] at hp
      rcases hdec with hd | hd
      · rw [hp] at hd; exact absurd hd (by decide)
      · obtain ⟨⟨hs, hx⟩, hd⟩ := hd
        obtain ⟨r, hr⟩ := pollReads_defined fw
          (getBatterySTA fw { self with fPollingNow := true })
          (by rw [p1.2.2.1]; exact hs)
          (by
            intro hex
            rw [p1.2.2.2.1] at hex
            rcases hx with hx | hx
            · rw [hex] at hx; exact absurd hx (by decide)
            · exact hx)
          (by
            have hu : powerUnitAfterStatic
                (getBatterySTA fw { self with fPollingNow := true }).fUseBatteryExtendedInformation
                fw (getBatterySTA fw { self with fPollingNow := true }) =
                powerUnitAfterStatic self.fUseBatteryExtendedInformation fw self := by
              unfold powerUnitAfterStatic
              rw [p1.2.2.1, p3]
            rw [hu]; exact hd)
        obtain ⟨s1, s2, s3, -⟩ := pollReads_step fw _ r hr
        refine ⟨r, hr, ?_⟩
        rcases hre with ho | hi
        · left
          rw [s1.2.1, p1.2.1]; exact ho
        · rcases s3 with s3 | s3
          · right
            rw [s3, p2]; exact hi
          · exact Or.inr s3
    · rw [if_neg hp]
      refine ⟨_, rfl, ?_⟩
      obtain ⟨-, c2, -, -, -, -, c7, -⟩ := clearBatteryState_settings true
        (setFullyCharged false (getBatterySTA fw { self with fPollingNow := true }))
      rcases hre with ho | hi
      · left
        rw [c2]
        exact p1.2.1.trans ho
      · right
        rw [c7]
        exact le_of_eq_of_le p2 hi
  obtain ⟨r, hr, hrearm⟩ := hmid
  obtain ⟨b, hb⟩ := pollRearm_defined r hrearm
  refine ⟨b, ?_⟩
  unfold pollExistingBattery
  simp only []
  rw [hr]
  exact hb

theorem pollBatteryState_fresh (fw : Firmware) (self : AppleSmartBattery) :
    pollBatteryState fw kNewBatteryPath self = pollExistingBattery fw (freshPathArm self) :=
  rfl

theorem pollBatteryState_existing (fw : Firmware) (path : Int) (self : AppleSmartBattery)
    (h : kNewBatteryPath ≠ path) :
    pollBatteryState fw path self = pollExistingBattery fw self := by
  unfold pollBatteryState
  rw [if_neg h]

/-- A poll on either path keeps the settings of the scheduler, ends with the in-flight
flag cleared and with the periodic timer set. -/
theorem pollBatteryState_step (fw : Firmware) (path : Int) (self b : AppleSmartBattery)
    (h : pollBatteryState fw path self = some b) :
    SettingsKept self b ∧ b.fPollingNow = false ∧ ∃ ms, b.fPollTimer = some ms := by
  by_cases hp : kNewBatteryPath = path
  · rw [← hp, pollBatteryState_fresh] at h
    obtain ⟨k, n, ⟨ms, -, t, -⟩, -⟩ := pollExistingBattery_step fw _ b h
    exact ⟨k, n, ms, t⟩
  · rw [pollBatteryState_existing fw path self hp] at h
    obtain ⟨k, n, ⟨ms, -, t, -⟩, -⟩ := pollExistingBattery_step fw _ b h
    exact ⟨k, n, ms, t⟩

/-- The snapshot a clearing with update leaves. -/
theorem clearBatteryState_snapshot (x : AppleSmartBattery) :
    published (clearBatteryState true x) Key.batteryInstalledKey = some (OSValue.boolean false) ∧
    published (clearBatteryState true x) Key.chargingKey = some (OSValue.boolean false) ∧
    published (clearBatteryState true x) Key.currentCapacityKey = some (OSValue.number 0) ∧
    published (clearBatteryState true x) Key.maxCapacityKey = some (OSValue.number 0) ∧
    published (clearBatteryState true x) Key.timeRemainingKey = some (OSValue.number 0) ∧
    published (clearBatteryState true x) Key.amperageKey = some (OSValue.number 0) ∧
    published (clearBatteryState true x) Key.voltageKey = some (OSValue.number 0) ∧
    published (clearBatteryState true x) Key.cycleCountKey = some (OSValue.number 0) ∧
    published (clearBatteryState true x) Key.FullyChargedSym = published x Key.FullyChargedSym ∧
    (clearBatteryState true x).fBatteryPresent = false := by
  unfold published clearBatteryState
  simp only [if_true]
  rw [updateStatus_properties]
  refine ⟨rfl, rfl, rfl, rfl, rfl, rfl, rfl, rfl, rfl, ?_⟩
  unfold updateStatus
  split_ifs <;> rfl

/-- A cycle that finds the battery absent leaves the cleared snapshot. -/
theorem pollExistingBattery_absent (fw : Firmware) (self b : AppleSmartBattery)
    (h : pollExistingBattery fw self = some b) (habs : presentAfterProbe fw self = false) :
    published b Key.batteryInstalledKey = some (OSValue.boolean false) ∧
    published b Key.chargingKey = some (OSValue.boolean false) ∧
    published b Key.currentCapacityKey = some (OSValue.number 0) ∧
    published b Key.maxCapacityKey = some (OSValue.number 0) ∧
    published b Key.timeRemainingKey = some (OSValue.number 0) ∧
    published b Key.amperageKey = some (OSValue.number 0) ∧
    published b Key.voltageKey = some (OSValue.number 0) ∧
    published b Key.cycleCountKey = some (OSValue.number 0) ∧
    published b Key.FullyChargedSym = some (OSValue.boolean false) := by
  unfold pollExistingBattery at h
  simp only [] at h
  obtain ⟨r, hr, h⟩ := Option.bind_eq_some.mp h
  have hp0 : (getBatterySTA fw { self with fPollingNow := true }).fBatteryPresent =
      presentAfterProbe fw self := (getBatterySTA_step fw { self with fPollingNow := true }).2.2.2.1
  rw [if_neg (by rw [hp0, habs]; decide)] at hr
  obtain ⟨ms, -, -, -, -, -, -, -, q8, -⟩ := pollRearm_step r b h
  obtain ⟨c1, c2, c3, c4, c5, c6, c7, c8, c9, -⟩ := clearBatteryState_snapshot
    (setFullyCharged false (getBatterySTA fw { self with fPollingNow := true }))
  unfold published at *
  rw [q8, ← Option.some.inj hr]
  exact ⟨c1, c2, c3, c4, c5, c6, c7, c8, c9⟩

theorem freshPathArm_frame (self : AppleSmartBattery) :
    SettingsKept self (freshPathArm self) ∧
    (freshPathArm self).fPollingInterval = self.fPollingInterval ∧
    (freshPathArm self).fPowerUnit = self.fPowerUnit ∧
    (freshPathArm self).fBatteryPresent = self.fBatteryPresent ∧
    (freshPathArm self).trace = self.trace ++
      [Event.pollTimerCancel, Event.readAllTimerCancel, Event.readAllTimerSet 10000] := by
  refine ⟨⟨rfl, rfl, rfl, rfl, rfl, rfl⟩, rfl, rfl, rfl, ?_⟩
  show ((self.trace ++ [Event.pollTimerCancel]) ++ [Event.readAllTimerCancel]) ++
    [Event.readAllTimerSet kBatteryReadAllTimeout] = _
  simp [kBatteryReadAllTimeout]

theorem freshPathArm_cycle (fw : Firmware) (self : AppleSmartBattery) :
    cycleDecodable fw (freshPathArm self) = cycleDecodable fw self ∧
    cycleReads fw (freshPathArm self) = cycleReads fw self ∧
    transportReads (freshPathArm self) = transportReads self := by
  obtain ⟨⟨-, k2, k3, k4, -, -⟩, hi, hu, hp, ht⟩ := freshPathArm_frame self
  refine ⟨?_, ?_, ?_⟩
  · unfold cycleDecodable presentAfterProbe powerUnitAfterStatic
    rw [k2, k3, k4, hi, hu, hp]
  · unfold cycleReads presentAfterProbe
    rw [k3, k4, hp]
  · unfold transportReads
    rw [ht, List.filter_append]
    simp [isEvaluate]

/-- C13.  `pollBatteryState(kNewBatteryPath)` cancels the periodic timer, cancels the
watchdog and arms the watchdog for 10000 ms, in that order, and then is the call
`pollBatteryState(kExistingBatteryPath)` from the state so reached: the same resulting
state, hence the same reads in the same order, the same snapshot and the same periodic
timer.  When the answers the cycle reads can be decoded the call returns, and it returns
`true`. -/
theorem C13_fresh_path (fw : Firmware) (self : AppleSmartBattery)
    (hdec : cycleDecodable fw self = true) :
    (freshPathArm self).fPollTimer = none ∧
    (freshPathArm self).fBatteryReadAllTimer = some 10000 ∧
    (freshPathArm self).trace = self.trace ++
      [Event.pollTimerCancel, Event.readAllTimerCancel, Event.readAllTimerSet 10000] ∧
    (freshPathArm self).properties = self.properties ∧
    pollBatteryState fw kNewBatteryPath self =
      pollBatteryState fw kExistingBatteryPath (freshPathArm self) ∧
    ∃ b, pollBatteryState fw kNewBatteryPath self = some b ∧
      pollBatteryStateReturn fw kNewBatteryPath self = some true ∧
      transportReads b = transportReads self ++ cycleReads fw self := by
  obtain ⟨hd, hc, ht⟩ := freshPathArm_cycle fw self
  refine ⟨rfl, rfl, (freshPathArm_frame self).2.2.2.2, rfl, ?_, ?_⟩
  · rw [pollBatteryState_fresh,
      pollBatteryState_existing fw kExistingBatteryPath _ (by decide)]
  · obtain ⟨b, hb⟩ := pollExistingBattery_defined fw (freshPathArm self) (hd.trans hdec)
    obtain ⟨-, -, -, hreads⟩ := pollExistingBattery_step fw _ b hb
    rw [← pollBatteryState_fresh] at hb
    refine ⟨b, hb, ?_, ?_⟩
    · unfold pollBatteryStateReturn
      rw [hb]
      rfl
    · rw [hreads, hc, ht]

/-- C13 at a concrete input: from a state with both timers armed the new-battery path
returns `true` after the reads `_STA`, `_BIF`, `_BST`. -/
theorem C13_fresh_path_witness :
    ∃ b, pollBatteryState sampleFirmware kNewBatteryPath pollingBattery = some b ∧
      pollBatteryStateReturn sampleFirmware kNewBatteryPath pollingBattery = some true ∧
      transportReads b = [Event.evaluateSTA, Event.evaluateBIF, Event.evaluateBST] := by
  obtain ⟨-, -, -, -, -, b, hb, hret, hreads⟩ :=
    C13_fresh_path sampleFirmware pollingBattery rfl
  have hr2 : transportReads pollingBattery ++ cycleReads sampleFirmware pollingBattery =
      [Event.evaluateSTA, Event.evaluateBIF, Event.evaluateBST] := rfl
  rw [hr2] at hreads
  exact ⟨b, hb, hret, hreads⟩

/-- C14.  A cycle of the existing-battery path whose answers can be decoded issues
exactly these transport reads, in this order: the presence read alone when the presence
flag is false after it; otherwise the presence read, then the static read of the
selected method (`_BIX` with the extended flag, `_BIF` without it, never both), then the
extra read exactly when the extra flag is set, then the dynamic read.  The sequence does
not depend on whether the static or the extra evaluation failed.  When the battery is
absent the snapshot is cleared: not installed, not charging, current and maximum
capacity, voltage, amperage, time remaining and cycle count 0, not fully charged. -/
theorem C14_read_sequence (fw : Firmware) (self : AppleSmartBattery)
    (hdec : cycleDecodable fw self = true) :
    ∃ b, pollBatteryState fw kExistingBatteryPath self = some b ∧
      (presentAfterProbe fw self = false →
        transportReads b = transportReads self ++ [Event.evaluateSTA] ∧
        published b Key.batteryInstalledKey = some (OSValue.boolean false) ∧
        published b Key.chargingKey = some (OSValue.boolean false) ∧
        published b Key.currentCapacityKey = some (OSValue.number 0) ∧
        published b Key.maxCapacityKey = some (OSValue.number 0) ∧
        published b Key.timeRemainingKey = some (OSValue.number 0) ∧
        published b Key.amperageKey = some (OSValue.number 0) ∧
        published b Key.voltageKey = some (OSValue.number 0) ∧
        published b Key.cycleCountKey = some (OSValue.number 0) ∧
        published b Key.FullyChargedSym = some (OSValue.boolean false)) ∧
      (presentAfterProbe fw self = true →
        transportReads b = transportReads self ++
          [Event.evaluateSTA,
            if self.fUseBatteryExtendedInformation then Event.evaluateBIX
              else Event.evaluateBIF] ++
          (if self.fUseBatteryExtraInformation then [Event.evaluateBBIX] else []) ++
          [Event.evaluateBST]) := by
  obtain ⟨b, hb⟩ := pollExistingBattery_defined fw self hdec
  obtain ⟨-, -, -, hreads⟩ := pollExistingBattery_step fw self b hb
  refine ⟨b, ?_, ?_, ?_⟩
  · rw [pollBatteryState_existing fw kExistingBatteryPath self (by decide)]
    exact hb
  · intro habs
    refine ⟨?_, pollExistingBattery_absent fw self b hb habs⟩
    rw [hreads]
    unfold cycleReads
    rw [habs]
    rfl
  · intro hpres
    rw [hreads]
    unfold cycleReads
    rw [hpres]
    simp

/-- C14 at concrete inputs.  With the extra method selected and an extra evaluation that
fails, a present battery is read by `_STA`, `_BIF`, `BBIX`, `_BST`; with the extended
method selected and an extended evaluation that fails, by `_STA`, `_BIX`, `_BST`; an
absent battery is read by `_STA` alone and reported as not installed. -/
theorem C14_read_sequence_witness :
    (∃ b, pollBatteryState sampleFirmware kExistingBatteryPath
        { ampsBattery 1 600 with fUseBatteryExtraInformation := true } = some b ∧
      transportReads b =
        [Event.evaluateSTA, Event.evaluateBIF, Event.evaluateBBIX, Event.evaluateBST]) ∧
    (∃ b, pollBatteryState sampleFirmware kExistingBatteryPath
        { ampsBattery 1 600 with fUseBatteryExtendedInformation := true } = some b ∧
      transportReads b = [Event.evaluateSTA, Event.evaluateBIX, Event.evaluateBST]) ∧
    (∃ b, pollBatteryState absentFirmware kExistingBatteryPath (ampsBattery 1 600) = some b ∧
      transportReads b = [Event.evaluateSTA] ∧
      published b Key.batteryInstalledKey = some (OSValue.boolean false)) := by
  refine ⟨?_, ?_, ?_⟩
  · obtain ⟨b, hb, -, hp⟩ := C14_read_sequence sampleFirmware
      { ampsBattery 1 600 with fUseBatteryExtraInformation := true } rfl
    exact ⟨b, hb, hp rfl⟩
  · obtain ⟨b, hb, -, hp⟩ := C14_read_sequence sampleFirmware
      { ampsBattery 1 600 with fUseBatteryExtendedInformation := true } rfl
    exact ⟨b, hb, hp rfl⟩
  · obtain ⟨b, hb, ha, -⟩ := C14_read_sequence absentFirmware (ampsBattery 1 600) rfl
    exact ⟨b, hb, (ha rfl).1, (ha rfl).2.1⟩

/-- C16 fails as stated: after `start` has found a battery, a cycle whose presence read
fails at the transport goes on as for a present battery.  It issues the static and the
dynamic read after the presence read, and the snapshot still reports the battery as
installed, with the capacity just read. -/
theorem C16_counterexample :
    ∃ s0 b, start defaultConfig sampleFirmware = some s0 ∧
      presenceFailsFirmware.resultSTA = none ∧
      pollBatteryState presenceFailsFirmware kExistingBatteryPath s0 = some b ∧
      transportReads b = transportReads s0 ++
        [Event.evaluateSTA, Event.evaluateBIF, Event.evaluateBST] ∧
      batteryInstalled b = true ∧
      published b Key.currentCapacityKey = some (OSValue.number 1200) :=
  ⟨_, _, rfl, rfl, rfl, rfl, rfl, rfl⟩

/-- C16 (amended).  When the presence read of a cycle fails at the transport the
presence flag keeps the value it had before the cycle.  If it was false, the cycle
issues no further read and clears the snapshot (battery not installed); if it was true,
the cycle goes on as for a present battery and issues the static read, the extra read
when it is selected, and the dynamic read. -/
theorem C16_presence_read_failure (fw : Firmware) (self : AppleSmartBattery)
    (hfail : fw.resultSTA = none) (hdec : cycleDecodable fw self = true) :
    presentAfterProbe fw self = self.fBatteryPresent ∧
    ∃ b, pollBatteryState fw kExistingBatteryPath self = some b ∧
      (self.fBatteryPresent = false →
        transportReads b = transportReads self ++ [Event.evaluateSTA] ∧
        published b Key.batteryInstalledKey = some (OSValue.boolean false) ∧
        published b Key.currentCapacityKey = some (OSValue.number 0) ∧
        published b Key.maxCapacityKey = some (OSValue.number 0) ∧
        published b Key.voltageKey = some (OSValue.number 0) ∧
        published b Key.amperageKey = some (OSValue.number 0)) ∧
      (self.fBatteryPresent = true →
        transportReads b = transportReads self ++
          [Event.evaluateSTA,
            if self.fUseBatteryExtendedInformation then Event.evaluateBIX
              else Event.evaluateBIF] ++
          (if self.fUseBatteryExtraInformation then [Event.evaluateBBIX] else []) ++
          [Event.evaluateBST]) := by
  have hp : presentAfterProbe fw self = self.fBatteryPresent := by
    unfold presentAfterProbe
    rw [hfail]
  refine ⟨hp, ?_⟩
  obtain ⟨b, hb⟩ := pollExistingBattery_defined fw self hdec
  obtain ⟨-, -, -, hreads⟩ := pollExistingBattery_step fw self b hb
  refine ⟨b, ?_, ?_, ?_⟩
  · rw [pollBatteryState_existing fw kExistingBatteryPath self (by decide)]
    exact hb
  · intro habs
    obtain ⟨a1, -, a3, a4, -, a6, a7, -⟩ :=
      pollExistingBattery_absent fw self b hb (hp.trans habs)
    refine ⟨?_, a1, a3, a4, a7, a6⟩
    rw [hreads]
    unfold cycleReads
    rw [hp, habs]
    rfl
  · intro hpres
    rw [hreads]
    unfold cycleReads
    rw [hp, hpres]
    simp

/-- The amended C16 at concrete inputs: the presence read fails; from a state whose
presence flag is set the cycle reads `_STA`, `_BIF`, `_BST`, and from a state whose
presence flag is clear it reads `_STA` alone and reports the battery as not installed. -/
theorem C16_presence_read_failure_witness :
    (∃ b, pollBatteryState presenceFailsFirmware kExistingBatteryPath (ampsBattery 1 600)
        = some b ∧
      transportReads b = [Event.evaluateSTA, Event.evaluateBIF, Event.evaluateBST]) ∧
    (∃ b, pollBatteryState presenceFailsFirmware kExistingBatteryPath
        { ampsBattery 1 600 with fBatteryPresent := false } = some b ∧
      transportReads b = [Event.evaluateSTA] ∧
      published b Key.batteryInstalledKey = some (OSValue.boolean false)) := by
  constructor
  · obtain ⟨-, b, hb, -, hp⟩ :=
      C16_presence_read_failure presenceFailsFirmware (ampsBattery 1 600) rfl rfl
    exact ⟨b, hb, hp rfl⟩
  · obtain ⟨-, b, hb, ha, -⟩ :=
      C16_presence_read_failure presenceFailsFirmware
        { ampsBattery 1 600 with fBatteryPresent := false } rfl rfl
    exact ⟨b, hb, (ha rfl).1, (ha rfl).2.1⟩

/-- C15 fails as stated for a large override: with "BatteryPollingPeriodOverride" set to
4294968 seconds, the cycle after `start` re-arms the periodic timer with 704 ms, the
product `1000 * 4294968` cut to 32 bits, not with 4294968000 ms. -/
theorem C15_counterexample :
    ∃ s0 b, start { defaultConfig with debugPollingSetting := some 4294968 } sampleFirmware
        = some s0 ∧
      s0.fPollingOverridden = true ∧ s0.fPollingInterval = 4294968 ∧
      pollBatteryState sampleFirmware kExistingBatteryPath s0 = some b ∧
      b.fPollingNow = false ∧ b.fPollTimer = some 704 ∧
      b.fPollTimer ≠ some (1000 * 4294968) := by
  refine ⟨_, _, rfl, rfl, rfl, rfl, rfl, rfl, ?_⟩
  decide

/-- C15 (amended).  At the end of every cycle of the existing-battery path whose answers
can be decoded (battery present or absent, evaluations succeeded or failed) the
in-flight flag is false and the periodic timer is re-armed: with
`(1000 * override) mod 2^32` milliseconds when polling is overridden (an override of 0
gives 0 ms); otherwise with the entry of the polling table for the selected interval,
which is 30000 ms for the default interval and 1000 ms for the quick-poll interval when
the table holds its initial values, and the selected interval is one of the two. -/
theorem C15_rearm (fw : Firmware) (self : AppleSmartBattery)
    (hdec : cycleDecodable fw self = true) :
    ∃ b, pollBatteryState fw kExistingBatteryPath self = some b ∧
      b.fPollingNow = false ∧
      (self.fPollingOverridden = true →
        b.fPollTimer = some (1000 * self.fPollingInterval % 4294967296) ∧
        (self.fPollingInterval = 0 → b.fPollTimer = some 0)) ∧
      (self.fPollingOverridden = false →
        (b.fPollingInterval = kDefaultPollInterval ∨ b.fPollingInterval = kQuickPollInterval) ∧
        (b.fPollingInterval = kDefaultPollInterval →
          b.fPollTimer = some self.milliSecPollingTable.1) ∧
        (b.fPollingInterval = kQuickPollInterval →
          b.fPollTimer = some self.milliSecPollingTable.2) ∧
        (self.milliSecPollingTable = (30000, 1000) →
          (b.fPollingInterval = kDefaultPollInterval → b.fPollTimer = some 30000) ∧
          (b.fPollingInterval = kQuickPollInterval → b.fPollTimer = some 1000))) := by
  obtain ⟨b, hb⟩ := pollExistingBattery_defined fw self hdec
  obtain ⟨-, hnow, ⟨ms, body, htimer, -, hov, hno⟩, -⟩ := pollExistingBattery_step fw self b hb
  refine ⟨b, ?_, hnow, ?_, ?_⟩
  · rw [pollBatteryState_existing fw kExistingBatteryPath self (by decide)]
    exact hb
  · intro h
    obtain ⟨hms, -⟩ := hov h
    have h1 : b.fPollTimer = some (1000 * self.fPollingInterval % 4294967296) := by
      rw [htimer, hms]
      rfl
    refine ⟨h1, ?_⟩
    intro h0
    rw [h1, h0]
  · intro h
    obtain ⟨t0, t1, tle⟩ := hno h
    have hd : b.fPollingInterval = kDefaultPollInterval → b.fPollTimer =
        some self.milliSecPollingTable.1 := by
      intro hi
      rw [htimer, t0 hi]
    have hq : b.fPollingInterval = kQuickPollInterval → b.fPollTimer =
        some self.milliSecPollingTable.2 := by
      intro hi
      rw [htimer, t1 hi]
    refine ⟨?_, hd, hq, ?_⟩
    · unfold kDefaultPollInterval kQuickPollInterval
      omega
    · intro htab
      rw [htab] at hd hq
      exact ⟨hd, hq⟩

/-- The amended C15 at concrete inputs: no override and the default interval give
30000 ms; an override of 5 seconds gives 5000 ms; an override of 0 gives 0 ms. -/
theorem C15_rearm_witness :
    (∃ b, pollBatteryState sampleFirmware kExistingBatteryPath (ampsBattery 1 600) = some b ∧
      b.fPollingNow = false ∧ b.fPollingInterval = kDefaultPollInterval ∧
      b.fPollTimer = some 30000) ∧
    (∃ b, pollBatteryState sampleFirmware kExistingBatteryPath
        { ampsBattery 1 600 with fPollingOverridden := true, fPollingInterval := 5 } = some b ∧
      b.fPollingNow = false ∧ b.fPollTimer = some 5000) ∧
    (∃ b, pollBatteryState absentFirmware kExistingBatteryPath
        { ampsBattery 1 600 with fPollingOverridden := true, fPollingInterval := 0 } = some b ∧
      b.fPollingNow = false ∧ b.fPollTimer = some 0) := by
  refine ⟨?_, ?_, ?_⟩
  · obtain ⟨b, hb, hnow, -, hno⟩ := C15_rearm sampleFirmware (ampsBattery 1 600) rfl
    have hi : (pollBatteryState sampleFirmware kExistingBatteryPath (ampsBattery 1 600)).map
        (fun b => b.fPollingInterval) = some kDefaultPollInterval := rfl
    rw [hb] at hi
    simp only [Option.map_some', Option.some.injEq] at hi
    exact ⟨b, hb, hnow, hi, ((hno rfl).2.2.2 rfl).1 hi⟩
  · obtain ⟨b, hb, hnow, hov, -⟩ := C15_rearm sampleFirmware
      { ampsBattery 1 600 with fPollingOverridden := true, fPollingInterval := 5 } rfl
    exact ⟨b, hb, hnow, (hov rfl).1⟩
  · obtain ⟨b, hb, hnow, hov, -⟩ := C15_rearm absentFirmware
      { ampsBattery 1 600 with fPollingOverridden := true, fPollingInterval := 0 } rfl
    exact ⟨b, hb, hnow, (hov rfl).2 rfl⟩

theorem dropPendingService_countdown (b : AppleSmartBattery) :
    (dropPendingService b).fInitialPollCountdown = b.fInitialPollCountdown := by
  unfold dropPendingService
  split <;> rfl

theorem handleBatteryRemoved_countdown (b : AppleSmartBattery) :
    (handleBatteryRemoved b).fInitialPollCountdown = b.fInitialPollCountdown := by
  unfold handleBatteryRemoved
  have h1 : ∀ x : AppleSmartBattery,
      (acknowledgeSystemSleepWake x).fInitialPollCountdown = x.fInitialPollCountdown := by
    intro x
    unfold acknowledgeSystemSleepWake
    split <;> rfl
  have h2 : (cancelPollingSession b).fInitialPollCountdown = b.fInitialPollCountdown := by
    unfold cancelPollingSession
    split_ifs <;> rfl
  rw [h1, (clearBatteryState_settings true _).1, h2]

theorem handleSystemSleepWake_countdown (fw : Firmware) (powerService : Option Nat)
    (isSystemSleep : Bool) (self : AppleSmartBattery) (out : Nat × AppleSmartBattery)
    (h : handleSystemSleepWake fw powerService isSystemSleep self = some out) :
    out.2.fInitialPollCountdown = self.fInitialPollCountdown := by
  unfold handleSystemSleepWake at h
  cases powerService with
  | none => rw [← Option.some.inj h]
  | some service =>
    simp only [] at h
    have hd := dropPendingService_countdown self
    split_ifs at h with h1 h2 h3
    · rw [← Option.some.inj h]
    · rw [← Option.some.inj h]
      exact hd
    · rw [← Option.some.inj h]
      exact hd
    · obtain ⟨polled, hp, hout⟩ := Option.map_eq_some'.mp h
      obtain ⟨hk, -⟩ := pollBatteryState_step fw _ _ polled hp
      have hpc : polled.fInitialPollCountdown = self.fInitialPollCountdown := hk.1.trans hd
      rw [← hout]
      split_ifs
      · exact hpc
      · exact (dropPendingService_countdown polled).trans hpc

/-- No handler run changes the boot countdown. -/
theorem deliver_countdown (fw : Firmware) (e : DriverEvent) (s s' : AppleSmartBattery)
    (h : deliver fw e s = some s') :
    s'.fInitialPollCountdown = s.fInitialPollCountdown := by
  unfold deliver at h
  cases e with
  | timerExpiry =>
    simp only [] at h
    unfold pollingTimeOut at h
    split_ifs at h
    · rw [← Option.some.inj h]
    · exact (pollBatteryState_step fw _ s s' h).1.1
    · exact (pollBatteryState_step fw _ s s' h).1.1
  | watchdogExpiry =>
    simp only [] at h
    unfold incompleteReadTimeOut at h
    exact (pollBatteryState_step fw _ _ s' h).1.1
  | batteryInserted =>
    simp only [] at h
    unfold handleBatteryInserted at h
    exact (pollBatteryState_step fw _ s s' h).1.1
  | batteryRemoved =>
    simp only [] at h
    rw [← Option.some.inj h]
    exact handleBatteryRemoved_countdown s
  | alarmPoll =>
    simp only [] at h
    exact (pollBatteryState_step fw _ s s' h).1.1
  | sleepWake powerService isSystemSleep =>
    simp only [] at h
    obtain ⟨out, hout, hs⟩ := Option.map_eq_some'.mp h
    rw [← hs]
    exact handleSystemSleepWake_countdown fw powerService isSystemSleep s out hout
  | pollingInterval milliSeconds =>
    simp only [] at h
    rw [← Option.some.inj h]
    unfold setPollingInterval
    split_ifs <;> rfl

theorem deliverAll_countdown (events : List (Firmware × DriverEvent))
    (s s' : AppleSmartBattery) (h : deliverAll events s = some s') :
    s'.fInitialPollCountdown = s.fInitialPollCountdown := by
  induction events generalizing s with
  | nil =>
    unfold deliverAll at h
    rw [← Option.some.inj h]
  | cons first rest ih =>
    obtain ⟨fw, e⟩ := first
    unfold deliverAll at h
    obtain ⟨mid, hmid, hrest⟩ := Option.bind_eq_some.mp h
    rw [ih mid hrest, deliver_countdown fw e s mid hmid]

theorem start_countdown (cfg : Config) (fw : Firmware) (s0 : AppleSmartBattery)
    (h : start cfg fw = some s0) : s0.fInitialPollCountdown = kInitialPollCountdown := by
  unfold start at h
  simp only [] at h
  obtain ⟨hk, -⟩ := pollBatteryState_step fw _ _ s0 h
  rw [hk.1, (clearBatteryState_settings false _).1]
  rfl

/-- C12.  In every state the driver reaches from `start` by handler runs, in whatever
order and with whatever firmware answers, the boot countdown is still 5; hence every
expiration of the periodic timer that finds no poll in flight, the first five included,
runs a cycle of the new-battery path, whatever the polling override and the selected
interval are. -/
theorem C12_boot_fresh_path (cfg : Config) (fw0 : Firmware)
    (events : List (Firmware × DriverEvent)) (s0 s : AppleSmartBattery)
    (hstart : start cfg fw0 = some s0) (hrun : deliverAll events s0 = some s)
    (hidle : s.fPollingNow = false) :
    s.fInitialPollCountdown = 5 ∧
    ∀ fw, pollingTimeOut fw s = pollBatteryState fw kNewBatteryPath s := by
  have hc : s.fInitialPollCountdown = 5 := by
    rw [deliverAll_countdown events s0 s hrun, start_countdown cfg fw0 s0 hstart]
    rfl
  refine ⟨hc, ?_⟩
  intro fw
  unfold pollingTimeOut
  rw [if_neg (by rw [hidle]; decide), if_pos (by rw [hc]; decide)]

/-- C12 at a concrete run: after `start` and four expirations of the periodic timer, the
countdown is 5 and the fifth expiration runs the new-battery path. -/
theorem C12_boot_fresh_path_witness :
    ∃ s0 s, start defaultConfig sampleFirmware = some s0 ∧
      deliverAll
        [(sampleFirmware, DriverEvent.timerExpiry), (sampleFirmware, DriverEvent.timerExpiry),
          (sampleFirmware, DriverEvent.timerExpiry), (sampleFirmware, DriverEvent.timerExpiry)]
        s0 = some s ∧
      s.fInitialPollCountdown = 5 ∧
      ∀ fw, pollingTimeOut fw s = pollBatteryState fw kNewBatteryPath s := by
  have h : ∃ s0 s, start defaultConfig sampleFirmware = some s0 ∧
      deliverAll
        [(sampleFirmware, DriverEvent.timerExpiry), (sampleFirmware, DriverEvent.timerExpiry),
          (sampleFirmware, DriverEvent.timerExpiry), (sampleFirmware, DriverEvent.timerExpiry)]
        s0 = some s ∧ s.fPollingNow = false := ⟨_, _, rfl, rfl, rfl⟩
  obtain ⟨s0, s, hs, hr, hi⟩ := h
  exact ⟨s0, s, hs, hr, C12_boot_fresh_path defaultConfig sampleFirmware _ s0 s hs hr hi⟩

theorem LatestErrorStep.stepRefl (a : AppleSmartBattery) : LatestErrorStep a a :=
  fun h => ⟨h, Or.inl rfl⟩

theorem LatestErrorStep.andStep {a b c : AppleSmartBattery}
    (h1 : LatestErrorStep a b) (h2 : LatestErrorStep b c) : LatestErrorStep a c := by
  intro ha
  obtain ⟨hb, hab⟩ := h1 ha
  obtain ⟨hc, hbc⟩ := h2 hb
  refine ⟨hc, ?_⟩
  rcases hbc with h | h | h
  · rw [h]; exact hab
  · exact Or.inr (Or.inl h)
  · exact Or.inr (Or.inr h)

/-- A step that leaves the label alone in the dictionary and in the registry. -/
theorem LatestErrorStep.of_eq {a b : AppleSmartBattery}
    (hp : b.properties Key.LatestErrorType = a.properties Key.LatestErrorType)
    (hr : b.registry Key.LatestErrorType = a.registry Key.LatestErrorType) :
    LatestErrorStep a b :=
  fun h => ⟨hp.trans h, Or.inl hr⟩

theorem bifPublish_latest (y : AppleSmartBattery) : LatestErrorStep y (bifPublish y) := by
  apply LatestErrorStep.of_eq
  · unfold bifPublish setDeviceName setSerialNumber setBatteryType setManufacturer
    repeat' split
    all_goals rfl
  · unfold bifPublish setDeviceName setSerialNumber setBatteryType setManufacturer
    repeat' split
    all_goals rfl

theorem bixPublish_latest (y : AppleSmartBattery) : LatestErrorStep y (bixPublish y) := by
  apply LatestErrorStep.of_eq
  · unfold bixPublish setDeviceName setSerialNumber setBatteryType setManufacturer
    repeat' split
    all_goals rfl
  · unfold bixPublish setDeviceName setSerialNumber setBatteryType setManufacturer
    repeat' split
    all_goals rfl

theorem reportZeroCapacity_latest (y : AppleSmartBattery) :
    LatestErrorStep y (reportZeroCapacity y) := by
  unfold reportZeroCapacity
  split_ifs
  · exact fun h => ⟨h, Or.inr (Or.inl rfl)⟩
  · exact LatestErrorStep.stepRefl y

theorem bifStatic_latest (y : AppleSmartBattery) :
    LatestErrorStep y (bifPublish (reportZeroCapacity y)) :=
  (reportZeroCapacity_latest y).andStep (bifPublish_latest _)

theorem bixStatic_latest (y : AppleSmartBattery) :
    LatestErrorStep y (bixPublish (reportZeroCapacity y)) :=
  (reportZeroCapacity_latest y).andStep (bixPublish_latest _)

theorem setBatteryBIF_latest (p : List OSObject) (b b' : AppleSmartBattery)
    (h : setBatteryBIF p b = some b') : LatestErrorStep b b' := by
  obtain ⟨s1, s2, s3, s4, n, hn, rfl⟩ := setBatteryBIF_eq_some p b b' h
  obtain ⟨d, m, rfl⟩ := staticWattsToAmps_eq_some _ _ hn
  intro hb
  exact bifStatic_latest
    { bifFetch p s1 s2 s3 s4 b with fDesignCapacity := d, fMaxCapacity := m } hb

theorem setBatteryBIX_latest (p : List OSObject) (b b' : AppleSmartBattery)
    (h : setBatteryBIX p b = some b') : LatestErrorStep b b' := by
  obtain ⟨s1, s2, s3, s4, n, hn, rfl⟩ := setBatteryBIX_eq_some p b b' h
  obtain ⟨d, m, rfl⟩ := staticWattsToAmps_eq_some _ _ hn
  intro hb
  exact bixStatic_latest
    { bixFetch p s1 s2 s3 s4 b with fDesignCapacity := d, fMaxCapacity := m } hb

theorem setBatteryBBIX_latest (p : List OSObject) (b b' : AppleSmartBattery)
    (h : setBatteryBBIX p b = some b') : LatestErrorStep b b' := by
  obtain ⟨len, rfl⟩ := setBatteryBBIX_eq_some p b b' h
  exact LatestErrorStep.of_eq rfl rfl

theorem bstClassify_latest (s : Nat) (x : AppleSmartBattery) :
    LatestErrorStep x (bstClassify s x) := by
  intro hx
  refine ⟨by rw [(bstClassify_properties_registryKeys s x).2.2]; exact hx, ?_⟩
  unfold bstClassify
  split_ifs
  · exact Or.inr (Or.inr rfl)
  · exact Or.inl rfl
  · exact Or.inl rfl
  · exact Or.inl rfl

theorem bstPipeline_latest (s : Nat) (n : AppleSmartBattery) :
    LatestErrorStep n
      (bstFinish (bstCellVoltages (bstQuickPoll
        (bstClassify s (bstStatusChange s (bstAverageRate (bstRateFallback n))))))) := by
  have h1 : LatestErrorStep n (bstStatusChange s (bstAverageRate (bstRateFallback n))) := by
    apply LatestErrorStep.of_eq
    · simp only [bstStatusChange_frame, bstAverageRate_frame, bstRateFallback_frame]
    · simp only [bstStatusChange_frame, bstAverageRate_frame, bstRateFallback_frame]
  have h2 := h1.andStep (bstClassify_latest s _)
  intro hn
  obtain ⟨hx, hreg⟩ := h2 hn
  have hp : (bstCellVoltages (bstQuickPoll (bstClassify s
      (bstStatusChange s (bstAverageRate (bstRateFallback n)))))).properties
        Key.LatestErrorType = none := by
    rw [(bstCellVoltages_frame _).1, (bstQuickPoll_frame _).1]
    exact hx
  refine ⟨by rw [bstFinish_properties _ _ (by decide) (by decide)]; exact hp, ?_⟩
  rw [bstFinish_registry _ _ (by decide) (by decide) hp,
    bstCellVoltages_registry _ _ (by decide) (by decide),
    bstQuickPoll_registry _ _ (by decide)]
  exact hreg

theorem setBatteryBST_latest (p : List OSObject) (b b' : AppleSmartBattery)
    (h : setBatteryBST p b = some b') : LatestErrorStep b b' := by
  obtain ⟨n, hn, rfl⟩ := setBatteryBST_eq_some p b b' h
  obtain ⟨r, c, rfl⟩ := bstWattsToAmps_eq_some _ _ hn
  intro hb
  have hfp : (bstRateSign (bstFetch p b)).properties Key.LatestErrorType = none := by
    rw [(bstRateSign_frame _).1, bstFetch_properties _ _ _ (by decide) (by decide)]
    exact hb
  have hfr : (bstRateSign (bstFetch p b)).registry Key.LatestErrorType =
      b.registry Key.LatestErrorType := by
    rw [(bstRateSign_frame _).2.1]
    rfl
  obtain ⟨g1, g2⟩ := bstPipeline_latest (GetValueFromArray p BST_STATUS)
    { bstRateSign (bstFetch p b) with fCurrentRate := r, fCurrentCapacity := c } hfp
  refine ⟨g1, ?_⟩
  rw [← hfr]
  exact g2

theorem clearBatteryState_latest (x : AppleSmartBattery) :
    LatestErrorStep x (clearBatteryState true x) := by
  intro hx
  have hp : (clearBatteryState true x).properties Key.LatestErrorType =
      x.properties Key.LatestErrorType := by
    unfold clearBatteryState
    simp only [if_true]
    rw [updateStatus_properties]
    rfl
  refine ⟨hp.trans hx, Or.inl ?_⟩
  unfold clearBatteryState
  simp only [if_true]
  rw [updateStatus_registry _ _ (by
    show x.properties Key.LatestErrorType = none
    exact hx)]
  rfl

theorem getBatteryBIF_latest (fw : Firmware) (b b' : AppleSmartBattery)
    (h : getBatteryBIF fw b = some b') : LatestErrorStep b b' := by
  unfold getBatteryBIF at h
  cases hres : fw.resultBIF with
  | failure =>
    rw [hres] at h
    rw [← Option.some.inj h]
    exact LatestErrorStep.of_eq rfl rfl
  | notArray =>
    rw [hres] at h
    exact absurd h (fun e => Option.noConfusion e)
  | package fields =>
    rw [hres] at h
    intro hb
    exact setBatteryBIF_latest fields (emit Event.evaluateBIF b) b' h hb

theorem getBatteryBIX_latest (fw : Firmware) (b b' : AppleSmartBattery)
    (h : getBatteryBIX fw b = some b') : LatestErrorStep b b' := by
  unfold getBatteryBIX at h
  cases hres : fw.resultBIX with
  | failure =>
    rw [hres] at h
    rw [← Option.some.inj h]
    exact LatestErrorStep.of_eq rfl rfl
  | notArray =>
    rw [hres] at h
    exact absurd h (fun e => Option.noConfusion e)
  | package fields =>
    rw [hres] at h
    intro hb
    exact setBatteryBIX_latest fields (emit Event.evaluateBIX b) b' h hb

theorem getBatteryBBIX_latest (fw : Firmware) (b b' : AppleSmartBattery)
    (h : getBatteryBBIX fw b = some b') : LatestErrorStep b b' := by
  unfold getBatteryBBIX at h
  cases hres : fw.resultBBIX with
  | failure =>
    rw [hres] at h
    rw [← Option.some.inj h]
    exact LatestErrorStep.of_eq rfl rfl
  | notArray =>
    rw [hres] at h
    exact absurd h (fun e => Option.noConfusion e)
  | package fields =>
    rw [hres] at h
    intro hb
    exact setBatteryBBIX_latest fields (emit Event.evaluateBBIX b) b' h hb

theorem getBatteryBST_latest (fw : Firmware) (b b' : AppleSmartBattery)
    (h : getBatteryBST fw b = some b') : LatestErrorStep b b' := by
  unfold getBatteryBST at h
  cases hres : fw.resultBST with
  | failure =>
    rw [hres] at h
    rw [← Option.some.inj h]
    exact LatestErrorStep.of_eq rfl rfl
  | notArray =>
    rw [hres] at h
    exact absurd h (fun e => Option.noConfusion e)
  | package fields =>
    rw [hres] at h
    intro hb
    exact setBatteryBST_latest fields (emit Event.evaluateBST b) b' h hb

theorem pollReads_latest (fw : Firmware) (b b' : AppleSmartBattery)
    (h : pollReads fw b = some b') : LatestErrorStep b b' := by
  unfold pollReads at h
  obtain ⟨i, hi, h⟩ := Option.bind_eq_some.mp h
  obtain ⟨x, hx, h⟩ := Option.bind_eq_some.mp h
  have h1 : LatestErrorStep b i := by
    split_ifs at hi
    · exact getBatteryBIX_latest _ _ _ hi
    · exact getBatteryBIF_latest _ _ _ hi
  have h2 : LatestErrorStep i x := by
    split_ifs at hx
    · exact getBatteryBBIX_latest _ _ _ hx
    · rw [← Option.some.inj hx]; exact LatestErrorStep.stepRefl _
  exact (h1.andStep h2).andStep (getBatteryBST_latest _ _ _ h)

theorem getBatterySTA_latest (fw : Firmware) (s : AppleSmartBattery) :
    LatestErrorStep s (getBatterySTA fw s) := by
  unfold getBatterySTA
  cases fw.resultSTA with
  | none => exact LatestErrorStep.of_eq rfl rfl
  | some status =>
    simp only [setBatterySTA]
    split_ifs
    · exact LatestErrorStep.of_eq rfl rfl
    · exact LatestErrorStep.of_eq rfl rfl

/-- A cycle leaves in the registry the latest-error label it found, or the label of an
error one of its decoders recorded. -/
theorem pollExistingBattery_latest (fw : Firmware) (self b : AppleSmartBattery)
    (h : pollExistingBattery fw self = some b) : LatestErrorStep self b := by
  unfold pollExistingBattery at h
  simp only [] at h
  obtain ⟨r, hr, h⟩ := Option.bind_eq_some.mp h
  have h0 : LatestErrorStep self (getBatterySTA fw { self with fPollingNow := true }) := by
    intro hs
    exact getBatterySTA_latest fw { self with fPollingNow := true } hs
  have h1 : LatestErrorStep (getBatterySTA fw { self with fPollingNow := true }) r := by
    split_ifs at hr
    · exact pollReads_latest _ _ _ hr
    · rw [← Option.some.inj hr]
      intro hx
      exact clearBatteryState_latest
        (setFullyCharged false (getBatterySTA fw { self with fPollingNow := true })) hx
  obtain ⟨ms, -, -, -, -, -, -, -, q8, q9, -⟩ := pollRearm_step r b h
  exact (h0.andStep h1).andStep (LatestErrorStep.of_eq (by rw [q8]) (by rw [q9]))

theorem logReadError_cycle (fw : Firmware) (label : String) (additional : Nat)
    (self : AppleSmartBattery) :
    cycleDecodable fw (logReadError label additional self) = cycleDecodable fw self ∧
    cycleReads fw (logReadError label additional self) = cycleReads fw self ∧
    transportReads (logReadError label additional self) = transportReads self ∧
    (logReadError label additional self).trace =
      self.trace ++ [Event.ioLogError label additional] := by
  have hf : (logReadError label additional self).fPollingOverridden = self.fPollingOverridden ∧
      (logReadError label additional self).fPollingInterval = self.fPollingInterval ∧
      (logReadError label additional self).fUseBatteryExtendedInformation =
        self.fUseBatteryExtendedInformation ∧
      (logReadError label additional self).fUseBatteryExtraInformation =
        self.fUseBatteryExtraInformation ∧
      (logReadError label additional self).fPowerUnit = self.fPowerUnit ∧
      (logReadError label additional self).fBatteryPresent = self.fBatteryPresent :=
    ⟨rfl, rfl, rfl, rfl, rfl, rfl⟩
  obtain ⟨f1, f2, f3, f4, f5, f6⟩ := hf
  have ht : (logReadError label additional self).trace =
      self.trace ++ [Event.ioLogError label additional] := rfl
  refine ⟨?_, ?_, ?_, ht⟩
  · unfold cycleDecodable presentAfterProbe powerUnitAfterStatic
    rw [f1, f2, f3, f4, f5, f6]
  · unfold cycleReads presentAfterProbe
    rw [f3, f4, f6]
  · unfold transportReads
    rw [ht, List.filter_append]
    simp [isEvaluate]

/-- C11.  On a watchdog expiry whose cycle can be decoded, `incompleteReadTimeOut`
records "Overall Read Timeout Expired" as the latest error (in the registry and in the
log) and runs a cycle of the existing-battery path in the same handler, from the state
so reached: the log entry is followed at once by the presence read.  When the handler
returns no poll is in flight and the periodic timer is armed, setting it being the last
call of the handler.  The latest error the registry then holds is that label, unless the
cycle itself recorded a zero capacity or a permanent failure. -/
theorem C11_watchdog_restart (fw : Firmware) (self : AppleSmartBattery)
    (hdec : cycleDecodable fw self = true) :
    ∃ b, incompleteReadTimeOut fw self = some b ∧
      incompleteReadTimeOut fw self =
        pollBatteryState fw kExistingBatteryPath
          (logReadError kErrorOverallTimeoutExpired 0 self) ∧
      (logReadError kErrorOverallTimeoutExpired 0 self).registry Key.LatestErrorType =
        some (OSValue.symbol "Overall Read Timeout Expired") ∧
      (∃ ms body, b.fPollTimer = some ms ∧
        b.trace = self.trace ++
          Event.ioLogError "Overall Read Timeout Expired" 0 :: Event.evaluateSTA :: body ++
            [Event.pollTimerSet ms]) ∧
      b.fPollingNow = false ∧
      transportReads b = transportReads self ++ cycleReads fw self ∧
      (self.properties Key.LatestErrorType = none →
        b.registry Key.LatestErrorType =
          some (OSValue.symbol "Overall Read Timeout Expired") ∨
        b.registry Key.LatestErrorType = some (OSValue.symbol "Capacity Read Zero") ∨
        b.registry Key.LatestErrorType =
          some (OSValue.symbol "Permanent Battery Failure")) := by
  obtain ⟨hd, hc, ht, htrace⟩ := logReadError_cycle fw kErrorOverallTimeoutExpired 0 self
  obtain ⟨b, hb⟩ := pollExistingBattery_defined fw
    (logReadError kErrorOverallTimeoutExpired 0 self) (hd.trans hdec)
  obtain ⟨-, hnow, ⟨ms, body, htimer, hbt, -, -⟩, hreads⟩ :=
    pollExistingBattery_step fw _ b hb
  have hlatest := pollExistingBattery_latest fw _ b hb
  have hrun : incompleteReadTimeOut fw self = some b := by
    unfold incompleteReadTimeOut
    rw [pollBatteryState_existing fw kExistingBatteryPath _ (by decide)]
    exact hb
  refine ⟨b, hrun, rfl, rfl, ⟨ms, body, htimer, ?_⟩, hnow, ?_, ?_⟩
  · rw [hbt, htrace]
    simp only [List.append_assoc, List.singleton_append, List.cons_append]
    rfl
  · rw [hreads, hc, ht]
  · intro hs
    obtain ⟨-, hreg⟩ := hlatest hs
    rcases hreg with h | h | h
    · exact Or.inl h
    · exact Or.inr (Or.inl h)
    · exact Or.inr (Or.inr h)

/-- C11 at a concrete input: the watchdog expires on a battery that `sampleFirmware`
reports as present and discharging; the handler logs the label, reads `_STA`, `_BIF`
and `_BST`, and leaves the periodic timer armed with 30000 ms and the label as the
latest error. -/
theorem C11_watchdog_restart_witness :
    ∃ b, incompleteReadTimeOut sampleFirmware (ampsBattery 1 600) = some b ∧
      b.fPollTimer = some 30000 ∧ b.fPollingNow = false ∧
      transportReads b = [Event.evaluateSTA, Event.evaluateBIF, Event.evaluateBST] ∧
      b.trace.head? = some (Event.ioLogError "Overall Read Timeout Expired" 0) ∧
      b.registry Key.LatestErrorType =
        some (OSValue.symbol "Overall Read Timeout Expired") := by
  obtain ⟨b, hb, -, -, -, hnow, hreads, -⟩ :=
    C11_watchdog_restart sampleFirmware (ampsBattery 1 600) rfl
  have hc : (incompleteReadTimeOut sampleFirmware (ampsBattery 1 600)).map
      (fun b => (b.fPollTimer, b.trace.head?, b.registry Key.LatestErrorType)) =
      some (some 30000, some (Event.ioLogError "Overall Read Timeout Expired" 0),
        some (OSValue.symbol "Overall Read Timeout Expired")) := rfl
  rw [hb] at hc
  simp only [Option.map_some', Option.some.injEq, Prod.mk.injEq] at hc
  have hr2 : transportReads (ampsBattery 1 600) ++ cycleReads sampleFirmware (ampsBattery 1 600)
      = [Event.evaluateSTA, Event.evaluateBIF, Event.evaluateBST] := rfl
  rw [hr2] at hreads
  exact ⟨b, hb, hc.1, hnow, hreads, hc.2.1, hc.2.2⟩

theorem sub32_of_le (m c : Nat) (hle : c ≤ m) (h : m - c < 4294967296) :
    sub32 m c = m - c := by
  unfold sub32
  omega

/-- The outputs of the charging branch, in terms of the state it is entered with. -/
theorem bstCharging_outputs (x : AppleSmartBattery) :
    (bstCharging x).properties Key.FullyChargedSym = some (OSValue.boolean false) ∧
    (bstCharging x).properties Key.chargingKey = some (OSValue.boolean true) ∧
    (bstCharging x).properties Key.externalConnectedKey = some (OSValue.boolean true) ∧
    (bstCharging x).properties Key.externalChargeCapableKey = some (OSValue.boolean true) ∧
    (bstCharging x).properties Key.amperageKey =
      some (OSValue.number (x.fAverageRate % 4294967296)) ∧
    (bstCharging x).properties Key.InstantAmperageSym =
      some (OSValue.number (x.fCurrentRate % 4294967296)) ∧
    (bstCharging x).properties Key.timeRemainingKey =
      some (OSValue.number
        ((if x.fAverageRate ≠ 0
          then mul32 60 (sub32 x.fMaxCapacity x.fCurrentCapacity) / x.fAverageRate
          else 0xffff) % 4294967296)) ∧
    (bstCharging x).properties Key.AvgTimeToFullSym =
      some (OSValue.number
        ((if x.fAverageRate ≠ 0
          then mul32 60 (sub32 x.fMaxCapacity x.fCurrentCapacity) / x.fAverageRate
          else 0xffff) % 4294967296)) ∧
    (bstCharging x).properties Key.InstantTimeToFullSym =
      some (OSValue.number
        ((if x.fCurrentRate ≠ 0
          then mul32 60 (sub32 x.fMaxCapacity x.fCurrentCapacity) / x.fCurrentRate
          else 0xffff) % 4294967296)) ∧
    (bstCharging x).properties Key.AvgTimeToEmptySym = some (OSValue.number 0xFFFF) ∧
    (bstCharging x).properties Key.InstantTimeToEmptySym = some (OSValue.number 0xFFFF) ∧
    (bstCharging x).fCurrentCapacity = x.fCurrentCapacity :=
  ⟨rfl, rfl, rfl, rfl, rfl, rfl, rfl, rfl, rfl, rfl, rfl, rfl⟩

/-- What a decode classified as charging publishes, in terms of the members it leaves in
the object. -/
theorem setBatteryBST_charging (p : List OSObject) (self b : AppleSmartBattery)
    (h : setBatteryBST p self = some b)
    (hd : GetValueFromArray p BST_STATUS &&& BATTERY_DISCHARGING = 0)
    (hc : GetValueFromArray p BST_STATUS &&& BATTERY_CHARGING ≠ 0) :
    published b Key.FullyChargedSym = some (OSValue.boolean false) ∧
    published b Key.chargingKey = some (OSValue.boolean true) ∧
    published b Key.externalConnectedKey = some (OSValue.boolean true) ∧
    published b Key.externalChargeCapableKey = some (OSValue.boolean true) ∧
    published b Key.amperageKey = some (OSValue.number (b.fAverageRate % 4294967296)) ∧
    published b Key.InstantAmperageSym = some (OSValue.number (b.fCurrentRate % 4294967296)) ∧
    published b Key.timeRemainingKey =
      some (OSValue.number
        ((if b.fAverageRate ≠ 0
          then mul32 60 (sub32 b.fMaxCapacity b.fCurrentCapacity) / b.fAverageRate
          else 0xffff) % 4294967296)) ∧
    published b Key.AvgTimeToFullSym =
      some (OSValue.number
        ((if b.fAverageRate ≠ 0
          then mul32 60 (sub32 b.fMaxCapacity b.fCurrentCapacity) / b.fAverageRate
          else 0xffff) % 4294967296)) ∧
    published b Key.InstantTimeToFullSym =
      some (OSValue.number
        ((if b.fCurrentRate ≠ 0
          then mul32 60 (sub32 b.fMaxCapacity b.fCurrentCapacity) / b.fCurrentRate
          else 0xffff) % 4294967296)) ∧
    published b Key.AvgTimeToEmptySym = some (OSValue.number 0xFFFF) ∧
    published b Key.InstantTimeToEmptySym = some (OSValue.number 0xFFFF) := by
  obtain ⟨n, -, rfl⟩ := setBatteryBST_eq_some p self b h
  generalize GetValueFromArray p BST_STATUS = s at hd hc ⊢
  generalize bstStatusChange s (bstAverageRate (bstRateFallback n)) = x
  have hk : ∀ k, k ≠ Key.HardwareSerialSym → k ≠ Key.batteryInfoKey →
      published (bstFinish (bstCellVoltages (bstQuickPoll (bstClassify s x)))) k =
      (bstCharging x).properties k := by
    intro k h1 h2
    rw [setBatteryBST_published s x k h1 h2, bstClassify_charging s x hd hc]
  have hcap : (bstFinish (bstCellVoltages (bstQuickPoll (bstClassify s x)))).fCurrentCapacity
      = x.fCurrentCapacity := by
    simp only [bstFinish_frame, bstCellVoltages_frame, bstQuickPoll_frame]
    rw [bstClassify_charging s x hd hc]; rfl
  have havg : (bstFinish (bstCellVoltages (bstQuickPoll (bstClassify s x)))).fAverageRate
      = x.fAverageRate := by simp
  have hrate : (bstFinish (bstCellVoltages (bstQuickPoll (bstClassify s x)))).fCurrentRate
      = x.fCurrentRate := by simp
  have hmax : (bstFinish (bstCellVoltages (bstQuickPoll (bstClassify s x)))).fMaxCapacity
      = x.fMaxCapacity := by simp
  rw [hk _ (by decide) (by decide), hk _ (by decide) (by decide),
    hk _ (by decide) (by decide), hk _ (by decide) (by decide),
    hk _ (by decide) (by decide), hk _ (by decide) (by decide),
    hk _ (by decide) (by decide), hk _ (by decide) (by decide),
    hk _ (by decide) (by decide), hk _ (by decide) (by decide),
    hk _ (by decide) (by decide), hcap, havg, hrate, hmax]
  obtain ⟨h1, h2, h3, h4, h5, h6, h7, h8, h9, h10, h11, -⟩ := bstCharging_outputs x
  exact ⟨h1, h2, h3, h4, h5, h6, h7, h8, h9, h10, h11⟩

/-- C21 fails as stated: a charging status word (2) that repeats the stored one, with a
raw rate of 163840 (`0x28000`, bit 15 set), a capacity of 400 below the maximum capacity
1000 and no running average.  The rate becomes `0xFFFF - 0x28000` modulo 2^32, that is
4294868991; the averaged rate takes that value; both amperages are published with that
bit pattern, which read as the `int` the setters receive is -98305, a negative value. -/
theorem C21_counterexample :
    ∃ b, setBatteryBST (bstPackage 2 163840 400 12000) (ampsBattery 2 0) = some b ∧
      GetValueFromArray (bstPackage 2 163840 400 12000) BST_STATUS &&& BATTERY_DISCHARGING = 0 ∧
      GetValueFromArray (bstPackage 2 163840 400 12000) BST_STATUS &&& BATTERY_CHARGING ≠ 0 ∧
      b.fCurrentCapacity ≤ b.fMaxCapacity ∧
      60 * (b.fMaxCapacity - b.fCurrentCapacity) < 4294967296 ∧
      isCharging b = true ∧
      published b Key.amperageKey = some (OSValue.number 4294868991) ∧
      published b Key.InstantAmperageSym = some (OSValue.number 4294868991) ∧
      amperage b = -98305 ∧ toSInt32 4294868991 = -98305 ∧ ¬ (0 ≤ amperage b) := by
  refine ⟨_, rfl, rfl, ?_, ?_, ?_, rfl, rfl, rfl, rfl, rfl, ?_⟩ <;> decide

/-- C21 (amended).  For every decode classified as Charging (charging bit set,
discharging bit clear), with `c` the current capacity, `m` the maximum capacity, `a` the
averaged rate and `r` the current rate the decode leaves in the object: the snapshot has
fullyCharged false, isCharging true, external power connected and charge capable, the
amperage is the 32-bit pattern of `a` and the instantaneous amperage that of `r`, and
both time-to-empty fields are `0xFFFF`.  When `c ≤ m` and `60 * (m - c)` is below 2^32,
the time remaining and the average time-to-full are `60 * (m - c) / a` when `a` is not 0
and `0xFFFF` when it is, and the instantaneous time-to-full is `60 * (m - c) / r` when
`r` is not 0 and `0xFFFF` when it is.  Read as signed 32-bit values, the amperage is
non-negative exactly when `a` is below 2^31 and the instantaneous amperage exactly when
`r` is. -/
theorem C21_charging_snapshot (acpibat_bst : List OSObject) (self : AppleSmartBattery)
    (hdef : self.fPowerUnit = WATTS → GetValueFromArray acpibat_bst BST_VOLTAGE ≠ 0)
    (hd : GetValueFromArray acpibat_bst BST_STATUS &&& BATTERY_DISCHARGING = 0)
    (hc : GetValueFromArray acpibat_bst BST_STATUS &&& BATTERY_CHARGING ≠ 0) :
    ∃ b, setBatteryBST acpibat_bst self = some b ∧
      fullyCharged b = false ∧ isCharging b = true ∧
      externalConnected b = true ∧ externalChargeCapable b = true ∧
      published b Key.amperageKey = some (OSValue.number (b.fAverageRate % 4294967296)) ∧
      published b Key.InstantAmperageSym =
        some (OSValue.number (b.fCurrentRate % 4294967296)) ∧
      published b Key.AvgTimeToEmptySym = some (OSValue.number 0xFFFF) ∧
      published b Key.InstantTimeToEmptySym = some (OSValue.number 0xFFFF) ∧
      (b.fCurrentCapacity ≤ b.fMaxCapacity →
        60 * (b.fMaxCapacity - b.fCurrentCapacity) < 4294967296 →
        published b Key.timeRemainingKey =
          some (OSValue.number
            (if b.fAverageRate ≠ 0
              then 60 * (b.fMaxCapacity - b.fCurrentCapacity) / b.fAverageRate
              else 0xFFFF)) ∧
        published b Key.AvgTimeToFullSym =
          some (OSValue.number
            (if b.fAverageRate ≠ 0
              then 60 * (b.fMaxCapacity - b.fCurrentCapacity) / b.fAverageRate
              else 0xFFFF)) ∧
        published b Key.InstantTimeToFullSym =
          some (OSValue.number
            (if b.fCurrentRate ≠ 0
              then 60 * (b.fMaxCapacity - b.fCurrentCapacity) / b.fCurrentRate
              else 0xFFFF))) ∧
      amperage b = toSInt32 b.fAverageRate ∧
      (0 ≤ amperage b ↔ b.fAverageRate % 4294967296 < 2147483648) ∧
      (0 ≤ toSInt32 (b.fCurrentRate % 4294967296) ↔
        b.fCurrentRate % 4294967296 < 2147483648) := by
  obtain ⟨n, -, hb, -⟩ := setBatteryBST_some acpibat_bst self hdef
  obtain ⟨h1, h2, h3, h4, h5, h6, h7, h8, h9, h10, h11⟩ :=
    setBatteryBST_charging acpibat_bst self _ hb hd hc
  refine ⟨_, hb, ?_, ?_, ?_, ?_, h5, h6, h10, h11, ?_, ?_, ?_, ?_⟩
  · unfold fullyCharged; unfold published at h1; rw [h1]; rfl
  · unfold isCharging; unfold published at h2; rw [h2]; rfl
  · unfold externalConnected; unfold published at h3; rw [h3]; rfl
  · unfold externalChargeCapable; unfold published at h4; rw [h4]; rfl
  · intro hle h60
    have hs := sub32_of_le _ _ hle (by omega)
    rw [hs] at h7 h8 h9
    rw [h7, h8, h9, timeEstimate_arith 60 _ _ h60, timeEstimate_arith 60 _ _ h60]
    exact ⟨rfl, rfl, rfl⟩
  · unfold amperage PropertyTable.getNumber; unfold published at h5; rw [h5]
    show toSInt32 (_ % 4294967296) = _
    unfold toSInt32; simp
  · unfold amperage PropertyTable.getNumber; unfold published at h5; rw [h5]
    show 0 ≤ toSInt32 (_ % 4294967296) ↔ _
    rw [toSInt32_nonneg_iff]; simp
  · rw [toSInt32_nonneg_iff]; simp

/-- The amended C21 at a concrete input: the charge unit, a charging status word that
repeats the stored one, rate 1500, running average 500, capacity 400 of 1000.  The
averaged rate is 1000 and the time remaining `60 * 600 / 1000 = 36`; the instantaneous
time-to-full is `60 * 600 / 1500 = 24`. -/
theorem C21_charging_snapshot_witness :
    ∃ b, setBatteryBST (bstPackage 2 1500 400 12000) (ampsBattery 2 500) = some b ∧
      fullyCharged b = false ∧ isCharging b = true ∧
      externalConnected b = true ∧ externalChargeCapable b = true ∧
      published b Key.amperageKey = some (OSValue.number 1000) ∧
      published b Key.InstantAmperageSym = some (OSValue.number 1500) ∧
      published b Key.timeRemainingKey = some (OSValue.number 36) ∧
      published b Key.AvgTimeToFullSym = some (OSValue.number 36) ∧
      published b Key.InstantTimeToFullSym = some (OSValue.number 24) ∧
      published b Key.AvgTimeToEmptySym = some (OSValue.number 0xFFFF) ∧
      published b Key.InstantTimeToEmptySym = some (OSValue.number 0xFFFF) ∧
      0 ≤ amperage b := by
  obtain ⟨b, hb, h1, h2, h3, h4, h5, h6, h7, h8, ht, -, hs, -⟩ :=
    C21_charging_snapshot (bstPackage 2 1500 400 12000) (ampsBattery 2 500)
      (by decide) (by decide) (by decide)
  have hv : (setBatteryBST (bstPackage 2 1500 400 12000) (ampsBattery 2 500)).map
      (fun b => (b.fCurrentCapacity, b.fMaxCapacity, b.fAverageRate, b.fCurrentRate)) =
      some (400, 1000, 1000, 1500) := rfl
  rw [hb] at hv
  simp only [Option.map_some', Option.some.injEq, Prod.mk.injEq] at hv
  obtain ⟨hcap, hmax, havg, hrate⟩ := hv
  rw [hcap, hmax, havg, hrate] at ht
  rw [havg] at h5 hs
  rw [hrate] at h6
  obtain ⟨t1, t2, t3⟩ := ht (by norm_num) (by norm_num)
  exact ⟨b, hb, h1, h2, h3, h4, h5, h6, t1, t2, t3, h7, h8, hs.mpr (by norm_num)⟩

/-- The outputs of the branch for a status word with neither bit set, in terms of the
state it is entered with. -/
theorem bstCharged_outputs (x : AppleSmartBattery) :
    (bstCharged x).properties Key.FullyChargedSym = some (OSValue.boolean true) ∧
    (bstCharged x).properties Key.chargingKey = some (OSValue.boolean false) ∧
    (bstCharged x).properties Key.externalConnectedKey = some (OSValue.boolean true) ∧
    (bstCharged x).properties Key.externalChargeCapableKey = some (OSValue.boolean true) ∧
    (bstCharged x).properties Key.amperageKey = some (OSValue.number 0) ∧
    (bstCharged x).properties Key.InstantAmperageSym = some (OSValue.number 0) ∧
    (bstCharged x).properties Key.timeRemainingKey = some (OSValue.number 0xFFFF) ∧
    (bstCharged x).properties Key.AvgTimeToFullSym = some (OSValue.number 0xFFFF) ∧
    (bstCharged x).properties Key.AvgTimeToEmptySym = some (OSValue.number 0xFFFF) ∧
    (bstCharged x).properties Key.InstantTimeToFullSym = some (OSValue.number 0xFFFF) ∧
    (bstCharged x).properties Key.InstantTimeToEmptySym = some (OSValue.number 0xFFFF) ∧
    (bstCharged x).properties Key.currentCapacityKey =
      some (OSValue.number (x.fMaxCapacity % 4294967296)) ∧
    (bstCharged x).fCurrentCapacity = x.fMaxCapacity :=
  ⟨rfl, rfl, rfl, rfl, rfl, rfl, rfl, rfl, rfl, rfl, rfl, rfl, rfl⟩

/-- C22.  For every decode whose status word has both the charging bit and the
discharging bit clear, whatever remaining capacity the package reports: fullyCharged is
published true, isCharging false, external power connected, the amperage and the
instantaneous amperage 0, the five time estimates `0xFFFF`; the stored current capacity
is the maximum capacity `m`, and the published one is `m` as the 32-bit number the
setter stores (`m` itself for a 32-bit `m`). -/
theorem C22_charged_snapshot (acpibat_bst : List OSObject) (self : AppleSmartBattery)
    (hdef : self.fPowerUnit = WATTS → GetValueFromArray acpibat_bst BST_VOLTAGE ≠ 0)
    (hd : GetValueFromArray acpibat_bst BST_STATUS &&& BATTERY_DISCHARGING = 0)
    (hc : GetValueFromArray acpibat_bst BST_STATUS &&& BATTERY_CHARGING = 0) :
    ∃ b, setBatteryBST acpibat_bst self = some b ∧
      fullyCharged b = true ∧ isCharging b = false ∧ externalConnected b = true ∧
      published b Key.amperageKey = some (OSValue.number 0) ∧
      published b Key.InstantAmperageSym = some (OSValue.number 0) ∧
      published b Key.timeRemainingKey = some (OSValue.number 0xFFFF) ∧
      published b Key.AvgTimeToFullSym = some (OSValue.number 0xFFFF) ∧
      published b Key.AvgTimeToEmptySym = some (OSValue.number 0xFFFF) ∧
      published b Key.InstantTimeToFullSym = some (OSValue.number 0xFFFF) ∧
      published b Key.InstantTimeToEmptySym = some (OSValue.number 0xFFFF) ∧
      b.fMaxCapacity = self.fMaxCapacity ∧
      b.fCurrentCapacity = self.fMaxCapacity ∧
      published b Key.currentCapacityKey =
        some (OSValue.number (self.fMaxCapacity % 4294967296)) ∧
      (self.fMaxCapacity < 4294967296 →
        published b Key.currentCapacityKey = some (OSValue.number self.fMaxCapacity)) := by
  obtain ⟨n, -, hb, -, -, -, hmax, -⟩ := setBatteryBST_some acpibat_bst self hdef
  refine ⟨_, hb, ?_⟩
  generalize GetValueFromArray acpibat_bst BST_STATUS = s at hd hc ⊢
  have hxm : (bstStatusChange s (bstAverageRate (bstRateFallback n))).fMaxCapacity =
      self.fMaxCapacity := by simp [hmax]
  generalize bstStatusChange s (bstAverageRate (bstRateFallback n)) = x at hxm ⊢
  have hk : ∀ k, k ≠ Key.HardwareSerialSym → k ≠ Key.batteryInfoKey →
      published (bstFinish (bstCellVoltages (bstQuickPoll (bstClassify s x)))) k =
      (bstCharged x).properties k := by
    intro k h1 h2
    rw [setBatteryBST_published s x k h1 h2, bstClassify_charged s x hd hc]
  have hcap : (bstFinish (bstCellVoltages (bstQuickPoll (bstClassify s x)))).fCurrentCapacity
      = self.fMaxCapacity := by
    simp only [bstFinish_frame, bstCellVoltages_frame, bstQuickPoll_frame]
    rw [bstClassify_charged s x hd hc, ← hxm]; rfl
  have hmx : (bstFinish (bstCellVoltages (bstQuickPoll (bstClassify s x)))).fMaxCapacity
      = self.fMaxCapacity := by simp [hxm]
  obtain ⟨h1, h2, h3, -, h5, h6, h7, h8, h9, h10, h11, h12, -⟩ := bstCharged_outputs x
  rw [hxm] at h12
  have p1 := (hk Key.FullyChargedSym (by decide) (by decide)).trans h1
  have p2 := (hk Key.chargingKey (by decide) (by decide)).trans h2
  have p3 := (hk Key.externalConnectedKey (by decide) (by decide)).trans h3
  have p12 := (hk Key.currentCapacityKey (by decide) (by decide)).trans h12
  refine ⟨?_, ?_, ?_, (hk _ (by decide) (by decide)).trans h5,
    (hk _ (by decide) (by decide)).trans h6, (hk _ (by decide) (by decide)).trans h7,
    (hk _ (by decide) (by decide)).trans h8, (hk _ (by decide) (by decide)).trans h9,
    (hk _ (by decide) (by decide)).trans h10, (hk _ (by decide) (by decide)).trans h11,
    hmx, hcap, p12, ?_⟩
  · unfold fullyCharged; unfold published at p1; rw [p1]; rfl
  · unfold isCharging; unfold published at p2; rw [p2]; rfl
  · unfold externalConnected; unfold published at p3; rw [p3]; rfl
  · intro hlt
    rw [p12, Nat.mod_eq_of_lt hlt]

/-- C22 at the status word of the claim: only the critical bit (4) set, a reported
remaining capacity of 300 and a maximum capacity of 1000.  The current capacity is stored
and published as 1000. -/
theorem C22_charged_snapshot_witness :
    ∃ b, setBatteryBST (bstPackage 4 600 300 12000) (ampsBattery 4 600) = some b ∧
      GetValueFromArray (bstPackage 4 600 300 12000) BST_CAPACITY = 300 ∧
      fullyCharged b = true ∧ isCharging b = false ∧ externalConnected b = true ∧
      published b Key.amperageKey = some (OSValue.number 0) ∧
      published b Key.InstantAmperageSym = some (OSValue.number 0) ∧
      published b Key.timeRemainingKey = some (OSValue.number 0xFFFF) ∧
      published b Key.AvgTimeToFullSym = some (OSValue.number 0xFFFF) ∧
      published b Key.AvgTimeToEmptySym = some (OSValue.number 0xFFFF) ∧
      published b Key.InstantTimeToFullSym = some (OSValue.number 0xFFFF) ∧
      published b Key.InstantTimeToEmptySym = some (OSValue.number 0xFFFF) ∧
      b.fCurrentCapacity = 1000 ∧
      published b Key.currentCapacityKey = some (OSValue.number 1000) := by
  obtain ⟨b, hb, h1, h2, h3, h4, h5, h6, h7, h8, h9, h10, -, h12, -, h14⟩ :=
    C22_charged_snapshot (bstPackage 4 600 300 12000) (ampsBattery 4 600)
      (by decide) (by decide) (by decide)
  exact ⟨b, hb, rfl, h1, h2, h3, h4, h5, h6, h7, h8, h9, h10, h12, h14 (by decide)⟩

/-- The outputs of the discharging branch, in terms of the state it is entered with. -/
theorem bstDischarging_outputs (x : AppleSmartBattery) :
    (bstDischarging x).properties Key.amperageKey =
      some (OSValue.number (mul32 x.fAverageRate 4294967295 % 4294967296)) ∧
    (bstDischarging x).properties Key.InstantAmperageSym =
      some (OSValue.number (mul32 x.fCurrentRate 4294967295 % 4294967296)) ∧
    (bstDischarging x).properties Key.timeRemainingKey =
      some (OSValue.number
        ((if x.fAverageRate ≠ 0 then mul32 60 x.fCurrentCapacity / x.fAverageRate
          else 0xffff) % 4294967296)) ∧
    (bstDischarging x).properties Key.AvgTimeToEmptySym =
      some (OSValue.number
        ((if x.fAverageRate ≠ 0 then mul32 60 x.fCurrentCapacity / x.fAverageRate
          else 0xffff) % 4294967296)) ∧
    (bstDischarging x).properties Key.InstantTimeToEmptySym =
      some (OSValue.number
        ((if x.fCurrentRate ≠ 0 then mul32 60 x.fCurrentCapacity / x.fCurrentRate
          else 0xffff) % 4294967296)) ∧
    (bstDischarging x).fCurrentCapacity = x.fCurrentCapacity ∧
    (bstDischarging x).fACConnected = false :=
  ⟨rfl, rfl, rfl, rfl, rfl, rfl, rfl⟩

/-- What a decode classified as discharging publishes, in terms of the members it
leaves in the object. -/
theorem setBatteryBST_discharging (p : List OSObject) (self b : AppleSmartBattery)
    (h : setBatteryBST p self = some b)
    (hd : GetValueFromArray p BST_STATUS &&& BATTERY_DISCHARGING ≠ 0)
    (hc : GetValueFromArray p BST_STATUS &&& BATTERY_CHARGING = 0) :
    published b Key.amperageKey =
      some (OSValue.number (mul32 b.fAverageRate 4294967295 % 4294967296)) ∧
    published b Key.InstantAmperageSym =
      some (OSValue.number (mul32 b.fCurrentRate 4294967295 % 4294967296)) ∧
    published b Key.timeRemainingKey =
      some (OSValue.number
        ((if b.fAverageRate ≠ 0 then mul32 60 b.fCurrentCapacity / b.fAverageRate
          else 0xffff) % 4294967296)) ∧
    published b Key.AvgTimeToEmptySym =
      some (OSValue.number
        ((if b.fAverageRate ≠ 0 then mul32 60 b.fCurrentCapacity / b.fAverageRate
          else 0xffff) % 4294967296)) ∧
    published b Key.InstantTimeToEmptySym =
      some (OSValue.number
        ((if b.fCurrentRate ≠ 0 then mul32 60 b.fCurrentCapacity / b.fCurrentRate
          else 0xffff) % 4294967296)) ∧
    b.fACConnected = false := by
  obtain ⟨n, -, rfl⟩ := setBatteryBST_eq_some p self b h
  generalize GetValueFromArray p BST_STATUS = s at hd hc ⊢
  generalize bstStatusChange s (bstAverageRate (bstRateFallback n)) = x
  have hk : ∀ k, k ≠ Key.HardwareSerialSym → k ≠ Key.batteryInfoKey →
      published (bstFinish (bstCellVoltages (bstQuickPoll (bstClassify s x)))) k =
      (bstDischarging x).properties k := by
    intro k h1 h2
    rw [setBatteryBST_published s x k h1 h2, bstClassify_discharging s x hd hc]
  have hcap : (bstFinish (bstCellVoltages (bstQuickPoll (bstClassify s x)))).fCurrentCapacity
      = x.fCurrentCapacity := by
    simp only [bstFinish_frame, bstCellVoltages_frame, bstQuickPoll_frame]
    rw [bstClassify_discharging s x hd hc]; rfl
  have hac : (bstFinish (bstCellVoltages (bstQuickPoll (bstClassify s x)))).fACConnected
      = false := by
    simp only [bstFinish_frame, bstCellVoltages_frame, bstQuickPoll_frame]
    rw [bstClassify_discharging s x hd hc]; rfl
  have havg : (bstFinish (bstCellVoltages (bstQuickPoll (bstClassify s x)))).fAverageRate
      = x.fAverageRate := by simp
  have hrate : (bstFinish (bstCellVoltages (bstQuickPoll (bstClassify s x)))).fCurrentRate
      = x.fCurrentRate := by simp
  rw [hk _ (by decide) (by decide), hk _ (by decide) (by decide),
    hk _ (by decide) (by decide), hk _ (by decide) (by decide),
    hk _ (by decide) (by decide), hcap, havg, hrate, hac]
  obtain ⟨h1, h2, h3, h4, h5, -, -⟩ := bstDischarging_outputs x
  exact ⟨h1, h2, h3, h4, h5, rfl⟩

/-- A decode keeps the power unit. -/
theorem setBatteryBST_powerUnit (p : List OSObject) (self b : AppleSmartBattery)
    (h : setBatteryBST p self = some b) : b.fPowerUnit = self.fPowerUnit := by
  obtain ⟨n, hn, rfl⟩ := setBatteryBST_eq_some p self b h
  obtain ⟨-, -, -, -, hp⟩ := bstWattsToAmps_rate _ _ hn
  simp [hp]

/-- C28.  For every decode whose status word differs from the stored one, whatever the
current rate and the previous average: the averaged rate the classification uses, and
the decode leaves, is 0, and the stored status becomes the new status word.  A
Discharging classification then publishes amperage 0 and time remaining and average
time-to-empty `0xFFFF`, a Charging classification amperage 0 and time remaining and
average time-to-full `0xFFFF`, while the instantaneous amperage and the instantaneous
time estimate are computed from the current rate.  On the next decode with the same
status word the averaged rate is exactly the current rate of that decode. -/
theorem C28_status_change_average (acpibat_bst : List OSObject) (self : AppleSmartBattery)
    (hdef : self.fPowerUnit = WATTS → GetValueFromArray acpibat_bst BST_VOLTAGE ≠ 0)
    (hdiff : GetValueFromArray acpibat_bst BST_STATUS ≠ self.fStatus) :
    ∃ b, setBatteryBST acpibat_bst self = some b ∧
      b.fAverageRate = 0 ∧ b.fStatus = GetValueFromArray acpibat_bst BST_STATUS ∧
      (GetValueFromArray acpibat_bst BST_STATUS &&& BATTERY_DISCHARGING ≠ 0 →
        GetValueFromArray acpibat_bst BST_STATUS &&& BATTERY_CHARGING = 0 →
        published b Key.amperageKey = some (OSValue.number 0) ∧
        published b Key.timeRemainingKey = some (OSValue.number 0xFFFF) ∧
        published b Key.AvgTimeToEmptySym = some (OSValue.number 0xFFFF) ∧
        published b Key.InstantAmperageSym =
          some (OSValue.number (mul32 b.fCurrentRate 4294967295 % 4294967296)) ∧
        published b Key.InstantTimeToEmptySym =
          some (OSValue.number
            ((if b.fCurrentRate ≠ 0 then mul32 60 b.fCurrentCapacity / b.fCurrentRate
              else 0xffff) % 4294967296))) ∧
      (GetValueFromArray acpibat_bst BST_STATUS &&& BATTERY_DISCHARGING = 0 →
        GetValueFromArray acpibat_bst BST_STATUS &&& BATTERY_CHARGING ≠ 0 →
        published b Key.amperageKey = some (OSValue.number 0) ∧
        published b Key.timeRemainingKey = some (OSValue.number 0xFFFF) ∧
        published b Key.AvgTimeToFullSym = some (OSValue.number 0xFFFF) ∧
        published b Key.InstantAmperageSym =
          some (OSValue.number (b.fCurrentRate % 4294967296)) ∧
        published b Key.InstantTimeToFullSym =
          some (OSValue.number
            ((if b.fCurrentRate ≠ 0
              then mul32 60 (sub32 b.fMaxCapacity b.fCurrentCapacity) / b.fCurrentRate
              else 0xffff) % 4294967296))) ∧
      (∀ next : List OSObject,
        GetValueFromArray next BST_STATUS = GetValueFromArray acpibat_bst BST_STATUS →
        (self.fPowerUnit = WATTS → GetValueFromArray next BST_VOLTAGE ≠ 0) →
        ∃ b2, setBatteryBST next b = some b2 ∧ b2.fAverageRate = b2.fCurrentRate) := by
  obtain ⟨n, -, hb, -⟩ := setBatteryBST_some acpibat_bst self hdef
  obtain ⟨-, hs, ha, -⟩ := setBatteryBST_rates acpibat_bst self _ hb
  rw [if_pos hdiff] at ha
  refine ⟨_, hb, ha, hs, ?_, ?_, ?_⟩
  · intro hd hc
    obtain ⟨h1, h2, h3, h4, h5, -⟩ := setBatteryBST_discharging acpibat_bst self _ hb hd hc
    rw [ha] at h1 h3 h4
    exact ⟨h1, h3, h4, h2, h5⟩
  · intro hd hc
    obtain ⟨-, -, -, -, h5, h6, h7, h8, h9, -, -⟩ :=
      setBatteryBST_charging acpibat_bst self _ hb hd hc
    rw [ha] at h5 h7 h8
    exact ⟨h5, h7, h8, h6, h9⟩
  · intro next hsame hdef2
    have hp := setBatteryBST_powerUnit acpibat_bst self _ hb
    obtain ⟨n2, -, hb2, -⟩ := setBatteryBST_some next _ (by rw [hp]; exact hdef2)
    obtain ⟨-, -, ha2, -⟩ := setBatteryBST_rates next _ _ hb2
    refine ⟨_, hb2, ?_⟩
    rw [ha2, hs, ha, if_neg (not_not.mpr hsame), if_neg (by simp)]

/-- C28 at a concrete input: a battery that was discharging (status 1, running average
600) is seen charging (status 2) with rate 1500 and capacity 400 of 1000.  The averaged
rate is 0, the amperage 0 and the averaged estimates `0xFFFF`; the instantaneous
time-to-full is `60 * 600 / 1500 = 24`.  The next decode with the same status word and a
rate of 1300 leaves the averaged rate 1300. -/
theorem C28_status_change_average_witness :
    ∃ b, setBatteryBST (bstPackage 2 1500 400 12000) (ampsBattery 1 600) = some b ∧
      b.fAverageRate = 0 ∧ b.fStatus = 2 ∧
      published b Key.amperageKey = some (OSValue.number 0) ∧
      published b Key.timeRemainingKey = some (OSValue.number 0xFFFF) ∧
      published b Key.AvgTimeToFullSym = some (OSValue.number 0xFFFF) ∧
      published b Key.InstantAmperageSym = some (OSValue.number 1500) ∧
      published b Key.InstantTimeToFullSym = some (OSValue.number 24) ∧
      ∃ b2, setBatteryBST (bstPackage 2 1300 420 12000) b = some b2 ∧
        b2.fCurrentRate = 1300 ∧ b2.fAverageRate = 1300 := by
  obtain ⟨b, hb, ha, hs, -, hch, hnext⟩ :=
    C28_status_change_average (bstPackage 2 1500 400 12000) (ampsBattery 1 600)
      (by decide) (by decide)
  obtain ⟨h1, h2, h3, h4, h5⟩ := hch (by decide) (by decide)
  have hv : (setBatteryBST (bstPackage 2 1500 400 12000) (ampsBattery 1 600)).map
      (fun b => (b.fCurrentCapacity, b.fMaxCapacity, b.fCurrentRate)) =
      some (400, 1000, 1500) := rfl
  rw [hb] at hv
  simp only [Option.map_some', Option.some.injEq, Prod.mk.injEq] at hv
  obtain ⟨hcap, hmax, hrate⟩ := hv
  rw [hrate] at h4
  rw [hcap, hmax, hrate] at h5
  obtain ⟨b2, hb2, ha2⟩ := hnext (bstPackage 2 1300 420 12000) rfl (by decide)
  have hv2 : ((setBatteryBST (bstPackage 2 1500 400 12000) (ampsBattery 1 600)).bind
      (setBatteryBST (bstPackage 2 1300 420 12000))).map (fun b => b.fCurrentRate) =
      some 1300 := rfl
  rw [hb, Option.some_bind, hb2] at hv2
  simp only [Option.map_some', Option.some.injEq] at hv2
  exact ⟨b, hb, ha, hs, h1, h2, h3, h4, h5, b2, hb2, hv2, ha2.trans hv2⟩

theorem sub32_wrapped (m c : Nat) (hlt : m < c) (hc : c < 4294967296) :
    sub32 m c = m + 4294967296 - c ∧
    (m + 4294967296 - c) % 4294967296 = m + 4294967296 - c := by
  unfold sub32
  omega

theorem wrappedEstimate_arith (m c r : Nat) (hlt : m < c) (hc : c < 4294967296)
    (hr : r ≠ 0) :
    (if r ≠ 0 then mul32 60 (sub32 m c) / r else 0xffff) % 4294967296 =
      (60 * ((m + 4294967296 - c) % 4294967296)) % 4294967296 / r := by
  obtain ⟨h1, h2⟩ := sub32_wrapped m c hlt hc
  rw [if_pos hr, h1, h2]
  unfold mul32
  exact Nat.mod_eq_of_lt
    (lt_of_le_of_lt (Nat.div_le_self _ _) (Nat.mod_lt _ (by norm_num)))

theorem wrappedEstimate_large (m c r : Nat) (hlt : m < c) (hr : r ≠ 0)
    (h : 60 * c + r ≤ 4294967296) :
    (60 * ((m + 4294967296 - c) % 4294967296)) % 4294967296 / r ≠ 0 ∧
    60 * m / r < (60 * ((m + 4294967296 - c) % 4294967296)) % 4294967296 / r := by
  have h1 : (m + 4294967296 - c) % 4294967296 = m + 4294967296 - c := by omega
  have h2 : (60 * (m + 4294967296 - c)) % 4294967296 = 4294967296 - 60 * (c - m) := by
    omega
  rw [h1, h2]
  have h3 : 60 * m + r ≤ 4294967296 - 60 * (c - m) := by omega
  have hpos : 0 < r := Nat.pos_of_ne_zero hr
  have h4 : 60 * m / r + 1 ≤ (4294967296 - 60 * (c - m)) / r := by
    calc 60 * m / r + 1 = (60 * m + r) / r := by
          rw [Nat.add_div_right _ hpos]
      _ ≤ (4294967296 - 60 * (c - m)) / r := Nat.div_le_div_right h3
  generalize (4294967296 - 60 * (c - m)) / r = q at h4 ⊢
  generalize 60 * m / r = q0 at h4 ⊢
  omega

/-- C30 fails as stated: a charging decode with rate 1, maximum capacity 1000 and a
current capacity of 1073742824, which exceeds the maximum by 2^30.  The wrapped
difference is `3 * 2^30`, its product with 60 is a multiple of 2^32, and the three
time-to-full estimates are 0. -/
theorem C30_counterexample :
    ∃ b, setBatteryBST (bstPackage 2 1 1073742824 12000) (ampsBattery 2 0) = some b ∧
      GetValueFromArray (bstPackage 2 1 1073742824 12000) BST_STATUS
        &&& BATTERY_DISCHARGING = 0 ∧
      GetValueFromArray (bstPackage 2 1 1073742824 12000) BST_STATUS &&& BATTERY_CHARGING ≠ 0 ∧
      b.fMaxCapacity = 1000 ∧ b.fCurrentCapacity = 1073742824 ∧
      b.fCurrentRate = 1 ∧ b.fAverageRate = 1 ∧
      published b Key.timeRemainingKey = some (OSValue.number 0) ∧
      published b Key.AvgTimeToFullSym = some (OSValue.number 0) ∧
      published b Key.InstantTimeToFullSym = some (OSValue.number 0) := by
  refine ⟨_, rfl, rfl, ?_, rfl, rfl, rfl, rfl, rfl, rfl, rfl⟩
  decide

/-- C30 (amended).  For every decode classified as Charging in which the current
capacity `c` exceeds the maximum capacity `m` (`c` a 32-bit value), with `a` the averaged
rate and `r` the current rate the decode leaves: the stored current capacity stays `c`
(by hypothesis above `m`: the branch does not clamp it), and the time-to-full estimates
are computed from the wrapped difference.  The time remaining and the average
time-to-full are `((60 * ((m - c) mod 2^32)) mod 2^32) / a` when `a` is not 0, the
instantaneous time-to-full is `((60 * ((m - c) mod 2^32)) mod 2^32) / r` when `r` is not
0, where `(m - c) mod 2^32` is `m + 2^32 - c`.  Whenever `60 * c + a` (resp. `60 * c + r`)
does not exceed 2^32, the estimate is not 0 and is above `60 * m / a` (resp.
`60 * m / r`). -/
theorem C30_wrapped_time_to_full (acpibat_bst : List OSObject) (self : AppleSmartBattery)
    (hdef : self.fPowerUnit = WATTS → GetValueFromArray acpibat_bst BST_VOLTAGE ≠ 0)
    (hd : GetValueFromArray acpibat_bst BST_STATUS &&& BATTERY_DISCHARGING = 0)
    (hc : GetValueFromArray acpibat_bst BST_STATUS &&& BATTERY_CHARGING ≠ 0) :
    ∃ b, setBatteryBST acpibat_bst self = some b ∧
      (b.fMaxCapacity < b.fCurrentCapacity → b.fCurrentCapacity < 4294967296 →
        (b.fAverageRate ≠ 0 →
          published b Key.timeRemainingKey =
            some (OSValue.number
              ((60 * ((b.fMaxCapacity + 4294967296 - b.fCurrentCapacity) % 4294967296))
                % 4294967296 / b.fAverageRate)) ∧
          published b Key.AvgTimeToFullSym =
            some (OSValue.number
              ((60 * ((b.fMaxCapacity + 4294967296 - b.fCurrentCapacity) % 4294967296))
                % 4294967296 / b.fAverageRate)) ∧
          (60 * b.fCurrentCapacity + b.fAverageRate ≤ 4294967296 →
            (60 * ((b.fMaxCapacity + 4294967296 - b.fCurrentCapacity) % 4294967296))
                % 4294967296 / b.fAverageRate ≠ 0 ∧
            60 * b.fMaxCapacity / b.fAverageRate <
              (60 * ((b.fMaxCapacity + 4294967296 - b.fCurrentCapacity) % 4294967296))
                % 4294967296 / b.fAverageRate)) ∧
        (b.fCurrentRate ≠ 0 →
          published b Key.InstantTimeToFullSym =
            some (OSValue.number
              ((60 * ((b.fMaxCapacity + 4294967296 - b.fCurrentCapacity) % 4294967296))
                % 4294967296 / b.fCurrentRate)) ∧
          (60 * b.fCurrentCapacity + b.fCurrentRate ≤ 4294967296 →
            (60 * ((b.fMaxCapacity + 4294967296 - b.fCurrentCapacity) % 4294967296))
                % 4294967296 / b.fCurrentRate ≠ 0 ∧
            60 * b.fMaxCapacity / b.fCurrentRate <
              (60 * ((b.fMaxCapacity + 4294967296 - b.fCurrentCapacity) % 4294967296))
                % 4294967296 / b.fCurrentRate))) := by
  obtain ⟨n, -, hb, -⟩ := setBatteryBST_some acpibat_bst self hdef
  obtain ⟨-, -, -, -, -, -, h7, h8, h9, -, -⟩ :=
    setBatteryBST_charging acpibat_bst self _ hb hd hc
  refine ⟨_, hb, ?_⟩
  intro hlt hcap
  constructor
  · intro ha
    rw [wrappedEstimate_arith _ _ _ hlt hcap ha] at h7 h8
    exact ⟨h7, h8, fun h => wrappedEstimate_large _ _ _ hlt ha h⟩
  · intro hr
    rw [wrappedEstimate_arith _ _ _ hlt hcap hr] at h9
    exact ⟨h9, fun h => wrappedEstimate_large _ _ _ hlt hr h⟩

/-- The amended C30 at a concrete input: a charging decode with rate 600, running
average 600, maximum capacity 1000 and current capacity 1200.  The stored capacity stays
1200; the wrapped difference is `2^32 - 200`, and the three time-to-full estimates are
`(2^32 - 12000) / 600 = 7158258`, not 0 and above `60 * 1000 / 600 = 100`. -/
theorem C30_wrapped_time_to_full_witness :
    ∃ b, setBatteryBST (bstPackage 2 600 1200 12000) (ampsBattery 2 600) = some b ∧
      b.fMaxCapacity = 1000 ∧ b.fCurrentCapacity = 1200 ∧
      b.fAverageRate = 600 ∧ b.fCurrentRate = 600 ∧
      published b Key.timeRemainingKey = some (OSValue.number 7158258) ∧
      published b Key.AvgTimeToFullSym = some (OSValue.number 7158258) ∧
      published b Key.InstantTimeToFullSym = some (OSValue.number 7158258) ∧
      7158258 ≠ 0 ∧ 60 * 1000 / 600 < 7158258 := by
  obtain ⟨b, hb, hgen⟩ :=
    C30_wrapped_time_to_full (bstPackage 2 600 1200 12000) (ampsBattery 2 600)
      (by decide) (by decide) (by decide)
  have hv : (setBatteryBST (bstPackage 2 600 1200 12000) (ampsBattery 2 600)).map
      (fun b => (b.fCurrentCapacity, b.fMaxCapacity, b.fAverageRate, b.fCurrentRate)) =
      some (1200, 1000, 600, 600) := rfl
  rw [hb] at hv
  simp only [Option.map_some', Option.some.injEq, Prod.mk.injEq] at hv
  obtain ⟨hcap, hmax, havg, hrate⟩ := hv
  rw [hcap, hmax, havg, hrate] at hgen
  obtain ⟨hav, hin⟩ := hgen (by norm_num) (by norm_num)
  obtain ⟨t1, t2, t3⟩ := hav (by norm_num)
  obtain ⟨t4, -⟩ := hin (by norm_num)
  have hnum : (60 * ((1000 + 4294967296 - 1200) % 4294967296)) % 4294967296 / 600
      = 7158258 := by norm_num
  rw [hnum] at t1 t2 t3 t4
  exact ⟨b, hb, hmax, hcap, havg, hrate, t1, t2, t4, (t3 (by norm_num)).1,
    (t3 (by norm_num)).2⟩

/-- The external-power member the classification leaves: false for a discharging status
word alone, true for every other one. -/
theorem bstClassify_acConnected (s : Nat) (x : AppleSmartBattery) :
    (bstClassify s x).fACConnected =
      !decide (s &&& BATTERY_DISCHARGING ≠ 0 ∧ s &&& BATTERY_CHARGING = 0) := by
  by_cases hd : s &&& BATTERY_DISCHARGING = 0 <;> by_cases hc : s &&& BATTERY_CHARGING = 0
  · rw [bstClassify_charged s x hd hc]; simp [hd]; rfl
  · rw [bstClassify_charging s x hd hc]; simp [hd]; rfl
  · rw [bstClassify_discharging s x hd hc]; simp [hd, hc]; rfl
  · rw [bstClassify_both s x hd hc]; simp [hc]; rfl

/-- C27 fails as stated: a battery whose last full capacity is the unknown-value word
`0xFFFFFFFF` (charge unit), decoded from its static package, then a status word with
neither bit set (Charged).  The capacity is forced to the maximum, `100 * 0xFFFFFFFF`
wraps to 4294967196, the quotient by the maximum capacity is 0, below 5, and external
power is connected: the quick-poll interval is selected and "Quick Poll" is published
true from the Charged classification. -/
theorem C27_counterexample :
    ∃ s b, setBatteryBIF (bifPackage 1 5200 4294967295 10800) zeroedBattery = some s ∧
      setBatteryBST (bstPackage 0 0 5000 12000) s = some b ∧
      s.fPollingOverridden = false ∧ s.fMaxCapacity = 4294967295 ∧
      GetValueFromArray (bstPackage 0 0 5000 12000) BST_STATUS &&& BATTERY_DISCHARGING = 0 ∧
      GetValueFromArray (bstPackage 0 0 5000 12000) BST_STATUS &&& BATTERY_CHARGING = 0 ∧
      b.fPollingInterval = kQuickPollInterval ∧
      b.registry Key.QuickPollSym = some (OSValue.boolean true) :=
  ⟨_, _, rfl, rfl, rfl, rfl, rfl, rfl, rfl, rfl⟩

/-- C27 (amended).  For every decode with no polling override and a non-zero maximum
capacity `m`.  When the classification is Discharging (discharging bit set, charging bit
clear), external power is set to disconnected before the quick-poll test, the default
interval is selected and "Quick Poll" is published false, whatever the remaining
capacity.  The quick-poll interval is selected only when the charging bit is set
(Charging, or the anomalous classification with both bits), or from the Charged
classification when `100 * m` does not fit 32 bits. -/
theorem C27_quick_poll_sources (acpibat_bst : List OSObject) (self : AppleSmartBattery)
    (hdef : self.fPowerUnit = WATTS → GetValueFromArray acpibat_bst BST_VOLTAGE ≠ 0)
    (hov : self.fPollingOverridden = false) (hm : self.fMaxCapacity ≠ 0) :
    ∃ b, setBatteryBST acpibat_bst self = some b ∧
      (GetValueFromArray acpibat_bst BST_STATUS &&& BATTERY_DISCHARGING ≠ 0 →
        GetValueFromArray acpibat_bst BST_STATUS &&& BATTERY_CHARGING = 0 →
        b.fACConnected = false ∧
        externalConnected b = false ∧
        b.fPollingInterval = kDefaultPollInterval ∧
        b.fPollingInterval ≠ kQuickPollInterval ∧
        (self.properties Key.QuickPollSym = none →
          b.registry Key.QuickPollSym = some (OSValue.boolean false))) ∧
      (b.fPollingInterval = kQuickPollInterval →
        GetValueFromArray acpibat_bst BST_STATUS &&& BATTERY_CHARGING ≠ 0 ∨
        (GetValueFromArray acpibat_bst BST_STATUS &&& BATTERY_DISCHARGING = 0 ∧
          GetValueFromArray acpibat_bst BST_STATUS &&& BATTERY_CHARGING = 0 ∧
          4294967296 ≤ 100 * self.fMaxCapacity)) := by
  obtain ⟨n, -, hb, hprops, -, -, hmax, hovn, -⟩ := setBatteryBST_some acpibat_bst self hdef
  refine ⟨_, hb, ?_⟩
  generalize GetValueFromArray acpibat_bst BST_STATUS = s
  have hxmax : (bstStatusChange s (bstAverageRate (bstRateFallback n))).fMaxCapacity
      = self.fMaxCapacity := by simp [hmax]
  have hxov : (bstStatusChange s (bstAverageRate (bstRateFallback n))).fPollingOverridden
      = false := by simp [hovn, hov]
  have hxq : self.properties Key.QuickPollSym = none →
      (bstStatusChange s (bstAverageRate (bstRateFallback n))).properties Key.QuickPollSym
        = none := by
    intro hnone
    simp only [bstStatusChange_frame, bstAverageRate_frame, bstRateFallback_frame, hprops]
    rw [bstFetch_properties _ _ _ (by decide) (by decide), hnone]
  generalize bstStatusChange s (bstAverageRate (bstRateFallback n)) = x at hxmax hxov hxq ⊢
  have hcm : (bstClassify s x).fMaxCapacity = self.fMaxCapacity := by simp [hxmax]
  have hco : (bstClassify s x).fPollingOverridden = false := by simp [hxov]
  obtain ⟨hi, hr⟩ := bstQuickPoll_decides (bstClassify s x) hco (by rw [hcm]; exact hm)
  rw [bstClassify_acConnected, hcm] at hi hr
  simp only [bstFinish_frame, bstCellVoltages_frame, bstQuickPoll_frame]
  constructor
  · intro hd hc
    have hdis : decide (s &&& BATTERY_DISCHARGING ≠ 0 ∧ s &&& BATTERY_CHARGING = 0) = true :=
      decide_eq_true ⟨hd, hc⟩
    rw [hdis] at hi hr
    have hi2 : (bstQuickPoll (bstClassify s x)).fPollingInterval = kDefaultPollInterval := by
      rw [hi]; simp
    refine ⟨by rw [bstClassify_acConnected, hdis]; rfl, ?_, hi2, ?_, ?_⟩
    · unfold externalConnected
      have hp := setBatteryBST_published s x Key.externalConnectedKey (by decide) (by decide)
      unfold published at hp
      rw [hp, bstClassify_discharging s x hd hc]
      rfl
    · rw [hi2]; decide
    · intro hnone
      rw [bstFinish_registry _ _ (by decide) (by decide),
        bstCellVoltages_registry _ _ (by decide) (by decide), hr]
      · simp
      · rw [(bstCellVoltages_frame _).1, (bstQuickPoll_frame _).1,
          (bstClassify_properties_registryKeys _ _).2.1]
        exact hxq hnone
  · intro hq
    rw [hi] at hq
    by_cases hc : s &&& BATTERY_CHARGING = 0
    · right
      by_cases hd : s &&& BATTERY_DISCHARGING = 0
      · refine ⟨hd, hc, ?_⟩
        by_contra hlt
        have hlt2 : 100 * self.fMaxCapacity < 4294967296 := by omega
        have hcap : (bstClassify s x).fCurrentCapacity = self.fMaxCapacity := by
          rw [bstClassify_capacity, if_pos ⟨hd, hc⟩, hxmax]
        have hmul : mul32 100 self.fMaxCapacity = 100 * self.fMaxCapacity := by
          unfold mul32; exact Nat.mod_eq_of_lt hlt2
        have hdiv : 100 * self.fMaxCapacity / self.fMaxCapacity = 100 :=
          Nat.mul_div_cancel _ (Nat.pos_of_ne_zero hm)
        rw [hcap, hmul, hdiv] at hq
        simp at hq
        exact absurd hq (by decide)
      · exfalso
        have hdis : decide (s &&& BATTERY_DISCHARGING ≠ 0 ∧ s &&& BATTERY_CHARGING = 0)
            = true := decide_eq_true ⟨hd, hc⟩
        rw [hdis] at hq
        simp at hq
        exact absurd hq (by decide)
    · exact Or.inl hc

/-- The amended C27 at a concrete input: a discharging decode with no polling override,
maximum capacity 1000 and a remaining capacity of 10 (1 percent).  External power is
disconnected, the default interval is selected and "Quick Poll" is published false. -/
theorem C27_quick_poll_sources_witness :
    ∃ b, setBatteryBST (bstPackage 1 600 10 12000) (ampsBattery 1 600) = some b ∧
      b.fCurrentCapacity = 10 ∧ b.fMaxCapacity = 1000 ∧
      b.fACConnected = false ∧ externalConnected b = false ∧
      b.fPollingInterval = kDefaultPollInterval ∧
      b.registry Key.QuickPollSym = some (OSValue.boolean false) := by
  obtain ⟨b, hb, hdis, -⟩ :=
    C27_quick_poll_sources (bstPackage 1 600 10 12000) (ampsBattery 1 600)
      (by decide) rfl (by decide)
  obtain ⟨h1, h2, h3, -, h5⟩ := hdis (by decide) (by decide)
  have hv : (setBatteryBST (bstPackage 1 600 10 12000) (ampsBattery 1 600)).map
      (fun b => (b.fCurrentCapacity, b.fMaxCapacity)) = some (10, 1000) := rfl
  rw [hb] at hv
  simp only [Option.map_some', Option.some.injEq, Prod.mk.injEq] at hv
  exact ⟨b, hb, hv.1, hv.2, h1, h2, h3, h5 rfl⟩

/-- The inversion of a defined legacy static decode, with the four texts it fetched. -/
theorem setBatteryBIF_texts (p : List OSObject) (b b' : AppleSmartBattery)
    (h : setBatteryBIF p b = some b') :
    ∃ s1 s2 s3 s4 d m,
      GetSymbolFromArray p BIF_MODEL_NUMBER = some s1 ∧
      GetSymbolFromArray p BIF_SERIAL_NUMBER = some s2 ∧
      GetSymbolFromArray p BIF_BATTERY_TYPE = some s3 ∧
      GetSymbolFromArray p BIF_OEM = some s4 ∧
      b' = bifPublish (reportZeroCapacity
        { bifFetch p s1 s2 s3 s4 b with fDesignCapacity := d, fMaxCapacity := m }) := by
  unfold setBatteryBIF at h
  split at h
  · rename_i s1 s2 s3 s4 h1 h2 h3 h4
    cases hsw : staticWattsToAmps (bifFetch p s1 s2 s3 s4 b) with
    | none => rw [hsw] at h; exact absurd h (fun e => Option.noConfusion e)
    | some n =>
      rw [hsw] at h
      obtain ⟨d, m, rfl⟩ := staticWattsToAmps_eq_some _ _ hsw
      exact ⟨s1, s2, s3, s4, d, m, h1, h2, h3, h4, (Option.some.inj h).symm⟩
  · exact absurd h (fun e => Option.noConfusion e)

/-- The inversion of a defined extended static decode, with the four texts it fetched. -/
theorem setBatteryBIX_texts (p : List OSObject) (b b' : AppleSmartBattery)
    (h : setBatteryBIX p b = some b') :
    ∃ s1 s2 s3 s4 d m,
      GetSymbolFromArray p BIX_MODEL_NUMBER = some s1 ∧
      GetSymbolFromArray p BIX_SERIAL_NUMBER = some s2 ∧
      GetSymbolFromArray p BIX_BATTERY_TYPE = some s3 ∧
      GetSymbolFromArray p BIX_OEM = some s4 ∧
      b' = bixPublish (reportZeroCapacity
        { bixFetch p s1 s2 s3 s4 b with fDesignCapacity := d, fMaxCapacity := m }) := by
  unfold setBatteryBIX at h
  split at h
  · rename_i s1 s2 s3 s4 h1 h2 h3 h4
    cases hsw : staticWattsToAmps (bixFetch p s1 s2 s3 s4 b) with
    | none => rw [hsw] at h; exact absurd h (fun e => Option.noConfusion e)
    | some n =>
      rw [hsw] at h
      obtain ⟨d, m, rfl⟩ := staticWattsToAmps_eq_some _ _ hsw
      exact ⟨s1, s2, s3, s4, d, m, h1, h2, h3, h4, (Option.some.inj h).symm⟩
  · exact absurd h (fun e => Option.noConfusion e)

/-- What the legacy static decoder records and publishes once the capacities `d` and `m`
are normalized. -/
theorem bifStatic_outputs (p : List OSObject) (s1 s2 s3 s4 : String)
    (self : AppleSmartBattery) (d m : Nat) (b : AppleSmartBattery)
    (hb : b = bifPublish (reportZeroCapacity
      { bifFetch p s1 s2 s3 s4 self with fDesignCapacity := d, fMaxCapacity := m })) :
    b.fDesignCapacity = d ∧ b.fMaxCapacity = m ∧
    b.trace = self.trace ++
      (if d = 0 ∨ m = 0 then [Event.ioLogError kErrorZeroCapacity 0] else []) ∧
    b.registry Key.LatestErrorType =
      (if d = 0 ∨ m = 0 then some (OSValue.symbol kErrorZeroCapacity)
        else self.registry Key.LatestErrorType) ∧
    published b Key.DesignCapacitySym = some (OSValue.number (d % 4294967296)) ∧
    published b Key.maxCapacityKey = some (OSValue.number (m % 4294967296)) ∧
    published b Key.DeviceNameSym = some (OSValue.symbol s1) ∧
    published b Key.HardwareSerialSym = some (OSValue.symbol s2) ∧
    published b Key.TypeSym = some (OSValue.symbol s3) ∧
    published b Key.manufacturerKey = some (OSValue.symbol s4) ∧
    published b Key.cycleCountKey = some (OSValue.number 0) ∧
    published b Key.MaxErrSym = some (OSValue.number 0) ∧
    published b Key.ManufactureDateSym = some (OSValue.number 0) ∧
    published b Key.ManufacturerDataSym = some (OSValue.objectBytes 0) ∧
    published b Key.PFStatusSym = some (OSValue.number 0) := by
  subst hb
  by_cases hz : d = 0 ∨ m = 0
  · have hy : reportZeroCapacity
        { bifFetch p s1 s2 s3 s4 self with fDesignCapacity := d, fMaxCapacity := m } =
        logReadError kErrorZeroCapacity 0
          { bifFetch p s1 s2 s3 s4 self with fDesignCapacity := d, fMaxCapacity := m } :=
      if_pos hz
    rw [hy, if_pos hz, if_pos hz]
    exact ⟨rfl, rfl, rfl, rfl, rfl, rfl, rfl, rfl, rfl, rfl, rfl, rfl, rfl, rfl, rfl⟩
  · have hy : reportZeroCapacity
        { bifFetch p s1 s2 s3 s4 self with fDesignCapacity := d, fMaxCapacity := m } =
        { bifFetch p s1 s2 s3 s4 self with fDesignCapacity := d, fMaxCapacity := m } :=
      if_neg hz
    rw [hy, if_neg hz, if_neg hz, List.append_nil]
    exact ⟨rfl, rfl, rfl, rfl, rfl, rfl, rfl, rfl, rfl, rfl, rfl, rfl, rfl, rfl, rfl⟩

/-- What the extended static decoder records and publishes once the capacities `d` and
`m` are normalized. -/
theorem bixStatic_outputs (p : List OSObject) (s1 s2 s3 s4 : String)
    (self : AppleSmartBattery) (d m : Nat) (b : AppleSmartBattery)
    (hb : b = bixPublish (reportZeroCapacity
      { bixFetch p s1 s2 s3 s4 self with fDesignCapacity := d, fMaxCapacity := m })) :
    b.fDesignCapacity = d ∧ b.fMaxCapacity = m ∧
    b.trace = self.trace ++
      (if d = 0 ∨ m = 0 then [Event.ioLogError kErrorZeroCapacity 0] else []) ∧
    b.registry Key.LatestErrorType =
      (if d = 0 ∨ m = 0 then some (OSValue.symbol kErrorZeroCapacity)
        else self.registry Key.LatestErrorType) ∧
    published b Key.DesignCapacitySym = some (OSValue.number (d % 4294967296)) ∧
    published b Key.maxCapacityKey = some (OSValue.number (m % 4294967296)) ∧
    published b Key.DeviceNameSym = some (OSValue.symbol s1) ∧
    published b Key.HardwareSerialSym = some (OSValue.symbol s2) ∧
    published b Key.TypeSym = some (OSValue.symbol s3) ∧
    published b Key.manufacturerKey = some (OSValue.symbol s4) ∧
    published b Key.cycleCountKey =
      some (OSValue.number (GetValueFromArray p BIX_CYCLE_COUNT % 4294967296)) ∧
    published b Key.MaxErrSym =
      some (OSValue.number (GetValueFromArray p BIX_ACCURACY % 4294967296)) ∧
    published b Key.ManufactureDateSym = some (OSValue.number 0) ∧
    published b Key.ManufacturerDataSym = some (OSValue.objectBytes 0) ∧
    published b Key.PFStatusSym = some (OSValue.number 0) := by
  subst hb
  by_cases hz : d = 0 ∨ m = 0
  · have hy : reportZeroCapacity
        { bixFetch p s1 s2 s3 s4 self with fDesignCapacity := d, fMaxCapacity := m } =
        logReadError kErrorZeroCapacity 0
          { bixFetch p s1 s2 s3 s4 self with fDesignCapacity := d, fMaxCapacity := m } :=
      if_pos hz
    rw [hy, if_pos hz, if_pos hz]
    exact ⟨rfl, rfl, rfl, rfl, rfl, rfl, rfl, rfl, rfl, rfl, rfl, rfl, rfl, rfl, rfl⟩
  · have hy : reportZeroCapacity
        { bixFetch p s1 s2 s3 s4 self with fDesignCapacity := d, fMaxCapacity := m } =
        { bixFetch p s1 s2 s3 s4 self with fDesignCapacity := d, fMaxCapacity := m } :=
      if_neg hz
    rw [hy, if_neg hz, if_neg hz, List.append_nil]
    exact ⟨rfl, rfl, rfl, rfl, rfl, rfl, rfl, rfl, rfl, rfl, rfl, rfl, rfl, rfl, rfl⟩

theorem normalizedCapacity_lt (unit raw dv : Nat) (h : raw < 4294967296) :
    (if unit = WATTS then raw / dv else raw) < 4294967296 := by
  split_ifs
  · exact lt_of_le_of_lt (Nat.div_le_self _ _) h
  · exact h

/-- C23.  For every static-information package that follows its layout (the four text
fields are there and readable) and does not divide by a zero design voltage, the legacy
decoder and the extended decoder each return `kIOReturnSuccess`, and with `d` the design
capacity and `m` the maximum capacity after the unit normalization (the members the
decode leaves): the decode logs "Capacity Read Zero" and records it as the latest error
if `d = 0` or `m = 0`, and logs nothing and leaves the latest error as it was otherwise.
With the energy unit this is the case whenever a raw capacity is below the design
voltage.  In both cases every static field is published: the two capacities, the device
name, the serial number, the battery type, the manufacturer, the cycle count, the
maximum error, the manufacture date, the manufacturer data and the permanent-failure
status. -/
theorem C23_zero_capacity_error (acpibat_bif acpibat_bix : List OSObject)
    (self : AppleSmartBattery)
    (hbif : bifTextsReadable acpibat_bif = true) (hbix : bixTextsReadable acpibat_bix = true)
    (hdvf : GetValueFromArray acpibat_bif BIF_POWER_UNIT = WATTS →
      GetValueFromArray acpibat_bif BIF_DESIGN_VOLTAGE ≠ 0)
    (hdvx : GetValueFromArray acpibat_bix BIX_POWER_UNIT = WATTS →
      GetValueFromArray acpibat_bix BIX_DESIGN_VOLTAGE ≠ 0) :
    (∃ b, setBatteryBIF acpibat_bif self = some b ∧
      setBatteryBIFReturn acpibat_bif self = some kIOReturnSuccess ∧
      b.trace = self.trace ++
        (if b.fDesignCapacity = 0 ∨ b.fMaxCapacity = 0
          then [Event.ioLogError "Capacity Read Zero" 0] else []) ∧
      b.registry Key.LatestErrorType =
        (if b.fDesignCapacity = 0 ∨ b.fMaxCapacity = 0
          then some (OSValue.symbol "Capacity Read Zero")
          else self.registry Key.LatestErrorType) ∧
      (GetValueFromArray acpibat_bif BIF_POWER_UNIT = WATTS →
        (GetValueFromArray acpibat_bif BIF_DESIGN_CAPACITY
            < GetValueFromArray acpibat_bif BIF_DESIGN_VOLTAGE ∨
          GetValueFromArray acpibat_bif BIF_LAST_FULL_CAPACITY
            < GetValueFromArray acpibat_bif BIF_DESIGN_VOLTAGE) →
        b.fDesignCapacity = 0 ∨ b.fMaxCapacity = 0) ∧
      published b Key.DesignCapacitySym = some (OSValue.number b.fDesignCapacity) ∧
      published b Key.maxCapacityKey = some (OSValue.number b.fMaxCapacity) ∧
      published b Key.DeviceNameSym =
        (GetSymbolFromArray acpibat_bif BIF_MODEL_NUMBER).map OSValue.symbol ∧
      published b Key.HardwareSerialSym =
        (GetSymbolFromArray acpibat_bif BIF_SERIAL_NUMBER).map OSValue.symbol ∧
      published b Key.TypeSym =
        (GetSymbolFromArray acpibat_bif BIF_BATTERY_TYPE).map OSValue.symbol ∧
      published b Key.manufacturerKey =
        (GetSymbolFromArray acpibat_bif BIF_OEM).map OSValue.symbol ∧
      published b Key.cycleCountKey = some (OSValue.number 0) ∧
      published b Key.MaxErrSym = some (OSValue.number 0) ∧
      published b Key.ManufactureDateSym = some (OSValue.number 0) ∧
      published b Key.ManufacturerDataSym = some (OSValue.objectBytes 0) ∧
      published b Key.PFStatusSym = some (OSValue.number 0)) ∧
    (∃ b, setBatteryBIX acpibat_bix self = some b ∧
      setBatteryBIXReturn acpibat_bix self = some kIOReturnSuccess ∧
      b.trace = self.trace ++
        (if b.fDesignCapacity = 0 ∨ b.fMaxCapacity = 0
          then [Event.ioLogError "Capacity Read Zero" 0] else []) ∧
      b.registry Key.LatestErrorType =
        (if b.fDesignCapacity = 0 ∨ b.fMaxCapacity = 0
          then some (OSValue.symbol "Capacity Read Zero")
          else self.registry Key.LatestErrorType) ∧
      (GetValueFromArray acpibat_bix BIX_POWER_UNIT = WATTS →
        (GetValueFromArray acpibat_bix BIX_DESIGN_CAPACITY
            < GetValueFromArray acpibat_bix BIX_DESIGN_VOLTAGE ∨
          GetValueFromArray acpibat_bix BIX_LAST_FULL_CAPACITY
            < GetValueFromArray acpibat_bix BIX_DESIGN_VOLTAGE) →
        b.fDesignCapacity = 0 ∨ b.fMaxCapacity = 0) ∧
      published b Key.DesignCapacitySym = some (OSValue.number b.fDesignCapacity) ∧
      published b Key.maxCapacityKey = some (OSValue.number b.fMaxCapacity) ∧
      published b Key.DeviceNameSym =
        (GetSymbolFromArray acpibat_bix BIX_MODEL_NUMBER).map OSValue.symbol ∧
      published b Key.HardwareSerialSym =
        (GetSymbolFromArray acpibat_bix BIX_SERIAL_NUMBER).map OSValue.symbol ∧
      published b Key.TypeSym =
        (GetSymbolFromArray acpibat_bix BIX_BATTERY_TYPE).map OSValue.symbol ∧
      published b Key.manufacturerKey =
        (GetSymbolFromArray acpibat_bix BIX_OEM).map OSValue.symbol ∧
      published b Key.cycleCountKey =
        some (OSValue.number (GetValueFromArray acpibat_bix BIX_CYCLE_COUNT)) ∧
      published b Key.MaxErrSym =
        some (OSValue.number (GetValueFromArray acpibat_bix BIX_ACCURACY)) ∧
      published b Key.ManufactureDateSym = some (OSValue.number 0) ∧
      published b Key.ManufacturerDataSym = some (OSValue.objectBytes 0) ∧
      published b Key.PFStatusSym = some (OSValue.number 0)) := by
  constructor
  · obtain ⟨b, hb, -, -, hd, hm, -, -⟩ := setBatteryBIF_defined acpibat_bif self hbif hdvf
    obtain ⟨s1, s2, s3, s4, d, m, t1, t2, t3, t4, hshape⟩ :=
      setBatteryBIF_texts acpibat_bif self b hb
    obtain ⟨o1, o2, o3, o4, o5, o6, o7, o8, o9, o10, o11, o12, o13, o14, o15⟩ :=
      bifStatic_outputs acpibat_bif s1 s2 s3 s4 self d m b hshape
    subst o1; subst o2
    have hdlt : b.fDesignCapacity < 4294967296 := by
      rw [hd]; exact normalizedCapacity_lt _ _ _ (GetValueFromArray_lt _ _)
    have hmlt : b.fMaxCapacity < 4294967296 := by
      rw [hm]; exact normalizedCapacity_lt _ _ _ (GetValueFromArray_lt _ _)
    rw [Nat.mod_eq_of_lt hdlt] at o5
    rw [Nat.mod_eq_of_lt hmlt] at o6
    refine ⟨b, hb, ?_, o3, o4, ?_, o5, o6, ?_, ?_, ?_, ?_, o11, o12, o13, o14, o15⟩
    · unfold setBatteryBIFReturn; rw [hb]; rfl
    · intro hw hlt
      rw [hd, hm, if_pos hw, if_pos hw]
      rcases hlt with h | h
      · exact Or.inl (Nat.div_eq_of_lt h)
      · exact Or.inr (Nat.div_eq_of_lt h)
    · rw [o7, t1]; rfl
    · rw [o8, t2]; rfl
    · rw [o9, t3]; rfl
    · rw [o10, t4]; rfl
  · obtain ⟨b, hb, -, -, hd, hm, -, -⟩ := setBatteryBIX_defined acpibat_bix self hbix hdvx
    obtain ⟨s1, s2, s3, s4, d, m, t1, t2, t3, t4, hshape⟩ :=
      setBatteryBIX_texts acpibat_bix self b hb
    obtain ⟨o1, o2, o3, o4, o5, o6, o7, o8, o9, o10, o11, o12, o13, o14, o15⟩ :=
      bixStatic_outputs acpibat_bix s1 s2 s3 s4 self d m b hshape
    subst o1; subst o2
    have hdlt : b.fDesignCapacity < 4294967296 := by
      rw [hd]; exact normalizedCapacity_lt _ _ _ (GetValueFromArray_lt _ _)
    have hmlt : b.fMaxCapacity < 4294967296 := by
      rw [hm]; exact normalizedCapacity_lt _ _ _ (GetValueFromArray_lt _ _)
    rw [Nat.mod_eq_of_lt hdlt] at o5
    rw [Nat.mod_eq_of_lt hmlt] at o6
    rw [Nat.mod_eq_of_lt (GetValueFromArray_lt _ _)] at o11 o12
    refine ⟨b, hb, ?_, o3, o4, ?_, o5, o6, ?_, ?_, ?_, ?_, o11, o12, o13, o14, o15⟩
    · unfold setBatteryBIXReturn; rw [hb]; rfl
    · intro hw hlt
      rw [hd, hm, if_pos hw, if_pos hw]
      rcases hlt with h | h
      · exact Or.inl (Nat.div_eq_of_lt h)
      · exact Or.inr (Nat.div_eq_of_lt h)
    · rw [o7, t1]; rfl
    · rw [o8, t2]; rfl
    · rw [o9, t3]; rfl
    · rw [o10, t4]; rfl

/-- C23 at concrete packages.  A legacy package in the energy unit with design voltage
10000, raw design capacity 50000 and raw last full capacity 9000: the maximum capacity
normalizes to 0, the label is logged and recorded, and the static fields are published.
An extended package in the charge unit with capacities 4400 and 4000: nothing is logged
and the latest error stays unset. -/
theorem C23_zero_capacity_error_witness :
    (∃ b, setBatteryBIF (bifPackage 0 50000 9000 10000) zeroedBattery = some b ∧
      setBatteryBIFReturn (bifPackage 0 50000 9000 10000) zeroedBattery
        = some kIOReturnSuccess ∧
      b.fDesignCapacity = 5 ∧ b.fMaxCapacity = 0 ∧
      b.trace = [Event.ioLogError "Capacity Read Zero" 0] ∧
      b.registry Key.LatestErrorType = some (OSValue.symbol "Capacity Read Zero") ∧
      published b Key.DesignCapacitySym = some (OSValue.number 5) ∧
      published b Key.maxCapacityKey = some (OSValue.number 0) ∧
      published b Key.DeviceNameSym = some (OSValue.symbol "PA5109U") ∧
      published b Key.PFStatusSym = some (OSValue.number 0)) ∧
    (∃ b, setBatteryBIX (bixPackage 1 4400 4000 10800) zeroedBattery = some b ∧
      setBatteryBIXReturn (bixPackage 1 4400 4000 10800) zeroedBattery
        = some kIOReturnSuccess ∧
      b.fDesignCapacity = 4400 ∧ b.fMaxCapacity = 4000 ∧
      b.trace = [] ∧ b.registry Key.LatestErrorType = none ∧
      published b Key.DesignCapacitySym = some (OSValue.number 4400) ∧
      published b Key.maxCapacityKey = some (OSValue.number 4000) ∧
      published b Key.cycleCountKey = some (OSValue.number 17)) := by
  obtain ⟨⟨b1, hb1, r1, tr1, reg1, -, p1, p2, p3, -, -, -, -, -, -, -, p11⟩,
      ⟨b2, hb2, r2, tr2, reg2, -, q1, q2, -, -, -, -, q7, -⟩⟩ :=
    C23_zero_capacity_error (bifPackage 0 50000 9000 10000) (bixPackage 1 4400 4000 10800)
      zeroedBattery (by decide) (by decide) (by decide) (by decide)
  have hv1 : (setBatteryBIF (bifPackage 0 50000 9000 10000) zeroedBattery).map
      (fun b => (b.fDesignCapacity, b.fMaxCapacity)) = some (5, 0) := rfl
  rw [hb1] at hv1
  simp only [Option.map_some', Option.some.injEq, Prod.mk.injEq] at hv1
  have hv2 : (setBatteryBIX (bixPackage 1 4400 4000 10800) zeroedBattery).map
      (fun b => (b.fDesignCapacity, b.fMaxCapacity)) = some (4400, 4000) := rfl
  rw [hb2] at hv2
  simp only [Option.map_some', Option.some.injEq, Prod.mk.injEq] at hv2
  rw [hv1.1, hv1.2] at tr1 reg1
  rw [hv1.1] at p1
  rw [hv1.2] at p2
  rw [hv2.1, hv2.2] at tr2 reg2
  rw [hv2.1] at q1
  rw [hv2.2] at q2
  exact ⟨⟨b1, hb1, r1, hv1.1, hv1.2, tr1, reg1, p1, p2, p3, p11⟩,
    ⟨b2, hb2, r2, hv2.1, hv2.2, tr2, reg2, q1, q2, q7⟩⟩

theorem bstConversionDivisors_zero (b : AppleSmartBattery) :
    0 ∈ bstConversionDivisors b ↔ (b.fPowerUnit = WATTS ∧ b.fCurrentVoltage = 0) := by
  unfold bstConversionDivisors
  by_cases hp : b.fPowerUnit = WATTS
  · rw [if_pos hp]
    constructor
    · intro h
      refine ⟨hp, ?_⟩
      split_ifs at h <;> simp at h <;> exact h.symm
    · rintro ⟨-, hv⟩
      rw [hv]
      simp
  · rw [if_neg hp]
    simp [hp]

theorem bstEstimateDivisors_nonzero (s : Nat) (x : AppleSmartBattery) :
    0 ∉ bstEstimateDivisors s x := by
  unfold bstEstimateDivisors
  intro h
  split_ifs at h <;> simp at h <;> omega

theorem bstQuickPollDivisors_nonzero (x : AppleSmartBattery) :
    0 ∉ bstQuickPollDivisors x := by
  unfold bstQuickPollDivisors
  intro h
  split_ifs at h with hc
  · simp at h
    exact hc.2 h.symm
  · simp at h

/-- A division by zero is reached in the dynamic decoder exactly with the energy unit and
a zero present voltage, and exactly then the decoder has no defined result. -/
theorem setBatteryBSTDivisors_zero (p : List OSObject) (self : AppleSmartBattery) :
    (0 ∈ setBatteryBSTDivisors p self ↔
      (self.fPowerUnit = WATTS ∧ GetValueFromArray p BST_VOLTAGE = 0)) ∧
    (setBatteryBST p self = none ↔ 0 ∈ setBatteryBSTDivisors p self) := by
  have hconv := bstConversionDivisors_zero (bstRateSign (bstFetch p self))
  simp only [bstRateSign_frame, bstFetch_frame] at hconv
  by_cases hz : self.fPowerUnit = WATTS ∧ GetValueFromArray p BST_VOLTAGE = 0
  · have hin : 0 ∈ setBatteryBSTDivisors p self := by
      unfold setBatteryBSTDivisors
      exact List.mem_append_left _ (hconv.mpr hz)
    exact ⟨⟨fun _ => hz, fun _ => hin⟩,
      ⟨fun _ => hin, fun _ => setBatteryBST_none p self hz.1 hz.2⟩⟩
  · have hdef : self.fPowerUnit = WATTS → GetValueFromArray p BST_VOLTAGE ≠ 0 :=
      fun hp hv => hz ⟨hp, hv⟩
    obtain ⟨n, hn, hb, -⟩ := setBatteryBST_some p self hdef
    have hnot : 0 ∉ setBatteryBSTDivisors p self := by
      unfold setBatteryBSTDivisors
      simp only [hn]
      intro h
      rcases List.mem_append.mp h with h | h
      · exact hz (hconv.mp h)
      · rcases List.mem_append.mp h with h | h
        · exact bstEstimateDivisors_nonzero _ _ h
        · exact bstQuickPollDivisors_nonzero _ h
    refine ⟨⟨fun h => absurd h hnot, fun h => absurd h hz⟩, ⟨fun h => ?_, fun h => absurd h hnot⟩⟩
    rw [hb] at h
    exact absurd h (fun e => Option.noConfusion e)

theorem staticWattsToAmps_isSome (b : AppleSmartBattery) :
    staticWattsToAmps b = none ↔ (b.fPowerUnit = WATTS ∧ b.fDesignVoltage = 0) := by
  constructor
  · intro h
    by_contra hz
    have hdef : b.fPowerUnit = WATTS → b.fDesignVoltage ≠ 0 := fun hp hv => hz ⟨hp, hv⟩
    rw [staticWattsToAmps_some b hdef] at h
    exact absurd h (fun e => Option.noConfusion e)
  · rintro ⟨hp, hv⟩
    exact staticWattsToAmps_none b hp hv

theorem setBatteryBIF_none (p : List OSObject) (self : AppleSmartBattery)
    (hp : GetValueFromArray p BIF_POWER_UNIT = WATTS)
    (hv : GetValueFromArray p BIF_DESIGN_VOLTAGE = 0) :
    setBatteryBIF p self = none := by
  unfold setBatteryBIF
  split
  · rw [staticWattsToAmps_none _ hp hv]
  · rfl

theorem setBatteryBIX_none (p : List OSObject) (self : AppleSmartBattery)
    (hp : GetValueFromArray p BIX_POWER_UNIT = WATTS)
    (hv : GetValueFromArray p BIX_DESIGN_VOLTAGE = 0) :
    setBatteryBIX p self = none := by
  unfold setBatteryBIX
  split
  · rw [staticWattsToAmps_none _ hp hv]
  · rfl

theorem setBatteryBIFDivisors_zero (p : List OSObject) :
    0 ∈ setBatteryBIFDivisors p ↔
      (GetValueFromArray p BIF_POWER_UNIT = WATTS ∧
        GetValueFromArray p BIF_DESIGN_VOLTAGE = 0) := by
  unfold setBatteryBIFDivisors
  by_cases hp : GetValueFromArray p BIF_POWER_UNIT = WATTS
  · rw [if_pos hp]
    simp [hp, eq_comm]
  · rw [if_neg hp]
    simp [hp]

theorem setBatteryBIXDivisors_zero (p : List OSObject) :
    0 ∈ setBatteryBIXDivisors p ↔
      (GetValueFromArray p BIX_POWER_UNIT = WATTS ∧
        GetValueFromArray p BIX_DESIGN_VOLTAGE = 0) := by
  unfold setBatteryBIXDivisors
  by_cases hp : GetValueFromArray p BIX_POWER_UNIT = WATTS
  · rw [if_pos hp]
    simp [hp, eq_comm]
  · rw [if_neg hp]
    simp [hp]

theorem GetValueFromArray_not_number (array : List OSObject) (index : Nat)
    (h : ∀ value, array.get? index ≠ some (OSObject.number value)) :
    GetValueFromArray array index = 0 := by
  unfold GetValueFromArray
  split
  · rename_i value heq
    exact absurd heq (h value)
  · rfl

/-- C26.  The divisions the three decoders execute, by their divisors.  Under the
precondition (with the energy power unit, a non-zero design voltage for the static
decoders and a non-zero present voltage for the dynamic decoder) no executed division
has a zero divisor and the decode has a result (for the static decoders, on a package
whose text fields are readable).  The divisors of the time estimates and of the
quick-poll test are never zero, whatever the state: they are guarded by the non-zero
tests.  Without the precondition, with the energy unit and a zero voltage, a division by
zero is executed and the decode has no defined result.  The power unit read from a
missing or non-number entry is 0, the energy unit. -/
theorem C26_no_division_by_zero (acpibat_bif acpibat_bix acpibat_bst : List OSObject)
    (self : AppleSmartBattery) :
    ((GetValueFromArray acpibat_bif BIF_POWER_UNIT = WATTS →
        GetValueFromArray acpibat_bif BIF_DESIGN_VOLTAGE ≠ 0) →
      0 ∉ setBatteryBIFDivisors acpibat_bif ∧
      (bifTextsReadable acpibat_bif = true → ∃ b, setBatteryBIF acpibat_bif self = some b)) ∧
    ((GetValueFromArray acpibat_bix BIX_POWER_UNIT = WATTS →
        GetValueFromArray acpibat_bix BIX_DESIGN_VOLTAGE ≠ 0) →
      0 ∉ setBatteryBIXDivisors acpibat_bix ∧
      (bixTextsReadable acpibat_bix = true → ∃ b, setBatteryBIX acpibat_bix self = some b)) ∧
    ((self.fPowerUnit = WATTS → GetValueFromArray acpibat_bst BST_VOLTAGE ≠ 0) →
      0 ∉ setBatteryBSTDivisors acpibat_bst self ∧
      ∃ b, setBatteryBST acpibat_bst self = some b) ∧
    (∀ (s : Nat) (x : AppleSmartBattery),
      0 ∉ bstEstimateDivisors s x ∧ 0 ∉ bstQuickPollDivisors x) ∧
    (GetValueFromArray acpibat_bif BIF_POWER_UNIT = WATTS →
      GetValueFromArray acpibat_bif BIF_DESIGN_VOLTAGE = 0 →
      0 ∈ setBatteryBIFDivisors acpibat_bif ∧ setBatteryBIF acpibat_bif self = none) ∧
    (GetValueFromArray acpibat_bix BIX_POWER_UNIT = WATTS →
      GetValueFromArray acpibat_bix BIX_DESIGN_VOLTAGE = 0 →
      0 ∈ setBatteryBIXDivisors acpibat_bix ∧ setBatteryBIX acpibat_bix self = none) ∧
    (self.fPowerUnit = WATTS → GetValueFromArray acpibat_bst BST_VOLTAGE = 0 →
      0 ∈ setBatteryBSTDivisors acpibat_bst self ∧ setBatteryBST acpibat_bst self = none) ∧
    ((∀ value, acpibat_bif.get? BIF_POWER_UNIT ≠ some (OSObject.number value)) →
      GetValueFromArray acpibat_bif BIF_POWER_UNIT = WATTS) ∧
    ((∀ value, acpibat_bix.get? BIX_POWER_UNIT ≠ some (OSObject.number value)) →
      GetValueFromArray acpibat_bix BIX_POWER_UNIT = WATTS) := by
  obtain ⟨hz, hn⟩ := setBatteryBSTDivisors_zero acpibat_bst self
  refine ⟨?_, ?_, ?_, ?_, ?_, ?_, ?_, ?_, ?_⟩
  · intro hdef
    refine ⟨fun h => ?_, fun htext => ?_⟩
    · obtain ⟨hp, hv⟩ := (setBatteryBIFDivisors_zero _).mp h
      exact hdef hp hv
    · obtain ⟨b, hb, -⟩ := setBatteryBIF_defined acpibat_bif self htext hdef
      exact ⟨b, hb⟩
  · intro hdef
    refine ⟨fun h => ?_, fun htext => ?_⟩
    · obtain ⟨hp, hv⟩ := (setBatteryBIXDivisors_zero _).mp h
      exact hdef hp hv
    · obtain ⟨b, hb, -⟩ := setBatteryBIX_defined acpibat_bix self htext hdef
      exact ⟨b, hb⟩
  · intro hdef
    refine ⟨fun h => ?_, ?_⟩
    · obtain ⟨hp, hv⟩ := hz.mp h
      exact hdef hp hv
    · obtain ⟨n, -, hb, -⟩ := setBatteryBST_some acpibat_bst self hdef
      exact ⟨_, hb⟩
  · exact fun s x => ⟨bstEstimateDivisors_nonzero s x, bstQuickPollDivisors_nonzero x⟩
  · exact fun hp hv =>
      ⟨(setBatteryBIFDivisors_zero _).mpr ⟨hp, hv⟩, setBatteryBIF_none _ _ hp hv⟩
  · exact fun hp hv =>
      ⟨(setBatteryBIXDivisors_zero _).mpr ⟨hp, hv⟩, setBatteryBIX_none _ _ hp hv⟩
  · exact fun hp hv => ⟨hz.mpr ⟨hp, hv⟩, setBatteryBST_none _ _ hp hv⟩
  · exact GetValueFromArray_not_number _ _
  · exact GetValueFromArray_not_number _ _

/-- C26 at concrete inputs.  With the energy unit, design voltage 10000 and present
voltage 12000, the three decoders divide by non-zero values only and have a result.  A
legacy package whose power-unit entry is a text decodes to the energy unit and, with its
design voltage of 0, has no defined result; the dynamic decoder has none either with the
energy unit and a present voltage of 0. -/
theorem C26_no_division_by_zero_witness :
    (0 ∉ setBatteryBIFDivisors (bifPackage 0 50000 40000 10000) ∧
      ∃ b, setBatteryBIF (bifPackage 0 50000 40000 10000) wattsBattery = some b) ∧
    (0 ∉ setBatteryBIXDivisors (bixPackage 0 50000 40000 10000) ∧
      ∃ b, setBatteryBIX (bixPackage 0 50000 40000 10000) wattsBattery = some b) ∧
    (0 ∉ setBatteryBSTDivisors (bstPackage 1 24000 60000 12000) wattsBattery ∧
      ∃ b, setBatteryBST (bstPackage 1 24000 60000 12000) wattsBattery = some b) ∧
    (GetValueFromArray textUnitPackage BIF_POWER_UNIT = WATTS ∧
      0 ∈ setBatteryBIFDivisors textUnitPackage ∧
      setBatteryBIF textUnitPackage wattsBattery = none) ∧
    (0 ∈ setBatteryBSTDivisors (bstPackage 1 24000 60000 0) wattsBattery ∧
      setBatteryBST (bstPackage 1 24000 60000 0) wattsBattery = none) := by
  obtain ⟨h1, h2, h3, -, -, -, -, -, -⟩ :=
    C26_no_division_by_zero (bifPackage 0 50000 40000 10000) (bixPackage 0 50000 40000 10000)
      (bstPackage 1 24000 60000 12000) wattsBattery
  obtain ⟨-, -, -, -, g1, -, -, g4, -⟩ :=
    C26_no_division_by_zero textUnitPackage (bixPackage 0 50000 40000 10000)
      (bstPackage 1 24000 60000 12000) wattsBattery
  obtain ⟨-, -, -, -, -, -, g3, -, -⟩ :=
    C26_no_division_by_zero (bifPackage 0 50000 40000 10000) (bixPackage 0 50000 40000 10000)
      (bstPackage 1 24000 60000 0) wattsBattery
  have hunit : GetValueFromArray textUnitPackage BIF_POWER_UNIT = WATTS :=
    g4 (fun value h => by
      have h2 : some (OSObject.string "mW") = some (OSObject.number value) := h
      cases h2)
  exact ⟨⟨(h1 (by decide)).1, (h1 (by decide)).2 (by decide)⟩,
    ⟨(h2 (by decide)).1, (h2 (by decide)).2 (by decide)⟩,
    h3 (by decide), ⟨hunit, g1 hunit (by decide)⟩, g3 rfl (by decide)⟩

theorem updateStatus_inFlight (x : AppleSmartBattery) :
    (updateStatus x).fPollingNow = x.fPollingNow ∧
    (updateStatus x).fBatteryReadAllTimer = x.fBatteryReadAllTimer ∧
    (updateStatus x).fPowerServiceToAck = x.fPowerServiceToAck := by
  unfold updateStatus
  split_ifs <;> exact ⟨rfl, rfl, rfl⟩

theorem clearBatteryState_inFlight (do_update : Bool) (b : AppleSmartBattery) :
    (clearBatteryState do_update b).fPollingNow = b.fPollingNow ∧
    (clearBatteryState do_update b).fBatteryReadAllTimer = b.fBatteryReadAllTimer := by
  cases do_update
  · exact ⟨rfl, rfl⟩
  · have h : ∃ x, clearBatteryState true b = updateStatus x ∧
        x.fPollingNow = b.fPollingNow ∧
        x.fBatteryReadAllTimer = b.fBatteryReadAllTimer := ⟨_, rfl, rfl, rfl⟩
    obtain ⟨x, hx, h1, h2⟩ := h
    rw [hx]
    obtain ⟨u1, u2, -⟩ := updateStatus_inFlight x
    exact ⟨u1.trans h1, u2.trans h2⟩

theorem cancelPollingSession_idle (b : AppleSmartBattery) (h : b.fPollingNow = false) :
    cancelPollingSession b = b := by
  unfold cancelPollingSession
  rw [if_neg (by rw [h]; decide)]

theorem dropPendingService_none (b : AppleSmartBattery) (h : b.fPowerServiceToAck = none) :
    dropPendingService b = b := by
  unfold dropPendingService
  rw [h]

/-- The removal handler on a state with no poll in flight: nothing is cancelled, no poll
is in flight afterwards and no acknowledgment is pending. -/
theorem handleBatteryRemoved_idle (b : AppleSmartBattery) (h : b.fPollingNow = false) :
    (handleBatteryRemoved b).fPollingNow = false ∧
    (handleBatteryRemoved b).fPowerServiceToAck = none := by
  unfold handleBatteryRemoved
  rw [cancelPollingSession_idle b h]
  refine ⟨?_, (acknowledgeSystemSleepWake_resolves _).1⟩
  have h1 : ∀ x : AppleSmartBattery,
      (acknowledgeSystemSleepWake x).fPollingNow = x.fPollingNow := by
    intro x
    unfold acknowledgeSystemSleepWake
    split <;> rfl
  rw [h1, (clearBatteryState_inFlight true b).1, h]

/-- Whether a cycle can be decoded depends on six members only. -/
theorem cycleDecodable_congr (fw : Firmware) (x y : AppleSmartBattery)
    (h1 : y.fPollingOverridden = x.fPollingOverridden)
    (h2 : y.fPollingInterval = x.fPollingInterval)
    (h3 : y.fUseBatteryExtendedInformation = x.fUseBatteryExtendedInformation)
    (h4 : y.fUseBatteryExtraInformation = x.fUseBatteryExtraInformation)
    (h5 : y.fPowerUnit = x.fPowerUnit)
    (h6 : y.fBatteryPresent = x.fBatteryPresent) :
    cycleDecodable fw y = cycleDecodable fw x := by
  unfold cycleDecodable presentAfterProbe powerUnitAfterStatic
  rw [h1, h2, h3, h4, h5, h6]

/-- The state the wake branch polls from decodes the same answers as the state the
handler was entered with. -/
theorem retainPendingService_cycle (fw : Firmware) (service : Nat) (sleeping : Bool)
    (self : AppleSmartBattery) :
    cycleDecodable fw
      (retainPendingService service { dropPendingService self with fSystemSleeping := sleeping })
      = cycleDecodable fw self := by
  have hf : (dropPendingService self).fPollingOverridden = self.fPollingOverridden ∧
      (dropPendingService self).fPollingInterval = self.fPollingInterval ∧
      (dropPendingService self).fUseBatteryExtendedInformation =
        self.fUseBatteryExtendedInformation ∧
      (dropPendingService self).fUseBatteryExtraInformation =
        self.fUseBatteryExtraInformation ∧
      (dropPendingService self).fPowerUnit = self.fPowerUnit ∧
      (dropPendingService self).fBatteryPresent = self.fBatteryPresent := by
    unfold dropPendingService
    split <;> exact ⟨rfl, rfl, rfl, rfl, rfl, rfl⟩
  obtain ⟨f1, f2, f3, f4, f5, f6⟩ := hf
  exact cycleDecodable_congr fw self _ f1 f2 f3 f4 f5 f6

/-- A power transition delivered with no poll in flight: the handler returns the
immediate acknowledgment, leaves no poll in flight, and leaves no pending acknowledgment
unless it did nothing at all (a null service or no change of direction). -/
theorem handleSystemSleepWake_idle (fw : Firmware) (powerService : Option Nat)
    (isSystemSleep : Bool) (self : AppleSmartBattery) (out : Nat × AppleSmartBattery)
    (hidle : self.fPollingNow = false)
    (h : handleSystemSleepWake fw powerService isSystemSleep self = some out) :
    out.1 = kIOPMAckImplied ∧ out.2.fPollingNow = false ∧
    (self.fPowerServiceToAck = none → out.2.fPowerServiceToAck = none) := by
  obtain ⟨hd1, hd2, -⟩ := dropPendingService_frame self
  unfold handleSystemSleepWake at h
  cases powerService with
  | none =>
    rw [← Option.some.inj h]
    exact ⟨rfl, hidle, fun hn => hn⟩
  | some service =>
    simp only [] at h
    split_ifs at h with h1 h2 h3
    · rw [← Option.some.inj h]
      exact ⟨rfl, hidle, fun hn => hn⟩
    · exfalso
      have h4 : (dropPendingService self).fPollingNow = true := h3
      rw [hd2, hidle] at h4
      exact absurd h4 (by decide)
    · rw [← Option.some.inj h]
      exact ⟨rfl, hd2.trans hidle, fun _ => hd1⟩
    · obtain ⟨polled, hp, hout⟩ := Option.map_eq_some'.mp h
      obtain ⟨-, hnow, -⟩ := pollBatteryState_step fw _ _ polled hp
      rw [← hout, if_neg (by rw [hnow]; decide)]
      obtain ⟨g1, g2, -⟩ := dropPendingService_frame polled
      exact ⟨rfl, g2.trans hnow, fun _ => g1⟩

/-- A power transition returns: always towards sleep, and towards wake when the answers
its poll reads can be decoded. -/
theorem handleSystemSleepWake_defined (fw : Firmware) (powerService : Option Nat)
    (isSystemSleep : Bool) (self : AppleSmartBattery)
    (h : isSystemSleep = true ∨ cycleDecodable fw self = true) :
    ∃ out, handleSystemSleepWake fw powerService isSystemSleep self = some out := by
  unfold handleSystemSleepWake
  cases powerService with
  | none => exact ⟨_, rfl⟩
  | some service =>
    simp only []
    split_ifs with h1 h2 h3
    · exact ⟨_, rfl⟩
    · exact ⟨_, rfl⟩
    · exact ⟨_, rfl⟩
    · have hwake : isSystemSleep = false := by
        have h4 : ¬ (isSystemSleep = true) := h2
        simpa using h4
      rcases h with h | h
      · rw [hwake] at h; exact absurd h (by decide)
      · have hc := retainPendingService_cycle fw service isSystemSleep self
        obtain ⟨b, hb⟩ := pollExistingBattery_defined fw _ (hc.trans h)
        rw [pollBatteryState_existing fw kExistingBatteryPath _ (by decide), hb]
        exact ⟨_, rfl⟩

/-- No handler run leaves a poll in flight or a pending acknowledgment when it started
with none. -/
theorem deliver_idle (fw : Firmware) (e : DriverEvent) (s s' : AppleSmartBattery)
    (hidle : s.fPollingNow = false) (hnone : s.fPowerServiceToAck = none)
    (h : deliver fw e s = some s') :
    s'.fPollingNow = false ∧ s'.fPowerServiceToAck = none := by
  unfold deliver at h
  cases e with
  | timerExpiry =>
    simp only [] at h
    unfold pollingTimeOut at h
    split_ifs at h
    · rw [← Option.some.inj h]; exact ⟨hidle, hnone⟩
    · exact ⟨(pollBatteryState_step fw _ s s' h).2.1,
        (pollBatteryState_ack fw _ s s' h).1.trans hnone⟩
    · exact ⟨(pollBatteryState_step fw _ s s' h).2.1,
        (pollBatteryState_ack fw _ s s' h).1.trans hnone⟩
  | watchdogExpiry =>
    simp only [] at h
    unfold incompleteReadTimeOut at h
    exact ⟨(pollBatteryState_step fw _ _ s' h).2.1,
      (pollBatteryState_ack fw _ _ s' h).1.trans hnone⟩
  | batteryInserted =>
    simp only [] at h
    unfold handleBatteryInserted at h
    exact ⟨(pollBatteryState_step fw _ s s' h).2.1,
      (pollBatteryState_ack fw _ s s' h).1.trans hnone⟩
  | batteryRemoved =>
    simp only [] at h
    rw [← Option.some.inj h]
    exact handleBatteryRemoved_idle s hidle
  | alarmPoll =>
    simp only [] at h
    exact ⟨(pollBatteryState_step fw _ s s' h).2.1,
      (pollBatteryState_ack fw _ s s' h).1.trans hnone⟩
  | sleepWake powerService isSystemSleep =>
    simp only [] at h
    obtain ⟨out, hout, hs⟩ := Option.map_eq_some'.mp h
    rw [← hs]
    obtain ⟨-, h2, h3⟩ := handleSystemSleepWake_idle fw powerService isSystemSleep s out hidle hout
    exact ⟨h2, h3 hnone⟩
  | pollingInterval milliSeconds =>
    simp only [] at h
    rw [← Option.some.inj h]
    unfold setPollingInterval
    split_ifs
    · exact ⟨hidle, hnone⟩
    · exact ⟨hidle, hnone⟩

theorem deliverAll_idle (events : List (Firmware × DriverEvent))
    (s s' : AppleSmartBattery)
    (hidle : s.fPollingNow = false) (hnone : s.fPowerServiceToAck = none)
    (h : deliverAll events s = some s') :
    s'.fPollingNow = false ∧ s'.fPowerServiceToAck = none := by
  induction events generalizing s with
  | nil =>
    unfold deliverAll at h
    rw [← Option.some.inj h]
    exact ⟨hidle, hnone⟩
  | cons first rest ih =>
    obtain ⟨fw, e⟩ := first
    unfold deliverAll at h
    obtain ⟨mid, hmid, hrest⟩ := Option.bind_eq_some.mp h
    obtain ⟨h1, h2⟩ := deliver_idle fw e s mid hidle hnone hmid
    exact ih mid h1 h2 hrest

theorem start_idle (cfg : Config) (fw : Firmware) (s0 : AppleSmartBattery)
    (h : start cfg fw = some s0) :
    s0.fPollingNow = false ∧ s0.fPowerServiceToAck = none := by
  unfold start at h
  simp only [] at h
  refine ⟨(pollBatteryState_step fw _ _ s0 h).2.1, ?_⟩
  rw [(pollBatteryState_ack fw _ _ s0 h).1, (clearBatteryState_ack false _).1]
  rfl

/-- C24.  In every state the driver reaches from `start` by handler runs (timer expiry,
watchdog expiry, battery inserted, battery removed, presence-change poll, sleep/wake
request, and also a new polling period), each run to completion, no poll is in flight
and no acknowledgment is pending.  Hence in every such state, for every service and both
directions, `handleSystemSleepWake` returns `kIOPMAckImplied`, never the deferred
duration, and leaves no pending reference and no poll in flight; it does return towards
sleep, and towards wake when the answers its poll reads can be decoded.  The no-op
branch of `pollingTimeOut` is not taken (the handler polls), and the cancellation branch
of `handleBatteryRemoved` is not taken (the session step is the identity). -/
theorem C24_idle_between_events (cfg : Config) (fw0 : Firmware)
    (events : List (Firmware × DriverEvent)) (s0 s : AppleSmartBattery)
    (hstart : start cfg fw0 = some s0) (hrun : deliverAll events s0 = some s) :
    s.fPollingNow = false ∧ s.fPowerServiceToAck = none ∧
    (∀ (fw : Firmware) (powerService : Option Nat) (isSystemSleep : Bool),
      (∀ out, handleSystemSleepWake fw powerService isSystemSleep s = some out →
        out.1 = kIOPMAckImplied ∧ out.1 ≠ mul32 kBatteryReadAllTimeout 1000 ∧
        out.2.fPowerServiceToAck = none ∧ out.2.fPollingNow = false) ∧
      (isSystemSleep = true ∨ cycleDecodable fw s = true →
        ∃ b, handleSystemSleepWake fw powerService isSystemSleep s =
            some (kIOPMAckImplied, b) ∧
          b.fPowerServiceToAck = none ∧ b.fPollingNow = false)) ∧
    (∀ fw : Firmware, pollingTimeOut fw s =
      (if s.fInitialPollCountdown > 0 then pollBatteryState fw kNewBatteryPath s
        else pollBatteryState fw kExistingBatteryPath s)) ∧
    cancelPollingSession s = s := by
  obtain ⟨hi0, hn0⟩ := start_idle cfg fw0 s0 hstart
  obtain ⟨hidle, hnone⟩ := deliverAll_idle events s0 s hi0 hn0 hrun
  refine ⟨hidle, hnone, ?_, ?_, cancelPollingSession_idle s hidle⟩
  · intro fw powerService isSystemSleep
    have hall : ∀ out, handleSystemSleepWake fw powerService isSystemSleep s = some out →
        out.1 = kIOPMAckImplied ∧ out.1 ≠ mul32 kBatteryReadAllTimeout 1000 ∧
        out.2.fPowerServiceToAck = none ∧ out.2.fPollingNow = false := by
      intro out hout
      obtain ⟨h1, h2, h3⟩ :=
        handleSystemSleepWake_idle fw powerService isSystemSleep s out hidle hout
      refine ⟨h1, ?_, h3 hnone, h2⟩
      rw [h1]
      decide
    refine ⟨hall, ?_⟩
    intro hdef
    obtain ⟨out, hout⟩ := handleSystemSleepWake_defined fw powerService isSystemSleep s hdef
    obtain ⟨h1, -, h3, h4⟩ := hall out hout
    refine ⟨out.2, ?_, h3, h4⟩
    rw [hout, ← h1]
  · intro fw
    unfold pollingTimeOut
    rw [if_neg (by rw [hidle]; decide)]

/-- C24 at a concrete run: after `start`, a timer expiry, a sleep request, a wake
request, a removal and a watchdog expiry, no poll is in flight and no acknowledgment is
pending; a further sleep request and a further wake request for service 7 both return
`kIOPMAckImplied`. -/
theorem C24_idle_between_events_witness :
    ∃ s0 s, start defaultConfig sampleFirmware = some s0 ∧
      deliverAll
        [(sampleFirmware, DriverEvent.timerExpiry),
          (sampleFirmware, DriverEvent.sleepWake (some 7) true),
          (sampleFirmware, DriverEvent.sleepWake (some 7) false),
          (sampleFirmware, DriverEvent.batteryRemoved),
          (sampleFirmware, DriverEvent.watchdogExpiry)] s0 = some s ∧
      s.fPollingNow = false ∧ s.fPowerServiceToAck = none ∧
      (∃ b, handleSystemSleepWake sampleFirmware (some 7) true s = some (kIOPMAckImplied, b) ∧
        b.fPowerServiceToAck = none ∧ b.fPollingNow = false) ∧
      (∃ b, handleSystemSleepWake sampleFirmware (some 7) false s = some (kIOPMAckImplied, b) ∧
        b.fPowerServiceToAck = none ∧ b.fPollingNow = false) ∧
      cancelPollingSession s = s := by
  have h : ∃ s0 s, start defaultConfig sampleFirmware = some s0 ∧
      deliverAll
        [(sampleFirmware, DriverEvent.timerExpiry),
          (sampleFirmware, DriverEvent.sleepWake (some 7) true),
          (sampleFirmware, DriverEvent.sleepWake (some 7) false),
          (sampleFirmware, DriverEvent.batteryRemoved),
          (sampleFirmware, DriverEvent.watchdogExpiry)] s0 = some s ∧
      cycleDecodable sampleFirmware s = true := ⟨_, _, rfl, rfl, rfl⟩
  obtain ⟨s0, s, hs, hr, hdec⟩ := h
  obtain ⟨h1, h2, h3, -, h5⟩ :=
    C24_idle_between_events defaultConfig sampleFirmware _ s0 s hs hr
  exact ⟨s0, s, hs, hr, h1, h2, (h3 sampleFirmware (some 7) true).2 (Or.inl rfl),
    (h3 sampleFirmware (some 7) false).2 (Or.inr hdec), h5⟩

/-- C25.  `start` sets the boot countdown to 5 and no handler run changes it: in every
state the driver reaches from `start` the countdown is 5.  Hence every expiry of the
periodic timer in such a state (none has a poll in flight) takes the new-battery path,
never the existing-battery branch of `pollingTimeOut`: when the answers the cycle reads
can be decoded the handler cancels the periodic timer, cancels the watchdog, arms the
watchdog with 10000 ms, runs the cycle from the presence read on, and ends by setting
the periodic timer, the countdown still 5. -/
theorem C25_countdown_invariant (cfg : Config) (fw0 : Firmware)
    (events : List (Firmware × DriverEvent)) (s0 s : AppleSmartBattery)
    (hstart : start cfg fw0 = some s0) (hrun : deliverAll events s0 = some s) :
    s0.fInitialPollCountdown = 5 ∧ s.fInitialPollCountdown = 5 ∧
    (∀ (fw : Firmware) (e : DriverEvent) (s' : AppleSmartBattery),
      deliver fw e s = some s' → s'.fInitialPollCountdown = 5) ∧
    s.fPollingNow = false ∧ s.fInitialPollCountdown > 0 ∧
    (∀ fw : Firmware, pollingTimeOut fw s = pollBatteryState fw kNewBatteryPath s) ∧
    (∀ fw : Firmware, cycleDecodable fw s = true →
      ∃ b ms body, pollingTimeOut fw s = some b ∧
        b.fPollTimer = some ms ∧
        b.trace = s.trace ++
          [Event.pollTimerCancel, Event.readAllTimerCancel, Event.readAllTimerSet 10000,
            Event.evaluateSTA] ++ body ++ [Event.pollTimerSet ms] ∧
        b.fInitialPollCountdown = 5) := by
  have hc0 : s0.fInitialPollCountdown = 5 := start_countdown cfg fw0 s0 hstart
  have hc : s.fInitialPollCountdown = 5 := by
    rw [deliverAll_countdown events s0 s hrun, hc0]
  obtain ⟨hi0, hn0⟩ := start_idle cfg fw0 s0 hstart
  obtain ⟨hidle, -⟩ := deliverAll_idle events s0 s hi0 hn0 hrun
  have hfresh : ∀ fw : Firmware,
      pollingTimeOut fw s = pollBatteryState fw kNewBatteryPath s := by
    intro fw
    unfold pollingTimeOut
    rw [if_neg (by rw [hidle]; decide), if_pos (by rw [hc]; decide)]
  refine ⟨hc0, hc, ?_, hidle, by rw [hc]; decide, hfresh, ?_⟩
  · intro fw e s' hd
    rw [deliver_countdown fw e s s' hd, hc]
  · intro fw hdec
    obtain ⟨hd, -, -⟩ := freshPathArm_cycle fw s
    obtain ⟨b, hb⟩ := pollExistingBattery_defined fw (freshPathArm s) (hd.trans hdec)
    obtain ⟨hk, -, ⟨ms, body, htimer, hbt, -, -⟩, -⟩ := pollExistingBattery_step fw _ b hb
    obtain ⟨⟨k1, -⟩, -, -, -, ht⟩ := freshPathArm_frame s
    refine ⟨b, ms, body, ?_, htimer, ?_, ?_⟩
    · rw [hfresh, pollBatteryState_fresh, hb]
    · rw [hbt, ht]
      simp only [List.append_assoc, List.singleton_append, List.cons_append, List.nil_append]
    · rw [hk.1, k1, hc]

/-- C25 at a concrete run: after `start` and six expiries of the periodic timer (more
than five), the countdown is 5 and the seventh expiry takes the new-battery path and
arms the watchdog with 10000 ms. -/
theorem C25_countdown_invariant_witness :
    ∃ s0 s, start defaultConfig sampleFirmware = some s0 ∧
      deliverAll
        [(sampleFirmware, DriverEvent.timerExpiry), (sampleFirmware, DriverEvent.timerExpiry),
          (sampleFirmware, DriverEvent.timerExpiry), (sampleFirmware, DriverEvent.timerExpiry),
          (sampleFirmware, DriverEvent.timerExpiry), (sampleFirmware, DriverEvent.timerExpiry)]
        s0 = some s ∧
      s.fInitialPollCountdown = 5 ∧
      pollingTimeOut sampleFirmware s = pollBatteryState sampleFirmware kNewBatteryPath s ∧
      ∃ b ms body, pollingTimeOut sampleFirmware s = some b ∧
        b.fPollTimer = some ms ∧
        b.trace = s.trace ++
          [Event.pollTimerCancel, Event.readAllTimerCancel, Event.readAllTimerSet 10000,
            Event.evaluateSTA] ++ body ++ [Event.pollTimerSet ms] ∧
        b.fInitialPollCountdown = 5 := by
  have h : ∃ s0 s, start defaultConfig sampleFirmware = some s0 ∧
      deliverAll
        [(sampleFirmware, DriverEvent.timerExpiry), (sampleFirmware, DriverEvent.timerExpiry),
          (sampleFirmware, DriverEvent.timerExpiry), (sampleFirmware, DriverEvent.timerExpiry),
          (sampleFirmware, DriverEvent.timerExpiry), (sampleFirmware, DriverEvent.timerExpiry)]
        s0 = some s ∧
      cycleDecodable sampleFirmware s = true := ⟨_, _, rfl, rfl, rfl⟩
  obtain ⟨s0, s, hs, hr, hdec⟩ := h
  obtain ⟨-, h2, -, -, -, h6, h7⟩ :=
    C25_countdown_invariant defaultConfig sampleFirmware _ s0 s hs hr
  exact ⟨s0, s, hs, hr, h2, h6 sampleFirmware, h7 sampleFirmware hdec⟩

theorem reportZeroCapacity_watchdog (y : AppleSmartBattery) :
    (reportZeroCapacity y).fBatteryReadAllTimer = y.fBatteryReadAllTimer := by
  unfold reportZeroCapacity
  split_ifs <;> rfl

theorem bifPublish_watchdog (y : AppleSmartBattery) :
    (bifPublish y).fBatteryReadAllTimer = y.fBatteryReadAllTimer := by
  unfold bifPublish setDeviceName setSerialNumber setBatteryType setManufacturer
  repeat' split
  all_goals rfl

theorem bixPublish_watchdog (y : AppleSmartBattery) :
    (bixPublish y).fBatteryReadAllTimer = y.fBatteryReadAllTimer := by
  unfold bixPublish setDeviceName setSerialNumber setBatteryType setManufacturer
  repeat' split
  all_goals rfl

theorem getBatteryBIF_watchdog (fw : Firmware) (x y : AppleSmartBattery)
    (h : getBatteryBIF fw x = some y) :
    y.fBatteryReadAllTimer = x.fBatteryReadAllTimer := by
  unfold getBatteryBIF at h
  cases hres : fw.resultBIF with
  | failure => rw [hres] at h; rw [← Option.some.inj h]; rfl
  | notArray => rw [hres] at h; exact absurd h (fun e => Option.noConfusion e)
  | package fields =>
    rw [hres] at h
    obtain ⟨s1, s2, s3, s4, n, hn, rfl⟩ := setBatteryBIF_eq_some fields _ y h
    obtain ⟨d, m, rfl⟩ := staticWattsToAmps_eq_some _ _ hn
    rw [bifPublish_watchdog, reportZeroCapacity_watchdog]
    rfl

theorem getBatteryBIX_watchdog (fw : Firmware) (x y : AppleSmartBattery)
    (h : getBatteryBIX fw x = some y) :
    y.fBatteryReadAllTimer = x.fBatteryReadAllTimer := by
  unfold getBatteryBIX at h
  cases hres : fw.resultBIX with
  | failure => rw [hres] at h; rw [← Option.some.inj h]; rfl
  | notArray => rw [hres] at h; exact absurd h (fun e => Option.noConfusion e)
  | package fields =>
    rw [hres] at h
    obtain ⟨s1, s2, s3, s4, n, hn, rfl⟩ := setBatteryBIX_eq_some fields _ y h
    obtain ⟨d, m, rfl⟩ := staticWattsToAmps_eq_some _ _ hn
    rw [bixPublish_watchdog, reportZeroCapacity_watchdog]
    rfl

theorem getBatteryBBIX_watchdog (fw : Firmware) (x y : AppleSmartBattery)
    (h : getBatteryBBIX fw x = some y) :
    y.fBatteryReadAllTimer = x.fBatteryReadAllTimer := by
  unfold getBatteryBBIX at h
  cases hres : fw.resultBBIX with
  | failure => rw [hres] at h; rw [← Option.some.inj h]; rfl
  | notArray => rw [hres] at h; exact absurd h (fun e => Option.noConfusion e)
  | package fields =>
    rw [hres] at h
    obtain ⟨len, rfl⟩ := setBatteryBBIX_eq_some fields _ y h
    rfl

theorem bstFinish_watchdog (x : AppleSmartBattery) :
    (bstFinish x).fBatteryReadAllTimer = none := by
  unfold bstFinish
  rw [(updateStatus_inFlight _).2.1]
  rfl

/-- The dynamic read cancels the watchdog when its decoder runs and leaves it as it was
when the evaluation fails. -/
theorem getBatteryBST_watchdog (fw : Firmware) (x y : AppleSmartBattery)
    (h : getBatteryBST fw x = some y) :
    y.fBatteryReadAllTimer =
      (match fw.resultBST with
        | EvalResult.package _ => none
        | _ => x.fBatteryReadAllTimer) := by
  unfold getBatteryBST at h
  cases hres : fw.resultBST with
  | failure => rw [hres] at h; rw [← Option.some.inj h]; rfl
  | notArray => rw [hres] at h; exact absurd h (fun e => Option.noConfusion e)
  | package fields =>
    rw [hres] at h
    obtain ⟨n, -, rfl⟩ := setBatteryBST_eq_some fields _ y h
    exact bstFinish_watchdog _

theorem pollReads_watchdog (fw : Firmware) (x y : AppleSmartBattery)
    (h : pollReads fw x = some y) :
    y.fBatteryReadAllTimer =
      (match fw.resultBST with
        | EvalResult.package _ => none
        | _ => x.fBatteryReadAllTimer) := by
  unfold pollReads at h
  obtain ⟨informed, h1, h⟩ := Option.bind_eq_some.mp h
  obtain ⟨extra, h2, h3⟩ := Option.bind_eq_some.mp h
  have e1 : informed.fBatteryReadAllTimer = x.fBatteryReadAllTimer := by
    split_ifs at h1
    · exact getBatteryBIX_watchdog fw x informed h1
    · exact getBatteryBIF_watchdog fw x informed h1
  have e2 : extra.fBatteryReadAllTimer = informed.fBatteryReadAllTimer := by
    split_ifs at h2
    · exact getBatteryBBIX_watchdog fw informed extra h2
    · rw [← Option.some.inj h2]
  rw [getBatteryBST_watchdog fw extra y h3, e2, e1]

theorem getBatterySTA_watchdog (fw : Firmware) (x : AppleSmartBattery) :
    (getBatterySTA fw x).fBatteryReadAllTimer = x.fBatteryReadAllTimer := by
  unfold getBatterySTA
  split
  · unfold setBatterySTA
    split_ifs <;> rfl
  · rfl

/-- The watchdog after one cycle of the existing-battery path: cancelled when the
dynamic decoder ran, as it was before the cycle otherwise. -/
theorem pollExistingBattery_watchdog (fw : Firmware) (self b : AppleSmartBattery)
    (h : pollExistingBattery fw self = some b) :
    b.fBatteryReadAllTimer =
      (if dynamicDecodeRuns fw self = true then none else self.fBatteryReadAllTimer) := by
  unfold pollExistingBattery at h
  simp only [] at h
  obtain ⟨r, hr, h⟩ := Option.bind_eq_some.mp h
  obtain ⟨-, -, -, p4, -⟩ := getBatterySTA_step fw { self with fPollingNow := true }
  have hp0 : (getBatterySTA fw { self with fPollingNow := true }).fBatteryPresent =
      presentAfterProbe fw self := p4
  have hw0 : (getBatterySTA fw { self with fPollingNow := true }).fBatteryReadAllTimer =
      self.fBatteryReadAllTimer := getBatterySTA_watchdog fw _
  generalize getBatterySTA fw { self with fPollingNow := true } = probed at hr hp0 hw0
  obtain ⟨ms, -, -, -, -, -, -, -, -, -, q⟩ := pollRearm_step r b h
  rw [q]
  unfold dynamicDecodeRuns
  by_cases hp : probed.fBatteryPresent = true
  · rw [if_pos hp] at hr
    rw [pollReads_watchdog fw probed r hr, hw0, ← hp0, hp]
    cases fw.resultBST <;> simp
  · rw [if_neg hp] at hr
    rw [← Option.some.inj hr, (clearBatteryState_inFlight true _).2, ← hp0]
    have hpf : probed.fBatteryPresent = false := by simpa using hp
    rw [hpf]
    simp only [Bool.false_and]
    exact hw0

theorem freshPathArm_dynamic (fw : Firmware) (self : AppleSmartBattery) :
    dynamicDecodeRuns fw (freshPathArm self) = dynamicDecodeRuns fw self ∧
    (freshPathArm self).fBatteryReadAllTimer = some kBatteryReadAllTimeout := by
  refine ⟨?_, rfl⟩
  unfold dynamicDecodeRuns presentAfterProbe
  rw [(freshPathArm_frame self).2.2.2.1]

/-- C29.  After a cycle of the new-battery path that runs to its end, the watchdog is
armed (with the 10000 ms it was given at the start of the path) exactly when the dynamic
decoder `setBatteryBST` did not run in the cycle, and cancelled exactly when it ran.  In
particular it is still armed when the presence read finds no battery and when the
evaluation of `_BST` fails, although the cycle is over (no poll is in flight and the
periodic timer is set).  When that watchdog expires, `incompleteReadTimeOut` logs and
records "Overall Read Timeout Expired" and runs another cycle of the existing-battery
path.  (The expiry is an event of the work loop; the theorem states what the handler
does on it.) -/
theorem C29_watchdog_left_armed (fw : Firmware) (self : AppleSmartBattery)
    (hdec : cycleDecodable fw self = true) :
    ∃ b, pollBatteryState fw kNewBatteryPath self = some b ∧
      (b.fBatteryReadAllTimer = some kBatteryReadAllTimeout ↔
        dynamicDecodeRuns fw self = false) ∧
      (b.fBatteryReadAllTimer = none ↔ dynamicDecodeRuns fw self = true) ∧
      (presentAfterProbe fw self = false → b.fBatteryReadAllTimer = some 10000) ∧
      (fw.resultBST = EvalResult.failure → b.fBatteryReadAllTimer = some 10000) ∧
      b.fPollingNow = false ∧ (∃ ms, b.fPollTimer = some ms) ∧
      (∀ next : Firmware, cycleDecodable next b = true →
        ∃ b2 ms body, incompleteReadTimeOut next b = some b2 ∧
          (logReadError kErrorOverallTimeoutExpired 0 b).registry Key.LatestErrorType =
            some (OSValue.symbol "Overall Read Timeout Expired") ∧
          b2.trace = b.trace ++
            Event.ioLogError "Overall Read Timeout Expired" 0 :: Event.evaluateSTA :: body ++
              [Event.pollTimerSet ms]) := by
  obtain ⟨hd, -, -⟩ := freshPathArm_cycle fw self
  obtain ⟨hdyn, harm⟩ := freshPathArm_dynamic fw self
  obtain ⟨b, hb⟩ := pollExistingBattery_defined fw (freshPathArm self) (hd.trans hdec)
  have hw := pollExistingBattery_watchdog fw _ b hb
  obtain ⟨-, hnow, ⟨ms, -, htimer, -⟩, -⟩ := pollExistingBattery_step fw _ b hb
  rw [hdyn, harm] at hw
  have hrun : pollBatteryState fw kNewBatteryPath self = some b := by
    rw [pollBatteryState_fresh]; exact hb
  have hnot : dynamicDecodeRuns fw self = false → b.fBatteryReadAllTimer = some 10000 := by
    intro hf
    rw [hw, hf]
    rfl
  refine ⟨b, hrun, ?_, ?_, ?_, ?_, hnow, ⟨ms, htimer⟩, ?_⟩
  · constructor
    · intro h
      by_contra hc
      have ht : dynamicDecodeRuns fw self = true := by simpa using hc
      rw [hw, if_pos ht] at h
      exact absurd h (fun e => Option.noConfusion e)
    · exact hnot
  · constructor
    · intro h
      by_contra hc
      have hf : dynamicDecodeRuns fw self = false := by simpa using hc
      rw [hnot hf] at h
      exact absurd h (fun e => Option.noConfusion e)
    · intro ht
      rw [hw, if_pos ht]
  · intro habs
    apply hnot
    unfold dynamicDecodeRuns
    rw [habs]
    rfl
  · intro hfail
    apply hnot
    unfold dynamicDecodeRuns
    rw [hfail]
    simp
  · intro next hnext
    obtain ⟨hd2, -, -, htrace⟩ := logReadError_cycle next kErrorOverallTimeoutExpired 0 b
    obtain ⟨b2, hb2⟩ := pollExistingBattery_defined next
      (logReadError kErrorOverallTimeoutExpired 0 b) (hd2.trans hnext)
    obtain ⟨-, -, ⟨ms2, body, -, hbt, -, -⟩, -⟩ := pollExistingBattery_step next _ b2 hb2
    refine ⟨b2, ms2, body, ?_, rfl, ?_⟩
    · unfold incompleteReadTimeOut
      rw [pollBatteryState_existing next kExistingBatteryPath _ (by decide)]
      exact hb2
    · rw [hbt, htrace]
      simp only [List.append_assoc, List.singleton_append, List.cons_append]
      rfl

/-- C29 at three concrete cycles from the state `start` would poll from.  With no
battery reported, and with a `_BST` evaluation that fails, the watchdog is left armed
with 10000 ms at the end of the cycle; with a `_BST` package decoded it is cancelled. -/
theorem C29_watchdog_left_armed_witness :
    (∃ b, pollBatteryState absentFirmware kNewBatteryPath (ampsBattery 1 600) = some b ∧
      b.fBatteryReadAllTimer = some 10000 ∧ b.fPollingNow = false) ∧
    (∃ b, pollBatteryState dynamicFailsFirmware kNewBatteryPath (ampsBattery 1 600) = some b ∧
      b.fBatteryReadAllTimer = some 10000 ∧ b.fPollingNow = false) ∧
    (∃ b, pollBatteryState sampleFirmware kNewBatteryPath (ampsBattery 1 600) = some b ∧
      b.fBatteryReadAllTimer = none ∧ b.fPollingNow = false) := by
  obtain ⟨b1, hb1, -, -, h1, -, n1, -⟩ :=
    C29_watchdog_left_armed absentFirmware (ampsBattery 1 600) rfl
  obtain ⟨b2, hb2, -, -, -, h2, n2, -⟩ :=
    C29_watchdog_left_armed dynamicFailsFirmware (ampsBattery 1 600) rfl
  obtain ⟨b3, hb3, -, h3, -, -, n3, -⟩ :=
    C29_watchdog_left_armed sampleFirmware (ampsBattery 1 600) rfl
  exact ⟨⟨b1, hb1, h1 rfl, n1⟩, ⟨b2, hb2, h2 rfl, n2⟩, ⟨b3, hb3, h3.mpr rfl, n3⟩⟩

end ACPIBattery
